import Mathlib

/-!
# The tree-walking interpreter of `compiler/passes/runInterpreter.cpp`

A shallow embedding of the data of the interpreter (`ISlot`, `IFrame`, `IThread`, the debugger
globals) and of its operations (`IFrame::islot`, `IFrame::icall`, `user_error`, `interactive`,
`IFrame::igoto`, `IFrame::run`, `IThread::run`), followed by the properties established about
them.

Conventions of the embedding:

* every heap object (AST node, slot, frame, thread) is addressed by a natural number and a
  pointer is an `Option Nat`, `none` being the null pointer;
* a `Vec<T>` is a `List T` in index order (`v[0]` first), `add` appends at the end;
* anything that stops the process (`INT_FATAL`, `USR_FATAL`, a failed `assert`, `exit`, a null
  dereference) is a `Fault`.
-/

namespace Interp

/-- A pointer: `none` is the null pointer, `some a` the object at address `a`. -/
abbrev Ptr := Option Nat

/-- The ways in which the process stops instead of returning. The macros `INT_FATAL` and
`USR_FATAL` (misc.h is not among the sources) are taken as ending the process. -/
inductive Fault
  /-- The call `INT_FATAL(...)` with the given message. -/
  | intFatal (msg : String)
  /-- The call `USR_FATAL(...)` with the given message. -/
  | usrFatal (msg : String)
  /-- The call `user_error` outside interactive mode: the message is printed and the process
  ends with `INT_FATAL("interpreter terminated")`. -/
  | userError (msg : String)
  /-- A failed `assert(cond)`. -/
  | assertFails (cond : String)
  /-- A null (or dangling) pointer is dereferenced. -/
  | nullDeref
  /-- The length of a `Vec` is moved outside the stored elements, or an index is. -/
  | vecBounds
  /-- A union member is read that is not the one the slot or immediate holds. -/
  | badUnion
  /-- The call `exit(0)`. -/
  | exit
  /-- The iteration bound of the model is used up (not a behaviour of the program). -/
  | outOfFuel
deriving DecidableEq, Repr

deriving instance DecidableEq for Except

/-! ## The AST, as far as the interpreter reads it -/

/-- Modelled from the spec: the enumeration of the `astType` tags (baseAST.h is not among the
sources), with the tags that runInterpreter.cpp and the node kinds of the spec name; `OTHER`
is any other tag. -/
inductive AstTag
  | STMT | STMT_EXPR | STMT_RETURN | STMT_BLOCK | STMT_WHILELOOP | STMT_FORLOOP | STMT_COND
  | STMT_WHEN | STMT_SELECT | STMT_LABEL | STMT_GOTO
  | EXPR | EXPR_SYM | EXPR_DEF | EXPR_COND | EXPR_CALL | EXPR_CAST | EXPR_MEMBERACCESS
  | EXPR_REDUCE | EXPR_NAMED | EXPR_IMPORT
  | SYMBOL | SYMBOL_UNRESOLVED | SYMBOL_MODULE | SYMBOL_VAR | SYMBOL_ARG | SYMBOL_TYPE
  | SYMBOL_FN | SYMBOL_ENUM | SYMBOL_LABEL
  | LIST
  | OTHER
deriving DecidableEq, Repr

/-- Modelled from the spec: the `opTag` of a `CallExpr` (expr.h is not among the sources), a
plain call or a move; `OP_OTHER` is any tag but `OP_NONE` and `OP_MOVE`. -/
inductive OpTag
  | OP_NONE | OP_MOVE | OP_OTHER
deriving DecidableEq, Repr

/-- Modelled from the spec: the class `Immediate` (ifa/num.h is not among the sources), the
literal value of a `VarSymbol`. Only the boolean member `v_bool` is read by the interpreter. -/
inductive Immediate
  | bool (v_bool : Bool)
  | int (v : Int)
  | string (v : String)
deriving DecidableEq, Repr

/-- Modelled from the spec: the AST classes (baseAST.h, stmt.h, expr.h, symbol.h and alist.h
are not among the sources). One AST node, with the members that runInterpreter.cpp reads
after casting `ip` (or a child) to the class its `astType` names. A member a class does not
have keeps its default. -/
structure BaseAST where
  astType : AstTag
  id : Nat := 0
  /-- The list link of an `AList` element. -/
  next : Ptr := none
  /-- The enclosing statement (`Stmt::parentStmt`, `Expr::parentStmt`). -/
  parentStmt : Ptr := none
  /-- The scope handed to `getVisibleFunctions`. -/
  parentScope : Ptr := none
  /-- The member `expr` of an `ExprStmt` or a `ReturnStmt`. -/
  expr : Ptr := none
  /-- The member `body`: the `BlockStmt` of a `FnSymbol`, the statement list (an `AList`) of
  a `BlockStmt`. -/
  body : Ptr := none
  /-- The first element `head->next` of an `AList` of statements. -/
  headNext : Ptr := none
  /-- The member `isWhileDo` of a `WhileLoopStmt`. -/
  isWhileDo : Bool := false
  /-- The member `block` of a `WhileLoopStmt`. -/
  block : Ptr := none
  /-- The member `condition` of a `WhileLoopStmt`. -/
  condition : Ptr := none
  /-- The member `indices` of a `ForLoopStmt` (a list of `DefExpr`), null when `none`. -/
  indices : Option (List Nat) := none
  /-- The member `iterators` of a `ForLoopStmt`, null when `none`. -/
  iterators : Option (List Nat) := none
  /-- The member `innerStmt` of a `ForLoopStmt`. -/
  innerStmt : Ptr := none
  /-- The member `condExpr` of a `CondStmt` or a `CondExpr`. -/
  condExpr : Ptr := none
  thenStmt : Ptr := none
  elseStmt : Ptr := none
  thenExpr : Ptr := none
  elseExpr : Ptr := none
  /-- The member `caseExpr` of a `SelectStmt`. -/
  caseExpr : Ptr := none
  /-- The member `whenStmts` of a `SelectStmt`, an `AList` of statements. -/
  whenStmts : Ptr := none
  /-- The member `label` of a `GotoStmt`. -/
  label : Ptr := none
  /-- The member `defPoint` of a `Symbol`. -/
  defPoint : Ptr := none
  /-- The member `var` of a `SymExpr`. -/
  var : Ptr := none
  /-- The member `sym` of a `DefExpr`. -/
  sym : Ptr := none
  /-- The member `name` of a `Symbol`. -/
  name : Option String := none
  /-- The member `immediate` of a `VarSymbol`. -/
  immediate : Option Immediate := none
  /-- The member `opTag` of a `CallExpr`. -/
  opTag : OpTag := OpTag.OP_NONE
  /-- Whether the member `primitive` of a `CallExpr` is non-null. -/
  primitive : Bool := false
  /-- The member `baseExpr` of a `CallExpr`. -/
  baseExpr : Ptr := none
  /-- The member `argList` of a `CallExpr`; `get(i)` counts from 1. -/
  argList : List Nat := []
  /-- Modelled from the spec: the number of arguments an overload accepts (the interpreter
  never reads the formals of a `FnSymbol`). -/
  numFormals : Nat := 0
deriving DecidableEq, Repr

/-- The program: the AST heap and what the interpreter takes from the rest of the compiler. -/
structure Prog where
  /-- The node at an address. -/
  node : Nat → BaseAST
  /-- The call `scope->getVisibleFunctions(&visible, name)`: the functions of that name
  visible from the scope, in the order they are added to `visible`. -/
  getVisibleFunctions : Nat → String → List Nat
  /-- The global `chpl_main`. -/
  chpl_main : Ptr := none
  /-- The pointer `mod->stmts->head->next` of every module of `allModules`. -/
  moduleStmts : List Ptr := []
  /-- What `collect_ast_children` gathers from all modules. -/
  allAst : List Nat := []

/-! ## Slots, frames, threads and the globals -/

inductive ISlotKind
  | EMPTY_ISLOT | UNINITIALIZED_ISLOT | SELECTOR_ISLOT | SYMBOL_ISLOT | CLOSURE_ISLOT
  | OBJECT_ISLOT | IMMEDIATE_ISLOT
deriving DecidableEq, Repr

/-- An `ISlot`: the kind together with the member of the union that kind selects. -/
inductive ISlot
  | empty
  | uninitialized
  | selector (selector : String)
  | symbol (symbol : Ptr)
  | closure
  | object (object : Nat)
  | immediate (imm : Immediate)
deriving DecidableEq, Repr

def ISlot.kind : ISlot → ISlotKind
  | .empty => .EMPTY_ISLOT
  | .uninitialized => .UNINITIALIZED_ISLOT
  | .selector _ => .SELECTOR_ISLOT
  | .symbol _ => .SYMBOL_ISLOT
  | .closure => .CLOSURE_ISLOT
  | .object _ => .OBJECT_ISLOT
  | .immediate _ => .IMMEDIATE_ISLOT

abbrev NO_STEP : Nat := 0
abbrev SINGLE_STEP : Nat := 1
abbrev NEXT_STEP : Nat := 2

/-- An `IFrame`. `env` maps an AST address to a slot address. -/
structure IFrame where
  thread : Nat
  parent : Ptr := none
  function : Ptr := none
  single_stepping : Nat := NO_STEP
  env : List (Nat × Nat) := []
  stmtStack : List Ptr := []
  stageStack : List Int := []
  exprStack : List Ptr := []
  valStack : List Ptr := []
  stmt : Ptr := none
  stage : Int := 0
  expr : Ptr := none
  ip : Ptr := none
deriving DecidableEq, Repr

inductive IThreadState
  | ITHREAD_RUNNING | ITHREAD_RUNNABLE | ITHREAD_STOPPED
deriving DecidableEq, Repr

structure IThread where
  state : IThreadState := IThreadState.ITHREAD_STOPPED
  frame : Ptr := none
  todo : List Ptr := []
deriving DecidableEq, Repr

/-- The mutable state of the interpreter: the three heaps, the file-level statics, the
options `trace_level` and `run_interpreter`, the lines still to be read by the debugger and
the error messages printed so far. -/
structure Machine where
  frames : List IFrame := []
  slots : List ISlot := []
  threadHeap : List IThread := []
  threads : List Nat := []
  cur_thread : Int := -1
  single_step : Nat := NO_STEP
  interrupted : Bool := false
  break_ids : List Int := []
  known_ids : List (Nat × Nat) := []
  last_print : Ptr := none
  last_cmd_buffer : List Char := []
  trace_level : Int := 0
  run_interpreter : Nat := 1
  stdin : List (List Char) := []
  errors : List String := []
deriving DecidableEq, Repr

/-! ## `Vec` and `Map` -/

/-- Modelled from the spec: the method `Vec::pop` (vec.h is not among the sources) of a
last-in-first-out stack: the last element, or `zero` (0, the null pointer) when the vector is
empty. The frame retires when its statement list is exhausted: the statement-advance loop
of `IFrame::run` tests the popped statement for null. -/
def Vec.pop {α : Type} (zero : α) (v : List α) : α × List α :=
  match v.getLast? with
  | none => (zero, [])
  | some x => (x, v.dropLast)

/-- Modelled from the spec: the assignment `v.n = k` to the length of a `Vec` (vec.h is not
among the sources), which truncates the stack; an `n` beyond the stored elements is a
fault. -/
def Vec.setN {α : Type} (v : List α) (k : Nat) : Except Fault (List α) :=
  if k ≤ v.length then pure (v.take k) else throw Fault.vecBounds

/-- Modelled from the spec: the update `v.n -= k` of the length of a `Vec` (vec.h is not among
the sources), which removes the last `k` elements; there must be `k` of them. -/
def Vec.subN {α : Type} (v : List α) (k : Nat) : Except Fault (List α) :=
  if k ≤ v.length then pure (v.take (v.length - k)) else throw Fault.vecBounds

/-- Modelled from the spec: the method `Map::get` (map.h is not among the sources): the value
stored under the key, null (`none`) when there is none. -/
def Map.get (m : List (Nat × Nat)) (k : Nat) : Ptr :=
  (m.find? (fun e => e.1 == k)).map Prod.snd

/-- Modelled from the spec: the method `Map::put` (map.h is not among the sources): it
replaces the value of a key already present and adds the pair otherwise. -/
def Map.put (m : List (Nat × Nat)) (k v : Nat) : List (Nat × Nat) :=
  if m.any (fun e => e.1 == k) then m.map (fun e => if e.1 == k then (k, v) else e)
  else m ++ [(k, v)]

/-- Modelled from the spec: the method `Vec::set_add` (vec.h is not among the sources) on a
vector used as a set of integers. The list holds the members; 0 marks a free position of
the set and is never one. -/
def Vec.set_add (v : List Int) (x : Int) : List Int :=
  if x = 0 ∨ x ∈ v then v else v ++ [x]

/-- Modelled from the spec: the method `Vec::in` (vec.h is not among the sources) on the set
of breakpoints: membership. -/
def Vec.inVec (v : List Int) (x : Nat) : Bool :=
  decide ((x : Int) ∈ v)

/-- Dereferencing a pointer to an AST node. -/
def Prog.deref (P : Prog) (p : Ptr) : Except Fault BaseAST :=
  match p with
  | none => throw Fault.nullDeref
  | some a => pure (P.node a)

/-- The address a non-null pointer holds. -/
def Ptr.addr (p : Ptr) : Except Fault Nat :=
  match p with
  | none => throw Fault.nullDeref
  | some a => pure a

/-- Reading a heap cell. -/
def heapGet {α : Type} (h : List α) (a : Nat) : Except Fault α :=
  match h[a]? with
  | none => throw Fault.nullDeref
  | some x => pure x

/-- The allocation `new ISlot(...)`: the slot is placed at the end of the slot heap. -/
def Machine.newSlot (m : Machine) (s : ISlot) : Nat × Machine :=
  (m.slots.length, { m with slots := m.slots ++ [s] })

/-- The assignment `*dst = s` to a slot. -/
def Machine.setSlot (m : Machine) (dst : Nat) (s : ISlot) : Machine :=
  { m with slots := m.slots.set dst s }

/-- The method `IFrame::islot`: the slot of an AST node in the environment of the frame, a
new empty slot when the node has none yet. -/
def IFrame.islot (f : IFrame) (m : Machine) (ast : Nat) : Nat × IFrame × Machine :=
  match Map.get f.env ast with
  | some s => (s, f, m)
  | none =>
    let (s, m1) := m.newSlot ISlot.empty
    (s, { f with env := Map.put f.env ast s }, m1)

/-! ## The debugger -/

/-- The C function `isspace` (C locale): the space and the characters 9 to 13. -/
def isspace (c : Char) : Bool :=
  c.toNat == 32 || (decide (9 ≤ c.toNat) && decide (c.toNat ≤ 13))

/-- The C function `isdigit`. -/
def isdigit (c : Char) : Bool :=
  decide (48 ≤ c.toNat) && decide (c.toNat ≤ 57)

/-- The C function `tolower` (C locale). -/
def tolower (c : Char) : Char :=
  if 65 ≤ c.toNat ∧ c.toNat ≤ 90 then Char.ofNat (c.toNat + 32) else c

/-- The loop of `match_cmd`; `moved` tells whether `c` has left the start `ac`. -/
def match_cmd_loop : List Char → List Char → Bool → Bool
  | [], _, moved => moved
  | c :: cs, str, _ =>
    if isspace c then true
    else
      match str with
      | [] => false
      | s :: ss => if tolower c != s then false else match_cmd_loop cs ss true

/-- The function `match_cmd(ac, str)`. -/
def match_cmd (ac : List Char) (str : String) : Bool :=
  match_cmd_loop ac str.toList false

/-- The function `skip_arg`: past the first token and the white space after it. -/
def skip_arg (c : List Char) : List Char :=
  (c.dropWhile (fun x => !isspace x)).dropWhile isspace

/-- The value of the decimal digits at the start of the characters. -/
def digitsValue (c : List Char) : Nat :=
  (c.takeWhile isdigit).foldl (fun acc d => 10 * acc + (d.toNat - 48)) 0

/-- The C function `atoi`: white space, an optional sign (characters 45 and 43), decimal
digits. -/
def atoi (c : List Char) : Int :=
  match c.dropWhile isspace with
  | [] => 0
  | x :: r =>
    if x.toNat = 45 then - (digitsValue r : Int)
    else if x.toNat = 43 then (digitsValue r : Int)
    else (digitsValue (x :: r) : Int)

/-- Whether `dynamic_cast<Symbol*>` succeeds on a node. -/
def isSymbol (n : BaseAST) : Bool :=
  match n.astType with
  | .SYMBOL | .SYMBOL_UNRESOLVED | .SYMBOL_MODULE | .SYMBOL_VAR | .SYMBOL_ARG | .SYMBOL_TYPE
  | .SYMBOL_FN | .SYMBOL_ENUM | .SYMBOL_LABEL => true
  | _ => false

/-- Whether `dynamic_cast<Stmt*>` succeeds on a node. -/
def isStmt (n : BaseAST) : Bool :=
  match n.astType with
  | .STMT | .STMT_EXPR | .STMT_RETURN | .STMT_BLOCK | .STMT_WHILELOOP | .STMT_FORLOOP
  | .STMT_COND | .STMT_WHEN | .STMT_SELECT | .STMT_LABEL | .STMT_GOTO => true
  | _ => false

/-- The statement `known_ids.put(ast->id, ast)`. -/
def Machine.know (P : Prog) (m : Machine) (ast : Nat) : Machine :=
  { m with known_ids := Map.put m.known_ids (P.node ast).id ast }

/-- Both overloads of `show`: the node is printed and entered into `known_ids`. -/
def showNode (P : Prog) (m : Machine) (ip : Ptr) : Except Fault Machine := do
  let a ← Ptr.addr ip
  pure (m.know P a)

/-- The function `print(ISlot*)`, which enters a printed symbol or object into
`known_ids`. -/
def printSlot (P : Prog) (m : Machine) (islot : Ptr) : Except Fault Machine := do
  let a ← Ptr.addr islot
  let s ← heapGet m.slots a
  match s with
  | .symbol sym => showNode P m sym
  | .object o => pure (m.know P o)
  | _ => pure m

/-- The lookup `known_ids.get(i)`; the ids stored are those of nodes, none is negative. -/
def knownGet (m : Machine) (i : Int) : Ptr :=
  if i < 0 then none else Map.get m.known_ids i.toNat

/-- The function `get_known_id`. -/
def get_known_id (P : Prog) (m : Machine) (i : Int) : Ptr × Machine :=
  match knownGet m i with
  | some p => (some p, m)
  | none =>
    let m1 := P.allAst.foldl (fun acc x => acc.know P x) m
    (knownGet m1 i, m1)

/-- The first loop of `cmd_where`, over the expression chain; it yields `istage` and
`stage`. The bound `iexpr + 1` on the iterations is the one of the loop itself. -/
def whereExprs (P : Prog) (f : IFrame) :
    Nat → Machine → Ptr → Int → Nat → Nat → Except Fault (Machine × Nat × Int)
  | 0, _, _, _, _, _ => throw Fault.outOfFuel
  | n + 1, m, e, stage, istage, iexpr =>
    match e with
    | none => pure (m, istage, stage)
    | some _ => do
      let m1 ← showNode P m e
      if istage = 0 then throw (Fault.assertFails "istage >= 0")
      let istage1 := istage - 1
      let stage1 ← match f.stageStack[istage1]? with
        | some x => pure x
        | none => throw Fault.vecBounds
      if iexpr = 0 then pure (m1, istage1, stage1)
      else
        let e1 ← match f.exprStack[iexpr - 1]? with
          | some x => pure x
          | none => throw Fault.vecBounds
        whereExprs P f n m1 e1 stage1 istage1 (iexpr - 1)

/-- The second loop of `cmd_where`, over the statement chain. -/
def whereStmts (P : Prog) (f : IFrame) :
    Nat → Machine → Ptr → Nat → Nat → Except Fault Machine
  | 0, _, _, _, _ => throw Fault.outOfFuel
  | n + 1, m, s, istage, istmt =>
    match s with
    | none => pure m
    | some _ => do
      let m1 ← showNode P m s
      if istmt = 0 then pure m1
      else
        if istage = 0 then throw (Fault.assertFails "istage >= 0")
        let istage1 := istage - 1
        let s1 ← match f.stmtStack[istage1]? with
          | some x => pure x
          | none => throw Fault.vecBounds
        if f.stageStack[istage1]?.isNone then throw Fault.vecBounds
        whereStmts P f n m1 s1 istage1 (istmt - 1)

/-- The third loop of `cmd_where`, up the parent frames. -/
def whereParents (P : Prog) : Nat → Machine → Ptr → Except Fault Machine
  | 0, _, _ => throw Fault.outOfFuel
  | n + 1, m, frame =>
    match frame with
    | none => pure m
    | some a => do
      let fr ← heapGet m.frames a
      let m1 ← match fr.ip with
        | some _ => showNode P m fr.ip
        | none => pure m
      whereParents P n m1 fr.parent

/-- The function `cmd_where`; a null frame is reported by `check_running`. -/
def cmd_where (P : Prog) (frame : Option IFrame) (m : Machine) : Except Fault Machine :=
  match frame with
  | none => pure m
  | some f => do
    let (m1, istage, _) ←
      whereExprs P f (f.exprStack.length + 1) m f.expr f.stage f.stageStack.length
        f.exprStack.length
    let m2 ← whereStmts P f (f.stmtStack.length + 1) m1 f.stmt istage f.stmtStack.length
    whereParents P (m2.frames.length + 1) m2 f.parent

/-- The function `cmd_stack`. -/
def cmd_stack (P : Prog) (frame : Option IFrame) (m : Machine) : Except Fault Machine :=
  match frame with
  | none => pure m
  | some f => f.valStack.reverse.foldlM (fun acc v => printSlot P acc v) m

/-- The function `cmd_locals`. -/
def cmd_locals (P : Prog) (frame : Option IFrame) (m : Machine) : Except Fault Machine :=
  match frame with
  | none => pure m
  | some f =>
    f.env.foldlM
      (fun acc x => if isSymbol (P.node x.1) then printSlot P (acc.know P x.1) (some x.2)
        else pure acc) m

/-- The end of `cmd_print`, from `last_print = p` on. -/
def cmd_print_found (P : Prog) (frame : Option IFrame) (m : Machine) (p : Nat) :
    Except Fault Machine := do
  let m1 := { m with last_print := some p }
  match frame with
  | none => throw Fault.nullDeref
  | some f =>
    match Map.get f.env p with
    | some ss => printSlot P m1 (some ss)
    | none => pure m1

/-- The function `cmd_print`; `c` is the whole command line. -/
def cmd_print (P : Prog) (frame : Option IFrame) (m : Machine) (c0 : List Char) :
    Except Fault Machine :=
  match skip_arg c0 with
  | [] =>
    match m.last_print with
    | some p => cmd_print_found P frame m p
    | none => pure m
  | ch :: rest =>
    if isdigit ch then
      let i := atoi (ch :: rest)
      if i ≤ 0 then pure m
      else
        match get_known_id P m i with
        | (none, m1) => pure m1
        | (some p, m1) => cmd_print_found P frame m1 p
    else
      match frame with
      | none => throw Fault.nullDeref
      | some f =>
        let nm := String.mk ((ch :: rest).takeWhile (fun x => !isspace x))
        match f.env.find? (fun x => isSymbol (P.node x.1) && (P.node x.1).name == some nm) with
        | some x => cmd_print_found P frame m x.1
        | none => pure m

/-- The `bi` command. -/
def cmd_bi (P : Prog) (m : Machine) (c0 : List Char) : Machine :=
  let i := atoi (skip_arg c0)
  if i = 0 then m
  else
    match get_known_id P m i with
    | (some a, m1) => { m1 with break_ids := Vec.set_add m1.break_ids i }.know P a
    | (none, m1) => m1

/-- The `birm` command: the ids move to a local vector and the loop over them fills
`break_ids` again. -/
def cmd_birm (m : Machine) (c0 : List Char) : Machine :=
  let i := atoi (skip_arg c0)
  let ids := m.break_ids
  { m with break_ids :=
      ids.foldl (fun acc z => if i = z then acc else Vec.set_add acc i) [] }

/-- The `trace` command. -/
def cmd_trace (m : Machine) (c0 : List Char) : Machine :=
  match skip_arg c0 with
  | [] => { m with trace_level := if m.trace_level = 0 then 1 else 0 }
  | c =>
    if match_cmd c "true" then { m with trace_level := 1 }
    else if match_cmd c "false" then { m with trace_level := 0 }
    else { m with trace_level := atoi c }

/-- The function `runProgram`. -/
def runProgram (P : Prog) (m : Machine) : Machine :=
  let t : IThread :=
    { state := IThreadState.ITHREAD_RUNNABLE, frame := none,
      todo := P.moduleStmts ++ [P.chpl_main] }
  { m with
    interrupted := if m.run_interpreter > 1 then true else m.interrupted
    threads := [m.threadHeap.length]
    cur_thread := -1
    threadHeap := m.threadHeap ++ [t] }

/-- The commands of the debugger; `unknown` is a line that matches none. -/
inductive DbgCmd
  | help | quit | cont | step | next | print | nprint | whereCmd | stack | locals | bi | birm
  | info | trace | run | exit | unknown
deriving DecidableEq, Repr

/-- The chain of `match_cmd` tests of `interactive`, in the priority order of the source: the
first command that matches the line is the one executed. -/
def parseCmd (c : List Char) : DbgCmd :=
  if match_cmd c "help" || match_cmd c "?" then DbgCmd.help
  else if match_cmd c "quit" then DbgCmd.quit
  else if match_cmd c "continue" then DbgCmd.cont
  else if match_cmd c "step" then DbgCmd.step
  else if match_cmd c "next" then DbgCmd.next
  else if match_cmd c "print" then DbgCmd.print
  else if match_cmd c "nprint" then DbgCmd.nprint
  else if match_cmd c "where" then DbgCmd.whereCmd
  else if match_cmd c "stack" then DbgCmd.stack
  else if match_cmd c "locals" then DbgCmd.locals
  else if match_cmd c "bi" then DbgCmd.bi
  else if match_cmd c "birm" then DbgCmd.birm
  else if match_cmd c "info" then DbgCmd.info
  else if match_cmd c "trace" then DbgCmd.trace
  else if match_cmd c "run" then DbgCmd.run
  else if match_cmd c "exit" then DbgCmd.exit
  else DbgCmd.unknown

/-- The body of the branch of `interactive` that a command line `c` selects. The result is
`some r` when `interactive` returns `r`, `none` when the loop goes on to read the next
line. -/
def interactiveCmd (P : Prog) (frame : Option IFrame) (m : Machine) (c : List Char) :
    Except Fault (Option Nat × Machine) :=
  match parseCmd c with
  | .help => pure (none, m)
  | .quit => throw Fault.exit
  | .cont => pure (some 0, m)
  | .step => pure (some 0, { m with single_step := SINGLE_STEP })
  | .next => pure (some 0, { m with single_step := NEXT_STEP })
  | .print => do
    let m1 ← cmd_print P frame m c
    pure (none, m1)
  | .nprint => do
    let m1 ← cmd_print P frame m c
    pure (none, m1)
  | .whereCmd => do
    let m1 ← cmd_where P frame m
    pure (none, m1)
  | .stack => do
    let m1 ← cmd_stack P frame m
    pure (none, m1)
  | .locals => do
    let m1 ← cmd_locals P frame m
    pure (none, m1)
  | .bi => pure (none, cmd_bi P m c)
  | .birm => pure (none, cmd_birm m c)
  | .info => pure (none, m)
  | .trace => pure (none, cmd_trace m c)
  | .run =>
    match frame with
    | none => pure (some 1, runProgram P m)
    | some f => do
      let t ← heapGet m.threadHeap f.thread
      let m1 :=
        { m with threadHeap := m.threadHeap.set f.thread { t with todo := [], frame := none } }
      pure (some 1, runProgram P m1)
  | .exit => throw Fault.exit
  | .unknown => pure (none, m)

/-- The start of a round of the loop of `interactive`: both flags are reset, a line is read,
and an empty line stands for the last command. -/
def readCmd (m0 : Machine) (line : List Char) (rest : List (List Char)) :
    List Char × Machine :=
  let m := { m0 with single_step := NO_STEP, interrupted := false, stdin := rest }
  let c1 := line.dropWhile isspace
  if c1.isEmpty then (m.last_cmd_buffer, m) else (c1, { m with last_cmd_buffer := c1 })

/-- The command loop of `interactive`, one round per line read. With `readline`, the end of
the input ends the process. The result is the value returned and the machine. -/
def interactiveLoop (P : Prog) (frame : Option IFrame) :
    List (List Char) → Machine → Except Fault (Nat × Machine)
  | [], _ => throw Fault.exit
  | line :: rest, m0 =>
    match interactiveCmd P frame (readCmd m0 line rest).2 (readCmd m0 line rest).1 with
    | .error e => throw e
    | .ok (some r, m1) => pure (r, m1)
    | .ok (none, m1) => interactiveLoop P frame rest m1

/-- The function `interactive(frame)`. -/
def interactive (P : Prog) (frame : Option IFrame) (m : Machine) :
    Except Fault (Nat × Machine) := do
  let m1 ← match frame with
    | some f => showNode P m f.ip
    | none => pure m
  interactiveLoop P frame m1.stdin m1

/-- The loop of `error_interactive`. As `interactive` leaves `frame->ip` alone, the loop
goes on while the thread of the frame has a current frame. Every call of `interactive`
reads a line, which bounds the iterations by the lines left. -/
def errorInteractiveLoop (P : Prog) (f : IFrame) : Nat → Machine → Except Fault Machine
  | 0, _ => throw Fault.outOfFuel
  | n + 1, m => do
    let (_, m1) ← interactive P (some f) m
    let t ← heapGet m1.threadHeap f.thread
    if t.frame.isSome then errorInteractiveLoop P f n m1 else pure m1

/-- The function `error_interactive(frame)`. -/
def error_interactive (P : Prog) (f : IFrame) (m : Machine) : Except Fault Machine :=
  errorInteractiveLoop P f (m.stdin.length + 1) m

/-- The function `user_error(frame, fmt, ...)`, `msg` being the formatted message. It
returns only in interactive mode (`run_interpreter > 1`), after the debugger. -/
def user_error (P : Prog) (f : IFrame) (m : Machine) (msg : String) : Except Fault Machine :=
  let m1 := { m with errors := m.errors ++ [msg] }
  if m1.run_interpreter > 1 then error_interactive P f m1
  else throw (Fault.userError msg)

/-! ## Calls -/

/-- The pointer `fn->body->body->head->next`: the first statement of a function. -/
def fnFirstStmt (P : Prog) (fn : Nat) : Except Fault Ptr := do
  let blk ← P.deref (P.node fn).body
  let lst ← P.deref blk.body
  pure lst.headNext

/-- The frame `new IFrame(thread)`. -/
def IFrame.new (thread : Nat) : IFrame :=
  { thread := thread }

/-- The method `IFrame::reset`; it leaves `stage` alone. -/
def IFrame.reset (f : IFrame) : IFrame :=
  { f with function := none, env := [], stmtStack := [], stageStack := [], exprStack := [],
           valStack := [], ip := none, stmt := none, expr := none }

/-- The method `IFrame::init(Stmt *s)`. -/
def IFrame.initStmt (f : IFrame) (s : Ptr) : IFrame :=
  { f.reset with ip := s, stmt := s }

/-- The head of `icall(FnSymbol*, int)`: the trace of the call, and the breakpoint test on
the id of the function. -/
def callMark (P : Prog) (m : Machine) (fn : Nat) : Machine :=
  let m1 := if m.trace_level ≠ 0 then m.know P fn else m
  if Vec.inVec m1.break_ids (P.node fn).id then { m1 with interrupted := true } else m1

/-- The frame that `icall(FnSymbol*, int)` creates for a call from the frame at address
`this`: initialised at the first statement `first` of the function, it takes over a
pending `NEXT_STEP`. -/
def calleeFrame (this : Nat) (f : IFrame) (m : Machine) (fn : Nat) (first : Ptr) : IFrame :=
  let g := { (IFrame.new f.thread).initStmt first with parent := some this, function := some fn }
  if m.single_step = NEXT_STEP then { g with single_stepping := NEXT_STEP } else g

/-- The method `IFrame::icall(FnSymbol *fn, int nargs)` on the frame at address `this`, whose
fields are `f`. The result is the frame and the machine; a new frame is put at the end of
the frame heap. -/
def icallFn (P : Prog) (this : Nat) (f : IFrame) (m : Machine) (fn : Nat) (nargs : Nat) :
    Except Fault (IFrame × Machine) := do
  let m2 := callMark P m fn
  let first ← fnFirstStmt P fn
  match f.ip with
  | none =>
    let f1 := { f with function := some fn, ip := first, stmt := first }
    let vs ← Vec.subN f1.valStack nargs
    pure ({ f1 with valStack := vs }, m2)
  | some _ =>
    let g := calleeFrame this f m2 fn first
    let m3 := if m2.single_step = NEXT_STEP then { m2 with single_step := NO_STEP } else m2
    let t ← heapGet m3.threadHeap f.thread
    let m4 :=
      { m3 with frames := m3.frames ++ [g]
                threadHeap := m3.threadHeap.set f.thread { t with frame := some m3.frames.length } }
    let vs ← Vec.subN f.valStack nargs
    pure ({ f with valStack := vs }, m4)

/-- The message of `icall` for a selector that does not resolve to one function. -/
def unresolvedMsg (name : String) : String :=
  "unable to resolve call \x27" ++ name ++ "\x27 to a single function"

/-- The method `IFrame::icall(int nargs)`. -/
def icall (P : Prog) (this : Nat) (f : IFrame) (m : Machine) (nargs : Nat) :
    Except Fault (IFrame × Machine) := do
  if f.valStack.length < nargs then throw (Fault.intFatal "not enough arguments for call")
  if nargs < 1 then throw (Fault.intFatal "call with no arguments")
  let arg0p ← match f.valStack[f.valStack.length - nargs]? with
    | some p => pure p
    | none => throw Fault.vecBounds
  let arg0a ← Ptr.addr arg0p
  let arg0 ← heapGet m.slots arg0a
  match arg0 with
  | .symbol sym =>
    let symNode ← P.deref sym
    let symAddr ← Ptr.addr sym
    if symNode.astType = AstTag.SYMBOL_FN then icallFn P this f m symAddr nargs
    else do
      let m1 ← user_error P f m "call to something other than function name or closure"
      pure (f, m1)
  | .selector name =>
    let ipNode ← P.deref f.ip
    let scope ← Ptr.addr ipNode.parentScope
    let visible := P.getVisibleFunctions scope name
    match visible with
    | [fn] => icallFn P this f m fn nargs
    | _ => do
      let m1 ← user_error P f m (unresolvedMsg name)
      pure (f, m1)
  | .closure => throw (Fault.intFatal "closures not handled yet")
  | _ => do
    let m1 ← user_error P f m "call to something other than function name or closure"
    pure (f, m1)

/-- The method `IFrame::init(FnSymbol *fn)`: the argument is not used. -/
def IFrame.initFn (P : Prog) (this : Nat) (f : IFrame) (m : Machine) (_fn : Nat) :
    Except Fault (IFrame × Machine) :=
  let f1 := f.reset
  let (sl, m1) := m.newSlot (ISlot.symbol P.chpl_main)
  icall P this { f1 with valStack := f1.valStack ++ [some sl] } m1 1

/-- The method `IFrame::init(AList<Stmt> *s)`. -/
def IFrame.initList (P : Prog) (f : IFrame) (s : Nat) : IFrame :=
  { f.reset with ip := (P.node s).headNext, stmt := (P.node s).headNext }

/-- The method `IFrame::init(BaseAST *s)`. -/
def IFrame.init (P : Prog) (this : Nat) (f : IFrame) (m : Machine) (s : Ptr) :
    Except Fault (IFrame × Machine) := do
  let a ← Ptr.addr s
  if (P.node a).astType = AstTag.SYMBOL_FN then IFrame.initFn P this f m a
  else if isStmt (P.node a) then pure (f.initStmt s, m)
  else if (P.node a).astType = AstTag.LIST then pure (f.initList P a, m)
  else throw (Fault.intFatal "interpreter: bad astType")

/-! ## Goto -/

/-- The first loop of `igoto`: the enclosing statements of `ss`, innermost first, as they are
added to `parents`. The walk up `parentStmt` is cut off after `fuel` statements. -/
def parentChain (P : Prog) : Nat → Nat → Option (List Nat)
  | 0, _ => none
  | fuel + 1, ss =>
    match (P.node ss).parentStmt with
    | none => some []
    | some p => (parentChain P fuel p).map (fun ps => p :: ps)

/-- The first position at which `parents.v[i] != stmtStack.v[i]`, if there is one. -/
def chainMismatch : List Nat → List Ptr → Bool
  | [], _ => false
  | _ :: _, [] => true
  | p :: ps, q :: qs => if some p != q then true else chainMismatch ps qs

/-- The scan of `igoto` along the `next` links from `ss`: the definition found before or at
the target `s`, with `defexpr` the last definition seen so far. The scan is cut off after
`fuel` statements. -/
def defScan (P : Prog) (s : Nat) : Nat → Ptr → Ptr → Except Fault Ptr
  | 0, _, _ => throw Fault.outOfFuel
  | fuel + 1, ss, defexpr =>
    match ss with
    | none => pure none
    | some a => do
      let n := P.node a
      let d ←
        if n.astType = AstTag.STMT_EXPR then do
          let e ← P.deref n.expr
          pure (if e.astType = AstTag.EXPR_DEF then n.expr else defexpr)
        else pure defexpr
      if d.isSome ∧ a = s then pure d
      else defScan P s fuel n.next d

/-- The method `IFrame::igoto(Stmt *s)`. The result is the value returned, the frame and the
machine. -/
def igoto (P : Prog) (fuel : Nat) (f : IFrame) (m : Machine) (s : Nat) :
    Except Fault (Nat × IFrame × Machine) := do
  let chain ← match parentChain P fuel s with
    | some c => pure c
    | none => throw Fault.outOfFuel
  let parents := chain.reverse
  if parents.length > f.stmtStack.length then
    let m1 ← user_error P f m "goto target nested below source"
    pure (1, f, m1)
  else if chainMismatch parents f.stmtStack then
    let m1 ← user_error P f m "goto target crosses nesting levels"
    pure (1, f, m1)
  else
    match (← defScan P s fuel f.stmt none) with
    | some d => do
      let m1 ← user_error P f m
        ("goto over variable definition DefExpr(" ++ toString (P.node d).id ++ ")")
      pure (1, f, m1)
    | none => do
      let f1 := { f with stage := 0, stmt := some s, ip := none, expr := none, valStack := [] }
      let stages ← Vec.setN f1.stageStack parents.length
      let stmts ← Vec.setN f1.stmtStack parents.length
      pure (0, { f1 with stageStack := stages, stmtStack := stmts }, m)

/-! ## The step machine -/

/-- How a case of the `switch` of `IFrame::run` is left: `next` falls to `LnextExpr`, `ret`
is `return timeslice`, `again` is `goto LgotoLabel`. -/
inductive Ctl
  | next | ret | again
deriving DecidableEq, Repr

/-- The frame at address `this` gets the fields `f`. -/
def Machine.sync (m : Machine) (this : Nat) (f : IFrame) : Machine :=
  { m with frames := m.frames.set this f }

/-- The macro `PUSH_EXPR(_e)`. -/
def PUSH_EXPR (f : IFrame) (m : Machine) (e : Ptr) : Except Fault (IFrame × Machine) :=
  match e with
  | none => throw (Fault.assertFails "__e")
  | some a =>
    let f1 := if f.expr.isSome ∧ f.stage ≠ 0 then { f with exprStack := f.exprStack ++ [f.expr] }
      else f
    let f2 := { f1 with stageStack := f1.stageStack ++ [f1.stage + 1] }
    let (sl, f3, m1) := f2.islot m a
    let f4 := { f3 with valStack := f3.valStack ++ [some sl] }
    pure ({ f4 with stageStack := f4.stageStack ++ [1], exprStack := f4.exprStack ++ [e],
                    stage := 0, expr := e }, m1)

/-- The macro `EVAL_EXPR(_e)`. -/
def EVAL_EXPR (f : IFrame) (e : Ptr) : Except Fault IFrame :=
  match e with
  | none => throw (Fault.assertFails "__e")
  | some _ =>
    let f1 := if f.expr.isSome ∧ f.stage ≠ 0 then { f with exprStack := f.exprStack ++ [f.expr] }
      else f
    pure { f1 with stageStack := f1.stageStack ++ [f1.stage + 1, 1],
                   exprStack := f1.exprStack ++ [e], stage := 0, expr := e }

/-- The macro `EVAL_STMT(_s)`. -/
def EVAL_STMT (f : IFrame) (s : Ptr) : IFrame :=
  { f with stageStack := f.stageStack ++ [f.stage + 1], stmtStack := f.stmtStack ++ [f.stmt],
           stmt := s }

/-- The macro `PUSH_SELECTOR(_s)`. -/
def PUSH_SELECTOR (f : IFrame) (m : Machine) (sel : String) : IFrame × Machine :=
  let (sl, m1) := m.newSlot (ISlot.selector sel)
  ({ f with valStack := f.valStack ++ [some sl] }, m1)

/-- The macro `PUSH_VAL(_s)`; the environment is keyed by non-null nodes only. -/
def PUSH_VAL (f : IFrame) (m : Machine) (ast : Ptr) : Except Fault (IFrame × Machine) := do
  let a ← Ptr.addr ast
  let (sl, f1, m1) := f.islot m a
  pure ({ f1 with valStack := f1.valStack ++ [some sl] }, m1)

/-- The macro `POP_VAL(_s)`: the slot of the node gets the contents of the popped slot. -/
def POP_VAL (f : IFrame) (m : Machine) (ast : Ptr) : Except Fault (IFrame × Machine) := do
  let a ← Ptr.addr ast
  let (dst, f1, m1) := f.islot m a
  let (top, vs) := Vec.pop none f1.valStack
  let src ← Ptr.addr top
  let v ← heapGet m1.slots src
  pure ({ f1 with valStack := vs }, m1.setSlot dst v)

/-- The function `check_type`: only empty and uninitialized slots are refused. -/
def check_type (s : ISlot) : Except Fault Unit :=
  match s with
  | .empty => throw (Fault.usrFatal "interpreter: accessed empty variable")
  | .uninitialized => throw (Fault.usrFatal "interpreter: accessed uninitialized variable")
  | _ => pure ()

/-- The read `slot->imm->v_bool` of a condition. -/
def v_bool (s : ISlot) : Except Fault Bool :=
  match s with
  | .immediate (.bool b) => pure b
  | _ => throw Fault.badUnion

/-- The slot a pointer of the operand stack refers to. -/
def slotAt (m : Machine) (p : Ptr) : Except Fault ISlot := do
  let a ← Ptr.addr p
  heapGet m.slots a

/-- The trace of the macro `S(_t)`. -/
def traceS (P : Prog) (m : Machine) (ip : Nat) : Machine :=
  if m.trace_level > 0 then m.know P ip else m

/-- The macro `CALL(_n)`. -/
def CALL (P : Prog) (this : Nat) (f : IFrame) (m : Machine) (n : Nat) :
    Except Fault (Ctl × IFrame × Machine) := do
  let (f1, m1) ← icall P this f (m.sync this f) n
  pure (Ctl.ret, f1, m1)

/-- The case `STMT_RETURN`. -/
def execReturn (this : Nat) (f : IFrame) (m : Machine) (s : BaseAST) :
    Except Fault (Ctl × IFrame × Machine) :=
  if f.stage = 0 then do
    let (f1, m1) ← PUSH_EXPR { f with stage := f.stage + 1 } m s.expr
    pure (Ctl.next, f1, m1)
  else if f.stage = 1 then do
    let (slot, vs) := Vec.pop none f.valStack
    let f1 := { f with stage := 0, valStack := vs }
    let t ← heapGet m.threadHeap f1.thread
    let m1 := { m with threadHeap := m.threadHeap.set f1.thread { t with frame := f1.parent } }
    let pa ← Ptr.addr f1.parent
    if pa = this then
      let m2 := if f1.single_stepping = NEXT_STEP then { m1 with single_step := NEXT_STEP } else m1
      pure (Ctl.ret, { f1 with valStack := f1.valStack ++ [slot] }, m2)
    else do
      let pf ← heapGet m1.frames pa
      let m2 := if pf.single_stepping = NEXT_STEP then { m1 with single_step := NEXT_STEP } else m1
      pure (Ctl.ret, f1, m2.sync pa { pf with valStack := pf.valStack ++ [slot] })
  else throw (Fault.intFatal "interpreter: bad stage for astType")

/-- The case `STMT_WHILELOOP`. -/
def execWhile (f : IFrame) (m : Machine) (s : BaseAST) :
    Except Fault (Ctl × IFrame × Machine) :=
  if f.stage = 0 then
    let f1 := { f with stage := 1 }
    pure (Ctl.next, if !s.isWhileDo then EVAL_STMT f1 s.block else f1, m)
  else if f.stage = 1 then do
    let f1 ← EVAL_EXPR { f with stage := 2 } s.condition
    pure (Ctl.next, f1, m)
  else if f.stage = 2 then do
    let c ← Ptr.addr s.condition
    let (sl, f1, m1) := f.islot m c
    let cond ← heapGet m1.slots sl
    check_type cond
    let b ← v_bool cond
    if !b then pure (Ctl.next, { f1 with stage := 0 }, m1)
    else pure (Ctl.next, EVAL_STMT { f1 with stage := 1 } s.block, m1)
  else throw (Fault.intFatal "interpreter: bad stage for astType")

/-- The selector, `iter` and `loop_var` pushes of a for-loop stage, followed by `CALL(3)`. -/
def forCall3 (P : Prog) (this : Nat) (f : IFrame) (m : Machine) (sel : String)
    (iter loop_var : Ptr) : Except Fault (Ctl × IFrame × Machine) := do
  let (f1, m1) := PUSH_SELECTOR f m sel
  let (f2, m2) ← PUSH_VAL f1 m1 iter
  let (f3, m3) ← PUSH_VAL f2 m2 loop_var
  CALL P this f3 m3 3

/-- The case `STMT_FORLOOP`; `ip` is the address of the statement, which is `loop_var`. -/
def execFor (P : Prog) (this : Nat) (f : IFrame) (m : Machine) (ip : Nat) (s : BaseAST) :
    Except Fault (Ctl × IFrame × Machine) :=
  match s.indices, s.iterators with
  | some [ind], some [it] =>
    let iter : Ptr := some it
    let indice : Ptr := (P.node ind).sym
    let loop_var : Ptr := some ip
    let f0 := { f with stage := f.stage + 1 }
    if f.stage = 0 then do
      let f1 ← EVAL_EXPR f0 iter
      pure (Ctl.next, f1, m)
    else if f.stage = 1 then do
      let (f1, m1) := PUSH_SELECTOR f0 m "_forall_start"
      let (f2, m2) ← PUSH_VAL f1 m1 iter
      CALL P this f2 m2 2
    else if f.stage = 2 then do
      let (f1, m1) ← POP_VAL f0 m loop_var
      forCall3 P this f1 m1 "_forall_valid" iter loop_var
    else if f.stage = 3 then do
      let (top, vs) := Vec.pop none f0.valStack
      let f1 := { f0 with valStack := vs }
      let valid ← slotAt m top
      check_type valid
      let b ← v_bool valid
      if !b then pure (Ctl.next, { f1 with stage := 0 }, m)
      else forCall3 P this f1 m "_forall_index" iter loop_var
    else if f.stage = 4 then do
      let (f1, m1) ← POP_VAL f0 m indice
      pure (Ctl.next, EVAL_STMT f1 s.innerStmt, m1)
    else if f.stage = 5 then forCall3 P this f0 m "_forall_next" iter loop_var
    else if f.stage = 6 then do
      let (f1, m1) ← POP_VAL { f0 with stage := 2 } m loop_var
      pure (Ctl.next, f1, m1)
    else throw (Fault.intFatal "interpreter: bad stage for astType")
  | some [_], _ => throw (Fault.intFatal "interpreter: bad number of iterators")
  | _, _ => throw (Fault.intFatal "interpreter: bad number of indices")

/-- The case `STMT_COND`. -/
def execCondStmt (f : IFrame) (m : Machine) (s : BaseAST) :
    Except Fault (Ctl × IFrame × Machine) :=
  if f.stage = 0 then do
    let (f1, m1) ← PUSH_EXPR { f with stage := f.stage + 1 } m s.condExpr
    pure (Ctl.next, f1, m1)
  else if f.stage = 1 then do
    let (top, vs) := Vec.pop none f.valStack
    let f1 := { f with stage := 0, valStack := vs }
    let cond ← slotAt m top
    check_type cond
    let b ← v_bool cond
    pure (Ctl.next, EVAL_STMT f1 (if b then s.thenStmt else s.elseStmt), m)
  else throw (Fault.intFatal "interpreter: bad stage for astType")

/-- The case `STMT_SELECT`. -/
def execSelect (P : Prog) (f : IFrame) (m : Machine) (s : BaseAST) :
    Except Fault (Ctl × IFrame × Machine) :=
  if f.stage = 0 then do
    let f1 ← EVAL_EXPR { f with stage := f.stage + 1 } s.caseExpr
    pure (Ctl.next, f1, m)
  else if f.stage = 1 then do
    let lst ← P.deref s.whenStmts
    pure (Ctl.next, EVAL_STMT { f with stage := 0 } lst.headNext, m)
  else throw (Fault.intFatal "interpreter: bad stage for astType")

/-- The case `STMT_GOTO`; `fuel` bounds the two walks of `igoto`. -/
def execGoto (P : Prog) (fuel : Nat) (this : Nat) (f : IFrame) (m : Machine) (s : BaseAST) :
    Except Fault (Ctl × IFrame × Machine) := do
  let lbl ← P.deref s.label
  let dp ← P.deref lbl.defPoint
  let target ← Ptr.addr dp.parentStmt
  let (r, f1, m1) ← igoto P fuel f (m.sync this f) target
  if r ≠ 0 then pure (Ctl.ret, f1, m1) else pure (Ctl.again, f1, m1)

/-- The case `EXPR_SYM`; `ip` is the address of the expression. A null `name` is taken as
the empty string. -/
def execSym (P : Prog) (f : IFrame) (m : Machine) (ip : Nat) (s : BaseAST) :
    Except Fault (Ctl × IFrame × Machine) := do
  let var ← Ptr.addr s.var
  let v := P.node var
  let (x, f1, m1) ← match Map.get f.env var with
    | some x => pure (x, f, m)
    | none =>
      match v.astType with
      | .SYMBOL_UNRESOLVED =>
        let (x, m1) := m.newSlot (ISlot.selector (v.name.getD ""))
        pure (x, { f with env := Map.put f.env var x }, m1)
      | .SYMBOL_FN | .SYMBOL_TYPE =>
        let (x, m1) := m.newSlot (ISlot.symbol (some var))
        pure (x, { f with env := Map.put f.env var x }, m1)
      | .SYMBOL_VAR =>
        match v.immediate with
        | some imm =>
          let (x, m1) := m.newSlot (ISlot.immediate imm)
          pure (x, { f with env := Map.put f.env var x }, m1)
        | none =>
          throw (Fault.usrFatal
            ("unknown variable in SymExpr \x27" ++ v.name.getD "" ++ "\x27"))
      | _ =>
        throw (Fault.usrFatal ("unknown variable in SymExpr \x27" ++ v.name.getD "" ++ "\x27"))
  match Map.get f1.env ip with
  | some e => do
    let xv ← heapGet m1.slots x
    pure (Ctl.next, f1, m1.setSlot e xv)
  | none => pure (Ctl.next, { f1 with env := Map.put f1.env ip x }, m1)

/-- The case `EXPR_DEF`; `ip` is the address of the expression. -/
def execDef (P : Prog) (f : IFrame) (m : Machine) (ip : Nat) (s : BaseAST) :
    Except Fault (Ctl × IFrame × Machine) := do
  let sym ← Ptr.addr s.sym
  let kind := (P.node sym).astType
  let bound := kind = AstTag.SYMBOL_UNRESOLVED ∨ kind = AstTag.SYMBOL_MODULE
    ∨ kind = AstTag.SYMBOL_TYPE ∨ kind = AstTag.SYMBOL_FN ∨ kind = AstTag.SYMBOL_ENUM
    ∨ kind = AstTag.SYMBOL_LABEL
  let (slot, m1) := m.newSlot (if bound then ISlot.symbol (some sym) else ISlot.empty)
  let f1 := { f with env := Map.put f.env sym slot }
  pure (Ctl.next, f1, if m1.trace_level ≠ 0 then m1.know P ip else m1)

/-- The case `EXPR_COND`. Both branches end in `env.put(expr, islot(s->thenExpr))`, `expr`
being by then the branch that `EVAL_EXPR` has made current. -/
def execCondExpr (f : IFrame) (m : Machine) (s : BaseAST) :
    Except Fault (Ctl × IFrame × Machine) :=
  if f.stage = 0 then do
    let (f1, m1) ← PUSH_EXPR { f with stage := f.stage + 1 } m s.condExpr
    pure (Ctl.next, f1, m1)
  else if f.stage = 1 then do
    let (top, vs) := Vec.pop none f.valStack
    let f1 := { f with stage := 0, valStack := vs }
    let cond ← slotAt m top
    check_type cond
    let b ← v_bool cond
    let f2 ← EVAL_EXPR f1 (if b then s.thenExpr else s.elseExpr)
    let cur ← Ptr.addr f2.expr
    let th ← Ptr.addr s.thenExpr
    let (sl, f3, m1) := f2.islot m th
    pure (Ctl.next, { f3 with env := Map.put f3.env cur sl }, m1)
  else throw (Fault.intFatal "interpreter: bad stage for astType")

/-- The call `argList->get(i)`, which counts from 1. -/
def argGet (args : List Nat) (i : Int) : Except Fault Ptr :=
  if i < 1 then throw Fault.vecBounds
  else
    match args[i.toNat - 1]? with
    | some a => pure (some a)
    | none => throw Fault.vecBounds

/-- The method `IFrame::iprimitive`. -/
def iprimitive (f : IFrame) (s : BaseAST) : Except Fault IFrame := do
  let vs ← Vec.subN f.valStack s.argList.length
  pure { f with valStack := vs }

/-- The case `EXPR_CALL`. -/
def execCall (P : Prog) (this : Nat) (f : IFrame) (m : Machine) (s : BaseAST) :
    Except Fault (Ctl × IFrame × Machine) :=
  let f0 := { f with stage := f.stage + 1 }
  if f.stage = 0 then
    match s.opTag with
    | .OP_OTHER => throw (Fault.intFatal "unhandled CallExpr::opTag")
    | .OP_NONE =>
      if !s.primitive then do
        let (f1, m1) ← PUSH_EXPR f0 m s.baseExpr
        pure (Ctl.next, f1, m1)
      else pure (Ctl.next, f0, m)
    | .OP_MOVE =>
      if s.argList.length ≠ 2 then throw (Fault.intFatal "illegal number of arguments for MOVE")
      else pure (Ctl.next, { f0 with stage := 2 }, m)
  else if f0.stage - 1 ≤ (s.argList.length : Int) then do
    let a ← argGet s.argList (f0.stage - 1)
    let (f1, m1) ← PUSH_EXPR f0 m a
    pure (Ctl.next, f1, m1)
  else
    let f1 := { f0 with stage := 0 }
    if s.primitive then do
      let f2 ← iprimitive f1 s
      pure (Ctl.next, f2, m)
    else if s.opTag = OpTag.OP_MOVE then do
      let a ← argGet s.argList 1
      let an ← P.deref a
      if an.astType = AstTag.EXPR_SYM then do
        let (f2, m1) ← POP_VAL f1 m an.var
        pure (Ctl.next, f2, m1)
      else throw (Fault.intFatal "target of MOVE not an SymExpr")
    else CALL P this f1 m (s.argList.length + 1)

/-- The `switch (ip->astType)` of `IFrame::run`; `ip` is the address of the instruction. -/
def exec (P : Prog) (fuel : Nat) (this : Nat) (f : IFrame) (m : Machine) (ip : Nat) :
    Except Fault (Ctl × IFrame × Machine) :=
  let s := P.node ip
  match s.astType with
  | .STMT => pure (Ctl.next, f, m)
  | .STMT_EXPR => do
    let f1 ← EVAL_EXPR f s.expr
    pure (Ctl.next, f1, traceS P m ip)
  | .STMT_RETURN => execReturn this f (traceS P m ip) s
  | .STMT_BLOCK => do
    let lst ← P.deref s.body
    pure (Ctl.next, EVAL_STMT f lst.headNext, traceS P m ip)
  | .STMT_WHILELOOP => execWhile f (traceS P m ip) s
  | .STMT_FORLOOP => execFor P this f (traceS P m ip) ip s
  | .STMT_COND => execCondStmt f (traceS P m ip) s
  | .STMT_WHEN => do
    let sel ← P.deref s.parentStmt
    if sel.astType = AstTag.STMT_SELECT then pure (Ctl.next, f, traceS P m ip)
    else throw (Fault.assertFails "select->astType == STMT_SELECT")
  | .STMT_SELECT => execSelect P f (traceS P m ip) s
  | .STMT_LABEL => pure (Ctl.next, f, m)
  | .STMT_GOTO => execGoto P fuel this f (traceS P m ip) s
  | .EXPR_SYM => execSym P f (traceS P m ip) ip s
  | .EXPR_DEF => execDef P f (traceS P m ip) ip s
  | .EXPR_COND => execCondExpr f (traceS P m ip) s
  | .EXPR_CALL => execCall P this f (traceS P m ip) s
  | .EXPR_CAST | .EXPR_MEMBERACCESS | .EXPR_REDUCE | .EXPR_NAMED | .EXPR_IMPORT =>
    pure (Ctl.next, f, m)
  | _ => throw (Fault.intFatal "interpreter: bad astType")

/-- The loop `while (!stmt)` of `LnextExpr`: continuations are popped until one has a next
statement; when the popped statement is null the frame retires (`true`). Each round pops
`stmtStack`, so `stmtStack.n + 1` rounds are enough. -/
def unwind (P : Prog) : Nat → IFrame → Except Fault (Bool × IFrame)
  | 0, _ => throw Fault.outOfFuel
  | n + 1, f =>
    match f.stmt with
    | some _ => pure (false, f)
    | none =>
      let (st, stmts) := Vec.pop none f.stmtStack
      let (sg, stages) := Vec.pop 0 f.stageStack
      let f1 := { f with stmt := st, stmtStack := stmts, stage := sg - 1, stageStack := stages }
      match st with
      | none => pure (true, f1)
      | some a =>
        if f1.stage < 0 then throw (Fault.assertFails "stage >= 0")
        else unwind P n { f1 with ip := (P.node a).next, stmt := (P.node a).next }

/-- The two assertions that close the `if (!stage)` block of `LnextExpr`. -/
def checkAsserts (f : IFrame) : Except Fault Unit :=
  if ¬ ((f.expr.isNone ∨ f.expr = f.ip) ∧ (f.expr.isSome ∨ f.ip = f.stmt)) then
    throw (Fault.assertFails "(!expr || expr == ip) && (expr || ip == stmt)")
  else if f.stageStack.length ≠ f.exprStack.length + f.stmtStack.length
      + (if f.expr.isSome then 1 else 0) then
    throw (Fault.assertFails "stageStack.n == exprStack.n + stmtStack.n + (expr ? 1 : 0)")
  else pure ()

/-- The block at `LnextExpr`, up to the test of `single_step`. The boolean tells that the
frame has retired (`thread->frame = parent; return timeslice`). -/
def nextExpr (P : Prog) (f : IFrame) (m : Machine) : Except Fault (Bool × IFrame × Machine) :=
  if f.stage ≠ 0 then pure (false, f, m)
  else do
    let f1 :=
      if f.expr.isSome then
        let (sg, stages) := Vec.pop 0 f.stageStack
        if f.exprStack.length ≠ 0 then
          let (e, exprs) := Vec.pop none f.exprStack
          { f with stage := sg - 1, stageStack := stages, ip := e, expr := e, exprStack := exprs }
        else { f with stage := sg - 1, stageStack := stages, ip := none, expr := none }
      else f
    if f1.expr.isNone ∧ f1.stage = 0 then do
      let st ← P.deref f1.stmt
      let f2 := { f1 with ip := st.next, stmt := st.next, valStack := [] }
      let (retired, f3) ← unwind P (f2.stmtStack.length + 1) f2
      if retired then do
        let t ← heapGet m.threadHeap f3.thread
        pure (true, f3,
          { m with threadHeap := m.threadHeap.set f3.thread { t with frame := f3.parent } })
      else do
        checkAsserts f3
        pure (false, f3, m)
    else if f1.ip.isNone then
      if f1.expr.isSome then throw (Fault.assertFails "!expr")
      else do
        let f2 := { f1 with ip := f1.stmt }
        checkAsserts f2
        pure (false, f2, m)
    else do
      checkAsserts f1
      pure (false, f1, m)

/-- The end of the loop body of `IFrame::run`: `LnextExpr`, then
`if (single_step) interrupted = 1`. -/
def loopTail (P : Prog) (f : IFrame) (m : Machine) : Except Fault (Bool × IFrame × Machine) := do
  let (retired, f1, m1) ← nextExpr P f m
  if retired then pure (true, f1, m1)
  else pure (false, f1, if m1.single_step ≠ 0 then { m1 with interrupted := true } else m1)

/-- The loop `while (1)` of `IFrame::run` from `LgotoLabel`, on the frame at address `this`
whose fields are `f`. The result is the value returned and the fields of the frame; `fuel`
bounds the number of rounds and the walks of `igoto`. -/
def runLoop (P : Prog) (this : Nat) :
    Nat → Nat → IFrame → Machine → Except Fault (Nat × IFrame × Machine)
  | 0, _, _, _ => throw Fault.outOfFuel
  | fuel + 1, timeslice, f, m =>
    if timeslice = 1 then pure (0, f, m)
    else do
      let timeslice1 := timeslice - 1
      let ipa ← Ptr.addr f.ip
      let m1 := if Vec.inVec m.break_ids (P.node ipa).id then { m with interrupted := true } else m
      let (stop, m2) ←
        if m1.interrupted then do
          let (r, m2) ← interactive P (some f) (m1.sync this f)
          pure (decide (r ≠ 0), m2)
        else pure (false, m1)
      if stop then pure (0, f, m2)
      else do
        let (ctl, f1, m3) ← exec P fuel this f m2 ipa
        match ctl with
        | .ret => pure (timeslice1, f1, m3)
        | .again => runLoop P this fuel timeslice1 f1 m3
        | .next => do
          let (retired, f2, m4) ← loopTail P f1 m3
          if retired then pure (timeslice1, f2, m4)
          else runLoop P this fuel timeslice1 f2 m4

/-- The method `IFrame::run(timeslice)` on the frame at address `this`. A call with `expr`
set enters at `LnextExpr`. -/
def IFrame.run (P : Prog) (fuel : Nat) (this : Nat) (timeslice : Nat) (m : Machine) :
    Except Fault (Nat × Machine) := do
  let f ← heapGet m.frames this
  let (r, f1, m1) ←
    if f.expr.isSome then do
      let (retired, f1, m1) ← loopTail P f m
      if retired then pure (timeslice, f1, m1)
      else runLoop P this fuel timeslice f1 m1
    else runLoop P this fuel timeslice f m
  pure (r, m1.sync this f1)

/-- The inner loop `while (frame)` of `IThread::run` on the thread at address `th`; the
boolean tells that the method returns from inside the loop. -/
def threadInner (P : Prog) (th : Nat) (atimeslice : Nat) :
    Nat → Nat → Machine → Except Fault (Bool × Nat × Machine)
  | 0, _, _ => throw Fault.outOfFuel
  | fuel + 1, timeslice, m => do
    let t ← heapGet m.threadHeap th
    match t.frame with
    | none => pure (false, timeslice, m)
    | some fr => do
      let (ts, m1) ← IFrame.run P fuel fr timeslice m
      if atimeslice ≠ 0 ∧ ts = 0 then pure (true, ts, m1)
      else threadInner P th atimeslice fuel ts m1

/-- The outer loop of `IThread::run`. -/
def threadOuter (P : Prog) (th : Nat) (atimeslice : Nat) :
    Nat → Nat → Machine → Except Fault (Nat × Machine)
  | 0, _, _ => throw Fault.outOfFuel
  | fuel + 1, timeslice, m => do
    let t ← heapGet m.threadHeap th
    if t.frame.isNone ∧ t.todo.length = 0 then pure (timeslice, m)
    else do
      let (fr, m1) ← match t.frame with
        | some fr => pure (fr, m)
        | none =>
          pure (m.frames.length,
            { m with frames := m.frames ++ [IFrame.new th]
                     threadHeap := m.threadHeap.set th { t with frame := some m.frames.length } })
      let f ← heapGet m1.frames fr
      let m2 ←
        match f.ip, t.todo with
        | none, s :: rest => do
          let t1 ← heapGet m1.threadHeap th
          let m2 := { m1 with threadHeap := m1.threadHeap.set th { t1 with todo := rest } }
          let (f1, m3) ← IFrame.init P fr f m2 s
          pure (m3.sync fr f1)
        | _, _ => pure m1
      let (returned, ts, m3) ← threadInner P th atimeslice fuel timeslice m2
      if returned then pure (ts, m3)
      else threadOuter P th atimeslice fuel ts m3

/-- The method `IThread::run(atimeslice)` on the thread at address `th`. -/
def IThread.run (P : Prog) (fuel : Nat) (th : Nat) (atimeslice : Nat) (m : Machine) :
    Except Fault (Nat × Machine) :=
  threadOuter P th atimeslice fuel atimeslice m

/-- The rest of a round of the loop of `IFrame::run` once the breakpoint test and the
debugger are behind: the `switch` on the instruction at address `ipa`, then `LnextExpr` and
the rounds that follow; `timeslice1` is the timeslice already decremented. -/
def runRound (P : Prog) (this : Nat) (fuel : Nat) (timeslice1 : Nat) (f : IFrame)
    (m2 : Machine) (ipa : Nat) : Except Fault (Nat × IFrame × Machine) := do
  let (ctl, f1, m3) ← exec P fuel this f m2 ipa
  match ctl with
  | .ret => pure (timeslice1, f1, m3)
  | .again => runLoop P this fuel timeslice1 f1 m3
  | .next => do
    let (retired, f2, m4) ← loopTail P f1 m3
    if retired then pure (timeslice1, f2, m4)
    else runLoop P this fuel timeslice1 f2 m4

/-- The ways in which the loop of `IFrame::run` is left: at the timeslice test at the start
of a round (`expired`), by `return 0` after the debugger (`debugger`), by a
`return timeslice` inside the `switch` (`left`: a call, a return statement, a refused goto)
or at `LnextExpr` when the statements are exhausted (`retired`). -/
inductive Exit
  | expired | debugger | left | retired
deriving DecidableEq, Repr

/-- The loop `runLoop` with a record of how it is left and a count of the instructions
executed, that is of the rounds that reach the `switch`; `n` is the count so far. The other
three components of the result are those of `runLoop`. -/
def runLoopCount (P : Prog) (this : Nat) :
    Nat → Nat → Nat → IFrame → Machine → Except Fault (Exit × Nat × Nat × IFrame × Machine)
  | 0, _, _, _, _ => throw Fault.outOfFuel
  | fuel + 1, timeslice, n, f, m =>
    if timeslice = 1 then pure (Exit.expired, n, 0, f, m)
    else do
      let timeslice1 := timeslice - 1
      let ipa ← Ptr.addr f.ip
      let m1 := if Vec.inVec m.break_ids (P.node ipa).id then { m with interrupted := true } else m
      let (stop, m2) ←
        if m1.interrupted then do
          let (r, m2) ← interactive P (some f) (m1.sync this f)
          pure (decide (r ≠ 0), m2)
        else pure (false, m1)
      if stop then pure (Exit.debugger, n, 0, f, m2)
      else do
        let (ctl, f1, m3) ← exec P fuel this f m2 ipa
        match ctl with
        | .ret => pure (Exit.left, n + 1, timeslice1, f1, m3)
        | .again => runLoopCount P this fuel timeslice1 (n + 1) f1 m3
        | .next => do
          let (retired, f2, m4) ← loopTail P f1 m3
          if retired then pure (Exit.retired, n + 1, timeslice1, f2, m4)
          else runLoopCount P this fuel timeslice1 (n + 1) f2 m4
/-! ## Predicates used in the statements -/

/-- The relation between two machines that have the same frame heap, the same slot heap and the same
printed errors. -/
def Machine.sameHeaps (m m1 : Machine) : Prop :=
  m1.frames = m.frames ∧ m1.slots = m.slots ∧ m1.errors = m.errors

/-- The contents of the slot that the environment of a frame binds a node to. -/
def IFrame.slotOf (f : IFrame) (m : Machine) (k : Nat) : Option ISlot :=
  (Map.get f.env k).bind (fun a => m.slots[a]?)

/-- No breakpoint is set, no interrupt is pending, and neither stepping nor tracing is on:
the step loop does not enter the debugger and prints no trace. -/
def Machine.quiet (m : Machine) : Prop :=
  m.break_ids = [] ∧ m.interrupted = false ∧ m.single_step = 0 ∧ m.trace_level = 0

/-- Every slot the environment of the frame binds is a slot of the heap. -/
def IFrame.envValid (f : IFrame) (m : Machine) : Prop :=
  ∀ k a, Map.get f.env k = some a → a < m.slots.length

/-- The step of the symbol expression `ip` (node `s`) succeeds and leaves the slot of the
expression holding `c`, with the four stacks of the frame as they were. -/
def symYields (P : Prog) (f : IFrame) (m : Machine) (ip : Nat) (s : BaseAST) (c : ISlot) :
    Prop :=
  ∃ f1 m1, execSym P f m ip s = .ok (Ctl.next, f1, m1) ∧ f1.slotOf m1 ip = some c ∧
    f1.valStack = f.valStack ∧ f1.stmtStack = f.stmtStack ∧ f1.stageStack = f.stageStack ∧
    f1.exprStack = f.exprStack

/-- The current stage of the frame is not negative and every entry of its stage stack is at
least 1. -/
def IFrame.stagesOk (f : IFrame) : Prop :=
  0 ≤ f.stage ∧ ∀ e ∈ f.stageStack, (1 : Int) ≤ e

/-- The stage stack has an entry for every entry of the expression stack, for every entry of
the statement stack and for the current expression: no continuation is without a stage. -/
def IFrame.stackRoom (f : IFrame) : Prop :=
  f.exprStack.length + f.stmtStack.length + (if f.expr.isSome then 1 else 0)
    ≤ f.stageStack.length

/-- The invariant of the stages of a frame: the stages are in range, and either every
continuation has a stage or the frame has just been redirected by `igoto`, which leaves it
without an instruction and without a current expression. -/
def IFrame.stageInv (f : IFrame) : Prop :=
  f.stagesOk ∧ (f.stackRoom ∨ (f.ip = none ∧ f.expr = none))

/-- Two frames with the same stage, the same stage, expression and statement stacks and the
same current expression. -/
def IFrame.sameStages (f g : IFrame) : Prop :=
  g.stage = f.stage ∧ g.stageStack = f.stageStack ∧ g.exprStack = f.exprStack ∧
    g.stmtStack = f.stmtStack ∧ g.expr = f.expr

/-- The states of a frame that are reached by stepping a freshly initialised frame that has
not retired. A frame is fresh when `IFrame::init` has initialised a new frame, or when
`icall` has created it for a call; `IThread::run` also initialises the frame of the thread
again when its `ip` is null. A step is a run of the loop of `IFrame::run`, over any
number of rounds, that does not end with the frame retiring, or the entry of `IFrame::run`
at `LnextExpr` when a current expression is pending. While a frame waits for a function it
has called, the return statement of that function adds its value to the operand stack of
the frame. -/
inductive Reach (P : Prog) : IFrame → Prop
  | init (this t : Nat) (m m1 : Machine) (s : Ptr) (g : IFrame) :
      IFrame.init P this (IFrame.new t) m s = .ok (g, m1) → Reach P g
  | reinit (this : Nat) (f : IFrame) (m m1 : Machine) (s : Ptr) (g : IFrame) :
      Reach P f → IFrame.init P this f m s = .ok (g, m1) → Reach P g
  | callee (this : Nat) (f : IFrame) (m : Machine) (fn : Nat) (first : Ptr) :
      Reach P (calleeFrame this f m fn first)
  | loop (this fuel timeslice n : Nat) (f : IFrame) (m : Machine)
      (r : Exit × Nat × Nat × IFrame × Machine) :
      Reach P f → runLoopCount P this fuel timeslice n f m = .ok r → r.1 ≠ Exit.retired →
      Reach P r.2.2.2.1
  | resume (f g : IFrame) (m m1 : Machine) :
      Reach P f → f.expr.isSome = true → loopTail P f m = .ok (false, g, m1) → Reach P g
  | value (f : IFrame) (slot : Ptr) :
      Reach P f → Reach P { f with valStack := f.valStack ++ [slot] }
/-! ## Example programs and states -/

open AstTag

/-- A machine with one thread whose frame `IFrame::init(Stmt*)` has set to statement `s`. -/
def freshAt (s : Nat) : Machine :=
  { frames := [(IFrame.new 0).initStmt (some s)], threadHeap := [{ frame := some 0 }] }

/-- The statement `(c ? t : e);` with literal operands: node 1 is the expression statement,
node 2 the conditional expression, nodes 3 to 5 its operands. -/
def progCondExpr : Prog where
  node := fun a => match a with
    | 1 => { astType := STMT_EXPR, id := 1, expr := some 2 }
    | 2 => { astType := EXPR_COND, id := 2, condExpr := some 3, thenExpr := some 4,
             elseExpr := some 5 }
    | 3 => { astType := EXPR_SYM, id := 3, var := some 10 }
    | 4 => { astType := EXPR_SYM, id := 4, var := some 11 }
    | 5 => { astType := EXPR_SYM, id := 5, var := some 12 }
    | 10 => { astType := SYMBOL_VAR, id := 10, immediate := some (Immediate.bool true) }
    | 11 => { astType := SYMBOL_VAR, id := 11, immediate := some (Immediate.int 1) }
    | 12 => { astType := SYMBOL_VAR, id := 12, immediate := some (Immediate.int 2) }
    | _ => { astType := OTHER }
  getVisibleFunctions := fun _ _ => []

/-- The three expression statements `7; 8; 9;`: nodes 1, 3 and 5 are the statements, nodes
2, 4 and 6 their literals. -/
def progSeq : Prog where
  node := fun a => match a with
    | 1 => { astType := STMT_EXPR, id := 1, expr := some 2, next := some 3 }
    | 2 => { astType := EXPR_SYM, id := 2, var := some 10, parentStmt := some 1 }
    | 3 => { astType := STMT_EXPR, id := 3, expr := some 4, next := some 5 }
    | 4 => { astType := EXPR_SYM, id := 4, var := some 11, parentStmt := some 3 }
    | 5 => { astType := STMT_EXPR, id := 5, expr := some 6 }
    | 6 => { astType := EXPR_SYM, id := 6, var := some 12, parentStmt := some 5 }
    | 10 => { astType := SYMBOL_VAR, id := 10, immediate := some (Immediate.int 7) }
    | 11 => { astType := SYMBOL_VAR, id := 11, immediate := some (Immediate.int 8) }
    | 12 => { astType := SYMBOL_VAR, id := 12, immediate := some (Immediate.int 9) }
    | _ => { astType := OTHER }
  getVisibleFunctions := fun _ _ => []

/-- Gotos. The top-level list is: block 1, definition statement 6 (`var x`), label statement
7, label statement 8. Block 1 holds the label statement 3 and the goto 4, whose label is
defined at statement 7. A second top-level list is: goto 10 (to label statement 12), label
statement 11, label statement 12. Goto 14 is at top level and targets statement 3 inside
block 1. -/
def progGoto : Prog where
  node := fun a => match a with
    | 1 => { astType := STMT_BLOCK, id := 1, body := some 2, next := some 6 }
    | 2 => { astType := LIST, id := 2, headNext := some 3 }
    | 3 => { astType := STMT_LABEL, id := 3, parentStmt := some 1, next := some 4 }
    | 4 => { astType := STMT_GOTO, id := 4, parentStmt := some 1, label := some 30 }
    | 6 => { astType := STMT_EXPR, id := 6, expr := some 20, next := some 7 }
    | 7 => { astType := STMT_LABEL, id := 7, next := some 8 }
    | 8 => { astType := STMT_LABEL, id := 8 }
    | 10 => { astType := STMT_GOTO, id := 10, label := some 32, next := some 11 }
    | 11 => { astType := STMT_LABEL, id := 11, next := some 12 }
    | 12 => { astType := STMT_LABEL, id := 12 }
    | 14 => { astType := STMT_GOTO, id := 14, label := some 34 }
    | 20 => { astType := EXPR_DEF, id := 20, sym := some 21, parentStmt := some 6 }
    | 21 => { astType := SYMBOL_VAR, id := 21, name := some "x" }
    | 30 => { astType := SYMBOL_LABEL, id := 30, defPoint := some 31 }
    | 31 => { astType := EXPR_DEF, id := 31, sym := some 30, parentStmt := some 7 }
    | 32 => { astType := SYMBOL_LABEL, id := 32, defPoint := some 33 }
    | 33 => { astType := EXPR_DEF, id := 33, sym := some 32, parentStmt := some 12 }
    | 34 => { astType := SYMBOL_LABEL, id := 34, defPoint := some 35 }
    | 35 => { astType := EXPR_DEF, id := 35, sym := some 34, parentStmt := some 3 }
    | _ => { astType := OTHER }
  getVisibleFunctions := fun _ _ => []

/-- The machine `freshAt s` in interactive mode (`run_interpreter` is 2), with the given lines
waiting on the input of the debugger. -/
def debugAt (s : Nat) (lines : List String) : Machine :=
  { freshAt s with run_interpreter := 2, stdin := lines.map String.toList }

/-- A call site and three functions. Node 2 is the call expression `f(5)` of the expression
statement 1. The name `f` has the two visible overloads 20 (one formal) and 21 (two formals),
the name `g` the one function 22, whose body holds the label statement 42; no other name is
visible. -/
def progCall : Prog where
  node := fun a => match a with
    | 1 => { astType := STMT_EXPR, id := 1, expr := some 2 }
    | 2 => { astType := EXPR_CALL, id := 2, parentScope := some 0, baseExpr := some 3,
             argList := [4], parentStmt := some 1 }
    | 3 => { astType := EXPR_SYM, id := 3, var := some 23 }
    | 4 => { astType := EXPR_SYM, id := 4, var := some 24 }
    | 20 => { astType := SYMBOL_FN, id := 20, name := some "f", numFormals := 1, body := some 30 }
    | 21 => { astType := SYMBOL_FN, id := 21, name := some "f", numFormals := 2, body := some 33 }
    | 22 => { astType := SYMBOL_FN, id := 22, name := some "g", numFormals := 1, body := some 40 }
    | 23 => { astType := SYMBOL_UNRESOLVED, id := 23, name := some "f" }
    | 24 => { astType := SYMBOL_VAR, id := 24, immediate := some (Immediate.int 5) }
    | 30 => { astType := STMT_BLOCK, id := 30, body := some 31 }
    | 31 => { astType := LIST, id := 31, headNext := some 32 }
    | 32 => { astType := STMT_LABEL, id := 32, parentStmt := some 30 }
    | 33 => { astType := STMT_BLOCK, id := 33, body := some 34 }
    | 34 => { astType := LIST, id := 34, headNext := some 35 }
    | 35 => { astType := STMT_LABEL, id := 35, parentStmt := some 33 }
    | 40 => { astType := STMT_BLOCK, id := 40, body := some 41 }
    | 41 => { astType := LIST, id := 41, headNext := some 42 }
    | 42 => { astType := STMT_LABEL, id := 42, parentStmt := some 40 }
    | _ => { astType := OTHER }
  getVisibleFunctions := fun _ name =>
    if name = "f" then [20, 21] else if name = "g" then [22] else []

/-- The frame of `progCall` at the last stage of the call expression 2, with the callee slot
and one argument slot on the operand stack. -/
def callFrame : IFrame :=
  { thread := 0, stmt := some 1, expr := some 2, ip := some 2, stageStack := [1],
    valStack := [some 0, some 1] }

/-- The machine around `callFrame`: slot 0 is the callee `callee`, slot 1 the argument 5. -/
def callMachine (callee : ISlot) : Machine :=
  { frames := [callFrame], threadHeap := [{ frame := some 0 }],
    slots := [callee, ISlot.immediate (Immediate.int 5)] }

/-- The machine `callMachine callee` in interactive mode, with the command `run` waiting on
the input of the debugger. -/
def callMachineRun (callee : ISlot) : Machine :=
  { callMachine callee with run_interpreter := 2, stdin := ["run".toList] }

/-- A function that returns the literal `v`, called twice. Function 20 has the body
`return v;` (statement 32). Statement 1 is `if (f()) ...`, whose condition is the call
expression 2; statement 8 is the expression statement `f();`, whose expression is the call
expression 9. -/
def progRet (v : Immediate) : Prog where
  node := fun a => match a with
    | 1 => { astType := STMT_COND, id := 1, condExpr := some 2, thenStmt := some 6,
             elseStmt := some 7 }
    | 2 => { astType := EXPR_CALL, id := 2, parentScope := some 0, baseExpr := some 3,
             parentStmt := some 1 }
    | 3 => { astType := EXPR_SYM, id := 3, var := some 20 }
    | 6 => { astType := STMT_LABEL, id := 6, parentStmt := some 1 }
    | 7 => { astType := STMT_LABEL, id := 7, parentStmt := some 1 }
    | 8 => { astType := STMT_EXPR, id := 8, expr := some 9 }
    | 9 => { astType := EXPR_CALL, id := 9, parentScope := some 0, baseExpr := some 10,
             parentStmt := some 8 }
    | 10 => { astType := EXPR_SYM, id := 10, var := some 20 }
    | 20 => { astType := SYMBOL_FN, id := 20, name := some "f", body := some 30 }
    | 30 => { astType := STMT_BLOCK, id := 30, body := some 31 }
    | 31 => { astType := LIST, id := 31, headNext := some 32 }
    | 32 => { astType := STMT_RETURN, id := 32, expr := some 33, parentStmt := some 30 }
    | 33 => { astType := EXPR_SYM, id := 33, var := some 34 }
    | 34 => { astType := SYMBOL_VAR, id := 34, immediate := some v }
    | _ => { astType := OTHER }
  getVisibleFunctions := fun _ _ => []

/-- The run of a call up to the retirement of the callee: `IFrame::run` on the caller (frame
0) until it returns from `CALL`, then `IFrame::run` on the callee (frame 1) until its return
statement retires it. -/
def callAndReturn (P : Prog) (s : Nat) : Except Fault Machine := do
  let r ← IFrame.run P 20 0 0 (freshAt s)
  let r1 ← IFrame.run P 20 1 0 r.2
  pure r1.2

/-- What `icall(2)` returns on `callFrame` in `callMachine callee` (the frame and machine
passed in, should the call not return). -/
def callResult (callee : ISlot) : IFrame × Machine :=
  match icall progCall 0 callFrame (callMachine callee) 2 with
  | .ok r => r
  | .error _ => (callFrame, callMachine callee)

/-- The machine of `progRet 42` when the function called by the expression statement 8 is
about to execute stage 1 of its return statement: the caller (frame 0) has run up to its
`CALL`, the callee (frame 1) has executed two instructions. -/
def retMachine : Machine :=
  match (IFrame.run (progRet (Immediate.int 42)) 20 0 0 (freshAt 8) >>= fun r =>
      IFrame.run (progRet (Immediate.int 42)) 20 1 3 r.2) with
  | .ok r => r.2
  | .error _ => {}

/-- The frame at an address of `retMachine`. -/
def retFrame (a : Nat) : IFrame :=
  (retMachine.frames[a]?).getD (IFrame.new 0)

/-- The program-entry function alone: `chpl_main` is function 20, whose body is `return 7;`
(statement 32). -/
def progMain : Prog where
  node := fun a => match a with
    | 20 => { astType := SYMBOL_FN, id := 20, name := some "main", body := some 30 }
    | 30 => { astType := STMT_BLOCK, id := 30, body := some 31 }
    | 31 => { astType := LIST, id := 31, headNext := some 32 }
    | 32 => { astType := STMT_RETURN, id := 32, expr := some 33, parentStmt := some 30 }
    | 33 => { astType := EXPR_SYM, id := 33, var := some 34 }
    | 34 => { astType := SYMBOL_VAR, id := 34, immediate := some (Immediate.int 7) }
    | _ => { astType := OTHER }
  getVisibleFunctions := fun _ _ => []
  chpl_main := some 20

/-- The machine at program start as `runProgram` leaves it when there is no module statement:
one thread with the program-entry function of `progMain` to do. -/
def entryMachine : Machine :=
  { threadHeap := [{ todo := [some 20] }] }

/-- The machine of `progMain` after `IThread::run(3)` from `entryMachine`: the frame has been
initialised on the body of the program-entry function and has executed two instructions. -/
def mainMachine : Machine :=
  match IThread.run progMain 20 0 3 entryMachine with
  | .ok r => r.2
  | .error _ => {}

/-- The frame of `mainMachine`. -/
def mainFrame : IFrame :=
  (mainMachine.frames[0]?).getD (IFrame.new 0)

/-- The statements `f(); 9;` and `g(); 9;` with the functions `f`, whose body is
`return 7;`, and `g`, whose body is `7;`. Node 1 is the expression statement of the call
expression 2 of `f`, node 11 that of the call expression 12 of `g`; both are followed by
node 5, the expression statement of the literal 6. Function 20 is `f` with the return
statement 32, function 21 is `g` with the expression statement 38. -/
def progStep : Prog where
  node := fun a => match a with
    | 1 => { astType := STMT_EXPR, id := 1, expr := some 2, next := some 5 }
    | 2 => { astType := EXPR_CALL, id := 2, parentScope := some 0, baseExpr := some 3,
             parentStmt := some 1 }
    | 3 => { astType := EXPR_SYM, id := 3, var := some 20 }
    | 5 => { astType := STMT_EXPR, id := 5, expr := some 6 }
    | 6 => { astType := EXPR_SYM, id := 6, var := some 35, parentStmt := some 5 }
    | 11 => { astType := STMT_EXPR, id := 11, expr := some 12, next := some 5 }
    | 12 => { astType := EXPR_CALL, id := 12, parentScope := some 0, baseExpr := some 13,
              parentStmt := some 11 }
    | 13 => { astType := EXPR_SYM, id := 13, var := some 21 }
    | 20 => { astType := SYMBOL_FN, id := 20, name := some "f", body := some 30 }
    | 21 => { astType := SYMBOL_FN, id := 21, name := some "g", body := some 36 }
    | 30 => { astType := STMT_BLOCK, id := 30, body := some 31 }
    | 31 => { astType := LIST, id := 31, headNext := some 32 }
    | 32 => { astType := STMT_RETURN, id := 32, expr := some 33, parentStmt := some 30 }
    | 33 => { astType := EXPR_SYM, id := 33, var := some 34 }
    | 34 => { astType := SYMBOL_VAR, id := 34, immediate := some (Immediate.int 7) }
    | 35 => { astType := SYMBOL_VAR, id := 35, immediate := some (Immediate.int 9) }
    | 36 => { astType := STMT_BLOCK, id := 36, body := some 37 }
    | 37 => { astType := LIST, id := 37, headNext := some 38 }
    | 38 => { astType := STMT_EXPR, id := 38, expr := some 39, parentStmt := some 36 }
    | 39 => { astType := EXPR_SYM, id := 39, var := some 34, parentStmt := some 38 }
    | _ => { astType := OTHER }
  getVisibleFunctions := fun _ _ => []

/-- A machine in interactive mode whose one thread has the statement `s` to do, with the
given breakpoints, the flag `interrupted` as given and the given lines waiting on the input
of the debugger. -/
def sessionAt (s : Nat) (breaks : List Int) (interrupted : Bool) (lines : List String) :
    Machine :=
  { threadHeap := [{ todo := [some s] }], run_interpreter := 2, break_ids := breaks,
    interrupted := interrupted, stdin := lines.map String.toList }

/-- The machine of `progStep` with a breakpoint on the return statement 32 when the function
is about to execute stage 1 of that statement: `IThread::run(7)` has executed six
instructions, and the debugger, entered at stage 0 of the return statement, has read one
`continue`; another one is waiting. -/
def stepMachine : Machine :=
  match IThread.run progStep 20 0 7 (sessionAt 1 [32] false ["continue", "continue"]) with
  | .ok r => r.2
  | .error _ => {}

/-- The frame of the function in `stepMachine`. -/
def stepFrame : IFrame :=
  (stepMachine.frames[1]?).getD (IFrame.new 0)

/-- The statements `if (c) { 7; 8; } else { 5; 6; }  9;` where the condition is a literal of
value `c`: node 1 is the conditional statement, node 2 its condition, block 40 the
then-branch (statements 42 and 44), block 50 the else-branch (statements 52 and 54), node 7
the statement after the conditional. -/
def progCond (c : Immediate) : Prog where
  node := fun a => match a with
    | 1 => { astType := STMT_COND, id := 1, condExpr := some 2, thenStmt := some 40,
             elseStmt := some 50, next := some 7 }
    | 2 => { astType := EXPR_SYM, id := 2, var := some 10, parentStmt := some 1 }
    | 7 => { astType := STMT_EXPR, id := 7, expr := some 8 }
    | 8 => { astType := EXPR_SYM, id := 8, var := some 19, parentStmt := some 7 }
    | 10 => { astType := SYMBOL_VAR, id := 10, immediate := some c }
    | 15 => { astType := SYMBOL_VAR, id := 15, immediate := some (Immediate.int 5) }
    | 16 => { astType := SYMBOL_VAR, id := 16, immediate := some (Immediate.int 6) }
    | 17 => { astType := SYMBOL_VAR, id := 17, immediate := some (Immediate.int 7) }
    | 18 => { astType := SYMBOL_VAR, id := 18, immediate := some (Immediate.int 8) }
    | 19 => { astType := SYMBOL_VAR, id := 19, immediate := some (Immediate.int 9) }
    | 40 => { astType := STMT_BLOCK, id := 40, body := some 41, parentStmt := some 1 }
    | 41 => { astType := LIST, id := 41, headNext := some 42 }
    | 42 => { astType := STMT_EXPR, id := 42, expr := some 43, next := some 44,
              parentStmt := some 40 }
    | 43 => { astType := EXPR_SYM, id := 43, var := some 17, parentStmt := some 42 }
    | 44 => { astType := STMT_EXPR, id := 44, expr := some 45, parentStmt := some 40 }
    | 45 => { astType := EXPR_SYM, id := 45, var := some 18, parentStmt := some 44 }
    | 50 => { astType := STMT_BLOCK, id := 50, body := some 51, parentStmt := some 1 }
    | 51 => { astType := LIST, id := 51, headNext := some 52 }
    | 52 => { astType := STMT_EXPR, id := 52, expr := some 53, next := some 54,
              parentStmt := some 50 }
    | 53 => { astType := EXPR_SYM, id := 53, var := some 15, parentStmt := some 52 }
    | 54 => { astType := STMT_EXPR, id := 54, expr := some 55, parentStmt := some 50 }
    | 55 => { astType := EXPR_SYM, id := 55, var := some 16, parentStmt := some 54 }
    | _ => { astType := OTHER }
  getVisibleFunctions := fun _ _ => []

/-- The statements `{ 7; 8; }  9;`: node 1 is the block statement, nodes 3 and 5 are its
children, node 7 is the statement after the block. -/
def progBlock : Prog where
  node := fun a => match a with
    | 1 => { astType := STMT_BLOCK, id := 1, body := some 2, next := some 7 }
    | 2 => { astType := LIST, id := 2, headNext := some 3 }
    | 3 => { astType := STMT_EXPR, id := 3, expr := some 4, next := some 5,
             parentStmt := some 1 }
    | 4 => { astType := EXPR_SYM, id := 4, var := some 17, parentStmt := some 3 }
    | 5 => { astType := STMT_EXPR, id := 5, expr := some 6, parentStmt := some 1 }
    | 6 => { astType := EXPR_SYM, id := 6, var := some 18, parentStmt := some 5 }
    | 7 => { astType := STMT_EXPR, id := 7, expr := some 8 }
    | 8 => { astType := EXPR_SYM, id := 8, var := some 19, parentStmt := some 7 }
    | 17 => { astType := SYMBOL_VAR, id := 17, immediate := some (Immediate.int 7) }
    | 18 => { astType := SYMBOL_VAR, id := 18, immediate := some (Immediate.int 8) }
    | 19 => { astType := SYMBOL_VAR, id := 19, immediate := some (Immediate.int 9) }
    | _ => { astType := OTHER }
  getVisibleFunctions := fun _ _ => []

/-- The statements `var x; x; y = x;`: node 1 is the statement of the definition 2 of the
variable 20, node 3 the statement of the reference 4 to it, node 5 the statement of the move
6 whose target is the reference 7 to the variable 21 and whose source is the reference 8 to
the variable 20. -/
def progDecl : Prog where
  node := fun a => match a with
    | 1 => { astType := STMT_EXPR, id := 1, expr := some 2, next := some 3 }
    | 2 => { astType := EXPR_DEF, id := 2, sym := some 20, parentStmt := some 1 }
    | 3 => { astType := STMT_EXPR, id := 3, expr := some 4, next := some 5 }
    | 4 => { astType := EXPR_SYM, id := 4, var := some 20, parentStmt := some 3 }
    | 5 => { astType := STMT_EXPR, id := 5, expr := some 6 }
    | 6 => { astType := EXPR_CALL, id := 6, opTag := OpTag.OP_MOVE, argList := [7, 8],
             parentStmt := some 5 }
    | 7 => { astType := EXPR_SYM, id := 7, var := some 21, parentStmt := some 5 }
    | 8 => { astType := EXPR_SYM, id := 8, var := some 20, parentStmt := some 5 }
    | 20 => { astType := SYMBOL_VAR, id := 20, name := some "x" }
    | 21 => { astType := SYMBOL_VAR, id := 21, name := some "y" }
    | _ => { astType := OTHER }
  getVisibleFunctions := fun _ _ => []

/-- The machine of `progCond c` after two instructions from a frame initialised on the
conditional statement: the condition has been evaluated and stage 1 of the conditional
statement is the next instruction. -/
def condMachine (c : Immediate) : Machine :=
  match IFrame.run (progCond c) 20 0 3 (freshAt 1) with
  | .ok r => r.2
  | .error _ => {}

/-- The frame of `condMachine c`. -/
def condFrame (c : Immediate) : IFrame :=
  ((condMachine c).frames[0]?).getD (IFrame.new 0)

/-- The machine of `progDecl` after four instructions from a frame initialised on its first
statement: the variable `x` has been declared and referred to, and the move `y = x` is the
next statement. -/
def declMachine : Machine :=
  match IFrame.run progDecl 20 0 5 (freshAt 1) with
  | .ok r => r.2
  | .error _ => {}

/-- The frame of `declMachine`, with the slot of `x` pushed on its operand stack. -/
def declFrame : IFrame :=
  { (declMachine.frames[0]?).getD (IFrame.new 0) with stage := 1, valStack := [some 0] }

/-- The conditional statement of `progCond`. -/
def condStmtNode : BaseAST :=
  (progCond (Immediate.bool true)).node 1

/-- The frame of `progCondExpr` when stage 1 of the conditional expression 2 is the next
instruction: the slot of the condition is on top of the operand stack. -/
def condExprFrame : IFrame :=
  { thread := 0, env := [(3, 0), (10, 1)], stageStack := [1], valStack := [some 0],
    stmt := some 1, stage := 1, expr := some 2, ip := some 2 }

/-- The machine around `condExprFrame` when the condition has the value `b`; for `true` it is
the machine that three instructions from `freshAt 1` lead to. -/
def condExprMachine (b : Bool) : Machine :=
  { frames := [condExprFrame], threadHeap := [{ frame := some 0 }],
    slots := [ISlot.immediate (Immediate.bool b), ISlot.immediate (Immediate.bool b)] }

/-- Stage 1 of the conditional expression of `progCondExpr` from `condExprMachine b`,
followed by the evaluation of the branch that has become the current expression, without
the block at `LnextExpr` in between. -/
def condExprThenBranch (b : Bool) : Except Fault (IFrame × Machine) := do
  let r ← exec progCondExpr 9 0 condExprFrame (condExprMachine b) 2
  let br ← Ptr.addr r.2.1.expr
  let r1 ← exec progCondExpr 9 0 r.2.1 r.2.2 br
  pure r1.2

/-- The statement `f(g());` with the functions `f`, whose body is `return 1;`, and `g`, whose
body is `return 7;`. Node 1 is the expression statement of the call expression 2 of `f`,
whose one argument is the call expression 4 of `g`; functions 20 and 21 are `f` and `g`. -/
def progNest : Prog where
  node := fun a => match a with
    | 1 => { astType := STMT_EXPR, id := 1, expr := some 2 }
    | 2 => { astType := EXPR_CALL, id := 2, parentScope := some 0, baseExpr := some 3,
             argList := [4], parentStmt := some 1 }
    | 3 => { astType := EXPR_SYM, id := 3, var := some 20, parentStmt := some 1 }
    | 4 => { astType := EXPR_CALL, id := 4, parentScope := some 0, baseExpr := some 5,
             parentStmt := some 1 }
    | 5 => { astType := EXPR_SYM, id := 5, var := some 21, parentStmt := some 1 }
    | 20 => { astType := SYMBOL_FN, id := 20, name := some "f", body := some 30 }
    | 21 => { astType := SYMBOL_FN, id := 21, name := some "g", body := some 36 }
    | 30 => { astType := STMT_BLOCK, id := 30, body := some 31 }
    | 31 => { astType := LIST, id := 31, headNext := some 32 }
    | 32 => { astType := STMT_RETURN, id := 32, expr := some 33, parentStmt := some 30 }
    | 33 => { astType := EXPR_SYM, id := 33, var := some 34, parentStmt := some 32 }
    | 34 => { astType := SYMBOL_VAR, id := 34, immediate := some (Immediate.int 1) }
    | 36 => { astType := STMT_BLOCK, id := 36, body := some 37 }
    | 37 => { astType := LIST, id := 37, headNext := some 38 }
    | 38 => { astType := STMT_RETURN, id := 38, expr := some 39, parentStmt := some 36 }
    | 39 => { astType := EXPR_SYM, id := 39, var := some 40, parentStmt := some 38 }
    | 40 => { astType := SYMBOL_VAR, id := 40, immediate := some (Immediate.int 7) }
    | _ => { astType := OTHER }
  getVisibleFunctions := fun _ _ => []

/-- The statements `while (true) { 7; 8; }  9;` (`whileDo` true) or
`do { 7; 8; } while (true);  9;` (`whileDo` false): node 1 is the loop, node 2 its condition,
block 3 its body with the statements 5 and 7, node 9 the statement after the loop. -/
def progWhile (whileDo : Bool) : Prog where
  node := fun a => match a with
    | 1 => { astType := STMT_WHILELOOP, id := 1, isWhileDo := whileDo, condition := some 2,
             block := some 3, next := some 9 }
    | 2 => { astType := EXPR_SYM, id := 2, var := some 10, parentStmt := some 1 }
    | 3 => { astType := STMT_BLOCK, id := 3, body := some 4, parentStmt := some 1 }
    | 4 => { astType := LIST, id := 4, headNext := some 5 }
    | 5 => { astType := STMT_EXPR, id := 5, expr := some 6, next := some 7,
             parentStmt := some 3 }
    | 6 => { astType := EXPR_SYM, id := 6, var := some 17, parentStmt := some 5 }
    | 7 => { astType := STMT_EXPR, id := 7, expr := some 8, parentStmt := some 3 }
    | 8 => { astType := EXPR_SYM, id := 8, var := some 18, parentStmt := some 7 }
    | 9 => { astType := STMT_EXPR, id := 9, expr := some 11 }
    | 11 => { astType := EXPR_SYM, id := 11, var := some 19, parentStmt := some 9 }
    | 10 => { astType := SYMBOL_VAR, id := 10, immediate := some (Immediate.bool true) }
    | 17 => { astType := SYMBOL_VAR, id := 17, immediate := some (Immediate.int 7) }
    | 18 => { astType := SYMBOL_VAR, id := 18, immediate := some (Immediate.int 8) }
    | 19 => { astType := SYMBOL_VAR, id := 19, immediate := some (Immediate.int 9) }
    | _ => { astType := OTHER }
  getVisibleFunctions := fun _ _ => []

/-- The statements `for i in s { 7; }  9;` with iterator procedures that report elements
as long as they are asked: `_forall_start` returns 0, `_forall_valid` returns `valid`,
`_forall_index` returns 1 and `_forall_next` returns 1. Node 1 is the loop, node 2 the
definition of the index variable 12, node 3 the iterator expression, block 5 the body with
the statement 7, node 9 the statement after the loop; functions 20 to 23 are the
procedures. -/
def progFor (valid : Bool) : Prog where
  node := fun a => match a with
    | 1 => { astType := STMT_FORLOOP, id := 1, parentScope := some 0, indices := some [2],
             iterators := some [3], innerStmt := some 5, next := some 9 }
    | 2 => { astType := EXPR_DEF, id := 2, sym := some 12, parentStmt := some 1 }
    | 3 => { astType := EXPR_SYM, id := 3, var := some 13, parentStmt := some 1 }
    | 5 => { astType := STMT_BLOCK, id := 5, body := some 6, parentStmt := some 1 }
    | 6 => { astType := LIST, id := 6, headNext := some 7 }
    | 7 => { astType := STMT_EXPR, id := 7, expr := some 8, parentStmt := some 5 }
    | 8 => { astType := EXPR_SYM, id := 8, var := some 17, parentStmt := some 7 }
    | 9 => { astType := STMT_EXPR, id := 9, expr := some 11 }
    | 11 => { astType := EXPR_SYM, id := 11, var := some 19, parentStmt := some 9 }
    | 12 => { astType := SYMBOL_VAR, id := 12, name := some "i" }
    | 13 => { astType := SYMBOL_VAR, id := 13, immediate := some (Immediate.string "s") }
    | 17 => { astType := SYMBOL_VAR, id := 17, immediate := some (Immediate.int 7) }
    | 19 => { astType := SYMBOL_VAR, id := 19, immediate := some (Immediate.int 9) }
    | 20 => { astType := SYMBOL_FN, id := 20, name := some "_forall_start", body := some 30 }
    | 21 => { astType := SYMBOL_FN, id := 21, name := some "_forall_valid", body := some 40 }
    | 22 => { astType := SYMBOL_FN, id := 22, name := some "_forall_index", body := some 50 }
    | 23 => { astType := SYMBOL_FN, id := 23, name := some "_forall_next", body := some 60 }
    | 30 => { astType := STMT_BLOCK, id := 30, body := some 31 }
    | 31 => { astType := LIST, id := 31, headNext := some 32 }
    | 32 => { astType := STMT_RETURN, id := 32, expr := some 33, parentStmt := some 30 }
    | 33 => { astType := EXPR_SYM, id := 33, var := some 34, parentStmt := some 32 }
    | 34 => { astType := SYMBOL_VAR, id := 34, immediate := some (Immediate.int 0) }
    | 40 => { astType := STMT_BLOCK, id := 40, body := some 41 }
    | 41 => { astType := LIST, id := 41, headNext := some 42 }
    | 42 => { astType := STMT_RETURN, id := 42, expr := some 43, parentStmt := some 40 }
    | 43 => { astType := EXPR_SYM, id := 43, var := some 44, parentStmt := some 42 }
    | 44 => { astType := SYMBOL_VAR, id := 44, immediate := some (Immediate.bool valid) }
    | 50 => { astType := STMT_BLOCK, id := 50, body := some 51 }
    | 51 => { astType := LIST, id := 51, headNext := some 52 }
    | 52 => { astType := STMT_RETURN, id := 52, expr := some 53, parentStmt := some 50 }
    | 53 => { astType := EXPR_SYM, id := 53, var := some 54, parentStmt := some 52 }
    | 54 => { astType := SYMBOL_VAR, id := 54, immediate := some (Immediate.int 1) }
    | 60 => { astType := STMT_BLOCK, id := 60, body := some 61 }
    | 61 => { astType := LIST, id := 61, headNext := some 62 }
    | 62 => { astType := STMT_RETURN, id := 62, expr := some 63, parentStmt := some 60 }
    | 63 => { astType := EXPR_SYM, id := 63, var := some 54, parentStmt := some 62 }
    | _ => { astType := OTHER }
  getVisibleFunctions := fun _ name =>
    if name = "_forall_start" then [20] else if name = "_forall_valid" then [21]
    else if name = "_forall_index" then [22] else if name = "_forall_next" then [23] else []

/-- The frame of `progDecl` at stage 0 of the move `y = x` (node 6), which the expression
statement 5 has made the current expression; the variable `x` is bound to slot 0. -/
def moveFrame : IFrame :=
  { thread := 0, env := [(20, 0)], stageStack := [1], stmt := some 5, expr := some 6,
    ip := some 6 }

/-- The machine around `moveFrame`; slot 0, the slot of `x`, holds the integer 5. -/
def moveMachine : Machine :=
  { frames := [moveFrame], threadHeap := [{ frame := some 0 }],
    slots := [ISlot.immediate (Immediate.int 5)] }

/-- The machine of `progWhile true` after six instructions from a frame initialised on the
loop: the condition has been evaluated twice and the body block is the instruction, at
stage 2. -/
def whileMachine : Machine :=
  match IThread.run (progWhile true) 20 0 7 (freshAt 1) with
  | .ok r => r.2
  | .error _ => {}

/-- The frame of `whileMachine`. -/
def whileFrame : IFrame :=
  (whileMachine.frames[0]?).getD (IFrame.new 0)

/-- A machine in interactive mode after the program has terminated: no thread is left. The
debugger knows the ids `known` and the given lines wait on its input. -/
def idleMachine (known : List (Nat × Nat)) (lines : List String) : Machine :=
  { run_interpreter := 2, known_ids := known, stdin := lines.map String.toList }

/-- What the instrumented loop returns for `IFrame::run(3)` on a frame initialised on the
first statement of `7; 8; 9;`. -/
def seqCount : Exit × Nat × Nat × IFrame × Machine :=
  match runLoopCount progSeq 0 10 3 0 ((IFrame.new 0).initStmt (some 1)) (freshAt 1) with
  | .ok r => r
  | .error _ => (Exit.expired, 0, 0, IFrame.new 0, {})

/-- What the instrumented loop returns for `IFrame::run(6)` on a frame initialised on the
statement `f(g());` of `progNest`: the state after five instructions. -/
def nestCount : Exit × Nat × Nat × IFrame × Machine :=
  match runLoopCount progNest 0 20 6 0 ((IFrame.new 0).initStmt (some 1)) (freshAt 1) with
  | .ok r => r
  | .error _ => (Exit.expired, 0, 0, IFrame.new 0, {})

/-- The frame of `nestCount`. -/
def nestFrame : IFrame :=
  nestCount.2.2.2.1
/-! ## Auxiliary lemmas -/

theorem bind_ok {ε α β : Type} (x : Except ε α) (f : α → Except ε β) (b : β) :
    (x >>= f) = .ok b ↔ ∃ a, x = .ok a ∧ f a = .ok b := by
  cases x <;> simp [bind, Except.bind]

theorem pure_ok {ε α : Type} (a b : α) : (pure a : Except ε α) = .ok b ↔ a = b := by
  simp [pure, Except.pure]

theorem throw_ok {ε α : Type} (e : ε) (b : α) : (throw e : Except ε α) = .ok b ↔ False := by
  simp [throw, throwThe, MonadExceptOf.throw]

theorem throw_bind_ok {ε α β : Type} (e : ε) (f : α → Except ε β) (b : β) :
    ((throw e : Except ε α) >>= f) = .ok b ↔ False := by
  simp [throw, throwThe, MonadExceptOf.throw, bind, Except.bind]

theorem pure_bind_eq {ε α β : Type} (a : α) (f : α → Except ε β) :
    ((pure a : Except ε α) >>= f) = f a := rfl

theorem throw_bind_eq {ε α β : Type} (e : ε) (f : α → Except ε β) :
    ((throw e : Except ε α) >>= f) = throw e := rfl

theorem addr_ok (p : Ptr) (a : Nat) : Ptr.addr p = .ok a ↔ p = some a := by
  cases p <;> simp [Ptr.addr, throw_ok, pure_ok]

theorem heapGet_ok {α : Type} (h : List α) (a : Nat) (x : α) :
    heapGet h a = .ok x ↔ h[a]? = some x := by
  unfold heapGet
  cases hx : h[a]? <;> simp [throw_ok, pure_ok]

theorem Machine.sameHeaps_refl (m : Machine) : m.sameHeaps m := ⟨rfl, rfl, rfl⟩

theorem Machine.sameHeaps_trans {a b c : Machine} (h1 : a.sameHeaps b) (h2 : b.sameHeaps c) :
    a.sameHeaps c :=
  ⟨h2.1.trans h1.1, h2.2.1.trans h1.2.1, h2.2.2.trans h1.2.2⟩

theorem know_sameHeaps (P : Prog) (m : Machine) (a : Nat) : m.sameHeaps (m.know P a) :=
  ⟨rfl, rfl, rfl⟩

theorem showNode_sameHeaps {P : Prog} {m m1 : Machine} {ip : Ptr}
    (h : showNode P m ip = .ok m1) : m.sameHeaps m1 := by
  simp only [showNode, bind_ok, pure_ok, addr_ok] at h
  obtain ⟨a, -, rfl⟩ := h
  exact know_sameHeaps P m a

theorem printSlot_sameHeaps {P : Prog} {m m1 : Machine} {p : Ptr}
    (h : printSlot P m p = .ok m1) : m.sameHeaps m1 := by
  simp only [printSlot, bind_ok, addr_ok, heapGet_ok] at h
  obtain ⟨a, -, s, -, h⟩ := h
  split at h
  · exact showNode_sameHeaps h
  · cases h; exact know_sameHeaps P m _
  · cases h; exact Machine.sameHeaps_refl m

theorem whereExprs_sameHeaps {P : Prog} {f : IFrame} :
    ∀ (n : Nat) (m : Machine) (e : Ptr) (stage : Int) (istage iexpr : Nat)
      (r : Machine × Nat × Int),
      whereExprs P f n m e stage istage iexpr = .ok r → m.sameHeaps r.1 := by
  intro n
  induction n with
  | zero => intro m e stage istage iexpr r h; simp [whereExprs, throw_ok] at h
  | succ n ih =>
    intro m e stage istage iexpr r h
    unfold whereExprs at h
    cases e with
    | none => simp only [pure_ok] at h; subst h; exact Machine.sameHeaps_refl m
    | some a =>
      simp only [bind_ok] at h
      obtain ⟨m1, hm1, h⟩ := h
      have h1 := showNode_sameHeaps hm1
      split at h
      · simp [throw_bind_ok] at h
      · simp only [pure_bind_eq] at h
        split at h
        · split at h
          · simp only [pure_ok] at h; subst h; exact h1
          · split at h
            · exact Machine.sameHeaps_trans h1 (ih _ _ _ _ _ _ h)
            · simp [throw_bind_ok] at h
        · simp [throw_bind_ok] at h

theorem whereStmts_sameHeaps {P : Prog} {f : IFrame} :
    ∀ (n : Nat) (m : Machine) (s : Ptr) (istage istmt : Nat) (r : Machine),
      whereStmts P f n m s istage istmt = .ok r → m.sameHeaps r := by
  intro n
  induction n with
  | zero => intro m s istage istmt r h; simp [whereStmts, throw_ok] at h
  | succ n ih =>
    intro m s istage istmt r h
    unfold whereStmts at h
    cases s with
    | none => simp only [pure_ok] at h; subst h; exact Machine.sameHeaps_refl m
    | some a =>
      simp only [bind_ok] at h
      obtain ⟨m1, hm1, h⟩ := h
      have h1 := showNode_sameHeaps hm1
      split at h
      · simp only [pure_ok] at h; subst h; exact h1
      · split at h
        · simp [throw_bind_ok] at h
        · simp only [pure_bind_eq] at h
          split at h
          · split at h
            · simp [throw_bind_ok] at h
            · exact Machine.sameHeaps_trans h1 (ih _ _ _ _ _ h)
          · simp [throw_bind_ok] at h

theorem whereParents_sameHeaps {P : Prog} :
    ∀ (n : Nat) (m : Machine) (fr : Ptr) (r : Machine),
      whereParents P n m fr = .ok r → m.sameHeaps r := by
  intro n
  induction n with
  | zero => intro m fr r h; simp [whereParents, throw_ok] at h
  | succ n ih =>
    intro m fr r h
    unfold whereParents at h
    cases fr with
    | none => simp only [pure_ok] at h; subst h; exact Machine.sameHeaps_refl m
    | some a =>
      simp only [bind_ok] at h
      obtain ⟨fr1, _, h⟩ := h
      split at h
      · simp only [bind_ok] at h
        obtain ⟨m1, hm1, h⟩ := h
        exact Machine.sameHeaps_trans (showNode_sameHeaps hm1) (ih _ _ _ h)
      · simp only [pure_bind_eq] at h
        exact ih _ _ _ h

theorem cmd_where_sameHeaps {P : Prog} {frame : Option IFrame} {m r : Machine}
    (h : cmd_where P frame m = .ok r) : m.sameHeaps r := by
  unfold cmd_where at h
  cases frame with
  | none => simp only [pure_ok] at h; subst h; exact Machine.sameHeaps_refl m
  | some f =>
    simp only [bind_ok] at h
    obtain ⟨⟨m1, istage, st⟩, h1, m2, h2, h3⟩ := h
    exact Machine.sameHeaps_trans (Machine.sameHeaps_trans (whereExprs_sameHeaps _ _ _ _ _ _ _ h1)
      (whereStmts_sameHeaps _ _ _ _ _ _ h2)) (whereParents_sameHeaps _ _ _ _ h3)

theorem foldlM_sameHeaps {α : Type} (g : Machine → α → Except Fault Machine)
    (hg : ∀ m a r, g m a = .ok r → m.sameHeaps r) :
    ∀ (l : List α) (m r : Machine), l.foldlM g m = .ok r → m.sameHeaps r := by
  intro l
  induction l with
  | nil => intro m r h; simp only [List.foldlM_nil, pure_ok] at h; subst h; exact Machine.sameHeaps_refl m
  | cons a l ih =>
    intro m r h
    simp only [List.foldlM_cons, bind_ok] at h
    obtain ⟨m1, h1, h2⟩ := h
    exact Machine.sameHeaps_trans (hg _ _ _ h1) (ih _ _ h2)

theorem cmd_stack_sameHeaps {P : Prog} {frame : Option IFrame} {m r : Machine}
    (h : cmd_stack P frame m = .ok r) : m.sameHeaps r := by
  unfold cmd_stack at h
  cases frame with
  | none => simp only [pure_ok] at h; subst h; exact Machine.sameHeaps_refl m
  | some f => exact foldlM_sameHeaps _ (fun _ _ _ hh => printSlot_sameHeaps hh) _ _ _ h

theorem cmd_locals_sameHeaps {P : Prog} {frame : Option IFrame} {m r : Machine}
    (h : cmd_locals P frame m = .ok r) : m.sameHeaps r := by
  unfold cmd_locals at h
  cases frame with
  | none => simp only [pure_ok] at h; subst h; exact Machine.sameHeaps_refl m
  | some f =>
    refine foldlM_sameHeaps _ ?_ _ _ _ h
    intro m0 a r0 hh
    split at hh
    · exact Machine.sameHeaps_trans (know_sameHeaps P m0 _) (printSlot_sameHeaps hh)
    · simp only [pure_ok] at hh; subst hh; exact Machine.sameHeaps_refl m0

theorem cmd_print_found_sameHeaps {P : Prog} {frame : Option IFrame} {m r : Machine} {p : Nat}
    (h : cmd_print_found P frame m p = .ok r) : m.sameHeaps r := by
  unfold cmd_print_found at h
  cases frame with
  | none => simp [throw_ok] at h
  | some f =>
    simp only at h
    split at h
    · have := printSlot_sameHeaps h
      exact ⟨this.1, this.2.1, this.2.2⟩
    · simp only [pure_ok] at h; subst h; exact ⟨rfl, rfl, rfl⟩

theorem foldl_know_sameHeaps (P : Prog) :
    ∀ (l : List Nat) (m : Machine), m.sameHeaps (l.foldl (fun acc x => acc.know P x) m) := by
  intro l
  induction l with
  | nil => intro m; exact Machine.sameHeaps_refl m
  | cons a l ih => intro m; exact Machine.sameHeaps_trans (know_sameHeaps P m a) (ih _)

theorem get_known_id_sameHeaps {P : Prog} {m m1 : Machine} {i : Int} {p : Ptr}
    (h : get_known_id P m i = (p, m1)) : m.sameHeaps m1 := by
  unfold get_known_id at h
  split at h
  · cases h; exact Machine.sameHeaps_refl m
  · cases h; exact foldl_know_sameHeaps P _ m

theorem cmd_print_sameHeaps {P : Prog} {frame : Option IFrame} {m r : Machine} {c : List Char}
    (h : cmd_print P frame m c = .ok r) : m.sameHeaps r := by
  unfold cmd_print at h
  split at h
  · split at h
    · exact cmd_print_found_sameHeaps h
    · simp only [pure_ok] at h; subst h; exact Machine.sameHeaps_refl m
  · split at h
    · simp only at h
      split at h
      · simp only [pure_ok] at h; subst h; exact Machine.sameHeaps_refl m
      · split at h
        · rename_i m1 hk
          simp only [pure_ok] at h; subst h
          exact get_known_id_sameHeaps hk
        · rename_i p m1 hk
          exact Machine.sameHeaps_trans (get_known_id_sameHeaps hk) (cmd_print_found_sameHeaps h)
    · split at h
      · simp [throw_ok] at h
      · simp only at h
        split at h
        · exact cmd_print_found_sameHeaps h
        · simp only [pure_ok] at h; subst h; exact Machine.sameHeaps_refl m

theorem cmd_bi_sameHeaps (P : Prog) (m : Machine) (c : List Char) :
    m.sameHeaps (cmd_bi P m c) := by
  unfold cmd_bi
  simp only
  split
  · exact Machine.sameHeaps_refl m
  · split
    · rename_i a m1 hk
      exact Machine.sameHeaps_trans (get_known_id_sameHeaps hk) ⟨rfl, rfl, rfl⟩
    · rename_i m1 hk
      exact get_known_id_sameHeaps hk

theorem cmd_trace_sameHeaps (m : Machine) (c : List Char) : m.sameHeaps (cmd_trace m c) := by
  unfold cmd_trace
  split
  · exact ⟨rfl, rfl, rfl⟩
  · split
    · exact ⟨rfl, rfl, rfl⟩
    · split <;> exact ⟨rfl, rfl, rfl⟩

theorem runProgram_sameHeaps (P : Prog) (m : Machine) : m.sameHeaps (runProgram P m) :=
  ⟨rfl, rfl, rfl⟩

theorem cmd_birm_sameHeaps (m : Machine) (c : List Char) : m.sameHeaps (cmd_birm m c) :=
  ⟨rfl, rfl, rfl⟩

theorem interactiveCmd_sameHeaps {P : Prog} {frame : Option IFrame} {m : Machine}
    {c : List Char} {r : Option Nat × Machine}
    (h : interactiveCmd P frame m c = .ok r) : m.sameHeaps r.2 := by
  unfold interactiveCmd at h
  cases hp : parseCmd c <;> rw [hp] at h <;> simp only at h
  case help => simp only [pure_ok] at h; subst h; exact ⟨rfl, rfl, rfl⟩
  case quit => simp only [throw_ok] at h
  case cont => simp only [pure_ok] at h; subst h; exact ⟨rfl, rfl, rfl⟩
  case step => simp only [pure_ok] at h; subst h; exact ⟨rfl, rfl, rfl⟩
  case next => simp only [pure_ok] at h; subst h; exact ⟨rfl, rfl, rfl⟩
  case print =>
    simp only [bind_ok, pure_ok] at h; obtain ⟨m1, h1, rfl⟩ := h
    exact cmd_print_sameHeaps h1
  case nprint =>
    simp only [bind_ok, pure_ok] at h; obtain ⟨m1, h1, rfl⟩ := h
    exact cmd_print_sameHeaps h1
  case whereCmd =>
    simp only [bind_ok, pure_ok] at h; obtain ⟨m1, h1, rfl⟩ := h
    exact cmd_where_sameHeaps h1
  case stack =>
    simp only [bind_ok, pure_ok] at h; obtain ⟨m1, h1, rfl⟩ := h
    exact cmd_stack_sameHeaps h1
  case locals =>
    simp only [bind_ok, pure_ok] at h; obtain ⟨m1, h1, rfl⟩ := h
    exact cmd_locals_sameHeaps h1
  case bi => simp only [pure_ok] at h; subst h; exact cmd_bi_sameHeaps P m _
  case birm => simp only [pure_ok] at h; subst h; exact ⟨rfl, rfl, rfl⟩
  case info => simp only [pure_ok] at h; subst h; exact ⟨rfl, rfl, rfl⟩
  case trace => simp only [pure_ok] at h; subst h; exact cmd_trace_sameHeaps m _
  case run =>
    split at h
    · simp only [pure_ok] at h; subst h; exact ⟨rfl, rfl, rfl⟩
    · simp only [bind_ok, pure_ok] at h
      obtain ⟨t, _, rfl⟩ := h
      exact ⟨rfl, rfl, rfl⟩
  case exit => simp only [throw_ok] at h
  case unknown => simp only [pure_ok] at h; subst h; exact ⟨rfl, rfl, rfl⟩

theorem readCmd_sameHeaps (m : Machine) (line : List Char) (rest : List (List Char)) :
    m.sameHeaps (readCmd m line rest).2 := by
  unfold readCmd
  simp only
  split <;> exact ⟨rfl, rfl, rfl⟩

theorem interactiveLoop_sameHeaps {P : Prog} {frame : Option IFrame} :
    ∀ (inp : List (List Char)) (m : Machine) (r : Nat × Machine),
      interactiveLoop P frame inp m = .ok r → m.sameHeaps r.2 := by
  intro inp
  induction inp with
  | nil => intro m r h; simp [interactiveLoop, throw_ok] at h
  | cons line rest ih =>
    intro m r h
    unfold interactiveLoop at h
    split at h
    · simp [throw_ok] at h
    · rename_i r1 m1 hc
      simp only [pure_ok] at h; subst h
      exact Machine.sameHeaps_trans (readCmd_sameHeaps m line rest) (interactiveCmd_sameHeaps hc)
    · rename_i m1 hc
      exact Machine.sameHeaps_trans (readCmd_sameHeaps m line rest)
        (Machine.sameHeaps_trans (interactiveCmd_sameHeaps hc) (ih _ _ h))

theorem interactive_sameHeaps {P : Prog} {frame : Option IFrame} {m : Machine}
    {r : Nat × Machine} (h : interactive P frame m = .ok r) : m.sameHeaps r.2 := by
  unfold interactive at h
  split at h
  · simp only [bind_ok] at h
    obtain ⟨m1, h1, h2⟩ := h
    exact Machine.sameHeaps_trans (showNode_sameHeaps h1) (interactiveLoop_sameHeaps _ _ _ h2)
  · simp only [pure_bind_eq] at h
    exact interactiveLoop_sameHeaps _ _ _ h

theorem errorInteractiveLoop_sameHeaps {P : Prog} {f : IFrame} :
    ∀ (n : Nat) (m r : Machine), errorInteractiveLoop P f n m = .ok r → m.sameHeaps r := by
  intro n
  induction n with
  | zero => intro m r h; simp [errorInteractiveLoop, throw_ok] at h
  | succ n ih =>
    intro m r h
    unfold errorInteractiveLoop at h
    simp only [bind_ok] at h
    obtain ⟨⟨x, m1⟩, h1, t, _, h2⟩ := h
    have hs := interactive_sameHeaps h1
    split at h2
    · exact Machine.sameHeaps_trans hs (ih _ _ h2)
    · simp only [pure_ok] at h2; subst h2; exact hs

/-- What `user_error` leaves behind when it returns: the heaps of frames and slots are the
same and the message is the last one printed. -/
theorem user_error_ok {P : Prog} {f : IFrame} {m r : Machine} {msg : String}
    (h : user_error P f m msg = .ok r) :
    r.frames = m.frames ∧ r.slots = m.slots ∧ r.errors = m.errors ++ [msg] := by
  unfold user_error at h
  simp only at h
  split at h
  · have := errorInteractiveLoop_sameHeaps _ _ _ h
    exact ⟨this.1, this.2.1, this.2.2⟩
  · simp [throw_ok] at h

/-- Outside interactive mode `user_error` ends the process. -/
theorem user_error_fatal (P : Prog) (f : IFrame) (m : Machine) (msg : String)
    (h : m.run_interpreter ≤ 1) : user_error P f m msg = .error (Fault.userError msg) := by
  unfold user_error
  simp only
  rw [if_neg (by omega)]
  rfl

theorem icall_selector_eq (P : Prog) (this : Nat) (f : IFrame) (m : Machine) (nargs a : Nat)
    (name : String) (ipa scope : Nat)
    (hn : 1 ≤ nargs) (hlen : nargs ≤ f.valStack.length)
    (harg : f.valStack[f.valStack.length - nargs]? = some (some a))
    (hslot : m.slots[a]? = some (ISlot.selector name))
    (hip : f.ip = some ipa) (hscope : (P.node ipa).parentScope = some scope) :
    icall P this f m nargs =
      match P.getVisibleFunctions scope name with
      | [fn] => icallFn P this f m fn nargs
      | _ => user_error P f m (unresolvedMsg name) >>= fun m1 => pure (f, m1) := by
  unfold icall
  rw [if_neg (by omega), if_neg (by omega)]
  simp only [harg, hslot, hip, hscope, pure_bind_eq, Ptr.addr, heapGet, Prog.deref, unresolvedMsg]

theorem chainMismatch_of_differs :
    ∀ (ps : List Nat) (qs : List Ptr) (i p : Nat),
      ps[i]? = some p → qs[i]? ≠ some (some p) → chainMismatch ps qs = true := by
  intro ps
  induction ps with
  | nil => intro qs i p h; simp at h
  | cons a ps ih =>
    intro qs i p h hq
    cases qs with
    | nil => rfl
    | cons q qs =>
      cases i with
      | zero =>
        simp only [List.getElem?_cons_zero, Option.some.injEq] at h hq
        subst h
        unfold chainMismatch
        rw [if_pos]
        simp only [bne_iff_ne, ne_eq]
        intro hh
        apply hq
        simp [← hh]
      | succ i =>
        simp only [List.getElem?_cons_succ] at h hq
        unfold chainMismatch
        split
        · rfl
        · exact ih qs i p h hq

theorem user_error_bind_ok {α : Type} {P : Prog} {f : IFrame} {m : Machine} {msg : String}
    {k : Machine → α} {r : α}
    (h : (user_error P f m msg >>= fun m1 => pure (k m1)) = .ok r) :
    ∃ m1, r = k m1 ∧ m1.frames = m.frames ∧ m1.slots = m.slots ∧
      m1.errors = m.errors ++ [msg] := by
  simp only [bind_ok, pure_ok] at h
  obtain ⟨m1, h1, rfl⟩ := h
  exact ⟨m1, rfl, user_error_ok h1⟩

theorem user_error_bind_fatal {α : Type} (P : Prog) (f : IFrame) (m : Machine) (msg : String)
    (k : Machine → Except Fault α) (h : m.run_interpreter ≤ 1) :
    (user_error P f m msg >>= k) = .error (Fault.userError msg) := by
  rw [user_error_fatal P f m msg h]
  rfl

theorem icall_symbol_fn_eq (P : Prog) (this : Nat) (f : IFrame) (m : Machine) (nargs a fn : Nat)
    (hn : 1 ≤ nargs) (hlen : nargs ≤ f.valStack.length)
    (harg : f.valStack[f.valStack.length - nargs]? = some (some a))
    (hslot : m.slots[a]? = some (ISlot.symbol (some fn)))
    (hfn : (P.node fn).astType = AstTag.SYMBOL_FN) :
    icall P this f m nargs = icallFn P this f m fn nargs := by
  unfold icall
  rw [if_neg (by omega), if_neg (by omega)]
  simp only [harg, hslot, hfn, pure_bind_eq, Ptr.addr, heapGet, Prog.deref, if_true]

theorem icall_error_eq (P : Prog) (this : Nat) (f : IFrame) (m : Machine) (nargs a : Nat)
    (slot : ISlot)
    (hn : 1 ≤ nargs) (hlen : nargs ≤ f.valStack.length)
    (harg : f.valStack[f.valStack.length - nargs]? = some (some a))
    (hslot : m.slots[a]? = some slot)
    (hkind : (∃ sym, slot = ISlot.symbol (some sym) ∧ (P.node sym).astType ≠ AstTag.SYMBOL_FN) ∨
      slot = ISlot.empty ∨ slot = ISlot.uninitialized ∨ (∃ o, slot = ISlot.object o) ∨
      (∃ i, slot = ISlot.immediate i)) :
    icall P this f m nargs =
      (user_error P f m "call to something other than function name or closure" >>=
        fun m1 => pure (f, m1)) := by
  unfold icall
  rw [if_neg (by omega), if_neg (by omega)]
  rcases hkind with ⟨sym, rfl, hs⟩ | rfl | rfl | ⟨o, rfl⟩ | ⟨i, rfl⟩ <;>
    simp only [harg, hslot, pure_bind_eq, Ptr.addr, heapGet, Prog.deref]
  rw [if_neg hs]

theorem subN_ok {α : Type} (v : List α) (k : Nat) (h : k ≤ v.length) :
    Vec.subN v k = .ok (v.take (v.length - k)) := by
  unfold Vec.subN
  rw [if_pos h]
  rfl

theorem subN_length {α : Type} {v r : List α} {k : Nat} (h : Vec.subN v k = .ok r) :
    r.length + k = v.length := by
  unfold Vec.subN at h
  split at h
  · simp only [pure_ok] at h
    subst h
    simp only [List.length_take]
    omega
  · simp [throw_ok] at h

/-- The operand stack of the frame that `icallFn` returns is shorter by `nargs`. -/
theorem icallFn_valStack {P : Prog} {this : Nat} {f : IFrame} {m : Machine} {fn nargs : Nat}
    {r : IFrame × Machine} (h : icallFn P this f m fn nargs = .ok r) :
    r.1.valStack.length + nargs = f.valStack.length := by
  unfold icallFn at h
  simp only [bind_ok] at h
  obtain ⟨first, _, h⟩ := h
  split at h
  · simp only [bind_ok, pure_ok] at h
    obtain ⟨vs, hvs, rfl⟩ := h
    exact subN_length hvs
  · simp only [bind_ok, pure_ok] at h
    obtain ⟨t, _, vs, hvs, rfl⟩ := h
    exact subN_length hvs

theorem callMark_fields (P : Prog) (m : Machine) (fn : Nat) :
    (callMark P m fn).frames = m.frames ∧ (callMark P m fn).threadHeap = m.threadHeap ∧
      (callMark P m fn).slots = m.slots ∧ (callMark P m fn).single_step = m.single_step := by
  unfold callMark
  simp only
  split <;> split <;> exact ⟨rfl, rfl, rfl, rfl⟩

theorem calleeFrame_fields (this : Nat) (f : IFrame) (m : Machine) (fn : Nat) (first : Ptr) :
    let g := calleeFrame this f m fn first
    g.thread = f.thread ∧ g.parent = some this ∧ g.function = some fn ∧ g.ip = first ∧
      g.stmt = first ∧ g.expr = none ∧ g.stage = 0 ∧ g.stmtStack = [] ∧ g.stageStack = [] ∧
      g.exprStack = [] ∧ g.valStack = [] ∧ g.env = [] := by
  unfold calleeFrame
  simp only
  split <;> exact ⟨rfl, rfl, rfl, rfl, rfl, rfl, rfl, rfl, rfl, rfl, rfl, rfl⟩

/-- The result of `icallFn` on a frame whose `ip` is null. -/
theorem icallFn_null_ip (P : Prog) (this : Nat) (f : IFrame) (m : Machine) (fn nargs : Nat)
    (first : Ptr) (hip : f.ip = none) (hfirst : fnFirstStmt P fn = .ok first)
    (hlen : nargs ≤ f.valStack.length) :
    icallFn P this f m fn nargs =
      .ok ({ f with function := some fn, ip := first, stmt := first,
                    valStack := f.valStack.take (f.valStack.length - nargs) },
        callMark P m fn) := by
  unfold icallFn
  simp only [hfirst, hip, subN_ok f.valStack nargs hlen]
  rfl

/-- The result of `icallFn` on a frame whose `ip` is not null. -/
theorem icallFn_new_frame (P : Prog) (this : Nat) (f : IFrame) (m : Machine) (fn nargs : Nat)
    (first : Ptr) (ipa : Nat) (t : IThread) (hip : f.ip = some ipa)
    (hfirst : fnFirstStmt P fn = .ok first) (hlen : nargs ≤ f.valStack.length)
    (ht : m.threadHeap[f.thread]? = some t) :
    ∃ m1, icallFn P this f m fn nargs =
        .ok ({ f with valStack := f.valStack.take (f.valStack.length - nargs) }, m1) ∧
      m1.frames = m.frames ++ [calleeFrame this f (callMark P m fn) fn first] ∧
      m1.threadHeap = m.threadHeap.set f.thread { t with frame := some m.frames.length } ∧
      m1.slots = m.slots := by
  have hm := callMark_fields P m fn
  have ht2 : heapGet (if (callMark P m fn).single_step = NEXT_STEP then
      { callMark P m fn with single_step := NO_STEP } else callMark P m fn).threadHeap f.thread
      = .ok t := by
    rw [heapGet_ok]
    split <;> simp only [hm.2.1, ht]
  unfold icallFn
  simp only [hfirst, hip, subN_ok f.valStack nargs hlen, ht2]
  refine ⟨_, rfl, ?_, ?_, ?_⟩
  · split <;> simp only [hm.1]
  · split <;> simp only [hm.1, hm.2.1]
  · split <;> simp only [hm.2.2.1]

theorem icall_selector_unresolved (P : Prog) (this : Nat) (f : IFrame) (m : Machine)
    (nargs a : Nat) (name : String) (ipa scope : Nat)
    (hn : 1 ≤ nargs) (hlen : nargs ≤ f.valStack.length)
    (harg : f.valStack[f.valStack.length - nargs]? = some (some a))
    (hslot : m.slots[a]? = some (ISlot.selector name))
    (hip : f.ip = some ipa) (hscope : (P.node ipa).parentScope = some scope)
    (hv : (P.getVisibleFunctions scope name).length ≠ 1) :
    icall P this f m nargs =
      (user_error P f m (unresolvedMsg name) >>= fun m1 => pure (f, m1)) := by
  rw [icall_selector_eq P this f m nargs a name ipa scope hn hlen harg hslot hip hscope]
  split
  · rename_i fn hfn
    rw [hfn] at hv
    exact absurd rfl hv
  · rfl

theorem setN_ok {α : Type} {v r : List α} {k : Nat} (h : Vec.setN v k = .ok r) :
    r = v.take k ∧ k ≤ v.length := by
  unfold Vec.setN at h
  split at h
  · simp only [pure_ok] at h
    exact ⟨h.symm, by assumption⟩
  · simp [throw_ok] at h

/-- What a goto that `igoto` accepts does to the frame: the continuation stacks are cut to
the depth of the target, `stmt` is the target, and `ip` and `expr` are null. -/
theorem igoto_accepts {P : Prog} {fuel : Nat} {f f1 : IFrame} {m m1 : Machine} {s : Nat}
    (h : igoto P fuel f m s = .ok (0, f1, m1)) :
    ∃ chain, parentChain P fuel s = some chain ∧ chain.length ≤ f.stmtStack.length ∧
      f1 = { f with stage := 0, stmt := some s, ip := none, expr := none, valStack := [],
                    stageStack := f.stageStack.take chain.length,
                    stmtStack := f.stmtStack.take chain.length } ∧
      m1 = m := by
  unfold igoto at h
  cases hc : parentChain P fuel s with
  | none => simp [hc, throw_bind_ok] at h
  | some chain =>
    simp only [hc, pure_bind_eq] at h
    split at h
    · simp only [bind_ok, pure_ok] at h
      obtain ⟨_, _, h⟩ := h
      simp at h
    · rename_i hlen
      split at h
      · simp only [bind_ok, pure_ok] at h
        obtain ⟨_, _, h⟩ := h
        simp at h
      · simp only [bind_ok] at h
        obtain ⟨d, _, h⟩ := h
        split at h
        · simp only [bind_ok, pure_ok] at h
          obtain ⟨_, _, h⟩ := h
          simp at h
        · simp only [bind_ok, pure_ok] at h
          obtain ⟨stages, hst, stmts, hsm, h⟩ := h
          simp only [Prod.mk.injEq, true_and] at h
          obtain ⟨rfl, rfl⟩ := h
          have h1 := setN_ok hst
          have h2 := setN_ok hsm
          simp only [List.length_reverse] at h1 h2 hlen
          refine ⟨chain, rfl, by omega, ?_, rfl⟩
          rw [h1.1, h2.1]

/-- The step loop on a frame whose `ip` is null: unless the timeslice expires first, the
breakpoint test dereferences `ip`. -/
theorem runLoop_null_ip (P : Prog) (this fuel timeslice : Nat) (f : IFrame) (m : Machine)
    (hip : f.ip = none) (hts : timeslice ≠ 1) :
    runLoop P this (fuel + 1) timeslice f m = .error Fault.nullDeref := by
  unfold runLoop
  rw [if_neg hts, hip]
  rfl

/-- The loop of `birm` only ever adds the id given on the command line. -/
theorem birm_fold (i : Int) (ids acc : List Int) (hacc : acc = [] ∨ acc = [i]) :
    ids.foldl (fun acc z => if i = z then acc else Vec.set_add acc i) acc = [] ∨
      ids.foldl (fun acc z => if i = z then acc else Vec.set_add acc i) acc = [i] := by
  induction ids generalizing acc with
  | nil => exact hacc
  | cons z rest ih =>
    rw [List.foldl_cons]
    apply ih
    by_cases hz : i = z
    · rw [if_pos hz]
      exact hacc
    · rw [if_neg hz]
      unfold Vec.set_add
      rcases hacc with h | h
      · subst h
        by_cases h0 : i = 0
        · simp [h0]
        · simp [h0]
      · subst h
        simp

/-- Popping a vector whose last element is known. -/
theorem Vec.pop_append {α : Type} (zero : α) (v : List α) (x : α) :
    Vec.pop zero (v ++ [x]) = (x, v) := by
  unfold Vec.pop
  simp

/-- The slot an operand-stack pointer refers to. -/
theorem slotAt_some (m : Machine) (a : Nat) (s : ISlot) (h : m.slots[a]? = some s) :
    slotAt m (some a) = .ok s := by
  unfold slotAt Ptr.addr heapGet
  simp only [pure_bind_eq, h]
  rfl

/-- Stage 1 of a conditional statement on a boolean condition: the selected branch becomes
`stmt`, the conditional statement the continuation. -/
theorem execCondStmt_bool (f : IFrame) (m : Machine) (s : BaseAST) (vs : List Ptr) (a : Nat)
    (b : Bool) (hstage : f.stage = 1) (hvs : f.valStack = vs ++ [some a])
    (hslot : m.slots[a]? = some (ISlot.immediate (Immediate.bool b))) :
    execCondStmt f m s
      = .ok (Ctl.next,
          EVAL_STMT { f with stage := 0, valStack := vs } (if b then s.thenStmt else s.elseStmt),
          m) := by
  unfold execCondStmt
  rw [if_neg (by rw [hstage]; decide), if_pos hstage, hvs, Vec.pop_append]
  simp only [slotAt_some m a _ hslot]
  rfl

/-- The block at `LnextExpr` after `EVAL_STMT` has selected a statement `br` without a next
sibling from the statement `ip` at stage 0: the continuation is popped at once and the
frame moves on to the statement `n` that follows `ip`; `br` is not executed. -/
theorem nextExpr_after_EVAL_STMT_last (P : Prog) (f : IFrame) (m : Machine) (ip br n : Nat)
    (hstage : f.stage = 0) (hexpr : f.expr = none) (hstmt : f.stmt = some ip)
    (hlast : (P.node br).next = none) (hnext : (P.node ip).next = some n)
    (hbal : f.stageStack.length = f.exprStack.length + f.stmtStack.length) :
    nextExpr P (EVAL_STMT f (some br)) m
      = .ok (false, { f with stmt := some n, ip := some n, valStack := [] }, m) := by
  unfold nextExpr EVAL_STMT
  simp only [hstage, hexpr, ne_eq, not_true_eq_false, if_false, Option.isSome_none,
    Bool.false_eq_true, Option.isNone_none, and_self, if_true, Prog.deref, pure_bind_eq, hlast,
    List.length_append, List.length_singleton]
  unfold unwind
  simp only [Vec.pop_append, hstmt]
  unfold unwind
  simp only [hnext, zero_add]
  have h0 : ¬ ((1 : Int) - 1 < 0) := by decide
  simp only [h0, if_false, pure_bind_eq]
  unfold checkAsserts
  simp [hexpr, hbal]
  rfl

/-- The trace of an instruction leaves the slot heap alone. -/
theorem traceS_slots (P : Prog) (m : Machine) (ip : Nat) : (traceS P m ip).slots = m.slots := by
  unfold traceS
  split
  · exact (know_sameHeaps P m ip).2.1
  · rfl

/-- The block at `LnextExpr` after `EVAL_STMT` has selected a statement `first` that has a
next sibling `second`, at stage 0: the frame moves on to `second`; `first` is not
executed. -/
theorem nextExpr_after_EVAL_STMT_next (P : Prog) (f : IFrame) (m : Machine)
    (first second : Nat) (hstage : f.stage = 0) (hexpr : f.expr = none)
    (hnext : (P.node first).next = some second)
    (hbal : f.stageStack.length = f.exprStack.length + f.stmtStack.length) :
    nextExpr P (EVAL_STMT f (some first)) m
      = .ok (false,
          { EVAL_STMT f (some first) with stmt := some second, ip := some second,
                                          valStack := [] }, m) := by
  unfold nextExpr EVAL_STMT
  simp only [hstage, hexpr, ne_eq, not_true_eq_false, if_false, Option.isSome_none,
    Bool.false_eq_true, Option.isNone_none, and_self, if_true, Prog.deref, pure_bind_eq, hnext,
    List.length_append, List.length_singleton]
  unfold unwind
  simp only [pure_bind_eq]
  unfold checkAsserts
  simp [hexpr, hbal]
  rw [if_pos (by omega)]
  rfl

/-- Sequencing after a computed value. -/
theorem ok_bind_eq {ε α β : Type} (a : α) (f : α → Except ε β) :
    ((Except.ok a : Except ε α) >>= f) = f a := rfl

/-- Sequencing after a fault. -/
theorem error_bind_eq {ε α β : Type} (e : ε) (f : α → Except ε β) :
    ((Except.error e : Except ε α) >>= f) = Except.error e := rfl

/-- The function `check_type` returns for every slot that is neither empty nor
uninitialized: the type it is given is not looked at. -/
theorem check_type_ok (cond : ISlot) (hne : cond ≠ ISlot.empty)
    (hnu : cond ≠ ISlot.uninitialized) : check_type cond = .ok () := by
  cases cond <;> first | rfl | exact absurd rfl hne | exact absurd rfl hnu

/-- The read of `v_bool` from a slot that holds no boolean immediate. -/
theorem v_bool_bad (cond : ISlot) (hnb : ∀ b, cond ≠ ISlot.immediate (Immediate.bool b)) :
    v_bool cond = .error Fault.badUnion := by
  cases cond with
  | immediate imm =>
    cases imm with
    | bool b => exact absurd rfl (hnb b)
    | int v => rfl
    | string v => rfl
  | _ => rfl

/-- The slot of a node that the environment binds. -/
theorem islot_bound (f : IFrame) (m : Machine) (c a : Nat) (h : Map.get f.env c = some a) :
    f.islot m c = (a, f, m) := by
  unfold IFrame.islot
  rw [h]

/-- The four places that consume a condition end in the fault of `check_type` when it
refuses the slot. -/
theorem condition_sites_refused (f : IFrame) (m : Machine) (s : BaseAST) (vs : List Ptr)
    (a : Nat) (cond : ISlot) (e : Fault) (hstage : f.stage = 1)
    (hvs : f.valStack = vs ++ [some a]) (hslot : m.slots[a]? = some cond)
    (hc : check_type cond = .error e) :
    execCondStmt f m s = .error e ∧
    execCondExpr f m s = .error e ∧
    (∀ c, s.condition = some c → Map.get f.env c = some a →
      execWhile { f with stage := 2 } m s = .error e) ∧
    (∀ (P : Prog) (this ip ind it : Nat), s.indices = some [ind] → s.iterators = some [it] →
      execFor P this { f with stage := 3 } m ip s = .error e) := by
  refine ⟨?_, ?_, ?_, ?_⟩
  · unfold execCondStmt
    rw [if_neg (by rw [hstage]; decide), if_pos hstage, hvs, Vec.pop_append]
    simp only [slotAt_some m a _ hslot, ok_bind_eq, hc, error_bind_eq]
  · unfold execCondExpr
    rw [if_neg (by rw [hstage]; decide), if_pos hstage, hvs, Vec.pop_append]
    simp only [slotAt_some m a _ hslot, ok_bind_eq, hc, error_bind_eq]
  · intro c hcond henv
    unfold execWhile
    simp only [hcond, Ptr.addr, pure_bind_eq]
    rw [if_neg (by decide), if_neg (by decide), if_pos trivial]
    rw [islot_bound { f with stage := 2 } m c a henv]
    simp only [(heapGet_ok m.slots a cond).2 hslot, ok_bind_eq, hc, error_bind_eq]
  · intro P this ip ind it hind hit
    unfold execFor
    simp only [hind, hit]
    rw [if_neg (by decide), if_neg (by decide), if_neg (by decide), if_pos trivial]
    simp only [hvs, Vec.pop_append, slotAt_some m a _ hslot, ok_bind_eq, hc, error_bind_eq]

/-- The method `islot` leaves the operand stack alone. -/
theorem islot_valStack (f : IFrame) (m : Machine) (d : Nat) :
    (f.islot m d).2.1.valStack = f.valStack := by
  unfold IFrame.islot
  cases Map.get f.env d <;> rfl

/-- The method `islot` leaves the slots that exist as they are. -/
theorem islot_slots (f : IFrame) (m : Machine) (d a : Nat) (v : ISlot)
    (h : m.slots[a]? = some v) : (f.islot m d).2.2.slots[a]? = some v := by
  unfold IFrame.islot
  cases Map.get f.env d with
  | some x => exact h
  | none =>
    have ha : a < m.slots.length := by
      rcases Nat.lt_or_ge a m.slots.length with hlt | hge
      · exact hlt
      · rw [List.getElem?_eq_none hge] at h
        cases h
    show (m.slots ++ [ISlot.empty])[a]? = some v
    rw [List.getElem?_append_left ha]
    exact h

/-- The macro `POP_VAL` copies the contents of the popped slot, whatever they are. -/
theorem POP_VAL_copies (f : IFrame) (m : Machine) (d a : Nat) (vs : List Ptr) (v : ISlot)
    (hvs : f.valStack = vs ++ [some a]) (hslot : m.slots[a]? = some v) :
    POP_VAL f m (some d)
      = .ok ({ (f.islot m d).2.1 with valStack := vs },
          (f.islot m d).2.2.setSlot (f.islot m d).1 v) := by
  unfold POP_VAL
  simp only [Ptr.addr, pure_bind_eq, islot_valStack, hvs, Vec.pop_append,
    (heapGet_ok _ a v).2 (islot_slots f m d a v hslot), ok_bind_eq]
  rfl

/-- A symbol expression whose variable the environment binds copies the slot of the
variable, whatever it holds. -/
theorem execSym_bound (P : Prog) (f : IFrame) (m : Machine) (ip var a : Nat) (s : BaseAST)
    (v : ISlot) (hvar : s.var = some var) (henv : Map.get f.env var = some a)
    (hslot : m.slots[a]? = some v) :
    execSym P f m ip s
      = .ok (match Map.get f.env ip with
          | some e => (Ctl.next, f, m.setSlot e v)
          | none => (Ctl.next, { f with env := Map.put f.env ip a }, m)) := by
  unfold execSym
  simp only [hvar, Ptr.addr, pure_bind_eq, henv]
  cases Map.get f.env ip with
  | some e =>
    simp only [(heapGet_ok m.slots a v).2 hslot, ok_bind_eq]
    rfl
  | none => rfl

/-- A binding put under one key is not seen under another. -/
theorem Map.get_put_ne (m : List (Nat × Nat)) (k v k2 : Nat) (h : k2 ≠ k) :
    Map.get (Map.put m k v) k2 = Map.get m k2 := by
  unfold Map.put Map.get
  split
  · congr 1
    clear * - h
    induction m with
    | nil => rfl
    | cons e rest ih =>
      simp only [List.map_cons, List.find?_cons]
      by_cases he : e.1 = k
      · have h1 : (e.1 == k) = true := by simpa using he
        have h2 : (e.1 == k2) = false := by
          simp only [beq_eq_false_iff_ne, ne_eq]
          rw [he]
          exact fun hh => h hh.symm
        have h3 : (k == k2) = false := by
          simp only [beq_eq_false_iff_ne, ne_eq]
          exact fun hh => h hh.symm
        simp only [h1, if_true, h2, h3]
        exact ih
      · have h1 : (e.1 == k) = false := by simpa using he
        simp only [h1, Bool.false_eq_true, if_false]
        cases h2 : (e.1 == k2)
        · exact ih
        · rfl
  · congr 1
    rw [List.find?_append]
    have h3 : (k == k2) = false := by
      simp only [beq_eq_false_iff_ne, ne_eq]
      exact fun hh => h hh.symm
    simp [List.find?_cons, h3]

/-- The method `islot` changes no binding of another node. -/
theorem islot_env_ne (f : IFrame) (m : Machine) (d k : Nat) (h : k ≠ d) :
    Map.get (f.islot m d).2.1.env k = Map.get f.env k := by
  unfold IFrame.islot
  cases hd : Map.get f.env d with
  | some x => rfl
  | none => exact Map.get_put_ne f.env d _ k h

/-- A binding put under a key is the one found under it. -/
theorem Map.get_put_self (m : List (Nat × Nat)) (k v : Nat) :
    Map.get (Map.put m k v) k = some v := by
  unfold Map.put Map.get
  split
  · rename_i hany
    induction m with
    | nil => simp at hany
    | cons e rest ih =>
      simp only [List.map_cons, List.find?_cons]
      by_cases he : e.1 = k
      · have h1 : (e.1 == k) = true := by simpa using he
        simp [h1]
      · have h1 : (e.1 == k) = false := by simpa using he
        simp only [h1, Bool.false_eq_true, if_false]
        apply ih
        simpa [h1] using hany
  · rename_i hany
    rw [List.find?_append]
    have hnone : List.find? (fun e => e.1 == k) m = none := by
      rw [List.find?_eq_none]
      intro x hx hxk
      exact hany (List.any_eq_true.2 ⟨x, hx, hxk⟩)
    simp [hnone]

/-- The method `islot` binds the node to the slot it returns. -/
theorem islot_get_self (f : IFrame) (m : Machine) (d : Nat) :
    Map.get (f.islot m d).2.1.env d = some (f.islot m d).1 := by
  unfold IFrame.islot
  cases hd : Map.get f.env d with
  | some x => exact hd
  | none => exact Map.get_put_self f.env d _

/-- Stage 1 of a conditional expression on a boolean condition: `EVAL_EXPR` makes the branch
`br` current, and the binding that follows is made under `br`. -/
theorem execCondExpr_bool (f : IFrame) (m : Machine) (s : BaseAST) (vs : List Ptr)
    (a th el : Nat) (b : Bool) (hstage : f.stage = 1) (hvs : f.valStack = vs ++ [some a])
    (hslot : m.slots[a]? = some (ISlot.immediate (Immediate.bool b)))
    (hth : s.thenExpr = some th) (hel : s.elseExpr = some el) :
    execCondExpr f m s
      = (let br := if b then th else el
         let f2 : IFrame :=
           { f with stage := 0, valStack := vs, stageStack := f.stageStack ++ [1, 1],
                    exprStack := f.exprStack ++ [some br], expr := some br }
         let r := f2.islot m th
         .ok (Ctl.next, { r.2.1 with env := Map.put r.2.1.env br r.1 }, r.2.2)) := by
  unfold execCondExpr
  rw [if_neg (by rw [hstage]; decide), if_pos hstage, hvs, Vec.pop_append]
  simp only [slotAt_some m a _ hslot, ok_bind_eq, hth, hel]
  cases b <;>
    simp only [check_type, v_bool, pure_bind_eq, EVAL_EXPR, ne_eq, not_true_eq_false,
      and_false, if_false, Bool.false_eq_true, if_true, Ptr.addr] <;> rfl
/-- One round of the step loop without the debugger: the instruction at `ip`, then the block
at `LnextExpr`; the timeslice of 2 expires at the start of the next round. -/
theorem runLoop_one (P : Prog) (this fuel : Nat) (f f1 f2 : IFrame) (m m1 m2 : Machine)
    (ipa : Nat) (hip : f.ip = some ipa) (hbreak : m.break_ids = [])
    (hint : m.interrupted = false)
    (hexec : exec P (fuel + 1) this f m ipa = .ok (Ctl.next, f1, m1))
    (htail : loopTail P f1 m1 = .ok (false, f2, m2)) :
    runLoop P this (fuel + 2) 2 f m = .ok (0, f2, m2) := by
  unfold runLoop
  rw [if_neg (by decide), hip]
  simp only [Ptr.addr, pure_bind_eq, hbreak, Vec.inVec, List.not_mem_nil, decide_False,
    Bool.false_eq_true, if_false, hint, hexec, ok_bind_eq, htail]
  unfold runLoop
  rfl

/-- With a quiet machine nothing is traced. -/
theorem traceS_quiet (P : Prog) (m : Machine) (ip : Nat) (h : m.trace_level = 0) :
    traceS P m ip = m := by
  unfold traceS
  rw [h]
  rfl

/-- The block at `LnextExpr` does nothing at a non-zero stage. -/
theorem loopTail_stage (P : Prog) (f : IFrame) (m : Machine) (hstage : f.stage ≠ 0)
    (hstep : m.single_step = 0) : loopTail P f m = .ok (false, f, m) := by
  unfold loopTail nextExpr
  rw [if_pos hstage]
  simp only [pure_bind_eq, hstep]
  rfl
/-- What the method `islot` returns: the frame differs in the environment only, which binds
the node to the slot returned and every other node as before; the machine differs in the
slot heap only, which keeps the slots it had. -/
theorem islot_spec (f g : IFrame) (m m2 : Machine) (d sl : Nat)
    (h : f.islot m d = (sl, g, m2)) :
    g = { f with env := g.env } ∧ Map.get g.env d = some sl ∧
    (∀ k, k ≠ d → Map.get g.env k = Map.get f.env k) ∧
    m2 = { m with slots := m2.slots } ∧
    (∀ (a : Nat) (v : ISlot), m.slots[a]? = some v → m2.slots[a]? = some v) ∧
    m.slots.length ≤ m2.slots.length ∧
    (f.envValid m → sl < m2.slots.length ∧ g.envValid m2) := by
  have h1 : (f.islot m d).1 = sl := by rw [h]
  have h2 : (f.islot m d).2.1 = g := by rw [h]
  have h3 : (f.islot m d).2.2 = m2 := by rw [h]
  refine ⟨?_, ?_, ?_, ?_, ?_, ?_, ?_⟩
  · rw [← h2]
    unfold IFrame.islot
    cases Map.get f.env d <;> rfl
  · rw [← h2, ← h1]
    exact islot_get_self f m d
  · intro k hk
    rw [← h2]
    exact islot_env_ne f m d k hk
  · rw [← h3]
    unfold IFrame.islot
    cases Map.get f.env d <;> rfl
  · intro a v hv
    rw [← h3]
    exact islot_slots f m d a v hv
  · rw [← h3]
    unfold IFrame.islot
    cases Map.get f.env d with
    | some x => exact Nat.le_refl _
    | none =>
      show m.slots.length ≤ (m.slots ++ [ISlot.empty]).length
      simp
  · intro hv
    rw [← h1, ← h2, ← h3]
    unfold IFrame.islot
    cases hd : Map.get f.env d with
    | some x => exact ⟨hv d x hd, hv⟩
    | none =>
      refine ⟨?_, ?_⟩
      · show m.slots.length < (m.slots ++ [ISlot.empty]).length
        simp
      · intro k a hka
        show a < (m.slots ++ [ISlot.empty]).length
        rw [List.length_append, List.length_singleton]
        by_cases hkd : k = d
        · subst hkd
          have : Map.get (Map.put f.env k m.slots.length) k = some a := hka
          rw [Map.get_put_self] at this
          cases this
          exact Nat.lt_succ_self _
        · have : Map.get (Map.put f.env d m.slots.length) k = some a := hka
          rw [Map.get_put_ne _ _ _ _ hkd] at this
          exact Nat.lt_succ_of_lt (hv k a this)
/-- Stage 0 of a move with two arguments: the stage becomes 2, no argument is pushed. -/
theorem execCall_move_start (P : Prog) (this : Nat) (f : IFrame) (m : Machine) (s : BaseAST)
    (hop : s.opTag = OpTag.OP_MOVE) (hlen : s.argList.length = 2) (hstage : f.stage = 0) :
    execCall P this f m s = .ok (Ctl.next, { f with stage := 2 }, m) := by
  unfold execCall
  simp only [hstage, if_true, hop, hlen, ne_eq, not_true_eq_false, if_false]
  rfl

/-- A move with another number of arguments is refused at stage 0. -/
theorem execCall_move_count (P : Prog) (this : Nat) (f : IFrame) (m : Machine) (s : BaseAST)
    (hop : s.opTag = OpTag.OP_MOVE) (hlen : s.argList.length ≠ 2) (hstage : f.stage = 0) :
    execCall P this f m s
      = .error (Fault.intFatal "illegal number of arguments for MOVE") := by
  unfold execCall
  simp only [hstage, if_true, hop, ne_eq, hlen, not_false_eq_true]
  rfl

/-- Stage 2 of a call with two arguments inside an expression: `PUSH_EXPR` of the second
argument. -/
theorem execCall_second_arg (P : Prog) (this : Nat) (f g : IFrame) (m m2 : Machine)
    (s : BaseAST) (tgt src sl : Nat) (hargs : s.argList = [tgt, src])
    (hstage : f.stage = 2) (hexpr : f.expr.isSome)
    (hisl : IFrame.islot { f with stage := 3, exprStack := f.exprStack ++ [f.expr],
                                  stageStack := f.stageStack ++ [4] } m src = (sl, g, m2)) :
    execCall P this f m s
      = .ok (Ctl.next,
          { g with valStack := g.valStack ++ [some sl], stageStack := g.stageStack ++ [1],
                   exprStack := g.exprStack ++ [some src], stage := 0, expr := some src },
          m2) := by
  unfold execCall
  simp only [hstage, hargs]
  have hle : ((2 : Int) + 1 - 1 ≤ (([tgt, src] : List Nat).length : Int)) := by simp
  rw [if_neg (by decide), if_pos hle]
  unfold argGet
  rw [if_neg (by decide)]
  have h1 : ([tgt, src] : List Nat)[((2 : Int) + 1 - 1).toNat - 1]? = some src := rfl
  simp only [h1, pure_bind_eq]
  unfold PUSH_EXPR
  simp only [hexpr, true_and, ne_eq, show ((2 : Int) + 1 ≠ 0) from by decide,
    not_false_eq_true, if_true]
  have hX : IFrame.islot
      { f with stage := 2 + 1, exprStack := f.exprStack ++ [f.expr],
               stageStack := f.stageStack ++ [2 + 1 + 1] } m src = (sl, g, m2) := hisl
  rw [hX]
  rfl
/-- The block at `LnextExpr` when the current expression is done and an expression waits on
`exprStack`: the stage and the expression are popped, the waiting expression becomes `ip`. -/
theorem nextExpr_pop (P : Prog) (f : IFrame) (m : Machine) (S : List Int) (E : List Ptr)
    (sg : Int) (e : Nat) (hstage : f.stage = 0) (hexpr : f.expr.isSome)
    (hS : f.stageStack = S ++ [sg]) (hE : f.exprStack = E ++ [some e])
    (hbal : S.length = E.length + f.stmtStack.length + 1) :
    nextExpr P f m
      = .ok (false, { f with stage := sg - 1, stageStack := S, ip := some e, expr := some e,
                             exprStack := E }, m) := by
  unfold nextExpr
  have hne : ¬ (E.length + 1 = 0) := by omega
  simp only [hstage, ne_eq, not_true_eq_false, if_false, hexpr, if_true, hS, hE,
    Vec.pop_append, List.length_append, List.length_singleton, hne, not_false_eq_true,
    Option.isNone_some, Bool.false_eq_true, false_and]
  unfold checkAsserts
  simp only [Option.isSome_some, if_true, hbal]
  simp
  rfl

/-- The end of a round at stage 0 with a waiting expression, on a machine that is not
stepping. -/
theorem loopTail_pop (P : Prog) (f : IFrame) (m : Machine) (S : List Int) (E : List Ptr)
    (sg : Int) (e : Nat) (hstage : f.stage = 0) (hexpr : f.expr.isSome)
    (hS : f.stageStack = S ++ [sg]) (hE : f.exprStack = E ++ [some e])
    (hbal : S.length = E.length + f.stmtStack.length + 1) (hstep : m.single_step = 0) :
    loopTail P f m
      = .ok (false, { f with stage := sg - 1, stageStack := S, ip := some e, expr := some e,
                             exprStack := E }, m) := by
  unfold loopTail
  rw [nextExpr_pop P f m S E sg e hstage hexpr hS hE hbal]
  simp only [ok_bind_eq, hstep]
  rfl
/-- The last stage of a move with two arguments: `POP_VAL` into the variable of the target,
which must be a symbol expression. -/
theorem execCall_move_final (P : Prog) (this : Nat) (f : IFrame) (m : Machine) (s : BaseAST)
    (tgt src : Nat) (hop : s.opTag = OpTag.OP_MOVE) (hprim : s.primitive = false)
    (hargs : s.argList = [tgt, src]) (hstage : f.stage = 3) :
    execCall P this f m s
      = (if (P.node tgt).astType = AstTag.EXPR_SYM then
          POP_VAL { f with stage := 0 } m (P.node tgt).var >>= fun r =>
            pure (Ctl.next, r.1, r.2)
        else throw (Fault.intFatal "target of MOVE not an SymExpr")) := by
  unfold execCall
  simp only [hstage, hargs, hprim, hop]
  have hle : ¬ ((3 : Int) + 1 - 1 ≤ (([tgt, src] : List Nat).length : Int)) := by simp
  rw [if_neg (by decide), if_neg hle]
  simp only [Bool.false_eq_true, if_false, if_true]
  unfold argGet
  rw [if_neg (by decide)]
  have h1 : ([tgt, src] : List Nat)[((1 : Int)).toNat - 1]? = some tgt := rfl
  simp only [h1, pure_bind_eq, Prog.deref]

/-- Writing a slot leaves the length of the heap alone. -/
theorem setSlot_length (m : Machine) (a : Nat) (v : ISlot) :
    (m.setSlot a v).slots.length = m.slots.length := by
  unfold Machine.setSlot
  simp

/-- A slot that has been written holds what was written. -/
theorem setSlot_get (m : Machine) (a : Nat) (v : ISlot) (h : a < m.slots.length) :
    (m.setSlot a v).slots[a]? = some v := by
  unfold Machine.setSlot
  simp [h]
/-- The end of the case `EXPR_SYM`, from `ISlot *e = env.get(s)` on, when the slot `X` of the
variable holds `c`: the slot of the expression, an existing one or `X` itself, holds `c`
afterwards. -/
theorem symTail_ok (F : IFrame) (M : Machine) (X ip : Nat) (c : ISlot)
    (hX : M.slots[X]? = some c) (hvalid : F.envValid M) :
    ∃ f1 m1,
      (match Map.get F.env ip with
        | some e => do
          let xv ← heapGet M.slots X
          pure (Ctl.next, F, M.setSlot e xv)
        | none => pure (Ctl.next, { F with env := Map.put F.env ip X }, M) :
          Except Fault (Ctl × IFrame × Machine)) = .ok (Ctl.next, f1, m1) ∧
      f1.slotOf m1 ip = some c ∧ f1.valStack = F.valStack ∧ f1.stmtStack = F.stmtStack ∧
      f1.stageStack = F.stageStack ∧ f1.exprStack = F.exprStack := by
  cases he : Map.get F.env ip with
  | some e =>
    refine ⟨F, M.setSlot e c, ?_, ?_, rfl, rfl, rfl, rfl⟩
    · simp only [(heapGet_ok M.slots X c).2 hX, ok_bind_eq]
      rfl
    · unfold IFrame.slotOf
      rw [he]
      exact setSlot_get M e c (hvalid ip e he)
  | none =>
    refine ⟨{ F with env := Map.put F.env ip X }, M, rfl, ?_, rfl, rfl, rfl, rfl⟩
    unfold IFrame.slotOf
    show (Map.get (Map.put F.env ip X) ip).bind (fun a => M.slots[a]?) = some c
    rw [Map.get_put_self]
    exact hX

/-- Binding a node to a slot allocated at the end of the heap keeps the environment
valid. -/
theorem envValid_newSlot (f : IFrame) (m : Machine) (v : Nat) (c : ISlot)
    (hvalid : f.envValid m) :
    IFrame.envValid { f with env := Map.put f.env v m.slots.length }
      { m with slots := m.slots ++ [c] } := by
  intro k a hka
  show a < (m.slots ++ [c]).length
  rw [List.length_append, List.length_singleton]
  have hka1 : Map.get (Map.put f.env v m.slots.length) k = some a := hka
  by_cases hkv : k = v
  · subst hkv
    rw [Map.get_put_self] at hka1
    cases hka1
    exact Nat.lt_succ_self _
  · rw [Map.get_put_ne _ _ _ _ hkv] at hka1
    exact Nat.lt_succ_of_lt (hvalid k a hka1)

/-- The slot allocated at the end of the heap holds what it was allocated with. -/
theorem newSlot_get (m : Machine) (c : ISlot) :
    ({ m with slots := m.slots ++ [c] } : Machine).slots[m.slots.length]? = some c := by
  show (m.slots ++ [c])[m.slots.length]? = some c
  simp

/-- The environment of `moveFrame` binds slots of `moveMachine` only. -/
theorem moveFrame_envValid : moveFrame.envValid moveMachine := by
  intro k a h
  have h1 : (Map.get [(20, 0)] k) = some a := h
  unfold Map.get at h1
  by_cases hk : k = 20
  · subst hk
    cases h1
    decide
  · have : ((20 : Nat) == k) = false := by
      simp only [beq_eq_false_iff_ne, ne_eq]
      exact fun hh => hk hh.symm
    simp [List.find?, this] at h1

/-- One round of the step loop without the debugger, for an instruction that neither leaves
the frame nor retires it: the loop goes on with the timeslice decremented. -/
theorem runLoop_step (P : Prog) (this fuel timeslice : Nat) (f f1 f2 : IFrame)
    (m m1 m2 : Machine) (ipa : Nat) (hip : f.ip = some ipa) (hts : timeslice ≠ 1)
    (hbreak : m.break_ids = []) (hint : m.interrupted = false)
    (hexec : exec P fuel this f m ipa = .ok (Ctl.next, f1, m1))
    (htail : loopTail P f1 m1 = .ok (false, f2, m2)) :
    runLoop P this (fuel + 1) timeslice f m = runLoop P this fuel (timeslice - 1) f2 m2 := by
  conv_lhs => unfold runLoop
  rw [if_neg hts, hip]
  simp only [Ptr.addr, pure_bind_eq, hbreak, Vec.inVec, List.not_mem_nil, decide_False,
    Bool.false_eq_true, if_false, hint, hexec, ok_bind_eq, htail]

/-- The step of a block statement at a non-zero stage on a quiet machine: `EVAL_STMT` pushes
a continuation and the block at `LnextExpr` does nothing, so `ip` stays at the block. -/
theorem block_round (P : Prog) (this fuel : Nat) (f : IFrame) (m : Machine) (b lst : Nat)
    (hblock : (P.node b).astType = AstTag.STMT_BLOCK) (hbody : (P.node b).body = some lst)
    (hstage : f.stage ≠ 0) (hquiet : m.quiet) :
    exec P fuel this f m b
        = .ok (Ctl.next, EVAL_STMT f (P.node lst).headNext, m) ∧
      loopTail P (EVAL_STMT f (P.node lst).headNext) m
        = .ok (false, EVAL_STMT f (P.node lst).headNext, m) := by
  obtain ⟨-, -, hstep, htr⟩ := hquiet
  constructor
  · unfold exec
    simp only [hblock, hbody, Prog.deref, pure_bind_eq, traceS_quiet P m b htr]
    rfl
  · exact loopTail_stage P _ m hstage hstep

/-- The loop of `match_cmd` once `c` has left the start: it succeeds exactly when the rest of
the token, in lower case, is a prefix of the rest of the command name. -/
theorem match_cmd_loop_true (c str : List Char) :
    match_cmd_loop c str true = true ↔
      (c.takeWhile (fun x => !isspace x)).map tolower <+: str := by
  induction c generalizing str with
  | nil => simp [match_cmd_loop]
  | cons ch cs ih =>
    unfold match_cmd_loop
    by_cases hsp : isspace ch = true
    · simp [hsp, List.takeWhile_cons]
    · have hsp1 : isspace ch = false := by simpa using hsp
      simp only [hsp1, Bool.false_eq_true, if_false, List.takeWhile_cons, Bool.not_false,
        if_true, List.map_cons]
      cases str with
      | nil => simp
      | cons s ss =>
        by_cases hs : tolower ch = s
        · subst hs
          simp only [bne_self_eq_false, Bool.false_eq_true, if_false]
          rw [ih ss, List.cons_prefix_cons]
          simp
        · have hne : (tolower ch != s) = true := by simpa using hs
          simp only [hne, if_true, Bool.false_eq_true, false_iff]
          intro hp
          rw [List.cons_prefix_cons] at hp
          exact hs hp.1

/-- The flag of the loop of `match_cmd` matters at the end of the input only. -/
theorem match_cmd_loop_cons (ch : Char) (cs str : List Char) (b : Bool) :
    match_cmd_loop (ch :: cs) str b = match_cmd_loop (ch :: cs) str true := by
  unfold match_cmd_loop
  rfl
/-- The instrumented loop returns what `runLoop` returns. -/
theorem runLoopCount_erase (P : Prog) (this : Nat) (fuel timeslice n : Nat) (f : IFrame)
    (m : Machine) :
    (runLoopCount P this fuel timeslice n f m).map (fun r => r.2.2)
      = runLoop P this fuel timeslice f m := by
  induction fuel generalizing timeslice n f m with
  | zero => rfl
  | succ k ih =>
    unfold runLoopCount runLoop
    by_cases hts : timeslice = 1
    · rw [if_pos hts, if_pos hts]
      rfl
    · rw [if_neg hts, if_neg hts]
      cases hip : Ptr.addr f.ip with
      | error e => rfl
      | ok ipa =>
        simp only [ok_bind_eq]
        generalize (if Vec.inVec m.break_ids (P.node ipa).id then
          { m with interrupted := true } else m) = m1
        have tail : ∀ (stop : Bool) (m2 : Machine),
            Except.map (fun r => r.2.2)
              (if stop = true then
                (pure (Exit.debugger, n, 0, f, m2) :
                  Except Fault (Exit × Nat × Nat × IFrame × Machine))
              else do
                let r ← exec P k this f m2 ipa
                match r.1 with
                | .ret => pure (Exit.left, n + 1, timeslice - 1, r.2.1, r.2.2)
                | .again => runLoopCount P this k (timeslice - 1) (n + 1) r.2.1 r.2.2
                | .next => do
                  let r2 ← loopTail P r.2.1 r.2.2
                  if r2.1 = true then pure (Exit.retired, n + 1, timeslice - 1, r2.2.1, r2.2.2)
                  else runLoopCount P this k (timeslice - 1) (n + 1) r2.2.1 r2.2.2)
            = (if stop = true then
                (pure (0, f, m2) : Except Fault (Nat × IFrame × Machine))
              else do
                let r ← exec P k this f m2 ipa
                match r.1 with
                | .ret => pure (timeslice - 1, r.2.1, r.2.2)
                | .again => runLoop P this k (timeslice - 1) r.2.1 r.2.2
                | .next => do
                  let r2 ← loopTail P r.2.1 r.2.2
                  if r2.1 = true then pure (timeslice - 1, r2.2.1, r2.2.2)
                  else runLoop P this k (timeslice - 1) r2.2.1 r2.2.2) := by
          intro stop m2
          cases stop with
          | true => rfl
          | false =>
            simp only [Bool.false_eq_true, if_false]
            cases he : exec P k this f m2 ipa with
            | error e => rfl
            | ok r =>
              obtain ⟨ctl, f1, m3⟩ := r
              simp only [ok_bind_eq]
              cases ctl with
              | ret => rfl
              | again => exact ih _ _ _ _
              | next =>
                simp only
                cases ht : loopTail P f1 m3 with
                | error e => rfl
                | ok r =>
                  obtain ⟨retired, f2, m4⟩ := r
                  simp only [ok_bind_eq]
                  cases retired with
                  | true => rfl
                  | false => exact ih _ _ _ _
        cases hi : m1.interrupted with
        | false => exact tail false m1
        | true =>
          simp only [if_true]
          cases hd : interactive P (some f) (m1.sync this f) with
          | error e => rfl
          | ok r => exact tail _ r.2
/-- The count of the instrumented loop: it never decreases; with a timeslice of at least 1
at most `timeslice - 1` instructions are executed, and exactly that many when the loop is
left at the timeslice test, which returns 0; with a timeslice of 0 the loop is never left at
the timeslice test. -/
theorem runLoopCount_bound (P : Prog) (this : Nat) (fuel timeslice n : Nat) (f : IFrame)
    (m : Machine) (r : Exit × Nat × Nat × IFrame × Machine)
    (h : runLoopCount P this fuel timeslice n f m = .ok r) :
    n ≤ r.2.1 ∧
    (1 ≤ timeslice → r.2.1 ≤ n + (timeslice - 1) ∧
      (r.1 = Exit.expired → r.2.1 = n + (timeslice - 1) ∧ r.2.2.1 = 0)) ∧
    (timeslice = 0 → r.1 ≠ Exit.expired) := by
  induction fuel generalizing timeslice n f m with
  | zero => cases h
  | succ k ih =>
    unfold runLoopCount at h
    by_cases hts : timeslice = 1
    · rw [if_pos hts] at h
      cases h
      subst hts
      exact ⟨Nat.le_refl _, fun _ => ⟨Nat.le_refl _, fun _ => ⟨rfl, rfl⟩⟩, fun h0 => by cases h0⟩
    · rw [if_neg hts] at h
      cases hip : Ptr.addr f.ip with
      | error e => rw [hip] at h; cases h
      | ok ipa =>
        rw [hip] at h
        simp only [ok_bind_eq] at h
        generalize (if Vec.inVec m.break_ids (P.node ipa).id then
          { m with interrupted := true } else m) = m1 at h
        have rec : ∀ (f2 : IFrame) (m4 : Machine),
            runLoopCount P this k (timeslice - 1) (n + 1) f2 m4 = .ok r →
            n ≤ r.2.1 ∧
            (1 ≤ timeslice → r.2.1 ≤ n + (timeslice - 1) ∧
              (r.1 = Exit.expired → r.2.1 = n + (timeslice - 1) ∧ r.2.2.1 = 0)) ∧
            (timeslice = 0 → r.1 ≠ Exit.expired) := by
          intro f2 m4 hr
          obtain ⟨h1, h2, h3⟩ := ih (timeslice - 1) (n + 1) f2 m4 hr
          refine ⟨by omega, fun hge => ?_, fun h0 => h3 (by omega)⟩
          obtain ⟨h4, h5⟩ := h2 (by omega)
          refine ⟨by omega, fun he => ?_⟩
          obtain ⟨h6, h7⟩ := h5 he
          exact ⟨by omega, h7⟩
        have tail : ∀ (stop : Bool) (m2 : Machine),
            (if stop = true then
                (pure (Exit.debugger, n, 0, f, m2) :
                  Except Fault (Exit × Nat × Nat × IFrame × Machine))
              else do
                let r ← exec P k this f m2 ipa
                match r.1 with
                | .ret => pure (Exit.left, n + 1, timeslice - 1, r.2.1, r.2.2)
                | .again => runLoopCount P this k (timeslice - 1) (n + 1) r.2.1 r.2.2
                | .next => do
                  let r2 ← loopTail P r.2.1 r.2.2
                  if r2.1 = true then pure (Exit.retired, n + 1, timeslice - 1, r2.2.1, r2.2.2)
                  else runLoopCount P this k (timeslice - 1) (n + 1) r2.2.1 r2.2.2) = .ok r →
            n ≤ r.2.1 ∧
            (1 ≤ timeslice → r.2.1 ≤ n + (timeslice - 1) ∧
              (r.1 = Exit.expired → r.2.1 = n + (timeslice - 1) ∧ r.2.2.1 = 0)) ∧
            (timeslice = 0 → r.1 ≠ Exit.expired) := by
          intro stop m2 ht
          cases stop with
          | true =>
            cases ht
            exact ⟨Nat.le_refl _, fun _ => ⟨by simp, fun he => by cases he⟩,
              fun _ he => by cases he⟩
          | false =>
            simp only [Bool.false_eq_true, if_false] at ht
            cases he : exec P k this f m2 ipa with
            | error e => rw [he] at ht; cases ht
            | ok r1 =>
              rw [he] at ht
              obtain ⟨ctl, f1, m3⟩ := r1
              simp only [ok_bind_eq] at ht
              cases ctl with
              | ret =>
                cases ht
                exact ⟨by simp, fun hge => ⟨by simp; omega, fun he => by cases he⟩,
                  fun _ he => by cases he⟩
              | again => exact rec _ _ ht
              | next =>
                simp only at ht
                cases hl : loopTail P f1 m3 with
                | error e => rw [hl] at ht; cases ht
                | ok r2 =>
                  rw [hl] at ht
                  obtain ⟨retired, f2, m4⟩ := r2
                  simp only [ok_bind_eq] at ht
                  cases retired with
                  | true =>
                    cases ht
                    exact ⟨by simp, fun hge => ⟨by simp; omega, fun he => by cases he⟩,
                      fun _ he => by cases he⟩
                  | false => exact rec _ _ ht
        cases hi : m1.interrupted with
        | false =>
          rw [hi] at h
          exact tail false m1 h
        | true =>
          rw [hi] at h
          simp only [if_true] at h
          cases hd : interactive P (some f) (m1.sync this f) with
          | error e => rw [hd] at h; cases h
          | ok r1 =>
            rw [hd] at h
            exact tail _ r1.2 h

/-- Writing back the fields a frame already has changes nothing. -/
theorem sync_self (m : Machine) (this : Nat) (f : IFrame) (h : m.frames[this]? = some f) :
    m.sync this f = m := by
  unfold Machine.sync
  have hlt : this < m.frames.length := by
    rcases Nat.lt_or_ge this m.frames.length with hlt | hge
    · exact hlt
    · rw [List.getElem?_eq_none hge] at h
      cases h
  have hset : m.frames.set this f = m.frames := by
    apply List.ext_getElem?
    intro i
    by_cases hi : this = i
    · subst hi
      rw [List.getElem?_set_self hlt, h]
    · rw [List.getElem?_set_ne hi]
  rw [hset]

/-- The loop of `error_interactive` is left only when the thread of the frame has no current
frame. -/
theorem errorInteractiveLoop_clears {P : Prog} {f : IFrame} :
    ∀ (n : Nat) (m r : Machine), errorInteractiveLoop P f n m = .ok r →
      (r.threadHeap[f.thread]?).map (fun t => t.frame) = some none := by
  intro n
  induction n with
  | zero => intro m r h; simp [errorInteractiveLoop, throw_ok] at h
  | succ n ih =>
    intro m r h
    unfold errorInteractiveLoop at h
    simp only [bind_ok, heapGet_ok] at h
    obtain ⟨⟨x, m1⟩, -, t, ht, h2⟩ := h
    split at h2
    · exact ih _ _ h2
    · rename_i hsome
      simp only [pure_ok] at h2
      subst h2
      simp only at ht
      rw [ht]
      cases hf : t.frame with
      | none => simp only [Option.map_some', hf]
      | some a =>
        rw [hf] at hsome
        exact absurd rfl hsome

/-- When `user_error` returns, the thread of the frame has no current frame: the debugger has
reset it. -/
theorem user_error_clears {P : Prog} {f : IFrame} {m r : Machine} {msg : String}
    (h : user_error P f m msg = .ok r) :
    (r.threadHeap[f.thread]?).map (fun t => t.frame) = some none := by
  unfold user_error at h
  simp only at h
  split at h
  · exact errorInteractiveLoop_clears _ _ _ h
  · simp [throw_ok] at h

/-! ### The stages of a frame -/

theorem sameStages_refl (f : IFrame) : f.sameStages f := ⟨rfl, rfl, rfl, rfl, rfl⟩

theorem sameStages_trans {f g h : IFrame} (h1 : f.sameStages g) (h2 : g.sameStages h) :
    f.sameStages h :=
  ⟨h2.1.trans h1.1, h2.2.1.trans h1.2.1, h2.2.2.1.trans h1.2.2.1,
    h2.2.2.2.1.trans h1.2.2.2.1, h2.2.2.2.2.trans h1.2.2.2.2⟩

theorem sameStages_stagesOk {f g : IFrame} (h : f.sameStages g) (hf : f.stagesOk) :
    g.stagesOk := by
  obtain ⟨h1, h2, -, -, -⟩ := h
  unfold IFrame.stagesOk at *
  rw [h1, h2]
  exact hf

theorem sameStages_stackRoom {f g : IFrame} (h : f.sameStages g) (hf : f.stackRoom) :
    g.stackRoom := by
  obtain ⟨-, h2, h3, h4, h5⟩ := h
  unfold IFrame.stackRoom at *
  rw [h2, h3, h4, h5]
  exact hf

theorem islot_sameStages (f : IFrame) (m : Machine) (d : Nat) :
    f.sameStages (f.islot m d).2.1 := by
  unfold IFrame.islot
  cases Map.get f.env d <;> exact ⟨rfl, rfl, rfl, rfl, rfl⟩

theorem PUSH_VAL_sameStages {f g : IFrame} {m m1 : Machine} {ast : Ptr}
    (h : PUSH_VAL f m ast = .ok (g, m1)) : f.sameStages g := by
  unfold PUSH_VAL at h
  simp only [bind_ok, addr_ok, pure_ok] at h
  obtain ⟨a, -, h⟩ := h
  have hs := islot_sameStages f m a
  cases h
  exact hs

theorem POP_VAL_sameStages {f g : IFrame} {m m1 : Machine} {ast : Ptr}
    (h : POP_VAL f m ast = .ok (g, m1)) : f.sameStages g := by
  unfold POP_VAL at h
  simp only [bind_ok, addr_ok, pure_ok, heapGet_ok] at h
  obtain ⟨a, -, src, -, v, -, h⟩ := h
  have hs := islot_sameStages f m a
  cases h
  exact hs

theorem icallFn_sameStages {P : Prog} {this : Nat} {f g : IFrame} {m m1 : Machine}
    {fn nargs : Nat} (h : icallFn P this f m fn nargs = .ok (g, m1)) : f.sameStages g := by
  unfold icallFn at h
  simp only [bind_ok] at h
  obtain ⟨first, _, h⟩ := h
  split at h
  · simp only [bind_ok, pure_ok] at h
    obtain ⟨vs, -, h⟩ := h
    cases h
    exact ⟨rfl, rfl, rfl, rfl, rfl⟩
  · simp only [bind_ok, pure_ok] at h
    obtain ⟨t, -, vs, -, h⟩ := h
    cases h
    exact ⟨rfl, rfl, rfl, rfl, rfl⟩

theorem icall_sameStages {P : Prog} {this : Nat} {f g : IFrame} {m m1 : Machine}
    {nargs : Nat} (h : icall P this f m nargs = .ok (g, m1)) : f.sameStages g := by
  unfold icall at h
  by_cases h1 : f.valStack.length < nargs
  · rw [if_pos h1] at h
    simp [throw_bind_ok] at h
  rw [if_neg h1, pure_bind_eq] at h
  by_cases h2 : nargs < 1
  · rw [if_pos h2] at h
    simp [throw_bind_ok] at h
  rw [if_neg h2, pure_bind_eq] at h
  split at h
  swap
  · simp [throw_bind_ok] at h
  simp only [pure_bind_eq, bind_ok] at h
  obtain ⟨arg0a, -, arg0, -, h⟩ := h
  split at h
  · simp only [bind_ok] at h
    obtain ⟨symNode, -, symAddr, -, h⟩ := h
    split at h
    · exact icallFn_sameStages h
    · simp only [bind_ok, pure_ok] at h
      obtain ⟨m2, -, h⟩ := h
      cases h
      exact sameStages_refl f
  · simp only [bind_ok] at h
    obtain ⟨ipNode, -, scope, -, h⟩ := h
    split at h
    · exact icallFn_sameStages h
    · simp only [bind_ok, pure_ok] at h
      obtain ⟨m2, -, h⟩ := h
      cases h
      exact sameStages_refl f
  · simp [throw_ok] at h
  · simp only [bind_ok, pure_ok] at h
    obtain ⟨m2, -, h⟩ := h
    cases h
    exact sameStages_refl f

theorem CALL_sameStages {P : Prog} {this : Nat} {f g : IFrame} {m m1 : Machine} {n : Nat}
    {ctl : Ctl} (h : CALL P this f m n = .ok (ctl, g, m1)) : f.sameStages g ∧ ctl = Ctl.ret := by
  unfold CALL at h
  simp only [bind_ok, pure_ok] at h
  obtain ⟨⟨f1, m2⟩, h1, h⟩ := h
  cases h
  exact ⟨icall_sameStages h1, rfl⟩

theorem forCall3_sameStages {P : Prog} {this : Nat} {f g : IFrame} {m m1 : Machine}
    {sel : String} {iter loop_var : Ptr} {ctl : Ctl}
    (h : forCall3 P this f m sel iter loop_var = .ok (ctl, g, m1)) :
    f.sameStages g ∧ ctl = Ctl.ret := by
  unfold forCall3 at h
  simp only [PUSH_SELECTOR, Machine.newSlot, bind_ok] at h
  obtain ⟨⟨f2, m2⟩, h2, ⟨f3, m3⟩, h3, h⟩ := h
  have s2 := PUSH_VAL_sameStages h2
  have s3 := PUSH_VAL_sameStages h3
  obtain ⟨s4, hc⟩ := CALL_sameStages h
  exact ⟨sameStages_trans (sameStages_trans s2 s3) s4, hc⟩

theorem iprimitive_sameStages {f g : IFrame} {s : BaseAST}
    (h : iprimitive f s = .ok g) : f.sameStages g := by
  unfold iprimitive at h
  simp only [bind_ok, pure_ok] at h
  obtain ⟨vs, -, h⟩ := h
  cases h
  exact ⟨rfl, rfl, rfl, rfl, rfl⟩

theorem setStage_inv (f : IFrame) (k : Int) (hk : 0 ≤ k) (hs : f.stagesOk) (hr : f.stackRoom) :
    IFrame.stagesOk { f with stage := k } ∧ IFrame.stackRoom { f with stage := k } :=
  ⟨⟨hk, hs.2⟩, hr⟩

theorem EVAL_EXPR_inv {f g : IFrame} {e : Ptr} (hs : f.stagesOk) (hr : f.stackRoom)
    (h : EVAL_EXPR f e = .ok g) : g.stagesOk ∧ g.stackRoom ∧ g.stage = 0 := by
  unfold EVAL_EXPR at h
  cases e with
  | none => simp [throw_ok] at h
  | some a =>
    simp only [pure_ok] at h
    subst h
    unfold IFrame.stagesOk IFrame.stackRoom at *
    obtain ⟨h0, hall⟩ := hs
    by_cases hc : f.expr.isSome ∧ f.stage ≠ 0
    · simp only [if_pos hc, List.mem_append, List.length_append, List.length_singleton,
        Option.isSome_some, if_true]
      refine ⟨⟨le_refl _, ?_⟩, ?_, trivial⟩
      · intro x hx
        rcases hx with hx | hx
        · exact hall x hx
        · simp only [List.mem_cons, List.mem_singleton, List.not_mem_nil, or_false] at hx
          rcases hx with hx | hx <;> omega
      · simp only [hc.1, if_true] at hr
        simp only [List.length_cons, List.length_nil]
        omega
    · simp only [if_neg hc, List.mem_append, List.length_append, List.length_singleton,
        Option.isSome_some, if_true]
      refine ⟨⟨le_refl _, ?_⟩, ?_, trivial⟩
      · intro x hx
        rcases hx with hx | hx
        · exact hall x hx
        · simp only [List.mem_cons, List.mem_singleton, List.not_mem_nil, or_false] at hx
          rcases hx with hx | hx <;> omega
      · simp only [List.length_cons, List.length_nil]
        split at hr <;> omega

theorem PUSH_EXPR_inv {f g : IFrame} {m m1 : Machine} {e : Ptr} (hs : f.stagesOk)
    (hr : f.stackRoom) (h : PUSH_EXPR f m e = .ok (g, m1)) :
    g.stagesOk ∧ g.stackRoom ∧ g.stage = 0 := by
  unfold PUSH_EXPR at h
  cases e with
  | none => simp [throw_ok] at h
  | some a =>
    simp only [pure_ok, Prod.mk.injEq] at h
    obtain ⟨h, -⟩ := h
    subst h
    obtain ⟨h0, hall⟩ := hs
    by_cases hc : f.expr.isSome ∧ f.stage ≠ 0
    · simp only [if_pos hc]
      obtain ⟨-, i2, i3, i4, -⟩ := islot_sameStages
        { f with exprStack := f.exprStack ++ [f.expr],
                 stageStack := f.stageStack ++ [f.stage + 1] } m a
      unfold IFrame.stagesOk IFrame.stackRoom at *
      simp only [i2, i3, i4, List.mem_append, List.length_append, List.length_singleton,
        Option.isSome_some, if_true]
      refine ⟨⟨le_refl _, ?_⟩, ?_, trivial⟩
      · intro x hx
        rcases hx with (hx | hx) | hx
        · exact hall x hx
        · simp only [List.mem_singleton] at hx
          omega
        · simp only [List.mem_singleton] at hx
          omega
      · simp only [hc.1, if_true] at hr
        omega
    · simp only [if_neg hc]
      obtain ⟨-, i2, i3, i4, -⟩ := islot_sameStages
        { f with stageStack := f.stageStack ++ [f.stage + 1] } m a
      unfold IFrame.stagesOk IFrame.stackRoom at *
      simp only [i2, i3, i4, List.mem_append, List.length_append, List.length_singleton,
        Option.isSome_some, if_true]
      refine ⟨⟨le_refl _, ?_⟩, ?_, trivial⟩
      · intro x hx
        rcases hx with (hx | hx) | hx
        · exact hall x hx
        · simp only [List.mem_singleton] at hx
          omega
        · simp only [List.mem_singleton] at hx
          omega
      · split at hr <;> omega

theorem EVAL_STMT_inv (f : IFrame) (s : Ptr) (hs : f.stagesOk) (hr : f.stackRoom) :
    (EVAL_STMT f s).stagesOk ∧ (EVAL_STMT f s).stackRoom := by
  unfold EVAL_STMT IFrame.stagesOk IFrame.stackRoom at *
  obtain ⟨h0, hall⟩ := hs
  simp only [List.mem_append, List.length_append, List.length_singleton]
  refine ⟨⟨h0, ?_⟩, by omega⟩
  intro x hx
  rcases hx with hx | hx
  · exact hall x hx
  · simp only [List.mem_singleton] at hx
    omega

theorem sameStages_inv {f g : IFrame} (h : f.sameStages g) (hs : f.stagesOk)
    (hr : f.stackRoom) : g.stagesOk ∧ g.stackRoom :=
  ⟨sameStages_stagesOk h hs, sameStages_stackRoom h hr⟩

theorem execReturn_inv {this : Nat} {f g : IFrame} {m m1 : Machine} {s : BaseAST} {ctl : Ctl}
    (hs : f.stagesOk) (hr : f.stackRoom) (h : execReturn this f m s = .ok (ctl, g, m1)) :
    g.stagesOk ∧ g.stackRoom ∧ ctl ≠ Ctl.again := by
  unfold execReturn at h
  split at h
  · simp only [bind_ok, pure_ok] at h
    obtain ⟨⟨f1, m2⟩, h1, h⟩ := h
    cases h
    obtain ⟨a, b⟩ := setStage_inv f (f.stage + 1) (by have := hs.1; omega) hs hr
    obtain ⟨c, d, -⟩ := PUSH_EXPR_inv a b h1
    exact ⟨c, d, by decide⟩
  · split at h
    · simp only [bind_ok, heapGet_ok, addr_ok] at h
      obtain ⟨t, -, pa, -, h⟩ := h
      obtain ⟨a, b⟩ := setStage_inv f 0 (le_refl _) hs hr
      split at h
      · simp only [pure_ok] at h
        cases h
        exact ⟨a, b, by decide⟩
      · simp only [bind_ok, pure_ok] at h
        obtain ⟨pf, -, h⟩ := h
        cases h
        exact ⟨a, b, by decide⟩
    · simp [throw_ok] at h

theorem execWhile_inv {f g : IFrame} {m m1 : Machine} {s : BaseAST} {ctl : Ctl}
    (hs : f.stagesOk) (hr : f.stackRoom) (h : execWhile f m s = .ok (ctl, g, m1)) :
    g.stagesOk ∧ g.stackRoom ∧ ctl ≠ Ctl.again := by
  unfold execWhile at h
  split at h
  · simp only [pure_ok] at h
    cases h
    obtain ⟨a, b⟩ := setStage_inv f 1 (by decide) hs hr
    split
    · obtain ⟨c, d⟩ := EVAL_STMT_inv _ s.block a b
      exact ⟨c, d, by decide⟩
    · exact ⟨a, b, by decide⟩
  · split at h
    · simp only [bind_ok, pure_ok] at h
      obtain ⟨f1, h1, h⟩ := h
      cases h
      obtain ⟨a, b⟩ := setStage_inv f 2 (by decide) hs hr
      obtain ⟨c, d, -⟩ := EVAL_EXPR_inv a b h1
      exact ⟨c, d, by decide⟩
    · split at h
      · simp only [bind_ok, addr_ok, heapGet_ok] at h
        obtain ⟨c, -, cond, -, u, -, b, -, h⟩ := h
        obtain ⟨i1, i2⟩ := sameStages_inv (islot_sameStages f m c) hs hr
        split at h
        · simp only [pure_ok] at h
          cases h
          obtain ⟨a, b⟩ := setStage_inv _ 0 (le_refl _) i1 i2
          exact ⟨a, b, by decide⟩
        · simp only [pure_ok] at h
          cases h
          obtain ⟨a, b⟩ := setStage_inv _ 1 (by decide) i1 i2
          obtain ⟨c, d⟩ := EVAL_STMT_inv _ s.block a b
          exact ⟨c, d, by decide⟩
      · simp [throw_ok] at h

theorem execCondStmt_inv {f g : IFrame} {m m1 : Machine} {s : BaseAST} {ctl : Ctl}
    (hs : f.stagesOk) (hr : f.stackRoom) (h : execCondStmt f m s = .ok (ctl, g, m1)) :
    g.stagesOk ∧ g.stackRoom ∧ ctl ≠ Ctl.again := by
  unfold execCondStmt at h
  split at h
  · simp only [bind_ok, pure_ok] at h
    obtain ⟨⟨f1, m2⟩, h1, h⟩ := h
    cases h
    obtain ⟨a, b⟩ := setStage_inv f (f.stage + 1) (by have := hs.1; omega) hs hr
    obtain ⟨c, d, -⟩ := PUSH_EXPR_inv a b h1
    exact ⟨c, d, by decide⟩
  · split at h
    · simp only [bind_ok, pure_ok] at h
      obtain ⟨cond, -, u, -, bb, -, h⟩ := h
      cases h
      obtain ⟨a, b⟩ := setStage_inv f 0 (le_refl _) hs hr
      obtain ⟨c, d⟩ := EVAL_STMT_inv
        { f with stage := 0, valStack := (Vec.pop none f.valStack).2 }
        (if bb = true then s.thenStmt else s.elseStmt) a b
      exact ⟨c, d, by decide⟩
    · simp [throw_ok] at h

theorem execSelect_inv {P : Prog} {f g : IFrame} {m m1 : Machine} {s : BaseAST} {ctl : Ctl}
    (hs : f.stagesOk) (hr : f.stackRoom) (h : execSelect P f m s = .ok (ctl, g, m1)) :
    g.stagesOk ∧ g.stackRoom ∧ ctl ≠ Ctl.again := by
  unfold execSelect at h
  split at h
  · simp only [bind_ok, pure_ok] at h
    obtain ⟨f1, h1, h⟩ := h
    cases h
    obtain ⟨a, b⟩ := setStage_inv f (f.stage + 1) (by have := hs.1; omega) hs hr
    obtain ⟨c, d, -⟩ := EVAL_EXPR_inv a b h1
    exact ⟨c, d, by decide⟩
  · split at h
    · simp only [bind_ok, pure_ok] at h
      obtain ⟨lst, -, h⟩ := h
      cases h
      obtain ⟨a, b⟩ := setStage_inv f 0 (le_refl _) hs hr
      obtain ⟨c, d⟩ := EVAL_STMT_inv _ lst.headNext a b
      exact ⟨c, d, by decide⟩
    · simp [throw_ok] at h

theorem execFor_inv {P : Prog} {this ip : Nat} {f g : IFrame} {m m1 : Machine} {s : BaseAST}
    {ctl : Ctl} (hs : f.stagesOk) (hr : f.stackRoom)
    (h : execFor P this f m ip s = .ok (ctl, g, m1)) :
    g.stagesOk ∧ g.stackRoom ∧ ctl ≠ Ctl.again := by
  unfold execFor at h
  obtain ⟨a0, b0⟩ := setStage_inv f (f.stage + 1) (by have := hs.1; omega) hs hr
  split at h
  · simp only at h
    split at h
    · simp only [bind_ok, pure_ok] at h
      obtain ⟨f1, h1, h⟩ := h
      cases h
      obtain ⟨c, d, -⟩ := EVAL_EXPR_inv a0 b0 h1
      exact ⟨c, d, by decide⟩
    · split at h
      · simp only [PUSH_SELECTOR, Machine.newSlot, bind_ok] at h
        obtain ⟨⟨f2, m2⟩, h2, h⟩ := h
        obtain ⟨s4, hc⟩ := CALL_sameStages h
        obtain ⟨c, d⟩ := sameStages_inv (sameStages_trans (PUSH_VAL_sameStages h2) s4) a0 b0
        exact ⟨c, d, by rw [hc]; decide⟩
      · split at h
        · simp only [bind_ok] at h
          obtain ⟨⟨f1, m2⟩, h1, h⟩ := h
          obtain ⟨s2, hc⟩ := forCall3_sameStages h
          obtain ⟨c, d⟩ := sameStages_inv (sameStages_trans (POP_VAL_sameStages h1) s2) a0 b0
          exact ⟨c, d, by rw [hc]; decide⟩
        · split at h
          · simp only [bind_ok] at h
            obtain ⟨valid, -, u, -, bb, -, h⟩ := h
            split at h
            · simp only [pure_ok] at h
              cases h
              obtain ⟨c, d⟩ := setStage_inv f 0 (le_refl _) hs hr
              exact ⟨c, d, by decide⟩
            · obtain ⟨s2, hc⟩ := forCall3_sameStages h
              obtain ⟨c, d⟩ := sameStages_inv s2 a0 b0
              exact ⟨c, d, by rw [hc]; decide⟩
          · split at h
            · simp only [bind_ok, pure_ok] at h
              obtain ⟨⟨f1, m2⟩, h1, h⟩ := h
              cases h
              obtain ⟨c, d⟩ := sameStages_inv (POP_VAL_sameStages h1) a0 b0
              obtain ⟨c2, d2⟩ := EVAL_STMT_inv f1 s.innerStmt c d
              exact ⟨c2, d2, by decide⟩
            · split at h
              · obtain ⟨s2, hc⟩ := forCall3_sameStages h
                obtain ⟨c, d⟩ := sameStages_inv s2 a0 b0
                exact ⟨c, d, by rw [hc]; decide⟩
              · split at h
                · simp only [bind_ok, pure_ok] at h
                  obtain ⟨⟨f1, m2⟩, h1, h⟩ := h
                  cases h
                  obtain ⟨a2, b2⟩ := setStage_inv f 2 (by decide) hs hr
                  obtain ⟨c, d⟩ := sameStages_inv (POP_VAL_sameStages h1) a2 b2
                  exact ⟨c, d, by decide⟩
                · simp [throw_ok] at h
  · simp [throw_ok] at h
  · simp [throw_ok] at h

theorem execSym_inv {P : Prog} {ip : Nat} {f g : IFrame} {m m1 : Machine} {s : BaseAST}
    {ctl : Ctl} (hs : f.stagesOk) (hr : f.stackRoom)
    (h : execSym P f m ip s = .ok (ctl, g, m1)) :
    g.stagesOk ∧ g.stackRoom ∧ ctl ≠ Ctl.again := by
  unfold execSym at h
  simp only [bind_ok, addr_ok] at h
  obtain ⟨var, -, h⟩ := h
  have key : f.sameStages g ∧ ctl = Ctl.next := by
    (repeat' (first | split at h | simp only [pure_bind_eq, Machine.newSlot] at h)) <;>
      first
      | (simp [throw_ok, throw_bind_ok] at h; done)
      | (simp only [pure_bind_eq, bind_ok, pure_ok, heapGet_ok, Machine.newSlot,
           Prod.mk.injEq] at h
         obtain ⟨xv, -, h1, h2, -⟩ := h
         subst h1
         subst h2
         exact ⟨⟨rfl, rfl, rfl, rfl, rfl⟩, rfl⟩)
      | (simp only [pure_bind_eq, bind_ok, pure_ok, heapGet_ok, Machine.newSlot,
           Prod.mk.injEq] at h
         obtain ⟨h1, h2, -⟩ := h
         subst h1
         subst h2
         exact ⟨⟨rfl, rfl, rfl, rfl, rfl⟩, rfl⟩)
  obtain ⟨c, d⟩ := sameStages_inv key.1 hs hr
  exact ⟨c, d, by rw [key.2]; decide⟩

theorem execDef_inv {P : Prog} {ip : Nat} {f g : IFrame} {m m1 : Machine} {s : BaseAST}
    {ctl : Ctl} (hs : f.stagesOk) (hr : f.stackRoom)
    (h : execDef P f m ip s = .ok (ctl, g, m1)) :
    g.stagesOk ∧ g.stackRoom ∧ ctl ≠ Ctl.again := by
  unfold execDef at h
  simp only [bind_ok, addr_ok, Machine.newSlot, pure_ok] at h
  obtain ⟨sym, -, h⟩ := h
  cases h
  exact ⟨hs, hr, by decide⟩

theorem execCondExpr_inv {f g : IFrame} {m m1 : Machine} {s : BaseAST} {ctl : Ctl}
    (hs : f.stagesOk) (hr : f.stackRoom) (h : execCondExpr f m s = .ok (ctl, g, m1)) :
    g.stagesOk ∧ g.stackRoom ∧ ctl ≠ Ctl.again := by
  unfold execCondExpr at h
  split at h
  · simp only [bind_ok, pure_ok] at h
    obtain ⟨⟨f1, m2⟩, h1, h⟩ := h
    cases h
    obtain ⟨a, b⟩ := setStage_inv f (f.stage + 1) (by have := hs.1; omega) hs hr
    obtain ⟨c, d, -⟩ := PUSH_EXPR_inv a b h1
    exact ⟨c, d, by decide⟩
  · split at h
    · simp only [bind_ok, pure_ok, addr_ok] at h
      obtain ⟨cond, -, u, -, bb, -, f2, h2, cur, -, th, -, h⟩ := h
      cases h
      obtain ⟨a, b⟩ := setStage_inv f 0 (le_refl _) hs hr
      obtain ⟨c, d, -⟩ := EVAL_EXPR_inv
        (f := { f with stage := 0, valStack := (Vec.pop none f.valStack).2 }) a b h2
      obtain ⟨c2, d2⟩ := sameStages_inv (islot_sameStages f2 m th) c d
      exact ⟨c2, d2, by decide⟩
    · simp [throw_ok] at h

theorem execCall_inv {P : Prog} {this : Nat} {f g : IFrame} {m m1 : Machine} {s : BaseAST}
    {ctl : Ctl} (hs : f.stagesOk) (hr : f.stackRoom)
    (h : execCall P this f m s = .ok (ctl, g, m1)) :
    g.stagesOk ∧ g.stackRoom ∧ ctl ≠ Ctl.again := by
  unfold execCall at h
  obtain ⟨a0, b0⟩ := setStage_inv f (f.stage + 1) (by have := hs.1; omega) hs hr
  simp only at h
  split at h
  · split at h
    · simp [throw_ok] at h
    · split at h
      · simp only [bind_ok, pure_ok] at h
        obtain ⟨⟨f1, m2⟩, h1, h⟩ := h
        cases h
        obtain ⟨c, d, -⟩ := PUSH_EXPR_inv a0 b0 h1
        exact ⟨c, d, by decide⟩
      · simp only [pure_ok] at h
        cases h
        exact ⟨a0, b0, by decide⟩
    · split at h
      · simp [throw_ok] at h
      · simp only [pure_ok] at h
        cases h
        obtain ⟨c, d⟩ := setStage_inv f 2 (by decide) hs hr
        exact ⟨c, d, by decide⟩
  · split at h
    · simp only [bind_ok, pure_ok] at h
      obtain ⟨a, -, ⟨f1, m2⟩, h1, h⟩ := h
      cases h
      obtain ⟨c, d, -⟩ := PUSH_EXPR_inv a0 b0 h1
      exact ⟨c, d, by decide⟩
    · obtain ⟨a1, b1⟩ := setStage_inv f 0 (le_refl _) hs hr
      split at h
      · simp only [bind_ok, pure_ok] at h
        obtain ⟨f2, h2, h⟩ := h
        cases h
        obtain ⟨c, d⟩ := sameStages_inv (iprimitive_sameStages h2) a1 b1
        exact ⟨c, d, by decide⟩
      · split at h
        · simp only [bind_ok] at h
          obtain ⟨a, -, an, -, h⟩ := h
          split at h
          · simp only [bind_ok, pure_ok] at h
            obtain ⟨⟨f2, m2⟩, h2, h⟩ := h
            cases h
            obtain ⟨c, d⟩ := sameStages_inv (POP_VAL_sameStages h2) a1 b1
            exact ⟨c, d, by decide⟩
          · simp [throw_ok] at h
        · obtain ⟨s2, hc⟩ := CALL_sameStages h
          obtain ⟨c, d⟩ := sameStages_inv s2 a1 b1
          exact ⟨c, d, by rw [hc]; decide⟩

theorem take_stagesOk (f : IFrame) (k : Int) (l : List Int) (n : Nat) (hk : 0 ≤ k)
    (hs : f.stagesOk) (hl : l = f.stageStack.take n) :
    IFrame.stagesOk { f with stage := k, stageStack := l } := by
  refine ⟨hk, ?_⟩
  intro e he
  have he2 : e ∈ f.stageStack.take n := by rw [← hl]; exact he
  exact hs.2 e (List.mem_of_mem_take he2)

theorem igoto_inv {P : Prog} {fuel s r : Nat} {f g : IFrame} {m m1 : Machine}
    (hs : f.stagesOk) (h : igoto P fuel f m s = .ok (r, g, m1)) :
    g.stagesOk ∧ (r ≠ 0 → g = f) ∧ (r = 0 → g.ip = none ∧ g.expr = none) := by
  unfold igoto at h
  split at h
  swap
  · simp [throw_bind_ok] at h
  simp only [pure_bind_eq] at h
  split at h
  · simp only [bind_ok, pure_ok] at h
    obtain ⟨m2, -, h⟩ := h
    cases h
    exact ⟨hs, fun _ => rfl, fun h0 => absurd h0 (by decide)⟩
  · split at h
    · simp only [bind_ok, pure_ok] at h
      obtain ⟨m2, -, h⟩ := h
      cases h
      exact ⟨hs, fun _ => rfl, fun h0 => absurd h0 (by decide)⟩
    · simp only [bind_ok] at h
      obtain ⟨d, -, h⟩ := h
      split at h
      · simp only [bind_ok, pure_ok] at h
        obtain ⟨m2, -, h⟩ := h
        cases h
        exact ⟨hs, fun _ => rfl, fun h0 => absurd h0 (by decide)⟩
      · simp only [bind_ok, pure_ok] at h
        obtain ⟨stages, h1, stmts, -, h⟩ := h
        cases h
        unfold Vec.setN at h1
        split at h1
        · simp only [pure_ok] at h1
          refine ⟨?_, fun h0 => absurd rfl h0, fun _ => ⟨rfl, rfl⟩⟩
          exact ⟨le_refl _, fun e he => hs.2 e (List.mem_of_mem_take (by rw [h1]; exact he))⟩
        · simp [throw_ok] at h1

theorem execGoto_inv {P : Prog} {fuel this : Nat} {f g : IFrame} {m m1 : Machine}
    {s : BaseAST} {ctl : Ctl} (hs : f.stagesOk) (hr : f.stackRoom)
    (h : execGoto P fuel this f m s = .ok (ctl, g, m1)) :
    g.stagesOk ∧ (ctl ≠ Ctl.again → g.stackRoom) ∧
      (ctl = Ctl.again → g.ip = none ∧ g.expr = none) := by
  unfold execGoto at h
  simp only [bind_ok] at h
  obtain ⟨lbl, -, dp, -, target, -, ⟨r, f1, m2⟩, h1, h⟩ := h
  obtain ⟨c, d, e⟩ := igoto_inv hs h1
  simp only at h
  split at h
  · simp only [pure_ok] at h
    cases h
    rename_i hr0
    rw [d hr0]
    exact ⟨hs, fun _ => hr, fun h0 => absurd h0 (by decide)⟩
  · simp only [pure_ok] at h
    cases h
    rename_i hr0
    exact ⟨c, fun h0 => absurd rfl h0, fun _ => e (by simpa using hr0)⟩

theorem exec_inv {P : Prog} {fuel this ip : Nat} {f g : IFrame} {m m1 : Machine} {ctl : Ctl}
    (hs : f.stagesOk) (hr : f.stackRoom) (h : exec P fuel this f m ip = .ok (ctl, g, m1)) :
    g.stagesOk ∧ (ctl ≠ Ctl.again → g.stackRoom) ∧
      (ctl = Ctl.again → g.ip = none ∧ g.expr = none) := by
  have weak : g.stagesOk ∧ g.stackRoom ∧ ctl ≠ Ctl.again →
      g.stagesOk ∧ (ctl ≠ Ctl.again → g.stackRoom) ∧
        (ctl = Ctl.again → g.ip = none ∧ g.expr = none) :=
    fun x => ⟨x.1, fun _ => x.2.1, fun h0 => absurd h0 x.2.2⟩
  have same : ctl = Ctl.next ∧ g = f →
      g.stagesOk ∧ g.stackRoom ∧ ctl ≠ Ctl.again := by
    rintro ⟨rfl, rfl⟩
    exact ⟨hs, hr, by decide⟩
  unfold exec at h
  simp only at h
  split at h
  · simp only [pure_ok, Prod.mk.injEq] at h
    exact weak (same ⟨h.1.symm, h.2.1.symm⟩)
  · simp only [bind_ok, pure_ok] at h
    obtain ⟨f1, h1, h⟩ := h
    cases h
    obtain ⟨c, d, -⟩ := EVAL_EXPR_inv hs hr h1
    exact weak ⟨c, d, by decide⟩
  · exact weak (execReturn_inv hs hr h)
  · simp only [bind_ok, pure_ok] at h
    obtain ⟨lst, -, h⟩ := h
    cases h
    obtain ⟨c, d⟩ := EVAL_STMT_inv f lst.headNext hs hr
    exact weak ⟨c, d, by decide⟩
  · exact weak (execWhile_inv hs hr h)
  · exact weak (execFor_inv hs hr h)
  · exact weak (execCondStmt_inv hs hr h)
  · simp only [bind_ok] at h
    obtain ⟨sel, -, h⟩ := h
    split at h
    · simp only [pure_ok, Prod.mk.injEq] at h
      exact weak (same ⟨h.1.symm, h.2.1.symm⟩)
    · simp [throw_ok] at h
  · exact weak (execSelect_inv hs hr h)
  · simp only [pure_ok, Prod.mk.injEq] at h
    exact weak (same ⟨h.1.symm, h.2.1.symm⟩)
  · exact execGoto_inv hs hr h
  · exact weak (execSym_inv hs hr h)
  · exact weak (execDef_inv hs hr h)
  · exact weak (execCondExpr_inv hs hr h)
  · exact weak (execCall_inv hs hr h)
  · simp only [pure_ok, Prod.mk.injEq] at h
    exact weak (same ⟨h.1.symm, h.2.1.symm⟩)
  · simp only [pure_ok, Prod.mk.injEq] at h
    exact weak (same ⟨h.1.symm, h.2.1.symm⟩)
  · simp only [pure_ok, Prod.mk.injEq] at h
    exact weak (same ⟨h.1.symm, h.2.1.symm⟩)
  · simp only [pure_ok, Prod.mk.injEq] at h
    exact weak (same ⟨h.1.symm, h.2.1.symm⟩)
  · simp only [pure_ok, Prod.mk.injEq] at h
    exact weak (same ⟨h.1.symm, h.2.1.symm⟩)
  · simp [throw_ok] at h

theorem Vec.pop_nil {α : Type} (zero : α) : Vec.pop zero ([] : List α) = (zero, []) := rfl

theorem list_nil_or_snoc {α : Type} (l : List α) : l = [] ∨ ∃ L x, l = L ++ [x] := by
  rcases List.eq_nil_or_concat l with h | ⟨L, x, h⟩
  · exact Or.inl h
  · exact Or.inr ⟨L, x, by rw [h, List.concat_eq_append]⟩

/-- The loop `while (!stmt)` on a frame whose stages are in range and none of whose
continuations is without a stage: the assertion `stage >= 0` holds at every continuation
popped, and a frame that has not retired is left with the same properties. -/
theorem unwind_inv (P : Prog) :
    ∀ (n : Nat) (f : IFrame), f.stagesOk → f.stackRoom →
      unwind P n f ≠ .error (Fault.assertFails "stage >= 0") ∧
      ∀ g, unwind P n f = .ok (false, g) → g.stagesOk ∧ g.stackRoom := by
  intro n
  induction n with
  | zero =>
    intro f _ _
    unfold unwind
    exact ⟨(fun h => nomatch h), (fun g h => nomatch h)⟩
  | succ n ih =>
    intro f hs hr
    unfold unwind
    cases hst : f.stmt with
    | some a =>
      refine ⟨(fun h => nomatch h), fun g h => ?_⟩
      simp only [pure_ok, Prod.mk.injEq, true_and] at h
      subst h
      exact ⟨hs, hr⟩
    | none =>
      simp only
      rcases list_nil_or_snoc f.stmtStack with hS | ⟨S, st, hS⟩
      · rw [hS, Vec.pop_nil]
        exact ⟨(fun h => nomatch h), (fun g h => nomatch h)⟩
      · rw [hS, Vec.pop_append]
        cases st with
        | none => exact ⟨(fun h => nomatch h), (fun g h => nomatch h)⟩
        | some a =>
          have hlen : 1 ≤ f.stageStack.length := by
            have := hr
            unfold IFrame.stackRoom at this
            rw [hS] at this
            simp only [List.length_append, List.length_singleton] at this
            omega
          rcases list_nil_or_snoc f.stageStack with hL | ⟨L, sg, hL⟩
          · rw [hL] at hlen
            simp at hlen
          · rw [hL, Vec.pop_append]
            have hsg : 1 ≤ sg := hs.2 sg (by rw [hL]; simp)
            simp only
            rw [if_neg (by omega)]
            apply ih
            · refine ⟨by show 0 ≤ sg - 1; omega, ?_⟩
              intro e he
              exact hs.2 e (by rw [hL]; exact List.mem_append_left _ he)
            · have := hr
              unfold IFrame.stackRoom at this ⊢
              rw [hS, hL] at this
              simp only [List.length_append, List.length_singleton] at this
              show f.exprStack.length + S.length + (if f.expr.isSome then 1 else 0) ≤ L.length
              omega

theorem throw_ne {α : Type} (e e1 : Fault) (h : e ≠ e1) :
    (throw e : Except Fault α) ≠ .error e1 :=
  fun h1 => h (Except.error.inj h1)

theorem pure_ne {α : Type} (a : α) (e1 : Fault) : (pure a : Except Fault α) ≠ .error e1 :=
  fun h1 => nomatch h1

theorem bind_ne {α β : Type} (x : Except Fault α) (f : α → Except Fault β) (e : Fault)
    (hx : x ≠ .error e) (hf : ∀ a, x = .ok a → f a ≠ .error e) :
    (x >>= f) ≠ .error e := by
  cases x with
  | error e1 =>
    intro h
    rw [error_bind_eq] at h
    exact hx (congrArg Except.error (Except.error.inj h))
  | ok a => exact hf a rfl

theorem deref_ne (P : Prog) (p : Ptr) (e : Fault) (h : Fault.nullDeref ≠ e) :
    P.deref p ≠ .error e := by
  cases p with
  | none => exact throw_ne _ _ h
  | some a => exact pure_ne _ _

theorem addr_ne (p : Ptr) (e : Fault) (h : Fault.nullDeref ≠ e) : Ptr.addr p ≠ .error e := by
  cases p with
  | none => exact throw_ne _ _ h
  | some a => exact pure_ne _ _

theorem heapGet_ne {α : Type} (l : List α) (a : Nat) (e : Fault) (h : Fault.nullDeref ≠ e) :
    heapGet l a ≠ .error e := by
  unfold heapGet
  cases l[a]? with
  | none => exact throw_ne _ _ h
  | some a => exact pure_ne _ _

theorem checkAsserts_noStage (f : IFrame) :
    checkAsserts f ≠ .error (Fault.assertFails "stage >= 0") := by
  unfold checkAsserts
  by_cases c1 : ¬ ((f.expr.isNone ∨ f.expr = f.ip) ∧ (f.expr.isSome ∨ f.ip = f.stmt))
  · rw [if_pos c1]
    exact throw_ne _ _ (by decide)
  · rw [if_neg c1]
    by_cases c2 : f.stageStack.length ≠ f.exprStack.length + f.stmtStack.length
        + (if f.expr.isSome then 1 else 0)
    · rw [if_pos c2]
      exact throw_ne _ _ (by decide)
    · rw [if_neg c2]
      exact pure_ne _ _

theorem checkAsserts_room (f : IFrame) (h : checkAsserts f = .ok ()) : f.stackRoom := by
  unfold checkAsserts at h
  by_cases c1 : ¬ ((f.expr.isNone ∨ f.expr = f.ip) ∧ (f.expr.isSome ∨ f.ip = f.stmt))
  · rw [if_pos c1] at h
    cases h
  · rw [if_neg c1] at h
    by_cases c2 : f.stageStack.length ≠ f.exprStack.length + f.stmtStack.length
        + (if f.expr.isSome then 1 else 0)
    · rw [if_pos c2] at h
      cases h
    · unfold IFrame.stackRoom
      omega

/-- The pop of `LnextExpr` for a frame at stage 0 whose current expression is done. -/
theorem popExpr_inv (f : IFrame) (hs : f.stagesOk) (hr : f.stackRoom) :
    IFrame.stagesOk
        (if f.expr.isSome then
          if f.exprStack.length ≠ 0 then
            { f with stage := (Vec.pop 0 f.stageStack).1 - 1,
                     stageStack := (Vec.pop 0 f.stageStack).2,
                     ip := (Vec.pop none f.exprStack).1, expr := (Vec.pop none f.exprStack).1,
                     exprStack := (Vec.pop none f.exprStack).2 }
          else { f with stage := (Vec.pop 0 f.stageStack).1 - 1,
                        stageStack := (Vec.pop 0 f.stageStack).2, ip := none, expr := none }
        else f) ∧
      IFrame.stackRoom
        (if f.expr.isSome then
          if f.exprStack.length ≠ 0 then
            { f with stage := (Vec.pop 0 f.stageStack).1 - 1,
                     stageStack := (Vec.pop 0 f.stageStack).2,
                     ip := (Vec.pop none f.exprStack).1, expr := (Vec.pop none f.exprStack).1,
                     exprStack := (Vec.pop none f.exprStack).2 }
          else { f with stage := (Vec.pop 0 f.stageStack).1 - 1,
                        stageStack := (Vec.pop 0 f.stageStack).2, ip := none, expr := none }
        else f) := by
  by_cases he : f.expr.isSome = true
  · simp only [he, if_true]
    have hroom := hr
    unfold IFrame.stackRoom at hroom
    simp only [he, if_true] at hroom
    rcases list_nil_or_snoc f.stageStack with hL | ⟨L, sg, hL⟩
    · rw [hL] at hroom
      simp at hroom
    · have hsg : 1 ≤ sg := hs.2 sg (by rw [hL]; simp)
      have hLall : ∀ e ∈ L, (1 : Int) ≤ e :=
        fun e he => hs.2 e (by rw [hL]; exact List.mem_append_left _ he)
      rw [hL] at hroom
      simp only [List.length_append, List.length_singleton] at hroom
      rw [hL, Vec.pop_append]
      rcases list_nil_or_snoc f.exprStack with hE | ⟨E, x, hE⟩
      · rw [hE]
        simp only [List.length_nil, ne_eq, not_true_eq_false, if_false]
        refine ⟨⟨by show 0 ≤ sg - 1; omega, hLall⟩, ?_⟩
        unfold IFrame.stackRoom
        rw [hE] at hroom
        simp only [List.length_nil] at hroom
        show ([] : List Ptr).length + f.stmtStack.length + (if (none : Ptr).isSome then 1 else 0)
          ≤ L.length
        simp only [List.length_nil, Option.isSome_none, Bool.false_eq_true, if_false]
        omega
      · rw [hE, Vec.pop_append]
        have hne : (E ++ [x]).length ≠ 0 := by simp
        simp only [hne, if_true, ne_eq, not_false_eq_true]
        refine ⟨⟨by show 0 ≤ sg - 1; omega, hLall⟩, ?_⟩
        unfold IFrame.stackRoom
        rw [hE] at hroom
        simp only [List.length_append, List.length_singleton] at hroom
        show E.length + f.stmtStack.length + (if x.isSome then 1 else 0) ≤ L.length
        split <;> omega
  · simp only [he, Bool.false_eq_true, if_false]
    exact ⟨hs, hr⟩

/-- The block at `LnextExpr` on a frame whose stages are in range and none of whose
continuations is without a stage: the assertion `stage >= 0` does not fail, and a frame
that has not retired keeps the two properties. -/
theorem nextExpr_inv (P : Prog) (f : IFrame) (m : Machine) (hs : f.stagesOk)
    (hr : f.stackRoom) :
    nextExpr P f m ≠ .error (Fault.assertFails "stage >= 0") ∧
    ∀ g m1, nextExpr P f m = .ok (false, g, m1) → g.stagesOk ∧ g.stackRoom := by
  unfold nextExpr
  by_cases h0 : f.stage ≠ 0
  · rw [if_pos h0]
    refine ⟨(fun h => nomatch h), fun g m1 h => ?_⟩
    simp only [pure_ok, Prod.mk.injEq, true_and] at h
    rw [← h.1]
    exact ⟨hs, hr⟩
  · rw [if_neg h0]
    simp only [pure_bind_eq]
    obtain ⟨hs1, hr1⟩ := popExpr_inv f hs hr
    generalize (if f.expr.isSome then
          if f.exprStack.length ≠ 0 then
            { f with stage := (Vec.pop 0 f.stageStack).1 - 1,
                     stageStack := (Vec.pop 0 f.stageStack).2,
                     ip := (Vec.pop none f.exprStack).1, expr := (Vec.pop none f.exprStack).1,
                     exprStack := (Vec.pop none f.exprStack).2 }
          else { f with stage := (Vec.pop 0 f.stageStack).1 - 1,
                        stageStack := (Vec.pop 0 f.stageStack).2, ip := none, expr := none }
        else f) = f1 at hs1 hr1 ⊢
    by_cases c1 : f1.expr.isNone ∧ f1.stage = 0
    · rw [if_pos c1]
      have hs2 : ∀ p : Ptr, IFrame.stagesOk { f1 with ip := p, stmt := p, valStack := [] } :=
        fun _ => hs1
      have hr2 : ∀ p : Ptr, IFrame.stackRoom { f1 with ip := p, stmt := p, valStack := [] } :=
        fun _ => hr1
      refine ⟨?_, fun g m1 h => ?_⟩
      · apply bind_ne _ _ _ (deref_ne P _ _ (by decide))
        intro st _
        apply bind_ne _ _ _ (unwind_inv P _ _ (hs2 _) (hr2 _)).1
        rintro ⟨retired, f3⟩ _
        cases retired with
        | true =>
          simp only [if_true]
          apply bind_ne _ _ _ (heapGet_ne _ _ _ (by decide))
          intro t _
          exact pure_ne _ _
        | false =>
          simp only [Bool.false_eq_true, if_false]
          apply bind_ne _ _ _ (checkAsserts_noStage f3)
          intro u _
          exact pure_ne _ _
      · simp only [bind_ok] at h
        obtain ⟨st, -, ⟨retired, f3⟩, h3, h⟩ := h
        cases retired with
        | true =>
          simp only [if_true, bind_ok, pure_ok, Prod.mk.injEq] at h
          obtain ⟨t, -, h, -⟩ := h
          cases h
        | false =>
          simp only [Bool.false_eq_true, if_false, bind_ok, pure_ok, Prod.mk.injEq,
            true_and] at h
          obtain ⟨u, -, h, -⟩ := h
          subst h
          exact (unwind_inv P _ _ (hs2 _) (hr2 _)).2 f3 h3
    · rw [if_neg c1]
      by_cases c2 : f1.ip.isNone = true
      · rw [if_pos c2]
        by_cases c3 : f1.expr.isSome = true
        · rw [if_pos c3]
          exact ⟨throw_ne _ _ (by decide), (fun g m1 h => nomatch h)⟩
        · rw [if_neg c3]
          refine ⟨?_, fun g m1 h => ?_⟩
          · apply bind_ne _ _ _ (checkAsserts_noStage _)
            intro u _
            exact pure_ne _ _
          · simp only [bind_ok, pure_ok, Prod.mk.injEq, true_and] at h
            obtain ⟨u, -, h, -⟩ := h
            subst h
            exact ⟨hs1, hr1⟩
      · rw [if_neg c2]
        refine ⟨?_, fun g m1 h => ?_⟩
        · apply bind_ne _ _ _ (checkAsserts_noStage _)
          intro u _
          exact pure_ne _ _
        · simp only [bind_ok, pure_ok, Prod.mk.injEq, true_and] at h
          obtain ⟨u, -, h, -⟩ := h
          subst h
          exact ⟨hs1, hr1⟩

theorem loopTail_inv (P : Prog) (f : IFrame) (m : Machine) (hs : f.stagesOk)
    (hr : f.stackRoom) :
    loopTail P f m ≠ .error (Fault.assertFails "stage >= 0") ∧
    ∀ g m1, loopTail P f m = .ok (false, g, m1) → g.stagesOk ∧ g.stackRoom := by
  obtain ⟨h1, h2⟩ := nextExpr_inv P f m hs hr
  unfold loopTail
  refine ⟨?_, fun g m1 h => ?_⟩
  · apply bind_ne _ _ _ h1
    rintro ⟨retired, f1, m2⟩ _
    cases retired with
    | true => exact pure_ne _ _
    | false => exact pure_ne _ _
  · simp only [bind_ok] at h
    obtain ⟨⟨retired, f1, m2⟩, h3, h⟩ := h
    cases retired with
    | true =>
      simp only [if_true, pure_ok, Prod.mk.injEq] at h
      cases h.1
    | false =>
      simp only [Bool.false_eq_true, if_false, pure_ok, Prod.mk.injEq, true_and] at h
      rw [← h.1]
      exact h2 f1 m2 h3

/-- The invariant of the stages is kept by the loop of `IFrame::run`, over any number of
rounds, as long as the frame does not retire. -/
theorem runLoopCount_inv (P : Prog) (this : Nat) (fuel timeslice n : Nat) (f : IFrame)
    (m : Machine) (r : Exit × Nat × Nat × IFrame × Machine) (hinv : f.stageInv)
    (h : runLoopCount P this fuel timeslice n f m = .ok r) (hex : r.1 ≠ Exit.retired) :
    r.2.2.2.1.stageInv := by
  induction fuel generalizing timeslice n f m with
  | zero => cases h
  | succ k ih =>
    unfold runLoopCount at h
    by_cases hts : timeslice = 1
    · rw [if_pos hts] at h
      cases h
      exact hinv
    · rw [if_neg hts] at h
      cases hip : Ptr.addr f.ip with
      | error e => rw [hip] at h; cases h
      | ok ipa =>
        rw [hip] at h
        simp only [ok_bind_eq] at h
        have hipa : f.ip = some ipa := (addr_ok _ _).1 hip
        have hs : f.stagesOk := hinv.1
        have hr : f.stackRoom := by
          rcases hinv.2 with hr | ⟨h1, -⟩
          · exact hr
          · rw [hipa] at h1
            cases h1
        generalize (if Vec.inVec m.break_ids (P.node ipa).id then
          { m with interrupted := true } else m) = m1 at h
        have tail : ∀ (stop : Bool) (m2 : Machine),
            (if stop = true then
                (pure (Exit.debugger, n, 0, f, m2) :
                  Except Fault (Exit × Nat × Nat × IFrame × Machine))
              else do
                let r ← exec P k this f m2 ipa
                match r.1 with
                | .ret => pure (Exit.left, n + 1, timeslice - 1, r.2.1, r.2.2)
                | .again => runLoopCount P this k (timeslice - 1) (n + 1) r.2.1 r.2.2
                | .next => do
                  let r2 ← loopTail P r.2.1 r.2.2
                  if r2.1 = true then pure (Exit.retired, n + 1, timeslice - 1, r2.2.1, r2.2.2)
                  else runLoopCount P this k (timeslice - 1) (n + 1) r2.2.1 r2.2.2) = .ok r →
            r.2.2.2.1.stageInv := by
          intro stop m2 ht
          cases stop with
          | true =>
            cases ht
            exact hinv
          | false =>
            simp only [Bool.false_eq_true, if_false] at ht
            cases he : exec P k this f m2 ipa with
            | error e => rw [he] at ht; cases ht
            | ok r1 =>
              rw [he] at ht
              obtain ⟨ctl, f1, m3⟩ := r1
              obtain ⟨e1, e2, e3⟩ := exec_inv hs hr he
              simp only [ok_bind_eq] at ht
              cases ctl with
              | ret =>
                cases ht
                exact ⟨e1, Or.inl (e2 (by decide))⟩
              | again => exact ih _ _ _ _ ⟨e1, Or.inr (e3 rfl)⟩ ht
              | next =>
                simp only at ht
                have hr1 : f1.stackRoom := e2 (by decide)
                cases hl : loopTail P f1 m3 with
                | error e => rw [hl] at ht; cases ht
                | ok r2 =>
                  rw [hl] at ht
                  obtain ⟨retired, f2, m4⟩ := r2
                  simp only [ok_bind_eq] at ht
                  cases retired with
                  | true =>
                    cases ht
                    exact absurd rfl hex
                  | false =>
                    obtain ⟨t1, t2⟩ := (loopTail_inv P f1 m3 e1 hr1).2 f2 m4 hl
                    exact ih _ _ _ _ ⟨t1, Or.inl t2⟩ ht
        cases hi : m1.interrupted with
        | false =>
          rw [hi] at h
          exact tail false m1 h
        | true =>
          rw [hi] at h
          simp only [if_true] at h
          cases hd : interactive P (some f) (m1.sync this f) with
          | error e => rw [hd] at h; cases h
          | ok r1 =>
            rw [hd] at h
            exact tail _ r1.2 h

/-! ### The assertion `stage >= 0` is raised by the loop `while (!stmt)` only -/

theorem foldlM_ne {α β : Type} (g : β → α → Except Fault β) (e : Fault)
    (hg : ∀ b a, g b a ≠ .error e) : ∀ (l : List α) (b : β), l.foldlM g b ≠ .error e := by
  intro l
  induction l with
  | nil => intro b; exact pure_ne _ _
  | cons a l ih =>
    intro b
    rw [List.foldlM_cons]
    exact bind_ne _ _ _ (hg b a) (fun b1 _ => ih b1)

theorem showNode_noStage (P : Prog) (m : Machine) (ip : Ptr) :
    showNode P m ip ≠ .error (Fault.assertFails "stage >= 0") := by
  unfold showNode
  repeat' first
    | with_reducible exact pure_ne _ _
    | ((with_reducible refine addr_ne _ _ ?_); decide)
    | with_reducible refine bind_ne _ _ _ ?_ (fun _ _ => ?_)

theorem printSlot_noStage (P : Prog) (m : Machine) (p : Ptr) :
    printSlot P m p ≠ .error (Fault.assertFails "stage >= 0") := by
  unfold printSlot
  repeat' first
    | with_reducible exact pure_ne _ _
    | ((with_reducible refine addr_ne _ _ ?_); decide)
    | ((with_reducible refine heapGet_ne _ _ _ ?_); decide)
    | with_reducible exact showNode_noStage _ _ _
    | with_reducible refine bind_ne _ _ _ ?_ (fun _ _ => ?_)
    | split

theorem whereExprs_noStage (P : Prog) (f : IFrame) :
    ∀ (n : Nat) (m : Machine) (e : Ptr) (stage : Int) (istage iexpr : Nat),
      whereExprs P f n m e stage istage iexpr ≠ .error (Fault.assertFails "stage >= 0") := by
  intro n
  induction n with
  | zero =>
    intros
    unfold whereExprs
    exact throw_ne _ _ (by decide)
  | succ n ih =>
    intros
    unfold whereExprs
    repeat' first
      | with_reducible exact pure_ne _ _
      | ((with_reducible refine throw_ne _ _ ?_); decide)
      | with_reducible exact showNode_noStage _ _ _
      | with_reducible exact ih _ _ _ _ _
      | with_reducible refine bind_ne _ _ _ ?_ (fun _ _ => ?_)
      | split
      | dsimp only

theorem whereStmts_noStage (P : Prog) (f : IFrame) :
    ∀ (n : Nat) (m : Machine) (s : Ptr) (istage istmt : Nat),
      whereStmts P f n m s istage istmt ≠ .error (Fault.assertFails "stage >= 0") := by
  intro n
  induction n with
  | zero =>
    intros
    unfold whereStmts
    exact throw_ne _ _ (by decide)
  | succ n ih =>
    intros
    unfold whereStmts
    repeat' first
      | with_reducible exact pure_ne _ _
      | ((with_reducible refine throw_ne _ _ ?_); decide)
      | with_reducible exact showNode_noStage _ _ _
      | with_reducible exact ih _ _ _ _
      | with_reducible refine bind_ne _ _ _ ?_ (fun _ _ => ?_)
      | split
      | dsimp only

theorem whereParents_noStage (P : Prog) :
    ∀ (n : Nat) (m : Machine) (fr : Ptr),
      whereParents P n m fr
        ≠ .error (Fault.assertFails "stage >= 0") := by
  intro n
  induction n with
  | zero =>
    intros
    unfold whereParents
    exact throw_ne _ _ (by decide)
  | succ n ih =>
    intros
    unfold whereParents
    repeat' first
      | with_reducible exact pure_ne _ _
      | ((with_reducible refine heapGet_ne _ _ _ ?_); decide)
      | with_reducible exact showNode_noStage _ _ _
      | with_reducible exact ih _ _
      | with_reducible refine bind_ne _ _ _ ?_ (fun _ _ => ?_)
      | split

theorem cmd_where_noStage (P : Prog) (frame : Option IFrame) (m : Machine) :
    cmd_where P frame m ≠ .error (Fault.assertFails "stage >= 0") := by
  unfold cmd_where
  repeat' first
    | with_reducible exact pure_ne _ _
    | with_reducible exact whereExprs_noStage _ _ _ _ _ _ _ _
    | with_reducible exact whereStmts_noStage _ _ _ _ _ _ _
    | with_reducible exact whereParents_noStage _ _ _ _
    | with_reducible refine bind_ne _ _ _ ?_ (fun _ _ => ?_)
    | split

theorem cmd_stack_noStage (P : Prog) (frame : Option IFrame) (m : Machine) :
    cmd_stack P frame m ≠ .error (Fault.assertFails "stage >= 0") := by
  unfold cmd_stack
  repeat' first
    | with_reducible exact pure_ne _ _
    | with_reducible exact foldlM_ne _ _ (fun _ _ => printSlot_noStage _ _ _) _ _
    | with_reducible refine bind_ne _ _ _ ?_ (fun _ _ => ?_)
    | split

theorem cmd_locals_noStage (P : Prog) (frame : Option IFrame) (m : Machine) :
    cmd_locals P frame m ≠ .error (Fault.assertFails "stage >= 0") := by
  unfold cmd_locals
  split
  · exact pure_ne _ _
  · apply foldlM_ne
    intro b a
    split
    · exact printSlot_noStage _ _ _
    · exact pure_ne _ _

theorem cmd_print_found_noStage (P : Prog) (frame : Option IFrame) (m : Machine) (p : Nat) :
    cmd_print_found P frame m p ≠ .error (Fault.assertFails "stage >= 0") := by
  unfold cmd_print_found
  repeat' first
    | with_reducible exact pure_ne _ _
    | ((with_reducible refine throw_ne _ _ ?_); decide)
    | with_reducible exact printSlot_noStage _ _ _
    | with_reducible refine bind_ne _ _ _ ?_ (fun _ _ => ?_)
    | split

theorem cmd_print_noStage (P : Prog) (frame : Option IFrame) (m : Machine) (c0 : List Char) :
    cmd_print P frame m c0 ≠ .error (Fault.assertFails "stage >= 0") := by
  unfold cmd_print
  repeat' first
    | with_reducible exact pure_ne _ _
    | ((with_reducible refine throw_ne _ _ ?_); decide)
    | with_reducible exact cmd_print_found_noStage _ _ _ _
    | with_reducible refine bind_ne _ _ _ ?_ (fun _ _ => ?_)
    | split
    | dsimp only

theorem interactiveCmd_noStage (P : Prog) (frame : Option IFrame) (m : Machine) (c : List Char) :
    interactiveCmd P frame m c ≠ .error (Fault.assertFails "stage >= 0") := by
  unfold interactiveCmd
  repeat' first
    | with_reducible exact pure_ne _ _
    | ((with_reducible refine throw_ne _ _ ?_); decide)
    | ((with_reducible refine heapGet_ne _ _ _ ?_); decide)
    | with_reducible exact cmd_print_noStage _ _ _ _
    | with_reducible exact cmd_where_noStage _ _ _
    | with_reducible exact cmd_stack_noStage _ _ _
    | with_reducible exact cmd_locals_noStage _ _ _
    | with_reducible refine bind_ne _ _ _ ?_ (fun _ _ => ?_)
    | split

theorem interactiveLoop_noStage (P : Prog) (frame : Option IFrame) :
    ∀ (inp : List (List Char)) (m : Machine),
      interactiveLoop P frame inp m
        ≠ .error (Fault.assertFails "stage >= 0") := by
  intro inp
  induction inp with
  | nil =>
    intro m
    unfold interactiveLoop
    exact throw_ne _ _ (by decide)
  | cons line rest ih =>
    intro m
    unfold interactiveLoop
    split
    · rename_i e he
      exact throw_ne _ _ (fun h => interactiveCmd_noStage _ _ _ _ (h ▸ he))
    · exact pure_ne _ _
    · exact ih _

theorem interactive_noStage (P : Prog) (frame : Option IFrame) (m : Machine) :
    interactive P frame m ≠ .error (Fault.assertFails "stage >= 0") := by
  unfold interactive
  split
  · exact bind_ne _ _ _ (showNode_noStage _ _ _) (fun _ _ => interactiveLoop_noStage _ _ _ _)
  · exact bind_ne _ _ _ (pure_ne _ _) (fun _ _ => interactiveLoop_noStage _ _ _ _)

theorem errorInteractiveLoop_noStage (P : Prog) (f : IFrame) :
    ∀ (n : Nat) (m : Machine),
      errorInteractiveLoop P f n m
        ≠ .error (Fault.assertFails "stage >= 0") := by
  intro n
  induction n with
  | zero =>
    intro m
    unfold errorInteractiveLoop
    exact throw_ne _ _ (by decide)
  | succ n ih =>
    intro m
    unfold errorInteractiveLoop
    refine bind_ne _ _ _ (interactive_noStage _ _ _) (fun r _ => ?_)
    refine bind_ne _ _ _ (heapGet_ne _ _ _ (by decide)) (fun t _ => ?_)
    split
    · exact ih _
    · exact pure_ne _ _

theorem user_error_noStage (P : Prog) (f : IFrame) (m : Machine) (msg : String) :
    user_error P f m msg ≠ .error (Fault.assertFails "stage >= 0") := by
  unfold user_error
  dsimp only
  split
  · exact errorInteractiveLoop_noStage _ _ _ _
  · exact throw_ne _ _ (fun h => nomatch h)

theorem fnFirstStmt_noStage (P : Prog) (fn : Nat) :
    fnFirstStmt P fn ≠ .error (Fault.assertFails "stage >= 0") := by
  unfold fnFirstStmt
  repeat' first
    | with_reducible exact pure_ne _ _
    | ((with_reducible refine deref_ne _ _ _ ?_); decide)
    | with_reducible refine bind_ne _ _ _ ?_ (fun _ _ => ?_)

theorem setN_noStage {α : Type} (v : List α) (k : Nat) :
    Vec.setN v k ≠ .error (Fault.assertFails "stage >= 0") := by
  unfold Vec.setN
  split
  · exact pure_ne _ _
  · exact throw_ne _ _ (by decide)

theorem subN_noStage {α : Type} (v : List α) (k : Nat) :
    Vec.subN v k ≠ .error (Fault.assertFails "stage >= 0") := by
  unfold Vec.subN
  split
  · exact pure_ne _ _
  · exact throw_ne _ _ (by decide)

theorem icallFn_noStage (P : Prog) (this : Nat) (f : IFrame) (m : Machine) (fn nargs : Nat) :
    icallFn P this f m fn nargs ≠ .error (Fault.assertFails "stage >= 0") := by
  unfold icallFn
  repeat' first
    | with_reducible exact pure_ne _ _
    | ((with_reducible refine heapGet_ne _ _ _ ?_); decide)
    | with_reducible exact fnFirstStmt_noStage _ _
    | with_reducible exact subN_noStage _ _
    | with_reducible refine bind_ne _ _ _ ?_ (fun _ _ => ?_)
    | split

theorem icall_noStage (P : Prog) (this : Nat) (f : IFrame) (m : Machine) (nargs : Nat) :
    icall P this f m nargs ≠ .error (Fault.assertFails "stage >= 0") := by
  unfold icall
  repeat' first
    | with_reducible exact pure_ne _ _
    | ((with_reducible refine throw_ne _ _ ?_); decide)
    | ((with_reducible refine addr_ne _ _ ?_); decide)
    | ((with_reducible refine heapGet_ne _ _ _ ?_); decide)
    | ((with_reducible refine deref_ne _ _ _ ?_); decide)
    | with_reducible exact icallFn_noStage _ _ _ _ _ _
    | with_reducible exact user_error_noStage _ _ _ _
    | with_reducible refine bind_ne _ _ _ ?_ (fun _ _ => ?_)
    | split
    | dsimp only

theorem defScan_noStage (P : Prog) (s : Nat) :
    ∀ (n : Nat) (ss defexpr : Ptr),
      defScan P s n ss defexpr
        ≠ .error (Fault.assertFails "stage >= 0") := by
  intro n
  induction n with
  | zero =>
    intros
    unfold defScan
    exact throw_ne _ _ (by decide)
  | succ n ih =>
    intros
    unfold defScan
    repeat' first
      | with_reducible exact pure_ne _ _
      | ((with_reducible refine deref_ne _ _ _ ?_); decide)
      | with_reducible exact ih _ _
      | with_reducible refine bind_ne _ _ _ ?_ (fun _ _ => ?_)
      | split
      | dsimp only

theorem igoto_noStage (P : Prog) (fuel : Nat) (f : IFrame) (m : Machine) (s : Nat) :
    igoto P fuel f m s ≠ .error (Fault.assertFails "stage >= 0") := by
  unfold igoto
  repeat' first
    | with_reducible exact pure_ne _ _
    | ((with_reducible refine throw_ne _ _ ?_); decide)
    | with_reducible exact user_error_noStage _ _ _ _
    | with_reducible exact defScan_noStage _ _ _ _ _
    | with_reducible exact setN_noStage _ _
    | with_reducible refine bind_ne _ _ _ ?_ (fun _ _ => ?_)
    | split
    | dsimp only

theorem PUSH_EXPR_noStage (f : IFrame) (m : Machine) (e : Ptr) :
    PUSH_EXPR f m e ≠ .error (Fault.assertFails "stage >= 0") := by
  unfold PUSH_EXPR
  repeat' first
    | with_reducible exact pure_ne _ _
    | ((with_reducible refine throw_ne _ _ ?_); decide)
    | with_reducible refine bind_ne _ _ _ ?_ (fun _ _ => ?_)
    | split

theorem EVAL_EXPR_noStage (f : IFrame) (e : Ptr) :
    EVAL_EXPR f e ≠ .error (Fault.assertFails "stage >= 0") := by
  unfold EVAL_EXPR
  repeat' first
    | with_reducible exact pure_ne _ _
    | ((with_reducible refine throw_ne _ _ ?_); decide)
    | with_reducible refine bind_ne _ _ _ ?_ (fun _ _ => ?_)
    | split

theorem PUSH_VAL_noStage (f : IFrame) (m : Machine) (ast : Ptr) :
    PUSH_VAL f m ast ≠ .error (Fault.assertFails "stage >= 0") := by
  unfold PUSH_VAL
  repeat' first
    | with_reducible exact pure_ne _ _
    | ((with_reducible refine addr_ne _ _ ?_); decide)
    | with_reducible refine bind_ne _ _ _ ?_ (fun _ _ => ?_)

theorem POP_VAL_noStage (f : IFrame) (m : Machine) (ast : Ptr) :
    POP_VAL f m ast ≠ .error (Fault.assertFails "stage >= 0") := by
  unfold POP_VAL
  repeat' first
    | with_reducible exact pure_ne _ _
    | ((with_reducible refine addr_ne _ _ ?_); decide)
    | ((with_reducible refine heapGet_ne _ _ _ ?_); decide)
    | with_reducible refine bind_ne _ _ _ ?_ (fun _ _ => ?_)

theorem check_type_noStage (s : ISlot) :
    check_type s ≠ .error (Fault.assertFails "stage >= 0") := by
  unfold check_type
  repeat' first
    | with_reducible exact pure_ne _ _
    | ((with_reducible refine throw_ne _ _ ?_); decide)
    | with_reducible refine bind_ne _ _ _ ?_ (fun _ _ => ?_)
    | split

theorem v_bool_noStage (s : ISlot) :
    v_bool s ≠ .error (Fault.assertFails "stage >= 0") := by
  unfold v_bool
  repeat' first
    | with_reducible exact pure_ne _ _
    | ((with_reducible refine throw_ne _ _ ?_); decide)
    | with_reducible refine bind_ne _ _ _ ?_ (fun _ _ => ?_)
    | split

theorem slotAt_noStage (m : Machine) (p : Ptr) :
    slotAt m p ≠ .error (Fault.assertFails "stage >= 0") := by
  unfold slotAt
  repeat' first
    | with_reducible exact pure_ne _ _
    | ((with_reducible refine addr_ne _ _ ?_); decide)
    | ((with_reducible refine heapGet_ne _ _ _ ?_); decide)
    | with_reducible refine bind_ne _ _ _ ?_ (fun _ _ => ?_)

theorem CALL_noStage (P : Prog) (this : Nat) (f : IFrame) (m : Machine) (n : Nat) :
    CALL P this f m n ≠ .error (Fault.assertFails "stage >= 0") := by
  unfold CALL
  repeat' first
    | with_reducible exact pure_ne _ _
    | with_reducible exact icall_noStage _ _ _ _ _
    | with_reducible refine bind_ne _ _ _ ?_ (fun _ _ => ?_)

theorem execReturn_noStage (this : Nat) (f : IFrame) (m : Machine) (s : BaseAST) :
    execReturn this f m s ≠ .error (Fault.assertFails "stage >= 0") := by
  unfold execReturn
  repeat' first
    | with_reducible exact pure_ne _ _
    | ((with_reducible refine throw_ne _ _ ?_); decide)
    | ((with_reducible refine addr_ne _ _ ?_); decide)
    | ((with_reducible refine heapGet_ne _ _ _ ?_); decide)
    | with_reducible exact PUSH_EXPR_noStage _ _ _
    | with_reducible exact EVAL_EXPR_noStage _ _
    | with_reducible exact PUSH_VAL_noStage _ _ _
    | with_reducible exact POP_VAL_noStage _ _ _
    | with_reducible exact check_type_noStage _
    | with_reducible exact v_bool_noStage _
    | with_reducible exact slotAt_noStage _ _
    | with_reducible exact CALL_noStage _ _ _ _ _
    | with_reducible refine bind_ne _ _ _ ?_ (fun _ _ => ?_)
    | split

theorem execWhile_noStage (f : IFrame) (m : Machine) (s : BaseAST) :
    execWhile f m s ≠ .error (Fault.assertFails "stage >= 0") := by
  unfold execWhile
  repeat' first
    | with_reducible exact pure_ne _ _
    | ((with_reducible refine throw_ne _ _ ?_); decide)
    | ((with_reducible refine addr_ne _ _ ?_); decide)
    | ((with_reducible refine heapGet_ne _ _ _ ?_); decide)
    | with_reducible exact PUSH_EXPR_noStage _ _ _
    | with_reducible exact EVAL_EXPR_noStage _ _
    | with_reducible exact PUSH_VAL_noStage _ _ _
    | with_reducible exact POP_VAL_noStage _ _ _
    | with_reducible exact check_type_noStage _
    | with_reducible exact v_bool_noStage _
    | with_reducible exact slotAt_noStage _ _
    | with_reducible exact CALL_noStage _ _ _ _ _
    | with_reducible refine bind_ne _ _ _ ?_ (fun _ _ => ?_)
    | split

theorem forCall3_noStage (P : Prog) (this : Nat) (f : IFrame) (m : Machine) (sel : String)
    (iter loop_var : Ptr) :
    forCall3 P this f m sel iter loop_var ≠ .error (Fault.assertFails "stage >= 0") := by
  unfold forCall3
  repeat' first
    | with_reducible exact pure_ne _ _
    | with_reducible exact PUSH_EXPR_noStage _ _ _
    | with_reducible exact EVAL_EXPR_noStage _ _
    | with_reducible exact PUSH_VAL_noStage _ _ _
    | with_reducible exact POP_VAL_noStage _ _ _
    | with_reducible exact check_type_noStage _
    | with_reducible exact v_bool_noStage _
    | with_reducible exact slotAt_noStage _ _
    | with_reducible exact CALL_noStage _ _ _ _ _
    | with_reducible refine bind_ne _ _ _ ?_ (fun _ _ => ?_)

theorem execFor_noStage (P : Prog) (this : Nat) (f : IFrame) (m : Machine) (ip : Nat)
    (s : BaseAST) :
    execFor P this f m ip s ≠ .error (Fault.assertFails "stage >= 0") := by
  unfold execFor
  repeat' first
    | with_reducible exact pure_ne _ _
    | ((with_reducible refine throw_ne _ _ ?_); decide)
    | with_reducible exact PUSH_EXPR_noStage _ _ _
    | with_reducible exact EVAL_EXPR_noStage _ _
    | with_reducible exact PUSH_VAL_noStage _ _ _
    | with_reducible exact POP_VAL_noStage _ _ _
    | with_reducible exact check_type_noStage _
    | with_reducible exact v_bool_noStage _
    | with_reducible exact slotAt_noStage _ _
    | with_reducible exact CALL_noStage _ _ _ _ _
    | with_reducible exact forCall3_noStage _ _ _ _ _ _ _
    | with_reducible refine bind_ne _ _ _ ?_ (fun _ _ => ?_)
    | split

theorem execCondStmt_noStage (f : IFrame) (m : Machine) (s : BaseAST) :
    execCondStmt f m s ≠ .error (Fault.assertFails "stage >= 0") := by
  unfold execCondStmt
  repeat' first
    | with_reducible exact pure_ne _ _
    | ((with_reducible refine throw_ne _ _ ?_); decide)
    | with_reducible exact PUSH_EXPR_noStage _ _ _
    | with_reducible exact EVAL_EXPR_noStage _ _
    | with_reducible exact PUSH_VAL_noStage _ _ _
    | with_reducible exact POP_VAL_noStage _ _ _
    | with_reducible exact check_type_noStage _
    | with_reducible exact v_bool_noStage _
    | with_reducible exact slotAt_noStage _ _
    | with_reducible exact CALL_noStage _ _ _ _ _
    | with_reducible refine bind_ne _ _ _ ?_ (fun _ _ => ?_)
    | split

theorem execSelect_noStage (P : Prog) (f : IFrame) (m : Machine) (s : BaseAST) :
    execSelect P f m s ≠ .error (Fault.assertFails "stage >= 0") := by
  unfold execSelect
  repeat' first
    | with_reducible exact pure_ne _ _
    | ((with_reducible refine throw_ne _ _ ?_); decide)
    | ((with_reducible refine deref_ne _ _ _ ?_); decide)
    | with_reducible exact PUSH_EXPR_noStage _ _ _
    | with_reducible exact EVAL_EXPR_noStage _ _
    | with_reducible exact PUSH_VAL_noStage _ _ _
    | with_reducible exact POP_VAL_noStage _ _ _
    | with_reducible exact check_type_noStage _
    | with_reducible exact v_bool_noStage _
    | with_reducible exact slotAt_noStage _ _
    | with_reducible exact CALL_noStage _ _ _ _ _
    | with_reducible refine bind_ne _ _ _ ?_ (fun _ _ => ?_)
    | split

theorem execGoto_noStage (P : Prog) (fuel this : Nat) (f : IFrame) (m : Machine) (s : BaseAST) :
    execGoto P fuel this f m s ≠ .error (Fault.assertFails "stage >= 0") := by
  unfold execGoto
  repeat' first
    | with_reducible exact pure_ne _ _
    | ((with_reducible refine addr_ne _ _ ?_); decide)
    | ((with_reducible refine deref_ne _ _ _ ?_); decide)
    | with_reducible exact igoto_noStage _ _ _ _ _
    | with_reducible refine bind_ne _ _ _ ?_ (fun _ _ => ?_)
    | split

theorem execSym_noStage (P : Prog) (f : IFrame) (m : Machine) (ip : Nat) (s : BaseAST) :
    execSym P f m ip s ≠ .error (Fault.assertFails "stage >= 0") := by
  unfold execSym
  repeat' first
    | with_reducible exact pure_ne _ _
    | ((with_reducible refine throw_ne _ _ ?_); exact fun h => nomatch h)
    | ((with_reducible refine addr_ne _ _ ?_); decide)
    | ((with_reducible refine heapGet_ne _ _ _ ?_); decide)
    | with_reducible refine bind_ne _ _ _ ?_ (fun _ _ => ?_)
    | split
    | dsimp only

theorem execDef_noStage (P : Prog) (f : IFrame) (m : Machine) (ip : Nat) (s : BaseAST) :
    execDef P f m ip s ≠ .error (Fault.assertFails "stage >= 0") := by
  unfold execDef
  repeat' first
    | with_reducible exact pure_ne _ _
    | ((with_reducible refine addr_ne _ _ ?_); decide)
    | with_reducible refine bind_ne _ _ _ ?_ (fun _ _ => ?_)

theorem execCondExpr_noStage (f : IFrame) (m : Machine) (s : BaseAST) :
    execCondExpr f m s ≠ .error (Fault.assertFails "stage >= 0") := by
  unfold execCondExpr
  repeat' first
    | with_reducible exact pure_ne _ _
    | ((with_reducible refine throw_ne _ _ ?_); decide)
    | ((with_reducible refine addr_ne _ _ ?_); decide)
    | with_reducible exact PUSH_EXPR_noStage _ _ _
    | with_reducible exact EVAL_EXPR_noStage _ _
    | with_reducible exact PUSH_VAL_noStage _ _ _
    | with_reducible exact POP_VAL_noStage _ _ _
    | with_reducible exact check_type_noStage _
    | with_reducible exact v_bool_noStage _
    | with_reducible exact slotAt_noStage _ _
    | with_reducible exact CALL_noStage _ _ _ _ _
    | with_reducible refine bind_ne _ _ _ ?_ (fun _ _ => ?_)
    | split

theorem argGet_noStage (args : List Nat) (i : Int) :
    argGet args i ≠ .error (Fault.assertFails "stage >= 0") := by
  unfold argGet
  repeat' first
    | with_reducible exact pure_ne _ _
    | ((with_reducible refine throw_ne _ _ ?_); decide)
    | with_reducible refine bind_ne _ _ _ ?_ (fun _ _ => ?_)
    | split

theorem iprimitive_noStage (f : IFrame) (s : BaseAST) :
    iprimitive f s ≠ .error (Fault.assertFails "stage >= 0") := by
  unfold iprimitive
  repeat' first
    | with_reducible exact pure_ne _ _
    | with_reducible exact subN_noStage _ _
    | with_reducible refine bind_ne _ _ _ ?_ (fun _ _ => ?_)

theorem execCall_noStage (P : Prog) (this : Nat) (f : IFrame) (m : Machine) (s : BaseAST) :
    execCall P this f m s ≠ .error (Fault.assertFails "stage >= 0") := by
  unfold execCall
  repeat' first
    | with_reducible exact pure_ne _ _
    | ((with_reducible refine throw_ne _ _ ?_); decide)
    | ((with_reducible refine deref_ne _ _ _ ?_); decide)
    | with_reducible exact PUSH_EXPR_noStage _ _ _
    | with_reducible exact EVAL_EXPR_noStage _ _
    | with_reducible exact PUSH_VAL_noStage _ _ _
    | with_reducible exact POP_VAL_noStage _ _ _
    | with_reducible exact check_type_noStage _
    | with_reducible exact v_bool_noStage _
    | with_reducible exact slotAt_noStage _ _
    | with_reducible exact CALL_noStage _ _ _ _ _
    | with_reducible exact argGet_noStage _ _
    | with_reducible exact iprimitive_noStage _ _
    | with_reducible refine bind_ne _ _ _ ?_ (fun _ _ => ?_)
    | split
    | dsimp only

theorem exec_noStage (P : Prog) (fuel this : Nat) (f : IFrame) (m : Machine) (ip : Nat) :
    exec P fuel this f m ip ≠ .error (Fault.assertFails "stage >= 0") := by
  unfold exec
  repeat' first
    | with_reducible exact pure_ne _ _
    | ((with_reducible refine throw_ne _ _ ?_); decide)
    | ((with_reducible refine deref_ne _ _ _ ?_); decide)
    | with_reducible exact EVAL_EXPR_noStage _ _
    | with_reducible exact execReturn_noStage _ _ _ _
    | with_reducible exact execWhile_noStage _ _ _
    | with_reducible exact execFor_noStage _ _ _ _ _ _
    | with_reducible exact execCondStmt_noStage _ _ _
    | with_reducible exact execSelect_noStage _ _ _ _
    | with_reducible exact execGoto_noStage _ _ _ _ _ _
    | with_reducible exact execSym_noStage _ _ _ _ _
    | with_reducible exact execDef_noStage _ _ _ _ _
    | with_reducible exact execCondExpr_noStage _ _ _
    | with_reducible exact execCall_noStage _ _ _ _ _
    | with_reducible refine bind_ne _ _ _ ?_ (fun _ _ => ?_)
    | split
    | dsimp only

/-- The loop of `IFrame::run` on a frame that satisfies the invariant of the stages never
fails the assertion `stage >= 0`, whatever the number of rounds. -/
theorem runLoop_noStage (P : Prog) (this : Nat) (fuel timeslice : Nat) (f : IFrame)
    (m : Machine) (hinv : f.stageInv) :
    runLoop P this fuel timeslice f m ≠ .error (Fault.assertFails "stage >= 0") := by
  induction fuel generalizing timeslice f m with
  | zero =>
    unfold runLoop
    exact throw_ne _ _ (by decide)
  | succ k ih =>
    unfold runLoop
    by_cases hts : timeslice = 1
    · rw [if_pos hts]
      exact pure_ne _ _
    · rw [if_neg hts]
      cases hip : Ptr.addr f.ip with
      | error e =>
        rw [error_bind_eq]
        intro h
        exact addr_ne f.ip _ (by decide) (hip.trans (congrArg Except.error (Except.error.inj h)))
      | ok ipa =>
        simp only [ok_bind_eq]
        have hipa : f.ip = some ipa := (addr_ok _ _).1 hip
        have hs : f.stagesOk := hinv.1
        have hr : f.stackRoom := by
          rcases hinv.2 with hr | ⟨h1, -⟩
          · exact hr
          · rw [hipa] at h1
            cases h1
        generalize (if Vec.inVec m.break_ids (P.node ipa).id then
          { m with interrupted := true } else m) = m1
        have tail : ∀ (stop : Bool) (m2 : Machine),
            (if stop = true then
                (pure (0, f, m2) : Except Fault (Nat × IFrame × Machine))
              else do
                let r ← exec P k this f m2 ipa
                match r.1 with
                | .ret => pure (timeslice - 1, r.2.1, r.2.2)
                | .again => runLoop P this k (timeslice - 1) r.2.1 r.2.2
                | .next => do
                  let r2 ← loopTail P r.2.1 r.2.2
                  if r2.1 = true then pure (timeslice - 1, r2.2.1, r2.2.2)
                  else runLoop P this k (timeslice - 1) r2.2.1 r2.2.2)
              ≠ .error (Fault.assertFails "stage >= 0") := by
          intro stop m2
          cases stop with
          | true => exact pure_ne _ _
          | false =>
            simp only [Bool.false_eq_true, if_false]
            refine bind_ne _ _ _ (exec_noStage _ _ _ _ _ _) (fun r1 he => ?_)
            obtain ⟨ctl, f1, m3⟩ := r1
            obtain ⟨e1, e2, e3⟩ := exec_inv hs hr he
            cases ctl with
            | ret => exact pure_ne _ _
            | again => exact ih _ _ _ ⟨e1, Or.inr (e3 rfl)⟩
            | next =>
              have hr1 : f1.stackRoom := e2 (by decide)
              refine bind_ne _ _ _ (loopTail_inv P f1 m3 e1 hr1).1 (fun r2 hl => ?_)
              obtain ⟨retired, f2, m4⟩ := r2
              cases retired with
              | true => exact pure_ne _ _
              | false =>
                obtain ⟨t1, t2⟩ := (loopTail_inv P f1 m3 e1 hr1).2 f2 m4 hl
                exact ih _ _ _ ⟨t1, Or.inl t2⟩
        cases hi : m1.interrupted with
        | false => exact tail false m1
        | true =>
          simp only [if_true]
          cases hd : interactive P (some f) (m1.sync this f) with
          | error e =>
            intro h
            exact interactive_noStage P (some f) (m1.sync this f)
              (hd.trans (congrArg Except.error (Except.error.inj h)))
          | ok r => exact tail _ r.2

/-- The method `IFrame::run` on a frame of the heap that satisfies the invariant of the
stages never fails the assertion `stage >= 0`. -/
theorem run_noStage (P : Prog) (fuel this timeslice : Nat) (m : Machine) (f : IFrame)
    (hf : m.frames[this]? = some f) (hinv : f.stageInv) :
    IFrame.run P fuel this timeslice m ≠ .error (Fault.assertFails "stage >= 0") := by
  unfold IFrame.run
  rw [(heapGet_ok _ _ _).2 hf, ok_bind_eq]
  dsimp only
  have last : ∀ (x : Except Fault (Nat × IFrame × Machine)),
      x ≠ .error (Fault.assertFails "stage >= 0") →
      (x >>= fun y => match y with
        | (r, f1, m1) => (pure (r, m1.sync this f1) : Except Fault (Nat × Machine)))
        ≠ .error (Fault.assertFails "stage >= 0") := by
    intro x hx
    refine bind_ne _ _ _ hx (fun y _ => ?_)
    obtain ⟨r, f1, m1⟩ := y
    exact pure_ne _ _
  by_cases he : f.expr.isSome = true
  · rw [if_pos he]
    have hs : f.stagesOk := hinv.1
    have hr : f.stackRoom := by
      rcases hinv.2 with hr | ⟨-, h1⟩
      · exact hr
      · rw [h1] at he
        cases he
    refine bind_ne _ _ _ (loopTail_inv P f m hs hr).1 (fun r2 hl => ?_)
    obtain ⟨retired, f2, m4⟩ := r2
    cases retired with
    | true => exact last _ (pure_ne _ _)
    | false =>
      obtain ⟨t1, t2⟩ := (loopTail_inv P f m hs hr).2 f2 m4 hl
      exact last _ (runLoop_noStage P this fuel timeslice f2 m4 ⟨t1, Or.inl t2⟩)
  · rw [if_neg he]
    exact last _ (runLoop_noStage P this fuel timeslice f m hinv)

theorem reset_stageInv (f : IFrame) (h0 : 0 ≤ f.stage) (p q : Ptr) (vs : List Ptr) :
    IFrame.stagesOk { f.reset with ip := p, stmt := q, valStack := vs } ∧
      IFrame.stackRoom { f.reset with ip := p, stmt := q, valStack := vs } :=
  ⟨⟨h0, fun _ h => nomatch h⟩, Nat.le_refl _⟩

/-- The method `IFrame::init` leaves `stage` alone and clears the stacks: on a frame whose
stage is not negative, a new frame in particular, it establishes the invariant of the
stages. -/
theorem init_inv {P : Prog} {this : Nat} {f : IFrame} {m m1 : Machine} {s : Ptr}
    {g : IFrame} (h0 : 0 ≤ f.stage) (h : IFrame.init P this f m s = .ok (g, m1)) :
    g.stagesOk ∧ g.stackRoom := by
  unfold IFrame.init at h
  simp only [bind_ok, addr_ok] at h
  obtain ⟨a, -, h⟩ := h
  split at h
  · unfold IFrame.initFn at h
    exact sameStages_inv (icall_sameStages h) (reset_stageInv f h0 none none _).1
      (reset_stageInv f h0 none none _).2
  · split at h
    · simp only [pure_ok, Prod.mk.injEq] at h
      rw [← h.1]
      exact reset_stageInv f h0 s s []
    · split at h
      · simp only [pure_ok, Prod.mk.injEq] at h
        rw [← h.1]
        exact reset_stageInv f h0 _ _ []
      · simp [throw_ok] at h

theorem calleeFrame_inv (this : Nat) (f : IFrame) (m : Machine) (fn : Nat) (first : Ptr) :
    (calleeFrame this f m fn first).stagesOk ∧ (calleeFrame this f m fn first).stackRoom := by
  unfold calleeFrame
  dsimp only
  split
  · exact ⟨⟨le_refl _, fun _ h => nomatch h⟩, Nat.le_refl _⟩
  · exact ⟨⟨le_refl _, fun _ h => nomatch h⟩, Nat.le_refl _⟩

/-- Every state reached by stepping a fresh frame satisfies the invariant of the stages. -/
theorem reach_inv {P : Prog} {f : IFrame} (h : Reach P f) : f.stageInv := by
  induction h with
  | init this t m m1 s g hi =>
    obtain ⟨a, b⟩ := init_inv (le_refl _) hi
    exact ⟨a, Or.inl b⟩
  | reinit this f m m1 s g _ hi ih =>
    obtain ⟨a, b⟩ := init_inv ih.1.1 hi
    exact ⟨a, Or.inl b⟩
  | callee this f m fn first =>
    obtain ⟨a, b⟩ := calleeFrame_inv this f m fn first
    exact ⟨a, Or.inl b⟩
  | loop this fuel timeslice n f m r _ hrun hex ih =>
    exact runLoopCount_inv P this fuel timeslice n f m r ih hrun hex
  | resume f g m m1 _ he ht ih =>
    have hr : f.stackRoom := by
      rcases ih.2 with hr | ⟨-, h1⟩
      · exact hr
      · rw [h1] at he
        cases he
    obtain ⟨a, b⟩ := (loopTail_inv P f m ih.1 hr).2 g m1 ht
    exact ⟨a, Or.inl b⟩
  | value f slot _ ih => exact ih
/-! ## The claims -/

/-- C1: the stack-balance assertion of `IFrame::run` fails on a conditional expression. From a
freshly initialised frame on the statement `(c ? t : e);` the first three instructions
complete with the balance intact, and the fourth, stage 1 of the conditional expression,
ends in the failed assertion
`stageStack.n == exprStack.n + stmtStack.n + (expr ? 1 : 0)`. -/
theorem C1_stack_balance_assert_fails_on_cond_expr :
    (IFrame.run progCondExpr 10 0 4 (freshAt 1)).map (fun r => r.2.frames)
      = .ok [{ thread := 0, env := [(3, 0), (10, 1)], stageStack := [1], valStack := [some 0],
               stmt := some 1, stage := 1, expr := some 2, ip := some 2 }] ∧
    IFrame.run progCondExpr 10 0 5 (freshAt 1)
      = .error (Fault.assertFails "stageStack.n == exprStack.n + stmtStack.n + (expr ? 1 : 0)") ∧
    IFrame.run progCondExpr 10 0 0 (freshAt 1)
      = .error (Fault.assertFails "stageStack.n == exprStack.n + stmtStack.n + (expr ? 1 : 0)") :=
  ⟨rfl, rfl, rfl⟩

/-- C2: re-entering `IFrame::run` after a timeslice expiry inside an expression skips the
pending instruction. `IFrame::run(k + 1)` executes `k` instructions and yields. On the
statements `7; 8; 9;`, a run of one instruction yields with the literal 7 pending; a second
run of one instruction leaves that literal unevaluated (empty environment) and executes the
second statement instead, whereas one run of two instructions evaluates the literal 7 and
stops before the second statement. -/
theorem C2_reentry_skips_pending_expression :
    (IFrame.run progSeq 10 0 2 (freshAt 1) >>= fun r => IFrame.run progSeq 10 0 2 r.2)
      ≠ IFrame.run progSeq 10 0 3 (freshAt 1) ∧
    (IFrame.run progSeq 10 0 2 (freshAt 1)).map (fun r => r.2.frames)
      = .ok [{ thread := 0, stageStack := [1], stmt := some 1, expr := some 2, ip := some 2 }] ∧
    (IFrame.run progSeq 10 0 2 (freshAt 1) >>= fun r => IFrame.run progSeq 10 0 2 r.2).map
        (fun r => (r.2.frames, r.2.slots))
      = .ok ([{ thread := 0, stageStack := [1], stmt := some 3, expr := some 4, ip := some 4 }],
          []) ∧
    (IFrame.run progSeq 10 0 3 (freshAt 1)).map (fun r => (r.2.frames, r.2.slots))
      = .ok ([{ thread := 0, env := [(10, 0), (2, 0)], stmt := some 3, ip := some 3 }],
          [ISlot.immediate (Immediate.int 7)]) :=
  ⟨by decide, rfl, rfl, rfl⟩

/-- C3: a goto whose target has a chain of enclosing statements (`parents`, outermost first)
that is longer than `stmtStack`, or that differs from `stmtStack` at some position, is
refused: all `igoto` does is to report a user error on the unchanged machine and, when
`user_error` returns, to return 1 with every field of the frame as it was. Outside
interactive mode the report ends the process; whenever `igoto` returns, the value is 1, the
frame is the one passed in, the frame and slot heaps are unchanged and the message is the
last error printed. -/
theorem C3_igoto_rejects_bad_nesting (P : Prog) (fuel : Nat) (f : IFrame) (m : Machine)
    (s : Nat) (chain : List Nat)
    (hchain : parentChain P fuel s = some chain)
    (hbad : f.stmtStack.length < chain.reverse.length ∨
      ∃ (i p : Nat), chain.reverse[i]? = some p ∧ f.stmtStack[i]? ≠ some (some p)) :
    ∃ msg, (msg = "goto target nested below source" ∨
        msg = "goto target crosses nesting levels") ∧
      igoto P fuel f m s = (user_error P f m msg >>= fun m1 => pure (1, f, m1)) ∧
      (m.run_interpreter ≤ 1 → igoto P fuel f m s = .error (Fault.userError msg)) ∧
      ∀ r, igoto P fuel f m s = .ok r →
        r.1 = 1 ∧ r.2.1 = f ∧ r.2.2.frames = m.frames ∧ r.2.2.slots = m.slots ∧
          r.2.2.errors = m.errors ++ [msg] := by
  have key : ∃ msg, (msg = "goto target nested below source" ∨
        msg = "goto target crosses nesting levels") ∧
      igoto P fuel f m s = (user_error P f m msg >>= fun m1 => pure (1, f, m1)) := by
    unfold igoto
    simp only [hchain, pure_bind_eq]
    by_cases hlen : chain.reverse.length > f.stmtStack.length
    · exact ⟨_, Or.inl rfl, by rw [if_pos hlen]⟩
    · rcases hbad with hb | ⟨i, p, hp, hq⟩
      · exact absurd hb hlen
      · refine ⟨_, Or.inr rfl, ?_⟩
        rw [if_neg hlen, if_pos (chainMismatch_of_differs _ _ i p hp hq)]
  obtain ⟨msg, hmsg, heq⟩ := key
  refine ⟨msg, hmsg, heq, ?_, ?_⟩
  · intro hni
    rw [heq]
    exact user_error_bind_fatal P f m msg _ hni
  · intro r hr
    rw [heq] at hr
    obtain ⟨m1, rfl, h1, h2, h3⟩ := user_error_bind_ok hr
    exact ⟨rfl, rfl, h1, h2, h3⟩

/-- The witness of C3: the goto 14 of `progGoto` targets statement 3 inside block 1 while
`stmtStack` is empty. In interactive mode, with the debugger told to `run`, `igoto` returns 1
and the frame is as it was. -/
theorem C3_igoto_rejects_bad_nesting_witness :
    parentChain progGoto 10 3 = some [1] ∧
    (igoto progGoto 10 ((IFrame.new 0).initStmt (some 14)) (debugAt 14 ["run"]) 3).map
        (fun r => (r.1, r.2.1)) = .ok (1, (IFrame.new 0).initStmt (some 14)) ∧
    ∃ msg, (msg = "goto target nested below source" ∨
        msg = "goto target crosses nesting levels") ∧
      igoto progGoto 10 ((IFrame.new 0).initStmt (some 14)) (debugAt 14 ["run"]) 3 =
        (user_error progGoto ((IFrame.new 0).initStmt (some 14)) (debugAt 14 ["run"]) msg >>=
          fun m1 => pure (1, (IFrame.new 0).initStmt (some 14), m1)) ∧
      ((debugAt 14 ["run"]).run_interpreter ≤ 1 →
        igoto progGoto 10 ((IFrame.new 0).initStmt (some 14)) (debugAt 14 ["run"]) 3 =
          .error (Fault.userError msg)) ∧
      ∀ r, igoto progGoto 10 ((IFrame.new 0).initStmt (some 14)) (debugAt 14 ["run"]) 3 = .ok r →
        r.1 = 1 ∧ r.2.1 = (IFrame.new 0).initStmt (some 14) ∧
          r.2.2.frames = (debugAt 14 ["run"]).frames ∧ r.2.2.slots = (debugAt 14 ["run"]).slots ∧
          r.2.2.errors = (debugAt 14 ["run"]).errors ++ [msg] :=
  ⟨rfl, rfl,
    C3_igoto_rejects_bad_nesting progGoto 10 ((IFrame.new 0).initStmt (some 14))
      (debugAt 14 ["run"]) 3 [1] rfl (Or.inl (by decide))⟩

/-- C4: a goto out of a nested block over a variable definition is not refused. In
`progGoto` the goto 4 lies in block 1, and the definition statement 6 and the label statement 7
follow block 1 in the enclosing list. One instruction of a fresh frame enters the block and
reaches the goto; `igoto` then returns 0 for the jump to statement 7, having scanned only
the siblings of the goto inside the block. -/
theorem C4_nested_goto_over_definition_accepted :
    (progGoto.node 4).parentStmt = some 1 ∧ (progGoto.node 1).next = some 6 ∧
    (progGoto.node 6).astType = AstTag.STMT_EXPR ∧
    ((progGoto.node 6).expr.map fun e => (progGoto.node e).astType) = some AstTag.EXPR_DEF ∧
    (progGoto.node 6).next = some 7 ∧
    (IFrame.run progGoto 10 0 2 (freshAt 1)).map (fun r => r.2.frames)
      = .ok [{ thread := 0, stmtStack := [some 1], stageStack := [1], stmt := some 4,
               ip := some 4 }] ∧
    (igoto progGoto 10
        { thread := 0, stmtStack := [some 1], stageStack := [1], stmt := some 4, ip := some 4 }
        (freshAt 1) 7).map (fun r => (r.1, r.2.1))
      = .ok (0, { thread := 0, stmt := some 7, ip := none }) :=
  ⟨rfl, rfl, rfl, rfl, rfl, rfl, rfl⟩

/-- C5: after a goto that passes validation the instruction pointer is null, not the target.
For the goto 10 of `progGoto` to the label statement 12, `igoto` returns 0 with `stmt` at the
target and `ip` null; the step loop then dereferences `ip` and the process stops, and with a
timeslice that expires right after the goto, `IFrame::run` returns with `ip` still null. -/
theorem C5_successful_goto_leaves_ip_null :
    igoto progGoto 10 ((IFrame.new 0).initStmt (some 10)) (freshAt 10) 12
      = .ok (0, { thread := 0, stmt := some 12, ip := none }, freshAt 10) ∧
    IFrame.run progGoto 10 0 0 (freshAt 10) = .error Fault.nullDeref ∧
    (IFrame.run progGoto 10 0 2 (freshAt 10)).map (fun r => r.2.frames)
      = .ok [{ thread := 0, stmt := some 12, ip := none }] ∧
    (IFrame.run progGoto 10 0 2 (freshAt 10) >>= fun r => IFrame.run progGoto 10 0 2 r.2)
      = .error Fault.nullDeref :=
  ⟨rfl, rfl, rfl, rfl⟩

/-- The counterexample to C6: in `progCall` the name `f` has the visible overloads 20, with
one formal, and 21, with two. A call that passes one argument (`nargs` is 2, the callee slot
included) is not resolved to overload 20: `icall` reports that the call cannot be resolved
to a single function. -/
theorem C6_two_overloads_not_resolved_by_arity :
    progCall.getVisibleFunctions 0 "f" = [20, 21] ∧
    (progCall.node 20).numFormals = 1 ∧ (progCall.node 21).numFormals = 2 ∧
    icall progCall 0 callFrame (callMachine (ISlot.selector "f")) 2
      = .error (Fault.userError (unresolvedMsg "f")) ∧
    icall progCall 0 callFrame (callMachine (ISlot.selector "f")) 2
      ≠ icallFn progCall 0 callFrame (callMachine (ISlot.selector "f")) 20 2 :=
  ⟨rfl, rfl, rfl, rfl, by decide⟩

/-- C6, as amended: resolution is by name only. For a callee slot that is a selector, a call
is resolved exactly when one function of that name is visible from the scope of the current
instruction, and then to that function, whatever the number of its formals and whatever the
number of arguments passed; with no visible function of the name, and with two or more
visible overloads, `icall` reports the user error for every number of arguments. -/
theorem C6_resolution_is_by_name_only (P : Prog) (this : Nat) (f : IFrame) (m : Machine)
    (nargs a : Nat) (name : String) (ipa scope : Nat)
    (hn : 1 ≤ nargs) (hlen : nargs ≤ f.valStack.length)
    (harg : f.valStack[f.valStack.length - nargs]? = some (some a))
    (hslot : m.slots[a]? = some (ISlot.selector name))
    (hip : f.ip = some ipa) (hscope : (P.node ipa).parentScope = some scope) :
    (∀ fn, P.getVisibleFunctions scope name = [fn] →
      icall P this f m nargs = icallFn P this f m fn nargs) ∧
    (∀ fn1 fn2 rest, P.getVisibleFunctions scope name = fn1 :: fn2 :: rest →
      icall P this f m nargs =
        (user_error P f m (unresolvedMsg name) >>= fun m1 => pure (f, m1)) ∧
      (m.run_interpreter ≤ 1 →
        icall P this f m nargs = .error (Fault.userError (unresolvedMsg name)))) ∧
    (P.getVisibleFunctions scope name = [] →
      icall P this f m nargs =
        (user_error P f m (unresolvedMsg name) >>= fun m1 => pure (f, m1)) ∧
      (m.run_interpreter ≤ 1 →
        icall P this f m nargs = .error (Fault.userError (unresolvedMsg name)))) ∧
    ((∃ fn, icall P this f m nargs = icallFn P this f m fn nargs ∧
        P.getVisibleFunctions scope name = [fn]) ∨
      icall P this f m nargs =
        (user_error P f m (unresolvedMsg name) >>= fun m1 => pure (f, m1))) := by
  have key := icall_selector_eq P this f m nargs a name ipa scope hn hlen harg hslot hip hscope
  refine ⟨?_, ?_, ?_, ?_⟩
  · intro fn hv
    rw [key, hv]
  · intro fn1 fn2 rest hv
    have h2 : icall P this f m nargs =
        (user_error P f m (unresolvedMsg name) >>= fun m1 => pure (f, m1)) := by
      rw [key, hv]
    exact ⟨h2, fun hni => by rw [h2]; exact user_error_bind_fatal P f m _ _ hni⟩
  · intro hv
    have h2 : icall P this f m nargs =
        (user_error P f m (unresolvedMsg name) >>= fun m1 => pure (f, m1)) := by
      rw [key, hv]
    exact ⟨h2, fun hni => by rw [h2]; exact user_error_bind_fatal P f m _ _ hni⟩
  · by_cases hl : (P.getVisibleFunctions scope name).length = 1
    · obtain ⟨fn, hfn⟩ := List.length_eq_one.1 hl
      exact Or.inl ⟨fn, by rw [key, hfn], hfn⟩
    · exact Or.inr (icall_selector_unresolved P this f m nargs a name ipa scope hn hlen harg
        hslot hip hscope hl)

/-- The witness of C6 as amended: the call `f(5)` of `progCall`, with the two overloads of `f`
visible; the same call with the callee `h`, of which no function is visible, ends in the
same report. -/
theorem C6_resolution_is_by_name_only_witness :
    (1 ≤ 2 ∧ 2 ≤ callFrame.valStack.length ∧
      callFrame.valStack[callFrame.valStack.length - 2]? = some (some 0) ∧
      (callMachine (ISlot.selector "f")).slots[0]? = some (ISlot.selector "f") ∧
      callFrame.ip = some 2 ∧ (progCall.node 2).parentScope = some 0) ∧
    ((∀ fn, progCall.getVisibleFunctions 0 "f" = [fn] →
      icall progCall 0 callFrame (callMachine (ISlot.selector "f")) 2
        = icallFn progCall 0 callFrame (callMachine (ISlot.selector "f")) fn 2) ∧
    (∀ fn1 fn2 rest, progCall.getVisibleFunctions 0 "f" = fn1 :: fn2 :: rest →
      icall progCall 0 callFrame (callMachine (ISlot.selector "f")) 2 =
        (user_error progCall callFrame (callMachine (ISlot.selector "f")) (unresolvedMsg "f")
          >>= fun m1 => pure (callFrame, m1)) ∧
      ((callMachine (ISlot.selector "f")).run_interpreter ≤ 1 →
        icall progCall 0 callFrame (callMachine (ISlot.selector "f")) 2
          = .error (Fault.userError (unresolvedMsg "f")))) ∧
    (progCall.getVisibleFunctions 0 "f" = [] →
      icall progCall 0 callFrame (callMachine (ISlot.selector "f")) 2 =
        (user_error progCall callFrame (callMachine (ISlot.selector "f")) (unresolvedMsg "f")
          >>= fun m1 => pure (callFrame, m1)) ∧
      ((callMachine (ISlot.selector "f")).run_interpreter ≤ 1 →
        icall progCall 0 callFrame (callMachine (ISlot.selector "f")) 2
          = .error (Fault.userError (unresolvedMsg "f")))) ∧
    ((∃ fn, icall progCall 0 callFrame (callMachine (ISlot.selector "f")) 2
          = icallFn progCall 0 callFrame (callMachine (ISlot.selector "f")) fn 2 ∧
        progCall.getVisibleFunctions 0 "f" = [fn]) ∨
      icall progCall 0 callFrame (callMachine (ISlot.selector "f")) 2 =
        (user_error progCall callFrame (callMachine (ISlot.selector "f")) (unresolvedMsg "f")
          >>= fun m1 => pure (callFrame, m1)))) ∧
    progCall.getVisibleFunctions 0 "h" = [] ∧
    icall progCall 0 callFrame (callMachine (ISlot.selector "h")) 2
      = .error (Fault.userError (unresolvedMsg "h")) ∧
    progCall.getVisibleFunctions 0 "g" = [22] ∧
    icall progCall 0 callFrame (callMachine (ISlot.selector "g")) 2
      = icallFn progCall 0 callFrame (callMachine (ISlot.selector "g")) 22 2 :=
  ⟨⟨by decide, by decide, rfl, rfl, rfl, rfl⟩,
    C6_resolution_is_by_name_only progCall 0 callFrame (callMachine (ISlot.selector "f")) 2 0
      "f" 2 0 (by decide) (by decide) rfl rfl rfl rfl,
    rfl, rfl, rfl, rfl⟩

/-- C7, counterexample: when `icall` returns after the error report, the thread has lost its
current frame. In `progCall` the name `f` has two visible candidates. In interactive mode
the report enters the debugger, which is left only when its command `run` has reset the
thread: before the call the current frame of thread 0 is frame 0, after it the thread has
no current frame. No frame has been created, and the message is the error printed. Outside
interactive mode the report ends the process. -/
theorem C7_unresolved_call_returns_with_thread_reset :
    (callMachineRun (ISlot.selector "f")).threadHeap.map (fun t => t.frame) = [some 0] ∧
    (icall progCall 0 callFrame (callMachineRun (ISlot.selector "f")) 2).map
        (fun r => ((r.2.threadHeap[0]?).map (fun t => t.frame), r.2.frames.length, r.2.errors))
      = .ok (some none, 1, [unresolvedMsg "f"]) ∧
    icall progCall 0 callFrame (callMachine (ISlot.selector "f")) 2
      = .error (Fault.userError (unresolvedMsg "f")) :=
  ⟨rfl, rfl, rfl⟩

/-- C7, as amended: for a callee slot that is a selector, `icall` invokes a function exactly
when the lookup of the name in the scope of the current instruction yields one candidate,
and it invokes that candidate. With no candidate or several, all `icall` does is to report
the user error `unable to resolve call ... to a single function` on the unchanged machine
and to return the frame passed in: it creates no frame. Outside interactive mode the report
ends the process. In interactive mode the report returns only after the debugger has reset
the thread: whenever `icall` returns, the frame is the one passed in, the machine is the one
that `user_error` has returned, the frame heap is unchanged, the message is the last error
printed, and the thread of the frame has no current frame. -/
theorem C7_selector_resolution (P : Prog) (this : Nat) (f : IFrame) (m : Machine)
    (nargs a : Nat) (name : String) (ipa scope : Nat)
    (hn : 1 ≤ nargs) (hlen : nargs ≤ f.valStack.length)
    (harg : f.valStack[f.valStack.length - nargs]? = some (some a))
    (hslot : m.slots[a]? = some (ISlot.selector name))
    (hip : f.ip = some ipa) (hscope : (P.node ipa).parentScope = some scope) :
    (∀ fn, P.getVisibleFunctions scope name = [fn] →
      icall P this f m nargs = icallFn P this f m fn nargs) ∧
    ((P.getVisibleFunctions scope name).length ≠ 1 →
      icall P this f m nargs =
        (user_error P f m (unresolvedMsg name) >>= fun m1 => pure (f, m1)) ∧
      (m.run_interpreter ≤ 1 →
        icall P this f m nargs = .error (Fault.userError (unresolvedMsg name))) ∧
      ∀ r, icall P this f m nargs = .ok r →
        r.1 = f ∧ user_error P f m (unresolvedMsg name) = .ok r.2 ∧
          r.2.frames = m.frames ∧ r.2.slots = m.slots ∧
          r.2.errors = m.errors ++ [unresolvedMsg name] ∧
          (r.2.threadHeap[f.thread]?).map (fun t => t.frame) = some none) := by
  have key := icall_selector_eq P this f m nargs a name ipa scope hn hlen harg hslot hip hscope
  refine ⟨?_, ?_⟩
  · intro fn hv
    rw [key, hv]
  · intro hv
    have h2 := icall_selector_unresolved P this f m nargs a name ipa scope hn hlen harg hslot
      hip hscope hv
    refine ⟨h2, fun hni => by rw [h2]; exact user_error_bind_fatal P f m _ _ hni, ?_⟩
    intro r hr
    rw [h2] at hr
    simp only [bind_ok, pure_ok] at hr
    obtain ⟨m1, hm1, rfl⟩ := hr
    obtain ⟨h1, h3, h4⟩ := user_error_ok hm1
    exact ⟨rfl, hm1, h1, h3, h4, user_error_clears hm1⟩

/-- The witness of C7: the selector `h` of `progCall` has no visible candidate; in
interactive mode, with the debugger told to `run`, `icall` returns with the frame as it was,
no frame created and the thread without a current frame. -/
theorem C7_selector_resolution_witness :
    (1 ≤ 2 ∧ 2 ≤ callFrame.valStack.length ∧
      callFrame.valStack[callFrame.valStack.length - 2]? = some (some 0) ∧
      (callMachineRun (ISlot.selector "h")).slots[0]? = some (ISlot.selector "h") ∧
      callFrame.ip = some 2 ∧ (progCall.node 2).parentScope = some 0 ∧
      (progCall.getVisibleFunctions 0 "h").length ≠ 1) ∧
    (icall progCall 0 callFrame (callMachineRun (ISlot.selector "h")) 2).map
        (fun r => (r.1, r.2.frames, (r.2.threadHeap[0]?).map (fun t => t.frame)))
      = .ok (callFrame, [callFrame], some none) ∧
    ((∀ fn, progCall.getVisibleFunctions 0 "h" = [fn] →
      icall progCall 0 callFrame (callMachineRun (ISlot.selector "h")) 2
        = icallFn progCall 0 callFrame (callMachineRun (ISlot.selector "h")) fn 2) ∧
    ((progCall.getVisibleFunctions 0 "h").length ≠ 1 →
      icall progCall 0 callFrame (callMachineRun (ISlot.selector "h")) 2 =
        (user_error progCall callFrame (callMachineRun (ISlot.selector "h")) (unresolvedMsg "h")
          >>= fun m1 => pure (callFrame, m1)) ∧
      ((callMachineRun (ISlot.selector "h")).run_interpreter ≤ 1 →
        icall progCall 0 callFrame (callMachineRun (ISlot.selector "h")) 2
          = .error (Fault.userError (unresolvedMsg "h"))) ∧
      ∀ r, icall progCall 0 callFrame (callMachineRun (ISlot.selector "h")) 2 = .ok r →
        r.1 = callFrame ∧
          user_error progCall callFrame (callMachineRun (ISlot.selector "h")) (unresolvedMsg "h")
            = .ok r.2 ∧
          r.2.frames = (callMachineRun (ISlot.selector "h")).frames ∧
          r.2.slots = (callMachineRun (ISlot.selector "h")).slots ∧
          r.2.errors = (callMachineRun (ISlot.selector "h")).errors ++ [unresolvedMsg "h"] ∧
          (r.2.threadHeap[callFrame.thread]?).map (fun t => t.frame) = some none)) :=
  ⟨⟨by decide, by decide, rfl, rfl, rfl, rfl, by decide⟩, rfl,
    C7_selector_resolution progCall 0 callFrame (callMachineRun (ISlot.selector "h")) 2 0 "h" 2
      0 (by decide) (by decide) rfl rfl rfl rfl⟩

/-- The counterexample to C8: on an error path the arguments stay on the operand stack. In
`progCall` the selector `h` has no visible candidate. In interactive mode, with the
debugger told to `run`, `icall(2)` returns after the error report and the operand stack of
the frame still holds its two entries. -/
theorem C8_error_path_keeps_arguments :
    callFrame.valStack.length = 2 ∧
    (icall progCall 0 callFrame (callMachineRun (ISlot.selector "h")) 2).map
        (fun r => (r.1.valStack, r.2.errors))
      = .ok ([some 0, some 1], [unresolvedMsg "h"]) :=
  ⟨rfl, rfl⟩

/-- C8, as amended: when `icall(nargs)` invokes a function (the callee slot is a bound
function symbol, or a selector with exactly one visible candidate) and returns, the operand
stack of the caller is shorter by exactly `nargs`; on the error paths (the callee slot is a
symbol that is no function, an empty, uninitialized, object or immediate slot, or a selector
with no candidate or several) the frame that `icall` returns is the frame as it was, operand
stack included. -/
theorem C8_arguments_removed_on_invocation (P : Prog) (this : Nat) (f : IFrame) (m : Machine)
    (nargs a : Nat) (slot : ISlot) (r : IFrame × Machine)
    (hn : 1 ≤ nargs) (hlen : nargs ≤ f.valStack.length)
    (harg : f.valStack[f.valStack.length - nargs]? = some (some a))
    (hslot : m.slots[a]? = some slot)
    (hret : icall P this f m nargs = .ok r) :
    (((∃ fn, slot = ISlot.symbol (some fn) ∧ (P.node fn).astType = AstTag.SYMBOL_FN) ∨
        (∃ name ipa scope fn, slot = ISlot.selector name ∧ f.ip = some ipa ∧
          (P.node ipa).parentScope = some scope ∧ P.getVisibleFunctions scope name = [fn])) →
      r.1.valStack.length + nargs = f.valStack.length) ∧
    (((∃ sym, slot = ISlot.symbol (some sym) ∧ (P.node sym).astType ≠ AstTag.SYMBOL_FN) ∨
        slot = ISlot.empty ∨ slot = ISlot.uninitialized ∨ (∃ o, slot = ISlot.object o) ∨
        (∃ i, slot = ISlot.immediate i) ∨
        (∃ name ipa scope, slot = ISlot.selector name ∧ f.ip = some ipa ∧
          (P.node ipa).parentScope = some scope ∧
          (P.getVisibleFunctions scope name).length ≠ 1)) →
      r.1 = f ∧ r.1.valStack = f.valStack) := by
  refine ⟨?_, ?_⟩
  · rintro (⟨fn, rfl, hfn⟩ | ⟨name, ipa, scope, fn, rfl, hip, hscope, hv⟩)
    · rw [icall_symbol_fn_eq P this f m nargs a fn hn hlen harg hslot hfn] at hret
      exact icallFn_valStack hret
    · rw [icall_selector_eq P this f m nargs a name ipa scope hn hlen harg hslot hip hscope,
        hv] at hret
      exact icallFn_valStack hret
  · intro h
    have hf : r.1 = f := by
      rcases h with h | h | h | h | h | ⟨name, ipa, scope, rfl, hip, hscope, hv⟩
      · rw [icall_error_eq P this f m nargs a slot hn hlen harg hslot (Or.inl h)] at hret
        obtain ⟨m1, rfl, -⟩ := user_error_bind_ok hret
        rfl
      · rw [icall_error_eq P this f m nargs a slot hn hlen harg hslot (Or.inr (Or.inl h))] at hret
        obtain ⟨m1, rfl, -⟩ := user_error_bind_ok hret
        rfl
      · rw [icall_error_eq P this f m nargs a slot hn hlen harg hslot
          (Or.inr (Or.inr (Or.inl h)))] at hret
        obtain ⟨m1, rfl, -⟩ := user_error_bind_ok hret
        rfl
      · rw [icall_error_eq P this f m nargs a slot hn hlen harg hslot
          (Or.inr (Or.inr (Or.inr (Or.inl h))))] at hret
        obtain ⟨m1, rfl, -⟩ := user_error_bind_ok hret
        rfl
      · rw [icall_error_eq P this f m nargs a slot hn hlen harg hslot
          (Or.inr (Or.inr (Or.inr (Or.inr h))))] at hret
        obtain ⟨m1, rfl, -⟩ := user_error_bind_ok hret
        rfl
      · rw [icall_selector_unresolved P this f m nargs a name ipa scope hn hlen harg hslot hip
          hscope hv] at hret
        obtain ⟨m1, rfl, -⟩ := user_error_bind_ok hret
        rfl
    exact ⟨hf, by rw [hf]⟩

/-- The witness of C8 as amended: in `progCall` the callee slot is bound to function 22; the
call with `nargs` 2 returns and the operand stack, of length 2 before, is empty. -/
theorem C8_arguments_removed_on_invocation_witness :
    (1 ≤ 2 ∧ 2 ≤ callFrame.valStack.length ∧
      callFrame.valStack[callFrame.valStack.length - 2]? = some (some 0) ∧
      (callMachine (ISlot.symbol (some 22))).slots[0]? = some (ISlot.symbol (some 22)) ∧
      icall progCall 0 callFrame (callMachine (ISlot.symbol (some 22))) 2
        = .ok (callResult (ISlot.symbol (some 22)))) ∧
    (callResult (ISlot.symbol (some 22))).1.valStack = [] ∧
    ((((∃ fn, ISlot.symbol (some 22) = ISlot.symbol (some fn) ∧
          (progCall.node fn).astType = AstTag.SYMBOL_FN) ∨
        (∃ name ipa scope fn, ISlot.symbol (some 22) = ISlot.selector name ∧
          callFrame.ip = some ipa ∧ (progCall.node ipa).parentScope = some scope ∧
          progCall.getVisibleFunctions scope name = [fn])) →
      (callResult (ISlot.symbol (some 22))).1.valStack.length + 2 = callFrame.valStack.length) ∧
    (((∃ sym, ISlot.symbol (some 22) = ISlot.symbol (some sym) ∧
          (progCall.node sym).astType ≠ AstTag.SYMBOL_FN) ∨
        ISlot.symbol (some 22) = ISlot.empty ∨ ISlot.symbol (some 22) = ISlot.uninitialized ∨
        (∃ o, ISlot.symbol (some 22) = ISlot.object o) ∨
        (∃ i, ISlot.symbol (some 22) = ISlot.immediate i) ∨
        (∃ name ipa scope, ISlot.symbol (some 22) = ISlot.selector name ∧
          callFrame.ip = some ipa ∧ (progCall.node ipa).parentScope = some scope ∧
          (progCall.getVisibleFunctions scope name).length ≠ 1)) →
      (callResult (ISlot.symbol (some 22))).1 = callFrame ∧
        (callResult (ISlot.symbol (some 22))).1.valStack = callFrame.valStack)) :=
  ⟨⟨by decide, by decide, rfl, rfl, rfl⟩, rfl,
    C8_arguments_removed_on_invocation progCall 0 callFrame
      (callMachine (ISlot.symbol (some 22))) 2 0 (ISlot.symbol (some 22))
      (callResult (ISlot.symbol (some 22))) (by decide) (by decide) rfl rfl rfl⟩

/-- C9: a callee slot bound to a function symbol `fn` is invoked directly. The call returns
and the operand stack of the caller is shorter by exactly `nargs`. When the `ip` of the
current frame is not null, a new frame is created (at the end of the frame heap) with the
caller as parent, `fn` as function, `ip` and `stmt` at the first statement of the body of
`fn`, and empty stacks and environment, and it becomes the current frame of the thread;
the function and `ip` of the caller stay. When `ip` is null, no frame is created, the
thread keeps its frame, and the current frame itself gets `fn` as function and `ip` and
`stmt` at the first statement of the body. -/
theorem C9_direct_invocation (P : Prog) (this : Nat) (f : IFrame) (m : Machine)
    (nargs a fn : Nat) (first : Ptr)
    (hn : 1 ≤ nargs) (hlen : nargs ≤ f.valStack.length)
    (harg : f.valStack[f.valStack.length - nargs]? = some (some a))
    (hslot : m.slots[a]? = some (ISlot.symbol (some fn)))
    (hfn : (P.node fn).astType = AstTag.SYMBOL_FN)
    (hfirst : fnFirstStmt P fn = .ok first)
    (hthread : f.thread < m.threadHeap.length) :
    ∃ f1 m1, icall P this f m nargs = .ok (f1, m1) ∧
      f1.valStack.length + nargs = f.valStack.length ∧
      (f.ip ≠ none →
        (∃ g, m1.frames = m.frames ++ [g] ∧ g.thread = f.thread ∧ g.parent = some this ∧
          g.function = some fn ∧ g.ip = first ∧ g.stmt = first ∧ g.expr = none ∧ g.stage = 0 ∧
          g.stmtStack = [] ∧ g.stageStack = [] ∧ g.exprStack = [] ∧ g.valStack = [] ∧
          g.env = []) ∧
        (m1.threadHeap[f.thread]?).map (fun t => t.frame) = some (some m.frames.length) ∧
        f1 = { f with valStack := f.valStack.take (f.valStack.length - nargs) }) ∧
      (f.ip = none →
        m1.frames = m.frames ∧ m1.threadHeap = m.threadHeap ∧
        f1 = { f with function := some fn, ip := first, stmt := first,
                      valStack := f.valStack.take (f.valStack.length - nargs) }) := by
  rw [icall_symbol_fn_eq P this f m nargs a fn hn hlen harg hslot hfn]
  have hl : (f.valStack.take (f.valStack.length - nargs)).length + nargs = f.valStack.length := by
    simp only [List.length_take]; omega
  obtain hip | ⟨ipa, hip⟩ : f.ip = none ∨ ∃ ipa, f.ip = some ipa := by
    cases f.ip
    · exact Or.inl rfl
    · exact Or.inr ⟨_, rfl⟩
  · refine ⟨_, _, icallFn_null_ip P this f m fn nargs first hip hfirst hlen, hl,
      fun h => absurd hip h, fun _ => ⟨?_, ?_, rfl⟩⟩
    · exact (callMark_fields P m fn).1
    · exact (callMark_fields P m fn).2.1
  · obtain ⟨t, ht⟩ : ∃ t, m.threadHeap[f.thread]? = some t :=
      ⟨m.threadHeap[f.thread], List.getElem?_eq_getElem hthread⟩
    obtain ⟨m1, h1, h2, h3, -⟩ := icallFn_new_frame P this f m fn nargs first ipa t hip hfirst
      hlen ht
    refine ⟨_, m1, h1, hl, fun _ => ⟨⟨_, h2, calleeFrame_fields this f _ fn first⟩, ?_, rfl⟩,
      fun h => ?_⟩
    · rw [h3, List.getElem?_set_self hthread]
      rfl
    · rw [hip] at h
      exact absurd h (by simp)

/-- The witness of C9: the call of function 22 in `progCall`, from a frame whose `ip` is the
call expression: frame 1 is created at statement 42, the first of the body, and it is the
current frame of the thread. -/
theorem C9_direct_invocation_witness :
    (1 ≤ 2 ∧ 2 ≤ callFrame.valStack.length ∧
      callFrame.valStack[callFrame.valStack.length - 2]? = some (some 0) ∧
      (callMachine (ISlot.symbol (some 22))).slots[0]? = some (ISlot.symbol (some 22)) ∧
      (progCall.node 22).astType = AstTag.SYMBOL_FN ∧
      fnFirstStmt progCall 22 = .ok (some 42) ∧
      callFrame.thread < (callMachine (ISlot.symbol (some 22))).threadHeap.length) ∧
    ((callResult (ISlot.symbol (some 22))).2.frames.map (fun g => (g.parent, g.function, g.ip))
      = [(none, none, some 2), (some 0, some 22, some 42)]) ∧
    ∃ f1 m1,
      icall progCall 0 callFrame (callMachine (ISlot.symbol (some 22))) 2 = .ok (f1, m1) ∧
      f1.valStack.length + 2 = callFrame.valStack.length ∧
      (callFrame.ip ≠ none →
        (∃ g, m1.frames = (callMachine (ISlot.symbol (some 22))).frames ++ [g] ∧
          g.thread = callFrame.thread ∧ g.parent = some 0 ∧
          g.function = some 22 ∧ g.ip = some 42 ∧ g.stmt = some 42 ∧ g.expr = none ∧
          g.stage = 0 ∧ g.stmtStack = [] ∧ g.stageStack = [] ∧ g.exprStack = [] ∧
          g.valStack = [] ∧ g.env = []) ∧
        (m1.threadHeap[callFrame.thread]?).map (fun t => t.frame)
          = some (some (callMachine (ISlot.symbol (some 22))).frames.length) ∧
        f1 = { callFrame with
          valStack := callFrame.valStack.take (callFrame.valStack.length - 2) }) ∧
      (callFrame.ip = none →
        m1.frames = (callMachine (ISlot.symbol (some 22))).frames ∧
        m1.threadHeap = (callMachine (ISlot.symbol (some 22))).threadHeap ∧
        f1 = { callFrame with
          function := some 22, ip := some 42, stmt := some 42,
          valStack := callFrame.valStack.take (callFrame.valStack.length - 2) }) :=
  ⟨⟨by decide, by decide, rfl, rfl, rfl, rfl, by decide⟩, rfl,
    C9_direct_invocation progCall 0 callFrame (callMachine (ISlot.symbol (some 22))) 2 0 22
      (some 42) (by decide) (by decide) rfl rfl rfl rfl (by decide)⟩

/-- C10: a call that is a pushed sub-expression leaves two slots. In `progRet true` the
condition of the conditional statement 1 is the call expression 2 of the function that
returns `true`. Once the frame of the function has retired, the caller (frame 0) is the
current frame of the thread, and its operand stack holds two slots: slot 0, which
`PUSH_EXPR` pushed for the call expression and which is empty, below slot 3, which holds
`true`. -/
theorem C10_condition_call_leaves_two_slots :
    (callAndReturn (progRet (Immediate.bool true)) 1).map
        (fun m => (m.threadHeap.map (fun t => t.frame), m.frames.map (fun f => f.valStack),
          m.slots[0]?, m.slots[3]?))
      = .ok ([some 0], [[some 0, some 3], []], some ISlot.empty,
          some (ISlot.immediate (Immediate.bool true))) :=
  rfl

/-- Stage 1 of a return statement, executed in a frame with a parent other than itself and
with the slot `sl` that holds `v` on top of its operand stack, retires the frame: the step
returns from `IFrame::run`, the caller becomes the current frame of the thread, and `sl`,
still holding `v`, is pushed on the operand stack of the caller as the call left it. The
caller then holds exactly that one slot when the call left its operand stack empty, as a
call that is the expression of an expression statement does. -/
theorem execReturn_pushes_value_to_caller (this : Nat) (f : IFrame) (m : Machine)
    (s : BaseAST) (sl : Nat) (v : ISlot) (vs : List Ptr) (pa : Nat) (pf : IFrame)
    (hstage : f.stage = 1) (hval : f.valStack = vs ++ [some sl])
    (hv : m.slots[sl]? = some v)
    (hparent : f.parent = some pa) (hne : pa ≠ this) (hpf : m.frames[pa]? = some pf)
    (hthread : f.thread < m.threadHeap.length) :
    ∃ f1 m1, execReturn this f m s = .ok (Ctl.ret, f1, m1) ∧
      (m1.threadHeap[f.thread]?).map (fun t => t.frame) = some (some pa) ∧
      (m1.frames[pa]?).map (fun p => p.valStack) = some (pf.valStack ++ [some sl]) ∧
      m1.slots[sl]? = some v ∧
      (pf.valStack = [] → (m1.frames[pa]?).map (fun p => p.valStack) = some [some sl]) := by
  obtain ⟨t, ht⟩ : ∃ t, m.threadHeap[f.thread]? = some t :=
    ⟨m.threadHeap[f.thread], List.getElem?_eq_getElem hthread⟩
  have hpop : Vec.pop none f.valStack = (some sl, vs) := by
    unfold Vec.pop
    rw [hval]
    simp
  have hpa : pa < m.frames.length := by
    by_contra hcon
    rw [List.getElem?_eq_none (by omega)] at hpf
    exact absurd hpf (by simp)
  have key : (m.frames.set pa { pf with valStack := pf.valStack ++ [some sl] })[pa]?
      = some { pf with valStack := pf.valStack ++ [some sl] } := List.getElem?_set_self hpa
  unfold execReturn
  rw [if_neg (by rw [hstage]; decide), if_pos hstage]
  simp only [hpop, ht, hparent, hpf, heapGet, Ptr.addr, pure_bind_eq, if_neg hne]
  refine ⟨_, _, rfl, ?_, ?_, ?_, ?_⟩
  · split <;> simp [Machine.sync, List.getElem?_set_self hthread]
  · split <;> simp [Machine.sync, key]
  · split <;> simpa [Machine.sync] using hv
  · intro hnil
    split <;> simp [Machine.sync, List.getElem?_set_self hpa, hnil]

/-- The return to an expression statement: in `progRet 42` the function is called by the
expression statement 8. When the callee (frame 1) is at stage 1 of its return statement, slot 2 holds
42 and is on top of its operand stack, and the operand stack of the caller (frame 0) is
empty; after the callee has retired the caller holds exactly slot 2. -/
theorem execReturn_pushes_value_to_caller_example :
    ((retFrame 1).stage = 1 ∧ (retFrame 1).ip = some 32 ∧
      (retFrame 1).valStack = [] ++ [some 2] ∧
      retMachine.slots[2]? = some (ISlot.immediate (Immediate.int 42)) ∧
      (retFrame 1).parent = some 0 ∧ 0 ≠ 1 ∧ retMachine.frames[0]? = some (retFrame 0) ∧
      (retFrame 0).valStack = [] ∧
      (retFrame 1).thread < retMachine.threadHeap.length) ∧
    (callAndReturn (progRet (Immediate.int 42)) 8).map
        (fun m => (m.threadHeap.map (fun t => t.frame), m.frames.map (fun f => f.valStack),
          m.slots[2]?))
      = .ok ([some 0], [[some 2], []], some (ISlot.immediate (Immediate.int 42))) ∧
    ∃ f1 m1,
      execReturn 1 (retFrame 1) retMachine ((progRet (Immediate.int 42)).node 32)
        = .ok (Ctl.ret, f1, m1) ∧
      (m1.threadHeap[(retFrame 1).thread]?).map (fun t => t.frame) = some (some 0) ∧
      (m1.frames[0]?).map (fun p => p.valStack) = some ((retFrame 0).valStack ++ [some 2]) ∧
      m1.slots[2]? = some (ISlot.immediate (Immediate.int 42)) ∧
      ((retFrame 0).valStack = [] → (m1.frames[0]?).map (fun p => p.valStack) = some [some 2]) :=
  ⟨⟨rfl, rfl, rfl, rfl, rfl, by decide, rfl, rfl, by decide⟩, rfl,
    execReturn_pushes_value_to_caller 1 (retFrame 1) retMachine
      ((progRet (Immediate.int 42)).node 32) 2 (ISlot.immediate (Immediate.int 42)) [] 0
      (retFrame 0) rfl rfl rfl rfl (by decide) rfl (by decide)⟩

/-- C11: stage 1 of a return statement in a frame with no parent dereferences a null pointer.
After `thread->frame = parent` the code reads `thread->frame->single_stepping`, before the
test `if (parent)`: for every frame at stage 1 whose parent is null the case `STMT_RETURN`
ends in that null dereference, it does not retire the frame. -/
theorem C11_return_in_parentless_frame_dereferences_null (this : Nat) (f : IFrame)
    (m : Machine) (s : BaseAST) (hstage : f.stage = 1) (hparent : f.parent = none) :
    execReturn this f m s = .error Fault.nullDeref := by
  unfold execReturn
  rw [if_neg (by rw [hstage]; decide), if_pos hstage]
  simp only [hparent]
  cases ht : heapGet m.threadHeap f.thread with
  | error e =>
    unfold heapGet at ht
    cases hx : m.threadHeap[f.thread]? <;> rw [hx] at ht <;> cases ht
    rfl
  | ok t => rfl

/-- C11 at the program entry: the frame that runs the body `return 7;` of the program-entry
function has no parent; after two instructions it is at stage 1 of the return statement with
the value 7 on top of its operand stack, the case `STMT_RETURN` then dereferences null, and
so does the whole run of the thread. -/
theorem C11_return_in_parentless_frame_dereferences_null_witness :
    (mainFrame.stage = 1 ∧ mainFrame.parent = none) ∧
    (mainFrame.ip = some 32 ∧ mainFrame.function = some 20 ∧ mainFrame.valStack = [some 1] ∧
      mainMachine.slots[1]? = some (ISlot.immediate (Immediate.int 7))) ∧
    execReturn 0 mainFrame mainMachine (progMain.node 32) = .error Fault.nullDeref ∧
    IThread.run progMain 20 0 0 entryMachine = .error Fault.nullDeref :=
  ⟨⟨rfl, rfl⟩, ⟨rfl, rfl, rfl, rfl⟩,
    C11_return_in_parentless_frame_dereferences_null 0 mainFrame mainMachine
      (progMain.node 32) rfl rfl, rfl⟩

/-- C12, counterexample: a breakpoint on a multi-stage node makes the debugger come up more
than once. In the run of `f(); 9;` the return statement 32 of `f` is executed once, in two
steps. With a breakpoint on it and a single `continue` on the input, the debugger is entered
a second time and finds the input at its end (`exit`); with two `continue` both are read and
the run completes, the return statement being the only node the debugger has shown. The
same happens with a breakpoint on the call expression 2, whereas a breakpoint on the
one-step node 6 reads exactly one `continue`. -/
theorem C12_breakpoint_on_return_entered_at_each_stage :
    IThread.run progStep 50 0 0 (sessionAt 1 [32] false ["continue"]) = .error Fault.exit ∧
    (IThread.run progStep 50 0 0 (sessionAt 1 [32] false ["continue", "continue"])).map
        (fun r => (r.2.stdin, r.2.known_ids, r.2.threadHeap.map (fun t => t.frame)))
      = .ok ([], [(32, 32)], [none]) ∧
    IThread.run progStep 50 0 0 (sessionAt 1 [2] false ["continue"]) = .error Fault.exit ∧
    (IThread.run progStep 50 0 0 (sessionAt 1 [6] false ["continue"])).map
        (fun r => (r.2.stdin, r.2.known_ids, r.2.threadHeap.map (fun t => t.frame)))
      = .ok ([], [(6, 6)], [none]) :=
  ⟨rfl, rfl, rfl, rfl⟩

/-- C12, amended: with a breakpoint on the id of node `ipa`, every round of the step loop
that starts with `ip` at that node enters the debugger before the instruction: whatever the
stage of the frame, the single-step setting and the flag `interrupted`, the round is the
call of `interactive` (with `interrupted` set and the frame written back), after which the
loop returns 0 if the debugger returned non-zero and executes the instruction otherwise.
Nothing in the round depends on whether the node has been met before: a node that is the
instruction of several rounds, as a node of several stages is, is met in each of them. -/
theorem C12_breakpoint_enters_debugger_every_round (P : Prog) (this fuel timeslice : Nat)
    (f : IFrame) (m : Machine) (ipa : Nat) (hip : f.ip = some ipa) (hts : timeslice ≠ 1)
    (hbreak : Vec.inVec m.break_ids (P.node ipa).id = true) :
    runLoop P this (fuel + 1) timeslice f m
      = (interactive P (some f) ({ m with interrupted := true }.sync this f) >>= fun r =>
          if r.1 ≠ 0 then pure (0, f, r.2)
          else runRound P this fuel (timeslice - 1) f r.2 ipa) := by
  unfold runLoop
  rw [if_neg hts, hip]
  simp only [Ptr.addr, pure_bind_eq, hbreak, if_true]
  cases hi : interactive P (some f) ({ m with interrupted := true }.sync this f) with
  | error e => rfl
  | ok r =>
    obtain ⟨r1, m2⟩ := r
    by_cases hr : r1 = 0
    · subst hr
      rfl
    · simp [hr, bind, Except.bind, pure, Except.pure]

/-- C12 on the second stage of a return statement: in `stepMachine` the function is at stage
1 of the return statement 32, which carries a breakpoint and where the debugger has been
entered before, at stage 0; the round enters the debugger again, which reads the waiting
`continue`. -/
theorem C12_breakpoint_enters_debugger_every_round_witness :
    (stepFrame.ip = some 32 ∧ stepFrame.stage = 1 ∧ (0 : Nat) ≠ 1 ∧
      Vec.inVec stepMachine.break_ids (progStep.node 32).id = true ∧
      stepMachine.stdin = ["continue".toList]) ∧
    runLoop progStep 1 (5 + 1) 0 stepFrame stepMachine
      = (interactive progStep (some stepFrame)
            ({ stepMachine with interrupted := true }.sync 1 stepFrame) >>= fun r =>
          if r.1 ≠ 0 then pure (0, stepFrame, r.2)
          else runRound progStep 1 5 (0 - 1) stepFrame r.2 32) ∧
    (interactive progStep (some stepFrame)
        ({ stepMachine with interrupted := true }.sync 1 stepFrame)).map
      (fun r => (r.1, r.2.stdin)) = .ok (0, []) :=
  ⟨⟨rfl, rfl, by decide, rfl, rfl⟩,
    C12_breakpoint_enters_debugger_every_round progStep 1 5 0 stepFrame stepMachine 32 rfl
      (by decide) rfl, rfl⟩

/-- C13: step-over is not armed again when the callee retires. The session starts in the
debugger on `f(); 9;` (respectively `g(); 9;`) with five `next` waiting. Four are read, at
the statement, at the call expression, at its callee expression and at the last stage of the
call expression, where `icall` moves the mode into the new frame (`single_stepping` is 2)
and clears `single_step`. When the function has retired, by its return statement
(respectively by exhausting its statements), the caller is about to execute statement 5
with `single_step` and `interrupted` both clear: stage 1 of the return statement tests
`single_stepping` of the parent, not of the retiring frame, and the retirement at
`LnextExpr` tests nothing. The run then executes `9;` at the depth where step-over was armed
(the literal 6 gets its slot, which holds 9) without entering the debugger: the fifth `next`
is still waiting and the debugger has shown no other node than the first three. -/
theorem C13_step_over_not_rearmed_after_callee_retires :
    (IThread.run progStep 50 0 5 (sessionAt 1 [] true (List.replicate 5 "next"))).map
        (fun r => (r.2.stdin.length, r.2.single_step, r.2.threadHeap.map (fun t => t.frame),
          r.2.frames.map (fun f => (f.ip, f.single_stepping))))
      = .ok (1, 0, [some 1], [(some 2, 0), (some 32, 2)]) ∧
    (IThread.run progStep 50 0 8 (sessionAt 1 [] true (List.replicate 5 "next"))).map
        (fun r => (r.2.stdin.length, r.2.single_step, r.2.interrupted,
          r.2.threadHeap.map (fun t => t.frame), r.2.frames.map (fun f => f.ip)))
      = .ok (1, 0, false, [some 0], [some 5, some 32]) ∧
    (IThread.run progStep 50 0 0 (sessionAt 1 [] true (List.replicate 5 "next"))).map
        (fun r => (r.2.stdin.length, r.2.known_ids, r.2.threadHeap.map (fun t => t.frame),
          r.2.frames.map (fun f => Map.get f.env 6), r.2.slots[4]?))
      = .ok (1, [(1, 1), (2, 2), (3, 3)], [none], [some 4, none],
          some (ISlot.immediate (Immediate.int 9))) ∧
    (IThread.run progStep 50 0 7 (sessionAt 11 [] true (List.replicate 5 "next"))).map
        (fun r => (r.2.stdin.length, r.2.single_step, r.2.interrupted,
          r.2.threadHeap.map (fun t => t.frame),
          r.2.frames.map (fun f => (f.ip, f.single_stepping))))
      = .ok (1, 0, false, [some 0], [(some 5, 0), (none, 2)]) ∧
    (IThread.run progStep 50 0 0 (sessionAt 11 [] true (List.replicate 5 "next"))).map
        (fun r => (r.2.stdin.length, r.2.known_ids, r.2.threadHeap.map (fun t => t.frame),
          r.2.frames.map (fun f => Map.get f.env 6), r.2.slots[3]?))
      = .ok (1, [(11, 11), (12, 12), (13, 13)], [none], [some 3, none],
          some (ISlot.immediate (Immediate.int 9))) :=
  ⟨rfl, rfl, rfl, rfl, rfl⟩

/-- C14: after `step` at the last stage of a call expression two instructions are executed
before the debugger comes up again. The session starts in the debugger on `f(); 9;` with
nine `step` waiting. After four instructions (`IThread::run(5)`) four of them have been
read, the last one at the last stage of the call expression 2; `CALL` has returned from
`IFrame::run` before the test `if (single_step) interrupted = 1`, so the thread is in the
new frame with `single_step` set but `interrupted` clear. The fifth instruction, stage 0 of
the return statement 32, is then executed without the debugger (`IThread::run(6)`: still
five lines waiting, the frame has moved on to the expression 33), and only then is
`interrupted` set. The whole run executes nine instructions (`IThread::run(10)` finishes the
thread with a timeslice of 1 left) and reads eight `step`; with seven `step` on the input
the eighth entry of the debugger finds the input at its end. -/
theorem C14_step_at_call_executes_two_instructions :
    (IThread.run progStep 50 0 5 (sessionAt 1 [] true (List.replicate 9 "step"))).map
        (fun r => (r.2.stdin.length, r.2.known_ids, r.2.single_step, r.2.interrupted,
          r.2.threadHeap.map (fun t => t.frame),
          r.2.frames.map (fun f => (f.ip, f.stage, f.valStack))))
      = .ok (5, [(1, 1), (2, 2), (3, 3)], 1, false, [some 1],
          [(some 2, 0, []), (some 32, 0, [])]) ∧
    (IThread.run progStep 50 0 6 (sessionAt 1 [] true (List.replicate 9 "step"))).map
        (fun r => (r.2.stdin.length, r.2.known_ids, r.2.single_step, r.2.interrupted,
          r.2.threadHeap.map (fun t => t.frame),
          r.2.frames.map (fun f => (f.ip, f.stage, f.valStack))))
      = .ok (5, [(1, 1), (2, 2), (3, 3)], 1, true, [some 1],
          [(some 2, 0, []), (some 33, 0, [some 2])]) ∧
    (IThread.run progStep 50 0 10 (sessionAt 1 [] true (List.replicate 9 "step"))).map
        (fun r => (r.1, r.2.stdin.length, r.2.threadHeap.map (fun t => t.frame)))
      = .ok (1, 1, [none]) ∧
    IThread.run progStep 50 0 0 (sessionAt 1 [] true (List.replicate 7 "step"))
      = .error Fault.exit :=
  ⟨rfl, rfl, rfl, rfl⟩

/-- C15: the command `birm i` does not remove `i` from a set that has other members: the
loop over the old set adds `i` itself, not the member it has just compared, for every member
other than `i`. From the breakpoints 3 and 5 the command `birm 3` leaves the set with 3 as
its only member, so 3 is still a breakpoint and 5 no longer is; from the single breakpoint 5
it leaves the single breakpoint 3; only a set without other members ends up without `i`. In
general the set after `birm i` is empty or holds `i` alone. -/
theorem C15_birm_keeps_the_id_and_drops_the_others :
    (cmd_birm { break_ids := [3, 5] } "birm 3".toList).break_ids = [3] ∧
    (cmd_birm { break_ids := [5] } "birm 3".toList).break_ids = [3] ∧
    (cmd_birm { break_ids := [3] } "birm 3".toList).break_ids = [] ∧
    (interactive progSeq none
        { break_ids := [3, 5], stdin := ["birm 3".toList, "continue".toList] }).map
      (fun r => (r.2.break_ids, r.2.stdin)) = .ok ([3], []) ∧
    ∀ (m : Machine) (c : List Char),
      (cmd_birm m c).break_ids = [] ∨ (cmd_birm m c).break_ids = [atoi (skip_arg c)] :=
  ⟨rfl, rfl, rfl, rfl, fun m c => birm_fold (atoi (skip_arg c)) m.break_ids [] (Or.inl rfl)⟩

/-- C16: stage 1 of a conditional statement does not execute the branch it selects. For a
conditional statement `ip` at stage 1 whose condition slot holds the boolean `b`, the case
`STMT_COND` makes the selected branch `br` (the then-branch when `b` is true, the else-branch
otherwise) the current `stmt` by `EVAL_STMT`; the block at `LnextExpr` then advances from
`stmt` to its next sibling before anything is executed. A branch has no sibling, so the
continuation is popped at once and the next instruction is the statement `n` that follows
the conditional: neither branch is executed. -/
theorem C16_conditional_statement_skips_chosen_branch (P : Prog) (fuel this : Nat)
    (f : IFrame) (m : Machine) (ip br n a : Nat) (vs : List Ptr) (b : Bool)
    (hcond : (P.node ip).astType = AstTag.STMT_COND) (hstmt : f.stmt = some ip)
    (hstage : f.stage = 1) (hexpr : f.expr = none) (hvs : f.valStack = vs ++ [some a])
    (hslot : m.slots[a]? = some (ISlot.immediate (Immediate.bool b)))
    (hbr : (if b then (P.node ip).thenStmt else (P.node ip).elseStmt) = some br)
    (hlast : (P.node br).next = none) (hnext : (P.node ip).next = some n)
    (hbal : f.stageStack.length = f.exprStack.length + f.stmtStack.length) :
    exec P fuel this f m ip
      = .ok (Ctl.next, EVAL_STMT { f with stage := 0, valStack := vs } (some br),
          traceS P m ip) ∧
    loopTail P (EVAL_STMT { f with stage := 0, valStack := vs } (some br)) (traceS P m ip)
      = .ok (false, { f with stage := 0, valStack := [], stmt := some n, ip := some n },
          if (traceS P m ip).single_step ≠ 0 then { traceS P m ip with interrupted := true }
          else traceS P m ip) := by
  constructor
  · unfold exec
    simp only [hcond]
    rw [execCondStmt_bool f (traceS P m ip) (P.node ip) vs a b hstage hvs
      (by rw [traceS_slots]; exact hslot), hbr]
  · unfold loopTail
    rw [nextExpr_after_EVAL_STMT_last P { f with stage := 0, valStack := vs } (traceS P m ip)
      ip br n rfl hexpr hstmt hlast hnext hbal]
    rfl

/-- C16 on `if (c) { 7; 8; } else { 5; 6; }  9;` for `c` true and `c` false: at stage 1 of
the conditional statement 1 the selected block (40, respectively 50) becomes `stmt` and the
next instruction is statement 7, the one after the conditional. The run to the end has
evaluated the condition and the literal of `9;` only: no literal of either branch has a slot
in the environment. -/
theorem C16_conditional_statement_skips_chosen_branch_witness :
    ((condFrame (Immediate.bool true)).ip = some 1 ∧
      (condFrame (Immediate.bool false)).ip = some 1 ∧
      (condMachine (Immediate.bool true)).threadHeap.map (fun t => t.frame) = [some 0]) ∧
    (exec (progCond (Immediate.bool true)) 9 0 (condFrame (Immediate.bool true))
        (condMachine (Immediate.bool true)) 1
      = .ok (Ctl.next,
          EVAL_STMT { condFrame (Immediate.bool true) with stage := 0, valStack := [] }
            (some 40),
          traceS (progCond (Immediate.bool true)) (condMachine (Immediate.bool true)) 1) ∧
      loopTail (progCond (Immediate.bool true))
          (EVAL_STMT { condFrame (Immediate.bool true) with stage := 0, valStack := [] }
            (some 40))
          (traceS (progCond (Immediate.bool true)) (condMachine (Immediate.bool true)) 1)
        = .ok (false,
            { condFrame (Immediate.bool true) with
                stage := 0, valStack := [], stmt := some 7, ip := some 7 },
            if (traceS (progCond (Immediate.bool true))
                (condMachine (Immediate.bool true)) 1).single_step ≠ 0 then
              { traceS (progCond (Immediate.bool true))
                  (condMachine (Immediate.bool true)) 1 with interrupted := true }
            else traceS (progCond (Immediate.bool true))
              (condMachine (Immediate.bool true)) 1)) ∧
    (exec (progCond (Immediate.bool false)) 9 0 (condFrame (Immediate.bool false))
        (condMachine (Immediate.bool false)) 1).map (fun r => (r.1, r.2.1.stmt, r.2.1.ip))
      = .ok (Ctl.next, some 50, some 1) ∧
    (IFrame.run (progCond (Immediate.bool false)) 20 0 4 (freshAt 1)).map
        (fun r => r.2.frames.map (fun f => (f.ip, f.stmt, f.stmtStack, f.env)))
      = .ok [(some 7, some 7, [], [(2, 0), (10, 1)])] ∧
    (IFrame.run (progCond (Immediate.bool true)) 20 0 0 (freshAt 1)).map
        (fun r => (r.2.frames.map (fun f => f.env), r.2.slots,
          r.2.threadHeap.map (fun t => t.frame)))
      = .ok ([[(2, 0), (10, 1), (19, 2), (8, 2)]],
          [ISlot.immediate (Immediate.bool true), ISlot.immediate (Immediate.bool true),
            ISlot.immediate (Immediate.int 9)], [none]) ∧
    (IFrame.run (progCond (Immediate.bool false)) 20 0 0 (freshAt 1)).map
        (fun r => (r.2.frames.map (fun f => f.env), r.2.slots,
          r.2.threadHeap.map (fun t => t.frame)))
      = .ok ([[(2, 0), (10, 1), (19, 2), (8, 2)]],
          [ISlot.immediate (Immediate.bool false), ISlot.immediate (Immediate.bool false),
            ISlot.immediate (Immediate.int 9)], [none]) :=
  ⟨⟨rfl, rfl, rfl⟩,
    C16_conditional_statement_skips_chosen_branch (progCond (Immediate.bool true)) 9 0
      (condFrame (Immediate.bool true)) (condMachine (Immediate.bool true)) 1 40 7 0 [] true
      rfl rfl rfl rfl rfl rfl rfl rfl rfl rfl,
    rfl, rfl, rfl, rfl⟩

/-- C17: a condition slot that is not a boolean raises no type error. The function
`check_type` returns normally for every slot that is neither empty nor uninitialized, the
type `dtBoolean` it is given is ignored; the code then reads `imm->v_bool` from the slot all
the same. For such a slot that is not a boolean immediate, stage 1 of a conditional
statement and of a conditional expression, stage 2 of a while loop and stage 3 of a for
loop all end in that read of a union member the slot does not hold, not in the fatal error
of `check_type`. -/
theorem C17_non_boolean_condition_passes_check_type (f : IFrame) (m : Machine) (s : BaseAST)
    (vs : List Ptr) (a : Nat) (cond : ISlot) (hstage : f.stage = 1)
    (hvs : f.valStack = vs ++ [some a]) (hslot : m.slots[a]? = some cond)
    (hne : cond ≠ ISlot.empty) (hnu : cond ≠ ISlot.uninitialized)
    (hnb : ∀ b, cond ≠ ISlot.immediate (Immediate.bool b)) :
    check_type cond = .ok () ∧
    execCondStmt f m s = .error Fault.badUnion ∧
    execCondExpr f m s = .error Fault.badUnion ∧
    (∀ c, s.condition = some c → Map.get f.env c = some a →
      execWhile { f with stage := 2 } m s = .error Fault.badUnion) ∧
    (∀ (P : Prog) (this ip ind it : Nat), s.indices = some [ind] → s.iterators = some [it] →
      execFor P this { f with stage := 3 } m ip s = .error Fault.badUnion) := by
  have hc := check_type_ok cond hne hnu
  have hb := v_bool_bad cond hnb
  refine ⟨hc, ?_, ?_, ?_, ?_⟩
  · unfold execCondStmt
    rw [if_neg (by rw [hstage]; decide), if_pos hstage, hvs, Vec.pop_append]
    simp only [slotAt_some m a _ hslot, ok_bind_eq, hc, hb, error_bind_eq]
  · unfold execCondExpr
    rw [if_neg (by rw [hstage]; decide), if_pos hstage, hvs, Vec.pop_append]
    simp only [slotAt_some m a _ hslot, ok_bind_eq, hc, hb, error_bind_eq]
  · intro c hcond henv
    unfold execWhile
    simp only [hcond, Ptr.addr, pure_bind_eq]
    rw [if_neg (by decide), if_neg (by decide), if_pos trivial]
    rw [islot_bound { f with stage := 2 } m c a henv]
    simp only [(heapGet_ok m.slots a cond).2 hslot, ok_bind_eq, hc, hb, error_bind_eq]
  · intro P this ip ind it hind hit
    unfold execFor
    simp only [hind, hit]
    rw [if_neg (by decide), if_neg (by decide), if_neg (by decide), if_pos trivial]
    simp only [hvs, Vec.pop_append, slotAt_some m a _ hslot, ok_bind_eq, hc, hb, error_bind_eq]

/-- C17 on `if (5) { 7; 8; } else { 5; 6; }  9;`: at stage 1 of the conditional statement the
condition slot holds the integer 5; `check_type` accepts it and the statement reads `v_bool`
from it, as does the whole run. A symbol slot and a selector slot are accepted by
`check_type` in the same way, here as the condition of a while loop at stage 2 and as the
`valid` result of a for loop at stage 3. -/
theorem C17_non_boolean_condition_passes_check_type_witness :
    ((condFrame (Immediate.int 5)).ip = some 1 ∧
      (condMachine (Immediate.int 5)).slots[0]? = some (ISlot.immediate (Immediate.int 5))) ∧
    (check_type (ISlot.immediate (Immediate.int 5)) = .ok () ∧
      execCondStmt (condFrame (Immediate.int 5)) (condMachine (Immediate.int 5))
          ((progCond (Immediate.int 5)).node 1) = .error Fault.badUnion ∧
      execCondExpr (condFrame (Immediate.int 5)) (condMachine (Immediate.int 5))
          ((progCond (Immediate.int 5)).node 1) = .error Fault.badUnion ∧
      (∀ c, ((progCond (Immediate.int 5)).node 1).condition = some c →
        Map.get (condFrame (Immediate.int 5)).env c = some 0 →
        execWhile { condFrame (Immediate.int 5) with stage := 2 }
            (condMachine (Immediate.int 5)) ((progCond (Immediate.int 5)).node 1)
          = .error Fault.badUnion) ∧
      (∀ (P : Prog) (this ip ind it : Nat),
        ((progCond (Immediate.int 5)).node 1).indices = some [ind] →
        ((progCond (Immediate.int 5)).node 1).iterators = some [it] →
        execFor P this { condFrame (Immediate.int 5) with stage := 3 }
            (condMachine (Immediate.int 5)) ip ((progCond (Immediate.int 5)).node 1)
          = .error Fault.badUnion)) ∧
    IFrame.run (progCond (Immediate.int 5)) 20 0 0 (freshAt 1) = .error Fault.badUnion ∧
    check_type (ISlot.symbol (some 20)) = .ok () ∧
    execWhile { thread := 0, stage := 2, env := [(2, 0)] } { slots := [ISlot.symbol (some 20)] }
        { astType := STMT_WHILELOOP, condition := some 2 } = .error Fault.badUnion ∧
    check_type (ISlot.selector "f") = .ok () ∧
    execFor progSeq 0 { thread := 0, stage := 3, valStack := [some 0] }
        { slots := [ISlot.selector "f"] } 1
        { astType := STMT_FORLOOP, indices := some [3], iterators := some [4] }
      = .error Fault.badUnion :=
  ⟨⟨rfl, rfl⟩,
    C17_non_boolean_condition_passes_check_type (condFrame (Immediate.int 5))
      (condMachine (Immediate.int 5)) ((progCond (Immediate.int 5)).node 1) [] 0
      (ISlot.immediate (Immediate.int 5)) rfl rfl rfl (by decide) (by decide)
      (fun _ h => nomatch h),
    rfl, rfl, rfl, rfl, rfl⟩

/-- C18, counterexample: a symbol reference to a declared but unassigned variable and a move
from it raise no error. The run of `var x; x; y = x;` completes and retires the frame; the
slot of `x`, the slot of the source expression of the move and the slot of `y`, which the
move has filled, are all empty. -/
theorem C18_empty_slot_referenced_and_moved_without_error :
    (IFrame.run progDecl 20 0 0 (freshAt 1)).map
        (fun r => (r.2.frames.map (fun f => f.env), r.2.slots,
          r.2.threadHeap.map (fun t => t.frame)))
      = .ok ([[(20, 0), (4, 0), (8, 1), (21, 2)]],
          [ISlot.empty, ISlot.empty, ISlot.empty], [none]) :=
  rfl

/-- C18, amended: an empty or uninitialized slot is refused where a condition is consumed,
and only there. With such a slot on top of the operand stack (for a while loop: bound to the
condition), stage 1 of a conditional statement and of a conditional expression, stage 2 of a
while loop and stage 3 of a for loop end in the fatal error of `check_type`, "accessed empty
variable" or "accessed uninitialized variable". The macro `POP_VAL` of a move copies the
contents of that slot into the slot of the target, and a symbol expression whose variable is
bound to that slot copies it into the slot of the expression, or binds the expression to it
when the expression has no slot yet; neither tests the kind. -/
theorem C18_empty_slot_refused_as_condition_only (f : IFrame) (m : Machine) (s : BaseAST)
    (vs : List Ptr) (a : Nat) (cond : ISlot) (hstage : f.stage = 1)
    (hvs : f.valStack = vs ++ [some a]) (hslot : m.slots[a]? = some cond)
    (hcond : cond = ISlot.empty ∨ cond = ISlot.uninitialized) :
    (∃ msg, (cond = ISlot.empty ∧ msg = "interpreter: accessed empty variable" ∨
        cond = ISlot.uninitialized ∧ msg = "interpreter: accessed uninitialized variable") ∧
      check_type cond = .error (Fault.usrFatal msg) ∧
      execCondStmt f m s = .error (Fault.usrFatal msg) ∧
      execCondExpr f m s = .error (Fault.usrFatal msg) ∧
      (∀ c, s.condition = some c → Map.get f.env c = some a →
        execWhile { f with stage := 2 } m s = .error (Fault.usrFatal msg)) ∧
      (∀ (P : Prog) (this ip ind it : Nat), s.indices = some [ind] →
        s.iterators = some [it] →
        execFor P this { f with stage := 3 } m ip s = .error (Fault.usrFatal msg))) ∧
    (∀ d, POP_VAL f m (some d)
      = .ok ({ (f.islot m d).2.1 with valStack := vs },
          (f.islot m d).2.2.setSlot (f.islot m d).1 cond)) ∧
    (∀ (P : Prog) (ip var : Nat) (s2 : BaseAST), s2.var = some var →
      Map.get f.env var = some a →
      execSym P f m ip s2
        = .ok (match Map.get f.env ip with
            | some e => (Ctl.next, f, m.setSlot e cond)
            | none => (Ctl.next, { f with env := Map.put f.env ip a }, m))) := by
  refine ⟨?_, fun d => POP_VAL_copies f m d a vs cond hvs hslot,
    fun P ip var s2 hvar henv => execSym_bound P f m ip var a s2 cond hvar henv hslot⟩
  rcases hcond with h | h
  · subst h
    exact ⟨_, Or.inl ⟨rfl, rfl⟩, rfl,
      condition_sites_refused f m s vs a ISlot.empty _ hstage hvs hslot rfl⟩
  · subst h
    exact ⟨_, Or.inr ⟨rfl, rfl⟩, rfl,
      condition_sites_refused f m s vs a ISlot.uninitialized _ hstage hvs hslot rfl⟩

/-- C18 on `var x; x; y = x;`: in `declFrame` the empty slot of `x` is on top of the operand
stack. As the condition of a conditional statement it is refused with "accessed empty
variable"; the move into `y` and the reference 8 to `x` copy it: `y` gets the new slot 1,
which stays empty, and the expression 8 is bound to the slot of `x`. -/
theorem C18_empty_slot_refused_as_condition_only_witness :
    (declFrame.stage = 1 ∧ declFrame.valStack = [] ++ [some 0] ∧
      declMachine.slots[0]? = some ISlot.empty ∧ Map.get declFrame.env 20 = some 0) ∧
    ((∃ msg, (ISlot.empty = ISlot.empty ∧ msg = "interpreter: accessed empty variable" ∨
          ISlot.empty = ISlot.uninitialized ∧
            msg = "interpreter: accessed uninitialized variable") ∧
        check_type ISlot.empty = .error (Fault.usrFatal msg) ∧
        execCondStmt declFrame declMachine condStmtNode = .error (Fault.usrFatal msg) ∧
        execCondExpr declFrame declMachine condStmtNode = .error (Fault.usrFatal msg) ∧
        (∀ c, condStmtNode.condition = some c → Map.get declFrame.env c = some 0 →
          execWhile { declFrame with stage := 2 } declMachine condStmtNode
            = .error (Fault.usrFatal msg)) ∧
        (∀ (P : Prog) (this ip ind it : Nat), condStmtNode.indices = some [ind] →
          condStmtNode.iterators = some [it] →
          execFor P this { declFrame with stage := 3 } declMachine ip condStmtNode
            = .error (Fault.usrFatal msg))) ∧
      (∀ d, POP_VAL declFrame declMachine (some d)
        = .ok ({ (declFrame.islot declMachine d).2.1 with valStack := [] },
            (declFrame.islot declMachine d).2.2.setSlot (declFrame.islot declMachine d).1
              ISlot.empty)) ∧
      (∀ (P : Prog) (ip var : Nat) (s2 : BaseAST), s2.var = some var →
        Map.get declFrame.env var = some 0 →
        execSym P declFrame declMachine ip s2
          = .ok (match Map.get declFrame.env ip with
              | some e => (Ctl.next, declFrame, declMachine.setSlot e ISlot.empty)
              | none => (Ctl.next, { declFrame with env := Map.put declFrame.env ip 0 },
                  declMachine)))) ∧
    execCondStmt declFrame declMachine condStmtNode
      = .error (Fault.usrFatal "interpreter: accessed empty variable") ∧
    (POP_VAL declFrame declMachine (some 21)).map
        (fun r => (r.1.env, r.1.valStack, r.2.slots))
      = .ok ([(20, 0), (4, 0), (21, 1)], [], [ISlot.empty, ISlot.empty]) ∧
    (execSym progDecl declFrame declMachine 8 (progDecl.node 8)).map
        (fun r => (r.2.1.env, r.2.2.slots))
      = .ok ([(20, 0), (4, 0), (8, 0)], [ISlot.empty]) :=
  ⟨⟨rfl, rfl, rfl, rfl⟩,
    C18_empty_slot_refused_as_condition_only declFrame declMachine condStmtNode [] 0
      ISlot.empty rfl rfl rfl (Or.inl rfl),
    rfl, rfl, rfl⟩

/-- C19: the step of a block statement is followed by the second child of the block, not the
first. For a block statement `ip` whose body starts with the statement `first`, followed by
`second`, the case `STMT_BLOCK` makes `first` the current `stmt` by `EVAL_STMT` and leaves
`ip` alone; the block at `LnextExpr` then advances from `stmt` to its next sibling, so the
next instruction is `second` and `first` is never executed. -/
theorem C19_block_step_skips_first_child (P : Prog) (fuel this : Nat) (f : IFrame)
    (m : Machine) (ip lst first second : Nat)
    (hblock : (P.node ip).astType = AstTag.STMT_BLOCK) (hbody : (P.node ip).body = some lst)
    (hfirst : (P.node lst).headNext = some first)
    (hsecond : (P.node first).next = some second)
    (hstage : f.stage = 0) (hexpr : f.expr = none)
    (hbal : f.stageStack.length = f.exprStack.length + f.stmtStack.length) :
    exec P fuel this f m ip = .ok (Ctl.next, EVAL_STMT f (some first), traceS P m ip) ∧
    loopTail P (EVAL_STMT f (some first)) (traceS P m ip)
      = .ok (false,
          { EVAL_STMT f (some first) with stmt := some second, ip := some second,
                                          valStack := [] },
          if (traceS P m ip).single_step ≠ 0 then { traceS P m ip with interrupted := true }
          else traceS P m ip) := by
  constructor
  · unfold exec
    simp only [hblock, hbody, Prog.deref, pure_bind_eq, hfirst]
    rfl
  · unfold loopTail
    rw [nextExpr_after_EVAL_STMT_next P f (traceS P m ip) first second hstage hexpr hsecond
      hbal]
    rfl

/-- C19 on `{ 7; 8; }  9;`: from a frame initialised on the block statement 1, the step of
the block selects its first child 3 and the next instruction is the second child 5. The run
to the end has evaluated the literals of `8;` and `9;` only: the literal 4 of the first
child has no slot in the environment. `IFrame::init(AList<Stmt>*)` on the same body does
start at the first child. -/
theorem C19_block_step_skips_first_child_witness :
    (exec progBlock 9 0 ((IFrame.new 0).initStmt (some 1)) (freshAt 1) 1
      = .ok (Ctl.next, EVAL_STMT ((IFrame.new 0).initStmt (some 1)) (some 3),
          traceS progBlock (freshAt 1) 1) ∧
      loopTail progBlock (EVAL_STMT ((IFrame.new 0).initStmt (some 1)) (some 3))
          (traceS progBlock (freshAt 1) 1)
        = .ok (false,
            { EVAL_STMT ((IFrame.new 0).initStmt (some 1)) (some 3) with
                stmt := some 5, ip := some 5, valStack := [] },
            if (traceS progBlock (freshAt 1) 1).single_step ≠ 0 then
              { traceS progBlock (freshAt 1) 1 with interrupted := true }
            else traceS progBlock (freshAt 1) 1)) ∧
    (IFrame.run progBlock 20 0 2 (freshAt 1)).map
        (fun r => r.2.frames.map (fun f => (f.ip, f.stmt, f.stmtStack, f.env)))
      = .ok [(some 5, some 5, [some 1], [])] ∧
    (IFrame.run progBlock 20 0 0 (freshAt 1)).map
        (fun r => (r.2.frames.map (fun f => f.env), r.2.slots,
          r.2.threadHeap.map (fun t => t.frame)))
      = .ok ([[(18, 0), (6, 0), (19, 1), (8, 1)]],
          [ISlot.immediate (Immediate.int 8), ISlot.immediate (Immediate.int 9)], [none]) ∧
    ((IFrame.new 0).initList progBlock 2).ip = some 3 :=
  ⟨C19_block_step_skips_first_child progBlock 9 0 ((IFrame.new 0).initStmt (some 1))
      (freshAt 1) 1 2 3 5 rfl rfl rfl rfl rfl rfl rfl,
    rfl, rfl, rfl⟩

/-- C20: stage 1 of a conditional expression does not bind the slot of the conditional
expression. On a boolean condition `b` the case `EXPR_COND` makes the chosen branch `br`
current by `EVAL_EXPR` and then executes `env.put(expr, islot(s->thenExpr))`, where `expr` is
by then the branch: the environment entry written is that of `br`, and the slot it gets is
that of the then-branch, for the else-branch too. The binding of every other node, the
conditional expression `ip` itself included, is what it was before the step. -/
theorem C20_conditional_expression_slot_not_bound (f : IFrame) (m : Machine) (s : BaseAST)
    (vs : List Ptr) (a th el ip : Nat) (b : Bool) (hstage : f.stage = 1)
    (hvs : f.valStack = vs ++ [some a])
    (hslot : m.slots[a]? = some (ISlot.immediate (Immediate.bool b)))
    (hth : s.thenExpr = some th) (hel : s.elseExpr = some el)
    (hipth : ip ≠ th) (hipel : ip ≠ el) :
    ∃ f1 m1, execCondExpr f m s = .ok (Ctl.next, f1, m1) ∧
      f1.expr = some (if b then th else el) ∧
      Map.get f1.env (if b then th else el) = Map.get f1.env th ∧
      Map.get f1.env ip = Map.get f.env ip := by
  refine ⟨_, _, execCondExpr_bool f m s vs a th el b hstage hvs hslot hth hel, ?_, ?_, ?_⟩
  · simp only
    unfold IFrame.islot
    split <;> rfl
  · cases b
    · simp only [Bool.false_eq_true, if_false]
      rw [Map.get_put_self]
      by_cases hte : th = el
      · rw [hte, Map.get_put_self]
      · rw [Map.get_put_ne _ _ _ _ hte, islot_get_self]
    · rfl
  · simp only
    rw [Map.get_put_ne _ _ _ _ (by cases b <;> assumption), islot_env_ne _ _ _ _ hipth]

/-- C20 on `(c ? 1 : 2);`: stage 1 of the conditional expression 2 binds the then-branch 4
to the new slot 2 when `c` is true, and both branches 4 and 5 to that slot when `c` is
false; node 2 itself has no binding before or after. The step ends in the failed assertion
of `LnextExpr`, so within `IFrame::run` the branch is not evaluated at all; evaluated
directly, the branch leaves its value (1, respectively 2) in slot 2, which is bound to the
then-branch, and node 2 still has no slot. -/
theorem C20_conditional_expression_slot_not_bound_witness :
    ((IFrame.run progCondExpr 10 0 4 (freshAt 1)).map (fun r => r.2)
        = .ok (condExprMachine true) ∧
      Map.get condExprFrame.env 2 = none) ∧
    (∃ f1 m1, execCondExpr condExprFrame (condExprMachine false) (progCondExpr.node 2)
        = .ok (Ctl.next, f1, m1) ∧
      f1.expr = some (if false then 4 else 5) ∧
      Map.get f1.env (if false then 4 else 5) = Map.get f1.env 4 ∧
      Map.get f1.env 2 = Map.get condExprFrame.env 2) ∧
    (exec progCondExpr 9 0 condExprFrame (condExprMachine true) 2).map
        (fun r => (r.2.1.env, r.2.1.expr, r.2.2.slots))
      = .ok ([(3, 0), (10, 1), (4, 2)], some 4,
          [ISlot.immediate (Immediate.bool true), ISlot.immediate (Immediate.bool true),
            ISlot.empty]) ∧
    (exec progCondExpr 9 0 condExprFrame (condExprMachine false) 2).map
        (fun r => (r.2.1.env, r.2.1.expr, r.2.2.slots))
      = .ok ([(3, 0), (10, 1), (4, 2), (5, 2)], some 5,
          [ISlot.immediate (Immediate.bool false), ISlot.immediate (Immediate.bool false),
            ISlot.empty]) ∧
    IFrame.run progCondExpr 10 0 2 (condExprMachine true)
      = .error (Fault.assertFails "stageStack.n == exprStack.n + stmtStack.n + (expr ? 1 : 0)") ∧
    (condExprThenBranch true).map (fun r => (r.1.env, Map.get r.1.env 2, r.2.slots[2]?))
      = .ok ([(3, 0), (10, 1), (4, 2), (11, 3)], none,
          some (ISlot.immediate (Immediate.int 1))) ∧
    (condExprThenBranch false).map (fun r => (r.1.env, Map.get r.1.env 2, r.2.slots[2]?))
      = .ok ([(3, 0), (10, 1), (4, 2), (5, 2), (12, 3)], none,
          some (ISlot.immediate (Immediate.int 2))) :=
  ⟨⟨rfl, rfl⟩,
    C20_conditional_expression_slot_not_bound condExprFrame (condExprMachine false)
      (progCondExpr.node 2) [] 0 4 5 2 false rfl rfl rfl rfl rfl (by decide) (by decide),
    rfl, rfl, rfl, rfl, rfl⟩

/-- C21: an argument that is itself a call leaves two entries on the operand stack. In
`f(g());` the macro `PUSH_EXPR` pushes the slot of the argument expression `g()` before the
argument is evaluated, and the return statement of `g` pushes the slot of its value on top
of it. After ten instructions the caller is at the last stage of the call of `f` with three
entries on its operand stack: the slot of the callee expression (the function `f`), the
slot of the argument expression, which is still empty, and the slot holding 7. The resolver
`icall(2)` takes the empty slot for the callee and reports a call to something other than a
function. For the argument of `f(5);`, a symbol expression, the two entries are the slot of
the callee and the slot of the argument. -/
theorem C21_call_argument_leaves_two_slots :
    (IThread.run progNest 50 0 11 (freshAt 1)).map
        (fun r => (r.2.threadHeap.map (fun t => t.frame),
          r.2.frames.map (fun f => (f.ip, f.stage, f.valStack)),
          Map.get ((r.2.frames[0]?).getD (IFrame.new 0)).env 3,
          Map.get ((r.2.frames[0]?).getD (IFrame.new 0)).env 4,
          r.2.slots[0]?, r.2.slots[2]?, r.2.slots[5]?))
      = .ok ([some 0], [(some 2, 2, [some 0, some 2, some 5]), (some 38, 0, [])],
          some 0, some 2, some (ISlot.symbol (some 20)), some ISlot.empty,
          some (ISlot.immediate (Immediate.int 7))) ∧
    (IThread.run progNest 50 0 11 (freshAt 1) >>= fun r =>
        heapGet r.2.frames 0 >>= fun f => icall progNest 0 { f with stage := 0 } r.2 2)
      = .error (Fault.userError "call to something other than function name or closure") ∧
    IThread.run progNest 50 0 0 (freshAt 1)
      = .error (Fault.userError "call to something other than function name or closure") ∧
    (IThread.run progCall 50 0 6 (freshAt 1)).map
        (fun r => (r.2.frames.map (fun f => (f.ip, f.stage, f.valStack)),
          Map.get ((r.2.frames[0]?).getD (IFrame.new 0)).env 3,
          Map.get ((r.2.frames[0]?).getD (IFrame.new 0)).env 4,
          r.2.slots[0]?, r.2.slots[2]?))
      = .ok ([(some 2, 2, [some 0, some 2])], some 0, some 2, some (ISlot.selector "f"),
          some (ISlot.immediate (Immediate.int 5))) :=
  ⟨rfl, rfl, rfl, rfl⟩

/-- C22: a move with two arguments copies the value of its source into the slot of its
target. The frame is at stage 0 of the move `ip`, whose target `tgt` is a symbol expression
for the variable `v` and whose source `src` is a symbol expression for a variable bound to a
slot that holds `x`; the machine is quiet. The first round only sets the stage to 2; the
second pushes the slot of the source and makes the source the instruction; the third
evaluates the source and returns to the move at stage 3 with one more entry on the operand
stack; the last stage pops that entry into the slot of `v`: the operand stack is what it was
before the move and the environment binds `v` to a slot that holds `x`. The target is never
the instruction. A move with another number of arguments is an internal fatal error at
stage 0, and a target that is not a symbol expression is one at the last stage. -/
theorem C22_move_copies_source_into_target (P : Prog) (this fuel : Nat) (f : IFrame)
    (m : Machine) (ip tgt src v w xa : Nat) (x : ISlot)
    (hcall : (P.node ip).astType = AstTag.EXPR_CALL)
    (hop : (P.node ip).opTag = OpTag.OP_MOVE) (hprim : (P.node ip).primitive = false)
    (hargs : (P.node ip).argList = [tgt, src])
    (htgt : (P.node tgt).astType = AstTag.EXPR_SYM) (htv : (P.node tgt).var = some v)
    (hsrc : (P.node src).astType = AstTag.EXPR_SYM) (hsw : (P.node src).var = some w)
    (hne : w ≠ src) (hw : Map.get f.env w = some xa) (hx : m.slots[xa]? = some x)
    (hip : f.ip = some ip) (hexpr : f.expr = some ip) (hstage : f.stage = 0)
    (hbal : f.stageStack.length = f.exprStack.length + f.stmtStack.length + 1)
    (hvalid : f.envValid m) (hquiet : m.quiet) :
    (∃ f2 m2 f3 m3 f4 m4,
      runLoop P this (fuel + 2) 2 f m = .ok (0, { f with stage := 2 }, m) ∧
      runLoop P this (fuel + 2) 2 { f with stage := 2 } m = .ok (0, f2, m2) ∧
      f2.ip = some src ∧
      runLoop P this (fuel + 2) 2 f2 m2 = .ok (0, f3, m3) ∧
      f3.ip = some ip ∧ f3.stage = 3 ∧ f3.valStack.length = f.valStack.length + 1 ∧
      exec P fuel this f3 m3 ip = .ok (Ctl.next, f4, m4) ∧
      f4.stage = 0 ∧ f4.valStack = f.valStack ∧ f4.slotOf m4 v = some x) ∧
    (∀ (f0 : IFrame) (m0 : Machine) (s : BaseAST), s.opTag = OpTag.OP_MOVE →
      s.argList.length ≠ 2 → f0.stage = 0 →
      execCall P this f0 m0 s
        = .error (Fault.intFatal "illegal number of arguments for MOVE")) ∧
    (∀ (f0 : IFrame) (m0 : Machine) (s : BaseAST) (t r : Nat), s.opTag = OpTag.OP_MOVE →
      s.primitive = false → s.argList = [t, r] → f0.stage = 3 →
      (P.node t).astType ≠ AstTag.EXPR_SYM →
      execCall P this f0 m0 s = .error (Fault.intFatal "target of MOVE not an SymExpr")) := by
  refine ⟨?_, fun f0 m0 s h1 h2 h3 => execCall_move_count P this f0 m0 s h1 h2 h3,
    fun f0 m0 s t r h1 h2 h3 h4 h5 => by
      rw [execCall_move_final P this f0 m0 s t r h1 h2 h3 h4, if_neg h5]
      rfl⟩
  obtain ⟨hbr, hint, hstep, htr⟩ := hquiet
  have hlen : (P.node ip).argList.length = 2 := by rw [hargs]; rfl
  -- the second stage pushes the slot of the source
  obtain ⟨sl, g, m2, hisl⟩ : ∃ sl g m2,
      IFrame.islot { f with stage := 3, exprStack := f.exprStack ++ [f.expr],
                            stageStack := f.stageStack ++ [4] } m src = (sl, g, m2) :=
    ⟨_, _, _, rfl⟩
  obtain ⟨hg, hgsl, hgenv, hm2, hm2s, -, hgv⟩ := islot_spec _ _ _ _ _ _ hisl
  obtain ⟨hsl, hgvalid⟩ := hgv hvalid
  have hg_stageStack : g.stageStack = f.stageStack ++ [4] := by rw [hg]
  have hg_exprStack : g.exprStack = f.exprStack ++ [some ip] := by rw [hg, ← hexpr]
  have hg_valStack : g.valStack = f.valStack := by rw [hg]
  have hg_stmtStack : g.stmtStack = f.stmtStack := by rw [hg]
  have hm2_br : m2.break_ids = [] := by rw [hm2]; exact hbr
  have hm2_int : m2.interrupted = false := by rw [hm2]; exact hint
  have hm2_step : m2.single_step = 0 := by rw [hm2]; exact hstep
  have hm2_tr : m2.trace_level = 0 := by rw [hm2]; exact htr
  -- first round: stage 0
  have hexec1 : exec P (fuel + 1) this f m ip = .ok (Ctl.next, { f with stage := 2 }, m) := by
    unfold exec
    simp only [hcall, traceS_quiet P m ip htr]
    exact execCall_move_start P this f m _ hop hlen hstage
  have h1 := runLoop_one P this fuel f _ _ m _ _ ip hip hbr hint hexec1
    (loopTail_stage P { f with stage := 2 } m (by show (2 : Int) ≠ 0; decide) hstep)
  -- second round: stage 2
  have hexec2 := execCall_second_arg P this { f with stage := 2 } g m m2 (P.node ip) tgt src sl
    hargs rfl (by show f.expr.isSome = true; rw [hexpr]; rfl) hisl
  have hexec2a : exec P (fuel + 1) this { f with stage := 2 } m ip
      = .ok (Ctl.next,
          { g with valStack := g.valStack ++ [some sl], stageStack := g.stageStack ++ [1],
                   exprStack := g.exprStack ++ [some src], stage := 0, expr := some src },
          m2) := by
    unfold exec
    simp only [hcall, traceS_quiet P m ip htr]
    exact hexec2
  have htail2 := loopTail_pop P
    { g with valStack := g.valStack ++ [some sl], stageStack := g.stageStack ++ [1],
             exprStack := g.exprStack ++ [some src], stage := 0, expr := some src }
    m2 g.stageStack g.exprStack 1 src rfl rfl rfl rfl
    (by show g.stageStack.length = g.exprStack.length + g.stmtStack.length + 1
        rw [hg_stageStack, hg_exprStack, hg_stmtStack]
        simp only [List.length_append, List.length_singleton]
        omega) hm2_step
  have h2 := runLoop_one P this fuel { f with stage := 2 } _ _ m _ _ ip hip hbr hint hexec2a
    htail2
  -- third round: the source expression
  set F2 : IFrame :=
    { g with valStack := g.valStack ++ [some sl], stageStack := g.stageStack,
             exprStack := g.exprStack, stage := 1 - 1, expr := some src, ip := some src }
    with hF2
  have h2a : runLoop P this (fuel + 2) 2 { f with stage := 2 } m = .ok (0, F2, m2) := h2
  have hexec3 : exec P (fuel + 1) this F2 m2 src = .ok (Ctl.next, F2, m2.setSlot sl x) := by
    unfold exec
    simp only [hsrc, traceS_quiet P m2 src hm2_tr]
    rw [execSym_bound P F2 m2 src w xa (P.node src) x hsw
      (by show Map.get g.env w = some xa
          rw [hgenv w hne]
          exact hw) (hm2s xa x hx)]
    have hs : Map.get F2.env src = some sl := hgsl
    rw [hs]
  have htail3 := loopTail_pop P F2 (m2.setSlot sl x) f.stageStack f.exprStack 4 ip rfl rfl
    hg_stageStack hg_exprStack
    (by show f.stageStack.length = f.exprStack.length + g.stmtStack.length + 1
        rw [hg_stmtStack]
        exact hbal) hm2_step
  have h3 := runLoop_one P this fuel F2 _ _ m2 _ _ src rfl hm2_br hm2_int hexec3 htail3
  set F3 : IFrame :=
    { F2 with stage := 4 - 1, stageStack := f.stageStack, ip := some ip, expr := some ip,
              exprStack := f.exprStack }
    with hF3
  -- the last stage
  have hm3x : (m2.setSlot sl x).slots[sl]? = some x := setSlot_get m2 sl x hsl
  have hpop := POP_VAL_copies { F3 with stage := 0 } (m2.setSlot sl x) v sl f.valStack x
    (by show g.valStack ++ [some sl] = f.valStack ++ [some sl]
        rw [hg_valStack]) hm3x
  have hexec4 := execCall_move_final P this F3 (m2.setSlot sl x) (P.node ip) tgt src hop hprim
    hargs rfl
  rw [if_pos htgt, htv, hpop] at hexec4
  have hexec4a : exec P fuel this F3 (m2.setSlot sl x) ip
      = execCall P this F3 (m2.setSlot sl x) (P.node ip) := by
    unfold exec
    simp only [hcall]
    rw [traceS_quiet P _ ip (by exact hm2_tr)]
  rw [hexec4] at hexec4a
  -- the slot of the target
  obtain ⟨dst, g4, m4, hisl4⟩ : ∃ dst g4 m4,
      IFrame.islot { F3 with stage := 0 } (m2.setSlot sl x) v = (dst, g4, m4) := ⟨_, _, _, rfl⟩
  obtain ⟨hg4, hg4dst, -, -, -, -, hg4v⟩ := islot_spec _ _ _ _ _ _ hisl4
  have hvalid3 : IFrame.envValid { F3 with stage := 0 } (m2.setSlot sl x) := by
    intro k a hka
    rw [setSlot_length]
    exact hgvalid k a hka
  obtain ⟨hdst, -⟩ := hg4v hvalid3
  rw [hisl4] at hexec4a
  refine ⟨F2, m2, F3, m2.setSlot sl x, _, _, h1, h2a, rfl, h3, rfl, rfl, ?_, hexec4a, ?_, rfl, ?_⟩
  · show (g.valStack ++ [some sl]).length = f.valStack.length + 1
    rw [hg_valStack]
    simp
  · show g4.stage = 0
    rw [hg4]
  · show (Map.get g4.env v).bind (fun a => (m4.setSlot dst x).slots[a]?) = some x
    rw [hg4dst]
    exact setSlot_get m4 dst x hdst

/-- C22 on the move `y = x` of `progDecl`, with `x` bound to a slot that holds 5: after three
rounds the frame is back at the move, at stage 3, with the slot of the source on its
operand stack; the whole run leaves the operand stack empty and binds `y` to the new slot 2,
which holds 5. The target expression 7 gets no slot: it is not evaluated. -/
theorem C22_move_copies_source_into_target_witness :
    ((∃ f2 m2 f3 m3 f4 m4,
        runLoop progDecl 0 (7 + 2) 2 moveFrame moveMachine
          = .ok (0, { moveFrame with stage := 2 }, moveMachine) ∧
        runLoop progDecl 0 (7 + 2) 2 { moveFrame with stage := 2 } moveMachine
          = .ok (0, f2, m2) ∧
        f2.ip = some 8 ∧
        runLoop progDecl 0 (7 + 2) 2 f2 m2 = .ok (0, f3, m3) ∧
        f3.ip = some 6 ∧ f3.stage = 3 ∧
        f3.valStack.length = moveFrame.valStack.length + 1 ∧
        exec progDecl 7 0 f3 m3 6 = .ok (Ctl.next, f4, m4) ∧
        f4.stage = 0 ∧ f4.valStack = moveFrame.valStack ∧
        f4.slotOf m4 21 = some (ISlot.immediate (Immediate.int 5))) ∧
      (∀ (f0 : IFrame) (m0 : Machine) (s : BaseAST), s.opTag = OpTag.OP_MOVE →
        s.argList.length ≠ 2 → f0.stage = 0 →
        execCall progDecl 0 f0 m0 s
          = .error (Fault.intFatal "illegal number of arguments for MOVE")) ∧
      (∀ (f0 : IFrame) (m0 : Machine) (s : BaseAST) (t r : Nat), s.opTag = OpTag.OP_MOVE →
        s.primitive = false → s.argList = [t, r] → f0.stage = 3 →
        (progDecl.node t).astType ≠ AstTag.EXPR_SYM →
        execCall progDecl 0 f0 m0 s
          = .error (Fault.intFatal "target of MOVE not an SymExpr"))) ∧
    (runLoop progDecl 0 9 4 moveFrame moveMachine).map
        (fun r => (r.2.1.ip, r.2.1.stage, r.2.1.valStack, r.2.1.env, r.2.2.slots))
      = .ok (some 6, 3, [some 1], [(20, 0), (8, 1)],
          [ISlot.immediate (Immediate.int 5), ISlot.immediate (Immediate.int 5)]) ∧
    (runLoop progDecl 0 9 0 moveFrame moveMachine).map
        (fun r => (r.2.1.valStack, r.2.1.env, Map.get r.2.1.env 7, r.2.1.slotOf r.2.2 21))
      = .ok ([], [(20, 0), (8, 1), (21, 2)], none,
          some (ISlot.immediate (Immediate.int 5))) ∧
    execCall progDecl 0 { moveFrame with stage := 3 } moveMachine
        { astType := EXPR_CALL, opTag := OpTag.OP_MOVE, argList := [6, 8] }
      = .error (Fault.intFatal "target of MOVE not an SymExpr") :=
  ⟨C22_move_copies_source_into_target progDecl 0 7 moveFrame moveMachine 6 7 8 21 20 0
      (ISlot.immediate (Immediate.int 5)) rfl rfl rfl rfl rfl rfl rfl rfl (by decide) rfl rfl
      rfl rfl rfl rfl
      (fun k a h => by
        have h1 : (Map.get [(20, 0)] k) = some a := h
        unfold Map.get at h1
        by_cases hk : k = 20
        · subst hk
          cases h1
          decide
        · have : ((20 : Nat) == k) = false := by
            simp only [beq_eq_false_iff_ne, ne_eq]
            exact fun hh => hk hh.symm
          simp [List.find?, this] at h1)
      ⟨rfl, rfl, rfl, rfl⟩,
    rfl, rfl, rfl⟩

/-- C23: a definition expression binds its symbol to a new slot and changes nothing else. For
a definition of the symbol `sym`, the case `EXPR_DEF` allocates a slot at the end of the
slot heap and makes the environment map `sym` to it, whatever `sym` was bound to before.
The slot is empty when `sym` is a variable (and for every kind not named next); it is a
symbol slot bound to `sym` itself when `sym` is an unresolved symbol, a module, a type, a
function, an enum or a label. Every other entry of the environment, the four stacks and all
other fields of the frame are as before, and the slots that existed keep their contents. -/
theorem C23_definition_binds_new_slot (P : Prog) (f : IFrame) (m : Machine) (ip sym : Nat)
    (s : BaseAST) (hsym : s.sym = some sym) :
    ∃ c m1, execDef P f m ip s
        = .ok (Ctl.next, { f with env := Map.put f.env sym m.slots.length }, m1) ∧
      Map.get (Map.put f.env sym m.slots.length) sym = some m.slots.length ∧
      (∀ k, k ≠ sym → Map.get (Map.put f.env sym m.slots.length) k = Map.get f.env k) ∧
      m1.slots = m.slots ++ [c] ∧
      ((P.node sym).astType = AstTag.SYMBOL_VAR → c = ISlot.empty) ∧
      ((P.node sym).astType = AstTag.SYMBOL_FN ∨ (P.node sym).astType = AstTag.SYMBOL_TYPE ∨
        (P.node sym).astType = AstTag.SYMBOL_ENUM ∨
        (P.node sym).astType = AstTag.SYMBOL_LABEL ∨
        (P.node sym).astType = AstTag.SYMBOL_UNRESOLVED → c = ISlot.symbol (some sym)) ∧
      (c = ISlot.empty ∨ c = ISlot.symbol (some sym)) ∧
      m1.frames = m.frames ∧ m1.threadHeap = m.threadHeap := by
  unfold execDef
  simp only [hsym, Ptr.addr, pure_bind_eq, Machine.newSlot]
  refine ⟨if (P.node sym).astType = AstTag.SYMBOL_UNRESOLVED ∨
      (P.node sym).astType = AstTag.SYMBOL_MODULE ∨ (P.node sym).astType = AstTag.SYMBOL_TYPE ∨
      (P.node sym).astType = AstTag.SYMBOL_FN ∨ (P.node sym).astType = AstTag.SYMBOL_ENUM ∨
      (P.node sym).astType = AstTag.SYMBOL_LABEL then ISlot.symbol (some sym) else ISlot.empty,
    _, rfl, Map.get_put_self _ _ _, fun k hk => Map.get_put_ne _ _ _ _ hk, ?_, ?_, ?_, ?_, ?_,
    ?_⟩
  · split <;> rfl
  · intro hv
    rw [hv]
    rfl
  · intro hk
    rcases hk with h | h | h | h | h <;> rw [h] <;> rfl
  · split_ifs <;> simp
  · split <;> rfl
  · split <;> rfl

/-- C23 on `var x;` of `progDecl`, executed while `x` is bound to slot 0 holding 5
(`moveFrame`): the environment then maps `x` to the new slot 1, which is empty, slot 0 still
holds 5 and the stacks are untouched. A definition of the function `f` of `progNest` binds
it to a symbol slot for `f`. -/
theorem C23_definition_binds_new_slot_witness :
    (∃ c m1, execDef progDecl moveFrame moveMachine 2 (progDecl.node 2)
        = .ok (Ctl.next,
            { moveFrame with env := Map.put moveFrame.env 20 moveMachine.slots.length }, m1) ∧
      Map.get (Map.put moveFrame.env 20 moveMachine.slots.length) 20
        = some moveMachine.slots.length ∧
      (∀ k, k ≠ 20 → Map.get (Map.put moveFrame.env 20 moveMachine.slots.length) k
        = Map.get moveFrame.env k) ∧
      m1.slots = moveMachine.slots ++ [c] ∧
      ((progDecl.node 20).astType = AstTag.SYMBOL_VAR → c = ISlot.empty) ∧
      ((progDecl.node 20).astType = AstTag.SYMBOL_FN ∨
        (progDecl.node 20).astType = AstTag.SYMBOL_TYPE ∨
        (progDecl.node 20).astType = AstTag.SYMBOL_ENUM ∨
        (progDecl.node 20).astType = AstTag.SYMBOL_LABEL ∨
        (progDecl.node 20).astType = AstTag.SYMBOL_UNRESOLVED →
          c = ISlot.symbol (some 20)) ∧
      (c = ISlot.empty ∨ c = ISlot.symbol (some 20)) ∧
      m1.frames = moveMachine.frames ∧ m1.threadHeap = moveMachine.threadHeap) ∧
    (execDef progDecl moveFrame moveMachine 2 (progDecl.node 2)).map
        (fun r => (r.2.1.env, r.2.1.valStack, r.2.1.stageStack, r.2.2.slots))
      = .ok ([(20, 1)], [], [1], [ISlot.immediate (Immediate.int 5), ISlot.empty]) ∧
    (execDef progNest moveFrame moveMachine 9 { astType := EXPR_DEF, sym := some 20 }).map
        (fun r => (r.2.1.env, r.2.2.slots))
      = .ok ([(20, 1)], [ISlot.immediate (Immediate.int 5), ISlot.symbol (some 20)]) :=
  ⟨C23_definition_binds_new_slot progDecl moveFrame moveMachine 2 20 (progDecl.node 2) rfl,
    rfl, rfl⟩

/-- C24: the step of a symbol expression `ip` that refers to the symbol `v`. If the
environment binds `v` to a slot holding `x`, the slot of the expression holds `x`
afterwards. If `v` is not bound, the slot of the expression holds the selector of the name
of `v` when `v` is unresolved, a symbol slot for `v` when `v` is a function or a type, and
the immediate of `v` when `v` is a variable that carries one; for every other symbol
(a variable without immediate included) the step ends in a fatal error. Where the step
succeeds, the operand stack and the other stacks are unchanged. -/
theorem C24_symbol_reference (P : Prog) (f : IFrame) (m : Machine) (ip v : Nat) (s : BaseAST)
    (hvar : s.var = some v) (hvalid : f.envValid m) :
    (∀ (xa : Nat) (x : ISlot), Map.get f.env v = some xa → m.slots[xa]? = some x →
      symYields P f m ip s x) ∧
    (Map.get f.env v = none →
      ((P.node v).astType = AstTag.SYMBOL_UNRESOLVED →
        symYields P f m ip s (ISlot.selector ((P.node v).name.getD ""))) ∧
      ((P.node v).astType = AstTag.SYMBOL_FN ∨ (P.node v).astType = AstTag.SYMBOL_TYPE →
        symYields P f m ip s (ISlot.symbol (some v))) ∧
      (∀ imm, (P.node v).astType = AstTag.SYMBOL_VAR → (P.node v).immediate = some imm →
        symYields P f m ip s (ISlot.immediate imm)) ∧
      ((P.node v).astType ≠ AstTag.SYMBOL_UNRESOLVED →
        (P.node v).astType ≠ AstTag.SYMBOL_FN → (P.node v).astType ≠ AstTag.SYMBOL_TYPE →
        ((P.node v).astType = AstTag.SYMBOL_VAR → (P.node v).immediate = none) →
        ∃ msg, execSym P f m ip s = .error (Fault.usrFatal msg))) := by
  refine ⟨?_, fun hnone => ⟨?_, ?_, ?_, ?_⟩⟩
  · intro xa x hxa hx
    unfold symYields execSym
    simp only [hvar, Ptr.addr, pure_bind_eq, hxa]
    exact symTail_ok f m xa ip x hx hvalid
  · intro hk
    unfold symYields execSym
    simp only [hvar, Ptr.addr, pure_bind_eq, hnone, hk, Machine.newSlot]
    exact symTail_ok _ _ _ ip _ (newSlot_get m _) (envValid_newSlot f m v _ hvalid)
  · intro hk
    unfold symYields execSym
    rcases hk with hk | hk <;>
    · simp only [hvar, Ptr.addr, pure_bind_eq, hnone, hk, Machine.newSlot]
      exact symTail_ok _ _ _ ip _ (newSlot_get m _) (envValid_newSlot f m v _ hvalid)
  · intro imm hk himm
    unfold symYields execSym
    simp only [hvar, Ptr.addr, pure_bind_eq, hnone, hk, himm, Machine.newSlot]
    exact symTail_ok _ _ _ ip _ (newSlot_get m _) (envValid_newSlot f m v _ hvalid)
  · intro h1 h2 h3 h4
    unfold execSym
    simp only [hvar, Ptr.addr, pure_bind_eq, hnone]
    cases hk : (P.node v).astType <;>
      first
      | exact absurd hk h1
      | exact absurd hk h2
      | exact absurd hk h3
      | (simp only [h4 hk]; exact ⟨_, rfl⟩)
      | exact ⟨_, rfl⟩

/-- C24 on examples: the reference 8 to `x` of `progDecl`, with `x` bound to a slot holding 5,
gets a slot holding 5; unbound, the literal of `progSeq` yields its immediate 7, the
unresolved name `f` of `progCall` a selector, the function `f` of `progNest` a symbol slot,
and the variable `x` of `progDecl`, which has no immediate, a fatal error. -/
theorem C24_symbol_reference_witness :
    ((∀ (xa : Nat) (x : ISlot), Map.get moveFrame.env 20 = some xa →
        moveMachine.slots[xa]? = some x →
        symYields progDecl moveFrame moveMachine 8 (progDecl.node 8) x) ∧
      (Map.get moveFrame.env 20 = none →
        ((progDecl.node 20).astType = AstTag.SYMBOL_UNRESOLVED →
          symYields progDecl moveFrame moveMachine 8 (progDecl.node 8)
            (ISlot.selector ((progDecl.node 20).name.getD ""))) ∧
        ((progDecl.node 20).astType = AstTag.SYMBOL_FN ∨
            (progDecl.node 20).astType = AstTag.SYMBOL_TYPE →
          symYields progDecl moveFrame moveMachine 8 (progDecl.node 8)
            (ISlot.symbol (some 20))) ∧
        (∀ imm, (progDecl.node 20).astType = AstTag.SYMBOL_VAR →
          (progDecl.node 20).immediate = some imm →
          symYields progDecl moveFrame moveMachine 8 (progDecl.node 8)
            (ISlot.immediate imm)) ∧
        ((progDecl.node 20).astType ≠ AstTag.SYMBOL_UNRESOLVED →
          (progDecl.node 20).astType ≠ AstTag.SYMBOL_FN →
          (progDecl.node 20).astType ≠ AstTag.SYMBOL_TYPE →
          ((progDecl.node 20).astType = AstTag.SYMBOL_VAR →
            (progDecl.node 20).immediate = none) →
          ∃ msg, execSym progDecl moveFrame moveMachine 8 (progDecl.node 8)
            = .error (Fault.usrFatal msg)))) ∧
    (execSym progDecl moveFrame moveMachine 8 (progDecl.node 8)).map
        (fun r => (r.2.1.slotOf r.2.2 8, r.2.1.valStack))
      = .ok (some (ISlot.immediate (Immediate.int 5)), []) ∧
    (execSym progSeq (IFrame.new 0) {} 2 (progSeq.node 2)).map
        (fun r => r.2.1.slotOf r.2.2 2) = .ok (some (ISlot.immediate (Immediate.int 7))) ∧
    (execSym progCall (IFrame.new 0) {} 3 (progCall.node 3)).map
        (fun r => r.2.1.slotOf r.2.2 3) = .ok (some (ISlot.selector "f")) ∧
    (execSym progNest (IFrame.new 0) {} 3 (progNest.node 3)).map
        (fun r => r.2.1.slotOf r.2.2 3) = .ok (some (ISlot.symbol (some 20))) ∧
    execSym progDecl (IFrame.new 0) {} 4 (progDecl.node 4)
      = .error (Fault.usrFatal "unknown variable in SymExpr \x27x\x27") :=
  ⟨C24_symbol_reference progDecl moveFrame moveMachine 8 20 (progDecl.node 8) rfl
      moveFrame_envValid,
    rfl, rfl, rfl, rfl, rfl⟩

/-- C25: a block statement that becomes the instruction at a non-zero stage is entered over
and over. Stage 2 of a while loop whose condition is true sets the stage to 1 and selects the
body block by `EVAL_STMT`; as the stage is not 0 the block at `LnextExpr` leaves `ip` at the
loop, which evaluates the condition once more, and then makes the body block the instruction
at stage 2. For a frame whose instruction is a block statement at a non-zero stage, on a
quiet machine, every round pushes one more continuation and leaves `ip` and the stage as
they are: no statement of the body is executed, and `IFrame::run` with an unbounded
timeslice does not return, whatever the bound on the rounds. -/
theorem C25_while_body_block_is_reentered_forever (P : Prog) (this : Nat) (f : IFrame)
    (m : Machine) (b lst : Nat) (hblock : (P.node b).astType = AstTag.STMT_BLOCK)
    (hbody : (P.node b).body = some lst) (hip : f.ip = some b) (hstage : f.stage ≠ 0)
    (hquiet : m.quiet) :
    (∀ fuel, runLoop P this (fuel + 2) 2 f m
      = .ok (0, EVAL_STMT f (P.node lst).headNext, m)) ∧
    (EVAL_STMT f (P.node lst).headNext).ip = some b ∧
    (EVAL_STMT f (P.node lst).headNext).stage = f.stage ∧
    (∀ fuel, runLoop P this fuel 0 f m = .error Fault.outOfFuel) := by
  refine ⟨fun fuel => ?_, hip, rfl, fun fuel => ?_⟩
  · obtain ⟨h1, h2⟩ := block_round P this (fuel + 1) f m b lst hblock hbody hstage hquiet
    exact runLoop_one P this fuel f _ _ m _ _ b hip hquiet.1 hquiet.2.1 h1 h2
  · induction fuel generalizing f with
    | zero => rfl
    | succ n ih =>
      obtain ⟨h1, h2⟩ := block_round P this n f m b lst hblock hbody hstage hquiet
      rw [runLoop_step P this n 0 f _ _ m _ _ b hip (by decide) hquiet.1 hquiet.2.1 h1 h2]
      exact ih (EVAL_STMT f (P.node lst).headNext) hip hstage

/-- C25 on `while (true) { 7; 8; }  9;`: after four instructions stage 2 has found the
condition true and selected the body (stage 1, `stmt` the block 3, `ip` still the loop);
the fifth instruction makes the condition 2 the instruction again, the sixth leaves the
block 3 as the instruction at stage 2, where the frame stays: after nine instructions the
block is still the instruction, three more continuations are stacked and no literal of the
body has a slot. The loop `do { 7; 8; } while (true);` evaluates its condition as its
second instruction, before any statement of the body, and is at the block at stage 2 after
three. -/
theorem C25_while_body_block_is_reentered_forever_witness :
    (whileFrame.ip = some 3 ∧ whileFrame.stage = 2) ∧
    ((∀ fuel, runLoop (progWhile true) 0 (fuel + 2) 2 whileFrame whileMachine
        = .ok (0, EVAL_STMT whileFrame ((progWhile true).node 4).headNext, whileMachine)) ∧
      (EVAL_STMT whileFrame ((progWhile true).node 4).headNext).ip = some 3 ∧
      (EVAL_STMT whileFrame ((progWhile true).node 4).headNext).stage = whileFrame.stage ∧
      (∀ fuel, runLoop (progWhile true) 0 fuel 0 whileFrame whileMachine
        = .error Fault.outOfFuel)) ∧
    ([5, 6, 7, 10].map (fun k => (IThread.run (progWhile true) 20 0 k (freshAt 1)).map
        (fun r => r.2.frames.map (fun f => (f.ip, f.stage, f.stmt, f.stmtStack, f.env)))))
      = [.ok [(some 1, 1, some 3, [some 1], [(10, 0), (2, 0)])],
         .ok [(some 2, 0, some 3, [some 1], [(10, 0), (2, 0)])],
         .ok [(some 3, 2, some 3, [some 1], [(10, 0), (2, 0)])],
         .ok [(some 3, 2, some 5, [some 1, some 3, some 5, some 5], [(10, 0), (2, 0)])]] ∧
    ([2, 3, 4].map (fun k => (IThread.run (progWhile false) 20 0 k (freshAt 1)).map
        (fun r => r.2.frames.map (fun f => (f.ip, f.stage, f.stmt, f.stmtStack, f.env)))))
      = [.ok [(some 1, 1, some 3, [some 1], [])],
         .ok [(some 2, 0, some 3, [some 1], [])],
         .ok [(some 3, 2, some 3, [some 1], [(10, 0), (2, 0)])]] :=
  ⟨⟨rfl, rfl⟩,
    C25_while_body_block_is_reentered_forever (progWhile true) 0 whileFrame whileMachine 3 4
      rfl rfl rfl (by decide) ⟨rfl, rfl, rfl, rfl⟩,
    rfl, rfl⟩

/-- C26: a for loop with a valid element neither executes its body nor reaches the second
call of `_forall_valid`. In `for i in s { 7; }  9;` the procedures report an element. After
fifteen instructions `_forall_start`, `_forall_valid` and `_forall_index` have been called
once each, the index variable 12 holds 1 and stage 4 has selected the body by `EVAL_STMT`:
`stmt` is the block 5, but the stage is 5 and `ip` is still the loop. The sixteenth
instruction is therefore stage 5, the call of `_forall_next`, with no statement of the body
executed. After twenty instructions stage 6 has popped the result of `_forall_next` and set
the stage to 2, leaving the operand stack empty; the next instruction, stage 2, pops once
more, from the empty stack, and dereferences the null pointer it gets. The literal 8 of the
body never gets a slot. With procedures that report no element the loop is left after one
call of `_forall_start` and one of `_forall_valid`, and `9;` is executed. -/
theorem C26_for_loop_skips_body_and_pops_empty_stack :
    ([16, 17, 21].map (fun k => (IThread.run (progFor true) 60 0 k (freshAt 1)).map
        (fun r => (r.2.threadHeap.map (fun t => t.frame), r.2.frames.map (fun f => f.function),
          (r.2.frames[0]?).map
            (fun f => (f.ip, f.stage, f.stmt, f.valStack, f.stmtStack, Map.get f.env 8,
              f.slotOf r.2 12))))))
      = [.ok ([some 0], [none, some 20, some 21, some 22],
           some (some 1, 5, some 5, [], [some 1], none,
             some (ISlot.immediate (Immediate.int 1)))),
         .ok ([some 4], [none, some 20, some 21, some 22, some 23],
           some (some 1, 6, some 5, [], [some 1], none,
             some (ISlot.immediate (Immediate.int 1)))),
         .ok ([some 0], [none, some 20, some 21, some 22, some 23],
           some (some 1, 2, some 5, [], [some 1], none,
             some (ISlot.immediate (Immediate.int 1))))] ∧
    IThread.run (progFor true) 60 0 22 (freshAt 1) = .error Fault.nullDeref ∧
    (IThread.run (progFor true) 60 0 21 (freshAt 1) >>= fun r =>
        heapGet r.2.frames 0 >>= fun f =>
          execFor (progFor true) 0 f r.2 1 ((progFor true).node 1))
      = .error Fault.nullDeref ∧
    IThread.run (progFor true) 60 0 0 (freshAt 1) = .error Fault.nullDeref ∧
    (IThread.run (progFor false) 60 0 0 (freshAt 1)).map
        (fun r => (r.2.threadHeap.map (fun t => t.frame), r.2.frames.map (fun f => f.function),
          (r.2.frames[0]?).map (fun f => (Map.get f.env 8, f.slotOf r.2 11))))
      = .ok ([none], [none, some 20, some 21],
          some (none, some (ISlot.immediate (Immediate.int 9)))) :=
  ⟨rfl, rfl, rfl, rfl, rfl⟩

/-- C27: the function `match_cmd` accepts exactly the prefixes of the command name. For an
input `c` that does not start with white space and a command name `s` in lower case,
`match_cmd(c, s)` is true if and only if the first token of `c`, the characters before the
first white space, is not empty and, put into lower case, is a prefix of `s`; a token longer
than `s` does not match, and the empty input does not match. -/
theorem C27_match_cmd_accepts_prefixes (c : List Char) (s : String)
    (hfirst : ∀ ch rest, c = ch :: rest → isspace ch = false)
    (hlower : s.toList.map tolower = s.toList) :
    (match_cmd c s = true ↔
      c.takeWhile (fun x => !isspace x) ≠ [] ∧
        (c.takeWhile (fun x => !isspace x)).map tolower <+: s.toList.map tolower) ∧
    (s.toList.length < (c.takeWhile (fun x => !isspace x)).length → match_cmd c s = false) ∧
    match_cmd [] s = false := by
  have key : match_cmd c s = true ↔
      c.takeWhile (fun x => !isspace x) ≠ [] ∧
        (c.takeWhile (fun x => !isspace x)).map tolower <+: s.toList.map tolower := by
    rw [hlower]
    unfold match_cmd
    cases c with
    | nil => simp [match_cmd_loop]
    | cons ch cs =>
      rw [match_cmd_loop_cons, match_cmd_loop_true]
      have hsp := hfirst ch cs rfl
      simp [List.takeWhile_cons, hsp]
  refine ⟨key, ?_, rfl⟩
  intro hlen
  cases hm : match_cmd c s with
  | false => rfl
  | true =>
    have hp := (key.1 hm).2
    have := hp.length_le
    simp only [List.length_map] at this
    omega

/-- C27 on examples: `Cont x` matches `continue` (the token `Cont` in lower case is a prefix),
as do `c` and `continue`; `continues` (longer than the name), `cx` and the empty input do
not. -/
theorem C27_match_cmd_accepts_prefixes_witness :
    ((match_cmd "Cont x".toList "continue" = true ↔
        "Cont x".toList.takeWhile (fun x => !isspace x) ≠ [] ∧
          ("Cont x".toList.takeWhile (fun x => !isspace x)).map tolower
            <+: "continue".toList.map tolower) ∧
      ("continue".toList.length < ("Cont x".toList.takeWhile (fun x => !isspace x)).length →
        match_cmd "Cont x".toList "continue" = false) ∧
      match_cmd [] "continue" = false) ∧
    "Cont x".toList.takeWhile (fun x => !isspace x) = "Cont".toList ∧
    match_cmd "Cont x".toList "continue" = true ∧
    match_cmd "c".toList "continue" = true ∧
    match_cmd "continue".toList "continue" = true ∧
    match_cmd "continues".toList "continue" = false ∧
    match_cmd "cx".toList "continue" = false ∧
    match_cmd "".toList "continue" = false :=
  ⟨C27_match_cmd_accepts_prefixes "Cont x".toList "continue"
      (fun ch rest h => by
        have h1 : "Cont x".toList.head? = some ch := by rw [h]; rfl
        have h2 : "Cont x".toList.head? = some (Char.ofNat 67) := rfl
        rw [h2] at h1
        cases h1
        rfl)
      rfl,
    rfl, rfl, rfl, rfl, rfl, rfl, rfl⟩

/-- C28: with a null frame the function `cmd_print` dereferences the frame. It does not call
`check_running`, as `cmd_where`, `cmd_stack` and `cmd_locals` do. When the argument of
`print` or `nprint` does not start with a digit, the search for a local of that name reads
`frame->env`; when the argument is the id of a node the debugger knows, or when there is no
argument and a node has been printed before, the node is printed and then looked up in
`frame->env`. In all three cases the null frame is dereferenced. -/
theorem C28_print_dereferences_null_frame (P : Prog) (m : Machine) (c0 : List Char) :
    (∀ ch rest, skip_arg c0 = ch :: rest → isdigit ch = false →
      cmd_print P none m c0 = .error Fault.nullDeref) ∧
    (∀ ch rest p m1, skip_arg c0 = ch :: rest → isdigit ch = true → 0 < atoi (ch :: rest) →
      get_known_id P m (atoi (ch :: rest)) = (some p, m1) →
      cmd_print P none m c0 = .error Fault.nullDeref) ∧
    (∀ p, skip_arg c0 = [] → m.last_print = some p →
      cmd_print P none m c0 = .error Fault.nullDeref) := by
  refine ⟨?_, ?_, ?_⟩
  · intro ch rest harg hd
    unfold cmd_print
    simp only [harg, hd, Bool.false_eq_true, if_false]
    rfl
  · intro ch rest p m1 harg hd hpos hk
    unfold cmd_print
    simp only [harg, hd, if_true, hk, not_le.2 hpos, if_false]
    rfl
  · intro p harg hl
    unfold cmd_print
    simp only [harg, hl]
    rfl

/-- C28 in the debugger entered with a null frame after the program has terminated:
`print x`, `print 1` and `nprint 1` (node 1 being known to the debugger) end in the null
dereference, the lines that follow them are not read. `print` without a previous print,
`print 0`, `print 99`, `where`, `stack`, `locals`, `bi 1` and `info` are handled and the
loop goes on to `continue`. -/
theorem C28_print_dereferences_null_frame_witness :
    ((∀ ch rest, skip_arg "print x".toList = ch :: rest → isdigit ch = false →
        cmd_print progSeq none (idleMachine [] []) "print x".toList = .error Fault.nullDeref) ∧
      (∀ ch rest p m1, skip_arg "print x".toList = ch :: rest → isdigit ch = true →
        0 < atoi (ch :: rest) →
        get_known_id progSeq (idleMachine [] []) (atoi (ch :: rest)) = (some p, m1) →
        cmd_print progSeq none (idleMachine [] []) "print x".toList = .error Fault.nullDeref) ∧
      (∀ p, skip_arg "print x".toList = [] → (idleMachine [] []).last_print = some p →
        cmd_print progSeq none (idleMachine [] []) "print x".toList
          = .error Fault.nullDeref)) ∧
    (skip_arg "print x".toList = "x".toList ∧ isdigit (Char.ofNat 120) = false) ∧
    interactive progSeq none (idleMachine [] ["print x", "continue"])
      = .error Fault.nullDeref ∧
    interactive progSeq none (idleMachine [(1, 1)] ["print 1", "continue"])
      = .error Fault.nullDeref ∧
    interactive progSeq none (idleMachine [(1, 1)] ["nprint 1", "continue"])
      = .error Fault.nullDeref ∧
    (interactive progSeq none
        (idleMachine [] ["print", "print 0", "print 99", "where", "stack", "locals", "bi 1",
          "info", "continue"])).map (fun r => (r.1, r.2.stdin))
      = .ok (0, []) :=
  ⟨C28_print_dereferences_null_frame progSeq (idleMachine [] []) "print x".toList,
    ⟨rfl, rfl⟩, rfl, rfl, rfl, rfl⟩

/-- C29, counterexample: `IFrame::run(1)` changes a frame whose `expr` is set, and may
return 1. When the function called by `f(); 9;` has returned, the caller has the call
expression 2 as its current expression; `IFrame::run(1)` on it enters at `LnextExpr`,
which pops the expression, clears the operand stack and advances the frame to statement 5,
before the timeslice test returns 0. For the lone statement `f();` of `progRet` the block at
`LnextExpr` retires the frame, and `IFrame::run(1)` returns 1. -/
theorem C29_run_one_changes_frame_with_pending_expression :
    (callAndReturn progStep 1).map
        (fun m => (m.frames[0]?).map
          (fun f => (f.ip, f.expr, f.stmt, f.valStack, f.stageStack)))
      = .ok (some (some 2, some 2, some 1, [some 2], [1])) ∧
    (callAndReturn progStep 1 >>= fun m => IFrame.run progStep 20 0 1 m).map
        (fun r => (r.1, (r.2.frames[0]?).map
          (fun f => (f.ip, f.expr, f.stmt, f.valStack, f.stageStack))))
      = .ok (0, some (some 5, none, some 5, [], [])) ∧
    (callAndReturn (progRet (Immediate.int 42)) 8 >>= fun m =>
        IFrame.run (progRet (Immediate.int 42)) 20 0 1 m).map
        (fun r => (r.1, r.2.threadHeap.map (fun t => t.frame),
          (r.2.frames[0]?).map (fun f => (f.ip, f.stmt, f.stage))))
      = .ok (1, [none], some (none, none, -1)) :=
  ⟨rfl, rfl, rfl⟩

/-- C29, amended: the timeslice is counted per round of the loop of `IFrame::run`. The
instrumented loop `runLoopCount` returns what the loop returns. With a timeslice of at least
1 the loop executes at most `timeslice - 1` instructions, and exactly that many when it is
left at the timeslice test, where it returns 0 (it is left earlier only after the debugger,
by a `return` inside an instruction, or when the frame retires); with a timeslice of 0 it is
never left at the timeslice test. On a frame whose `expr` is null, `IFrame::run` is the loop
and the write-back of the frame, and `IFrame::run(1)` returns 0 and leaves the machine, the
frame included, as it was. On a frame whose `expr` is set, `IFrame::run` passes through
`LnextExpr` first, before the first timeslice test and outside the count: it returns the
timeslice it was given when that retires the frame, and is the loop on the frame that
`LnextExpr` leaves otherwise; `IFrame::run(1)` then returns 0 (1 when the frame retires)
with the frame as `LnextExpr` leaves it. -/
theorem C29_timeslice_accounting (P : Prog) (this fuel timeslice : Nat) (f : IFrame)
    (m : Machine) (r : Exit × Nat × Nat × IFrame × Machine)
    (h : runLoopCount P this fuel timeslice 0 f m = .ok r) :
    runLoop P this fuel timeslice f m = .ok r.2.2 ∧
    (1 ≤ timeslice → r.2.1 ≤ timeslice - 1 ∧
      (r.1 = Exit.expired → r.2.1 = timeslice - 1 ∧ r.2.2.1 = 0)) ∧
    (timeslice = 0 → r.1 ≠ Exit.expired) ∧
    (∀ (m0 : Machine) (this0 : Nat) (f0 : IFrame), m0.frames[this0]? = some f0 →
      f0.expr = none → IFrame.run P (fuel + 1) this0 1 m0 = .ok (0, m0)) ∧
    (∀ (m0 : Machine) (this0 k N : Nat) (f0 : IFrame), m0.frames[this0]? = some f0 →
      f0.expr = none →
      IFrame.run P k this0 N m0
        = (runLoop P this0 k N f0 m0 >>= fun q => pure (q.1, q.2.2.sync this0 q.2.1))) ∧
    (∀ (m0 : Machine) (this0 k N : Nat) (f0 : IFrame), m0.frames[this0]? = some f0 →
      f0.expr.isSome = true →
      IFrame.run P k this0 N m0
        = (loopTail P f0 m0 >>= fun t =>
            if t.1 = true then pure (N, t.2.2.sync this0 t.2.1)
            else runLoop P this0 k N t.2.1 t.2.2 >>= fun q =>
              pure (q.1, q.2.2.sync this0 q.2.1))) ∧
    (∀ (m0 m1 : Machine) (this0 : Nat) (f0 f1 : IFrame) (retired : Bool),
      m0.frames[this0]? = some f0 → f0.expr.isSome = true →
      loopTail P f0 m0 = .ok (retired, f1, m1) →
      IFrame.run P (fuel + 1) this0 1 m0
        = .ok (if retired = true then 1 else 0, m1.sync this0 f1)) := by
  obtain ⟨-, h2, h3⟩ := runLoopCount_bound P this fuel timeslice 0 f m r h
  have hnone : ∀ (m0 : Machine) (this0 k N : Nat) (f0 : IFrame), m0.frames[this0]? = some f0 →
      f0.expr = none →
      IFrame.run P k this0 N m0
        = (runLoop P this0 k N f0 m0 >>= fun q => pure (q.1, q.2.2.sync this0 q.2.1)) := by
    intro m0 this0 k N f0 hf hexpr
    unfold IFrame.run
    simp only [(heapGet_ok m0.frames this0 f0).2 hf, ok_bind_eq, hexpr, Option.isSome_none,
      Bool.false_eq_true, if_false]
  have hsome : ∀ (m0 : Machine) (this0 k N : Nat) (f0 : IFrame), m0.frames[this0]? = some f0 →
      f0.expr.isSome = true →
      IFrame.run P k this0 N m0
        = (loopTail P f0 m0 >>= fun t =>
            if t.1 = true then pure (N, t.2.2.sync this0 t.2.1)
            else runLoop P this0 k N t.2.1 t.2.2 >>= fun q =>
              pure (q.1, q.2.2.sync this0 q.2.1)) := by
    intro m0 this0 k N f0 hf hexpr
    unfold IFrame.run
    simp only [(heapGet_ok m0.frames this0 f0).2 hf, ok_bind_eq, hexpr, if_true]
    cases ht : loopTail P f0 m0 with
    | error e => rfl
    | ok t =>
      obtain ⟨retired, f1, m1⟩ := t
      cases retired with
      | true => rfl
      | false =>
        simp only [ok_bind_eq, Bool.false_eq_true, if_false]
  refine ⟨?_, fun hge => ?_, h3, ?_, hnone, hsome, ?_⟩
  · rw [← runLoopCount_erase P this fuel timeslice 0 f m, h]
    rfl
  · obtain ⟨h4, h5⟩ := h2 hge
    refine ⟨by omega, fun he => ?_⟩
    obtain ⟨h6, h7⟩ := h5 he
    exact ⟨by omega, h7⟩
  · intro m0 this0 f0 hf hexpr
    unfold IFrame.run
    simp only [(heapGet_ok m0.frames this0 f0).2 hf, ok_bind_eq, hexpr, Option.isSome_none,
      Bool.false_eq_true, if_false]
    unfold runLoop
    simp only [if_true, pure_bind_eq, sync_self m0 this0 f0 hf]
    rfl
  · intro m0 m1 this0 f0 f1 retired hf hexpr ht
    rw [hsome m0 this0 (fuel + 1) 1 f0 hf hexpr, ht]
    cases retired with
    | true => rfl
    | false =>
      simp only [ok_bind_eq, Bool.false_eq_true, if_false]
      unfold runLoop
      rfl

/-- C29 on examples: `IFrame::run(3)` on `7; 8; 9;` executes two instructions and is left at
the timeslice test with 0; with an unbounded timeslice the six instructions are executed
and the frame retires; on `f(); 9;` the loop is left by the call after four instructions,
with a timeslice of 3 after two, and `IFrame::run(1)` on the fresh frame changes
nothing. The caller of `if (f()) ...`, resumed by `IFrame::run(1)` after the function has
returned, is taken by `LnextExpr` from the call expression back to the conditional statement
at stage 1, its operand stack and `stmt` staying as they were, and 0 is returned. -/
theorem C29_timeslice_accounting_witness :
    (runLoopCount progSeq 0 10 3 0 ((IFrame.new 0).initStmt (some 1)) (freshAt 1)
        = .ok seqCount ∧ seqCount.1 = Exit.expired ∧ seqCount.2.1 = 2) ∧
    (runLoop progSeq 0 10 3 ((IFrame.new 0).initStmt (some 1)) (freshAt 1)
        = .ok seqCount.2.2 ∧
      (1 ≤ 3 → seqCount.2.1 ≤ 3 - 1 ∧
        (seqCount.1 = Exit.expired → seqCount.2.1 = 3 - 1 ∧ seqCount.2.2.1 = 0)) ∧
      ((3 : Nat) = 0 → seqCount.1 ≠ Exit.expired) ∧
      (∀ (m0 : Machine) (this0 : Nat) (f0 : IFrame), m0.frames[this0]? = some f0 →
        f0.expr = none → IFrame.run progSeq (10 + 1) this0 1 m0 = .ok (0, m0)) ∧
      (∀ (m0 : Machine) (this0 k N : Nat) (f0 : IFrame), m0.frames[this0]? = some f0 →
        f0.expr = none →
        IFrame.run progSeq k this0 N m0
          = (runLoop progSeq this0 k N f0 m0 >>= fun q =>
              pure (q.1, q.2.2.sync this0 q.2.1))) ∧
      (∀ (m0 : Machine) (this0 k N : Nat) (f0 : IFrame), m0.frames[this0]? = some f0 →
        f0.expr.isSome = true →
        IFrame.run progSeq k this0 N m0
          = (loopTail progSeq f0 m0 >>= fun t =>
              if t.1 = true then pure (N, t.2.2.sync this0 t.2.1)
              else runLoop progSeq this0 k N t.2.1 t.2.2 >>= fun q =>
                pure (q.1, q.2.2.sync this0 q.2.1))) ∧
      (∀ (m0 m1 : Machine) (this0 : Nat) (f0 f1 : IFrame) (retired : Bool),
        m0.frames[this0]? = some f0 → f0.expr.isSome = true →
        loopTail progSeq f0 m0 = .ok (retired, f1, m1) →
        IFrame.run progSeq (10 + 1) this0 1 m0
          = .ok (if retired = true then 1 else 0, m1.sync this0 f1))) ∧
    (runLoopCount progSeq 0 10 0 0 ((IFrame.new 0).initStmt (some 1)) (freshAt 1)).map
        (fun r => (r.1, r.2.1, r.2.2.1)) = .ok (Exit.retired, 6, 0) ∧
    (runLoopCount progStep 0 10 0 0 ((IFrame.new 0).initStmt (some 1)) (freshAt 1)).map
        (fun r => (r.1, r.2.1, r.2.2.1)) = .ok (Exit.left, 4, 0) ∧
    (runLoopCount progStep 0 10 9 0 ((IFrame.new 0).initStmt (some 1)) (freshAt 1)).map
        (fun r => (r.1, r.2.1, r.2.2.1)) = .ok (Exit.left, 4, 5) ∧
    (runLoopCount progStep 0 10 3 0 ((IFrame.new 0).initStmt (some 1)) (freshAt 1)).map
        (fun r => (r.1, r.2.1, r.2.2.1)) = .ok (Exit.expired, 2, 0) ∧
    IFrame.run progSeq 11 0 1 (freshAt 1) = .ok (0, freshAt 1) ∧
    (callAndReturn (progRet (Immediate.bool true)) 1).map
        (fun m => (m.frames[0]?).map
          (fun f => (f.ip, f.expr, f.stmt, f.stage, f.valStack, f.stageStack)))
      = .ok (some (some 2, some 2, some 1, 0, [some 0, some 3], [2])) ∧
    (callAndReturn (progRet (Immediate.bool true)) 1 >>= fun m =>
        IFrame.run (progRet (Immediate.bool true)) 20 0 1 m).map
        (fun r => (r.1, (r.2.frames[0]?).map
          (fun f => (f.ip, f.expr, f.stmt, f.stage, f.valStack, f.stageStack))))
      = .ok (0, some (some 1, none, some 1, 1, [some 0, some 3], [])) :=
  ⟨⟨rfl, rfl, rfl⟩,
    C29_timeslice_accounting progSeq 0 10 3 ((IFrame.new 0).initStmt (some 1)) (freshAt 1)
      seqCount rfl,
    rfl, rfl, rfl, rfl, rfl, rfl, rfl⟩

/-- C30: the method `IFrame::init(FnSymbol *fn)` does not use `fn`. For every `fn` it resets
the frame, pushes a symbol slot for the global `chpl_main` and calls `icall(1)`; as the
reset has made `ip` null, `icall` sets the frame itself up for `chpl_main`: `function` is
`chpl_main`, `ip` and `stmt` are the first statement of its body, the operand stack and the
other stacks are empty and the environment is cleared. No frame is created and no thread is
touched; the machine gets the slot that was pushed and the mark of the call (trace and
breakpoint test on `chpl_main`). The result is the same for every `fn`, so the body of `fn`
is run only if `fn` is `chpl_main`. -/
theorem C30_init_fn_sets_up_chpl_main (P : Prog) (this : Nat) (f : IFrame) (m : Machine)
    (fn main : Nat) (first : Ptr) (hmain : P.chpl_main = some main)
    (hfn : (P.node main).astType = AstTag.SYMBOL_FN)
    (hfirst : fnFirstStmt P main = .ok first) :
    ∃ m1, IFrame.initFn P this f m fn
        = .ok ({ f.reset with function := some main, ip := first, stmt := first }, m1) ∧
      ({ f.reset with function := some main, ip := first, stmt := first } : IFrame).valStack
        = [] ∧
      m1 = callMark P { m with slots := m.slots ++ [ISlot.symbol (some main)] } main ∧
      m1.frames = m.frames ∧ m1.threadHeap = m.threadHeap ∧
      ∀ fn2, IFrame.initFn P this f m fn2 = IFrame.initFn P this f m fn := by
  refine ⟨_, ?_, rfl, rfl, (callMark_fields P _ main).1, (callMark_fields P _ main).2.1,
    fun fn2 => rfl⟩
  unfold IFrame.initFn
  simp only [Machine.newSlot, hmain]
  rw [icall_symbol_fn_eq P this _ _ 1 m.slots.length main (by decide) (by simp [IFrame.reset])
    (by simp [IFrame.reset]) (by simp) hfn]
  rw [icallFn_null_ip P this _ _ main 1 first rfl hfirst (by simp [IFrame.reset])]
  rfl

/-- C30 on `progMain`, whose `chpl_main` is function 20, called for the function 21 of
another program text: the frame is set up at statement 32, the first statement of the body
of function 20. -/
theorem C30_init_fn_sets_up_chpl_main_witness :
    (∃ m1, IFrame.initFn progMain 0 callFrame (callMachine ISlot.empty) 21
        = .ok ({ callFrame.reset with function := some 20, ip := some 32, stmt := some 32 },
            m1) ∧
      ({ callFrame.reset with function := some 20, ip := some 32, stmt := some 32 } :
        IFrame).valStack = [] ∧
      m1 = callMark progMain
        { callMachine ISlot.empty with
            slots := (callMachine ISlot.empty).slots ++ [ISlot.symbol (some 20)] } 20 ∧
      m1.frames = (callMachine ISlot.empty).frames ∧
      m1.threadHeap = (callMachine ISlot.empty).threadHeap ∧
      ∀ fn2, IFrame.initFn progMain 0 callFrame (callMachine ISlot.empty) fn2
        = IFrame.initFn progMain 0 callFrame (callMachine ISlot.empty) 21) ∧
    (IFrame.initFn progMain 0 callFrame (callMachine ISlot.empty) 21).map
        (fun r => (r.1, r.2.frames.length))
      = .ok ({ thread := 0, function := some 20, ip := some 32, stmt := some 32 }, 1) :=
  ⟨C30_init_fn_sets_up_chpl_main progMain 0 callFrame (callMachine ISlot.empty) 21 20
      (some 32) rfl rfl rfl, rfl⟩

/-- C31: the stages of a frame stay in range. In every state that is reached by stepping a
freshly initialised frame that has not retired, the current stage is at least 0 and every
entry of the stage stack is at least 1. From such a state the loop of `IFrame::run`, over
any number of rounds and with any input to the debugger, does not fail the assertion
`stage >= 0` that is made when a statement continuation is popped, and neither does the
method `IFrame::run` on a heap that holds the frame. -/
theorem C31_stages_stay_in_range (P : Prog) (f : IFrame) (h : Reach P f) :
    0 ≤ f.stage ∧ (∀ e ∈ f.stageStack, (1 : Int) ≤ e) ∧
    (∀ (this fuel timeslice : Nat) (m : Machine),
      runLoop P this fuel timeslice f m ≠ .error (Fault.assertFails "stage >= 0")) ∧
    (∀ (this fuel timeslice : Nat) (m : Machine), m.frames[this]? = some f →
      IFrame.run P fuel this timeslice m ≠ .error (Fault.assertFails "stage >= 0")) :=
  ⟨(reach_inv h).1.1, (reach_inv h).1.2,
    fun this fuel timeslice m => runLoop_noStage P this fuel timeslice f m (reach_inv h),
    fun this fuel timeslice m hf => run_noStage P fuel this timeslice m f hf (reach_inv h)⟩

/-- C31 on `f(g());`: the frame that `IFrame::init` sets to the statement is stepped five
times; it is then at the callee expression of the inner call, at stage 0 with the stage
stack 1, 3, 2, and the invariant and the two statements about the assertion hold for it.
The stage stacks met in the first seven steps hold entries from 1 to 3 and the stage is 0
or 1. The frame of `7; 8; 9;`, stepped until it retires, is left at stage -1 with an empty
stage stack: the claim is about frames that have not retired. -/
theorem C31_stages_stay_in_range_witness :
    Reach progNest nestFrame ∧
    (nestCount.1, nestFrame.ip, nestFrame.stage, nestFrame.stageStack)
      = (Exit.expired, some 5, 0, [1, 3, 2]) ∧
    (0 ≤ nestFrame.stage ∧ (∀ e ∈ nestFrame.stageStack, (1 : Int) ≤ e) ∧
      (∀ (this fuel timeslice : Nat) (m : Machine),
        runLoop progNest this fuel timeslice nestFrame m
          ≠ .error (Fault.assertFails "stage >= 0")) ∧
      (∀ (this fuel timeslice : Nat) (m : Machine), m.frames[this]? = some nestFrame →
        IFrame.run progNest fuel this timeslice m
          ≠ .error (Fault.assertFails "stage >= 0"))) ∧
    (List.range 8).map (fun k =>
        (runLoopCount progNest 0 20 (k + 1) 0 ((IFrame.new 0).initStmt (some 1))
          (freshAt 1)).map
          (fun r => (r.1, r.2.1, r.2.2.2.1.stage, r.2.2.2.1.stageStack)))
      = [.ok (Exit.expired, 0, 0, []), .ok (Exit.expired, 1, 0, [1]),
         .ok (Exit.expired, 2, 0, [1, 2]), .ok (Exit.expired, 3, 1, [1]),
         .ok (Exit.expired, 4, 0, [1, 3]), .ok (Exit.expired, 5, 0, [1, 3, 2]),
         .ok (Exit.expired, 6, 1, [1, 3]), .ok (Exit.left, 7, 0, [1, 3])] ∧
    (runLoopCount progSeq 0 10 0 0 ((IFrame.new 0).initStmt (some 1)) (freshAt 1)).map
        (fun r => (r.1, r.2.2.2.1.stage, r.2.2.2.1.stageStack))
      = .ok (Exit.retired, -1, []) :=
  ⟨Reach.loop 0 20 6 0 ((IFrame.new 0).initStmt (some 1)) (freshAt 1) nestCount
      (Reach.init 0 0 (freshAt 1) (freshAt 1) (some 1) _ rfl) rfl (by decide),
    rfl,
    C31_stages_stay_in_range progNest nestFrame
      (Reach.loop 0 20 6 0 ((IFrame.new 0).initStmt (some 1)) (freshAt 1) nestCount
        (Reach.init 0 0 (freshAt 1) (freshAt 1) (some 1) _ rfl) rfl (by decide)),
    rfl, rfl⟩

end Interp
